import Mathlib

/-!
# BurgerDoom renderer: the clip & plane pass

A shallow embedding of `source/GFX/Renderer_WallDraw.cpp` (`findPlane`, `segLoop`) and of
the per-frame globals of `source/GFX/Renderer.cpp` they work on.

Conventions of the embedding

* The global arrays are total functions from an index to a value, pointers into
  `gVisPlanes` are indices (`gpEndVisPlane` is the number of records in use, the sentinel
  record 0 included), and a record beyond the pool end holds whatever an earlier frame
  left there.
* `uint16_t` / `uint32_t` values are naturals below `2^16` / `2^32`; a conversion from a
  signed value is written `toU16` / `toU32`, the reading of a `uint32_t` as `int32_t` is
  `toI32`. Signed 32-bit arithmetic is arithmetic on `Int` (signed overflow is undefined in
  the source).
* `float` values are the elements of a type `F` carrying the operations the code uses
  (`FloatLike`): nothing is assumed about rounding, so the theorems hold for every
  interpretation of these operations. `Int` (small integral floats) and `ℚ` (exact
  arithmetic) are instances.
* A local variable that the source leaves uninitialised holds the value handed in through
  the `uninit` argument.
-/

namespace Renderer

/-! ## Machine integers -/

/-- Conversion of a signed value to `uint16_t`. -/
def toU16 (x : Int) : Nat := (x % 65536).toNat

/-- Conversion of a signed value to `uint32_t`. -/
def toU32 (x : Int) : Nat := (x % 4294967296).toNat

/-- Reading of a `uint32_t` value as `int32_t`. -/
def toI32 (n : Nat) : Int :=
  if n % 4294967296 < 2147483648 then ((n % 4294967296 : Nat) : Int)
  else ((n % 4294967296 : Nat) : Int) - 4294967296

/-- The constant `UINT16_MAX`. -/
def UINT16_MAX : Nat := 65535

/-! ## Floats -/

/-- The `float` operations used by the clip & plane pass: `+`, `-`, `*`, unary minus,
`std::fmin`, the conversion `(float) n` of an unsigned integer, the conversion
`(int32_t) f`, and `==`. -/
class FloatLike (F : Type) extends Add F, Sub F, Mul F, Neg F where
  fmin : F → F → F
  ofUInt32 : Nat → F
  toInt32 : F → Int
  eqDec : DecidableEq F

instance instDecidableEqOfFloatLike {F : Type} [FloatLike F] : DecidableEq F :=
  FloatLike.eqDec

/-- Floats with integral values: every operation is exact on them. -/
instance instFloatLikeInt : FloatLike Int where
  fmin := fun a b => if a ≤ b then a else b
  ofUInt32 := fun n => (n : Int)
  toInt32 := fun a => a
  eqDec := inferInstance

/-- Exact arithmetic: `(int32_t) q` truncates towards zero. -/
instance instFloatLikeRat : FloatLike ℚ where
  fmin := fun a b => if a ≤ b then a else b
  ofUInt32 := fun n => (n : ℚ)
  toInt32 := fun q => if 0 ≤ q then ⌊q⌋ else ⌈q⌉
  eqDec := inferInstance

/-! ## Data model -/

/-- Vertical span of one screen column of a plane (`ScreenYPair`): two `uint16_t`. -/
structure ScreenYPair where
  top : Nat
  bottom : Nat
deriving DecidableEq

/-- Modelled from the spec: `ScreenYPair::isUndefined` (declared in `Renderer_Internal.h`):
a column is "undefined" when it holds the sentinel pair `{ UINT16_MAX, 0 }` that
`findPlane` fills a new record with. -/
def ScreenYPair.isUndefined (p : ScreenYPair) : Bool :=
  p.top == UINT16_MAX && p.bottom == 0

/-- Modelled from the spec: `ScreenYPair::isDefined` (declared in `Renderer_Internal.h`):
the column holds something else than the sentinel pair. -/
def ScreenYPair.isDefined (p : ScreenYPair) : Bool :=
  !p.isUndefined

/-- One floor or ceiling plane record (`visplane_t`). -/
structure visplane_t (F : Type) where
  cols : Int → ScreenYPair
  height : F
  picHandle : Nat
  planeLight : Nat
  minX : Int
  maxX : Int

/-- Constants of `Renderer_Internal.h` that the code uses and that are not part of the
sources at hand. -/
structure RendererConsts (F : Type) where
  MAXVISPLANES : Nat
  MAX_RENDER_SCALE : F

/-- The renderer globals the clip & plane pass reads and writes. `silhouettes` is the
memory that `seg.BottomSil` and `seg.TopSil` point into, `skyColumns` the list of the
columns `drawSkyColumn` was called for, oldest first. -/
structure RenderState (F : Type) where
  gVisPlanes : Nat → visplane_t F
  gpEndVisPlane : Nat
  gClipBoundTop : Int → Nat
  gClipBoundBottom : Int → Nat
  gScreenWidth : Nat
  gScreenHeight : Nat
  gCenterY : Nat
  silhouettes : Int → Int
  skyColumns : List Int

/-- Result of a routine that may hit a failed `ASSERT_LOG`: either it returns (`done`) with
the new globals and a value, or it stops with the message (`fatal`) and the globals as they
were at that moment. -/
inductive Outcome (F : Type) (α : Type) where
  | done (s : RenderState F) (a : α)
  | fatal (msg : String) (s : RenderState F)

/-- Sequencing: a fatal stop skips the rest. -/
def Outcome.andThen {F α β : Type} (o : Outcome F α)
    (f : RenderState F → α → Outcome F β) : Outcome F β :=
  match o with
  | .done s a => f s a
  | .fatal msg s => .fatal msg s

/-- The state a finished routine returned with, if it did. -/
def Outcome.state? {F α : Type} : Outcome F α → Option (RenderState F)
  | .done s _ => some s
  | .fatal _ _ => none


/-- The screen widths `SCREEN_WIDTHS` of `Renderer.cpp`, one for each screen size. -/
def SCREEN_WIDTHS : List Nat := [280, 256, 224, 192, 160, 128]

/-- The screen heights `SCREEN_HEIGHTS` of `Renderer.cpp`, one for each screen size. -/
def SCREEN_HEIGHTS : List Nat := [160, 144, 128, 112, 96, 80]

/-! ## findPlane -/

/-- The test of the scan loop of `findPlane` on one record. -/
def planeMatches {F : Type} [FloatLike F] (p : visplane_t F) (height : F) (picHandle : Nat)
    (start : Int) (light : Nat) : Bool :=
  decide (height = p.height) && decide (picHandle = p.picHandle) &&
    decide (light = p.planeLight) && (p.cols start).isUndefined

/-- The loop `while (pPlane < gpEndVisPlane)` of `findPlane`, `n` records being left
between `pPlane` and `gpEndVisPlane`: the first matching record, if any. -/
def findPlaneScan {F : Type} [FloatLike F] (planes : Nat → visplane_t F) (height : F)
    (picHandle : Nat) (start : Int) (light : Nat) : Nat → Nat → Option Nat
  | _, 0 => none
  | pPlane, n + 1 =>
    if planeMatches (planes pPlane) height picHandle start light then some pPlane
    else findPlaneScan planes height picHandle start light (pPlane + 1) n

/-- One round of the fill loop: `pSet[0] .. pSet[7] = ScreenYPair{ UINT16_MAX, 0 }`. -/
def fillEight (cols : Int → ScreenYPair) (pSet : Int) : Int → ScreenYPair :=
  let u : ScreenYPair := { top := UINT16_MAX, bottom := 0 }
  let c0 := Function.update cols (pSet + 0) u
  let c1 := Function.update c0 (pSet + 1) u
  let c2 := Function.update c1 (pSet + 2) u
  let c3 := Function.update c2 (pSet + 3) u
  let c4 := Function.update c3 (pSet + 4) u
  let c5 := Function.update c4 (pSet + 5) u
  let c6 := Function.update c5 (pSet + 6) u
  Function.update c6 (pSet + 7) u

/-- The fill loop `for (j = gScreenWidth / 8; j > 0; --j) { ...; pSet += 8; }`. -/
def fillCols (cols : Int → ScreenYPair) : Int → Nat → Int → ScreenYPair
  | _, 0 => cols
  | pSet, j + 1 => fillCols (fillEight cols pSet) (pSet + 8) j

/-- The two edge updates of a matching record. -/
def widenPlane {F : Type} (p : visplane_t F) (start stop : Int) : visplane_t F :=
  let p1 := if start < p.minX then { p with minX := start } else p
  if stop > p1.maxX then { p1 with maxX := stop } else p1

/-- Modelled from the spec: the macro `ASSERT_LOG` is not part of the sources at hand; a
failed check is fatal and stops the routine with its message.

`findPlane(plane, height, picHandle, start, stop, light)`; `plane` is the index of the
record the scan starts after, the value returned the index of the record found or made. -/
def findPlane {F : Type} [FloatLike F] (cfg : RendererConsts F) (s : RenderState F)
    (plane : Nat) (height : F) (picHandle : Nat) (start stop : Int) (light : Nat) :
    Outcome F Nat :=
  match findPlaneScan s.gVisPlanes height picHandle start light (plane + 1)
      (s.gpEndVisPlane - (plane + 1)) with
  | some pPlane =>
    .done { s with gVisPlanes :=
              Function.update s.gVisPlanes pPlane (widenPlane (s.gVisPlanes pPlane) start stop) }
      pPlane
  | none =>
    if s.gpEndVisPlane < cfg.MAXVISPLANES then
      let pPlane := s.gpEndVisPlane
      let old := s.gVisPlanes pPlane
      let made : visplane_t F :=
        { cols := fillCols old.cols 0 (s.gScreenWidth / 8)
          height := height
          picHandle := picHandle
          planeLight := light
          minX := start
          maxX := stop }
      .done { s with gVisPlanes := Function.update s.gVisPlanes pPlane made
                     gpEndVisPlane := pPlane + 1 } pPlane
    else
      .fatal "No more visplanes!" s

/-! ## segLoop -/

/-- Modelled from the spec: the bits of `WallActions` (declared in `Renderer_Internal.h`),
one bit for each of "add floor plane", "add ceiling plane", "has top texture", "has bottom
texture", "establish new ceiling clip", "establish new floor clip", "draw sky", "record
top silhouette", "record bottom silhouette". -/
def AC_ADDFLOOR : Nat := 1

/-- Modelled from the spec: see `AC_ADDFLOOR`. -/
def AC_ADDCEILING : Nat := 2

/-- Modelled from the spec: see `AC_ADDFLOOR`. -/
def AC_TOPTEXTURE : Nat := 4

/-- Modelled from the spec: see `AC_ADDFLOOR`. -/
def AC_BOTTOMTEXTURE : Nat := 8

/-- Modelled from the spec: see `AC_ADDFLOOR`. -/
def AC_NEWCEILING : Nat := 16

/-- Modelled from the spec: see `AC_ADDFLOOR`. -/
def AC_NEWFLOOR : Nat := 32

/-- Modelled from the spec: see `AC_ADDFLOOR`. -/
def AC_ADDSKY : Nat := 64

/-- Modelled from the spec: see `AC_ADDFLOOR`. -/
def AC_TOPSIL : Nat := 128

/-- Modelled from the spec: see `AC_ADDFLOOR`. -/
def AC_BOTTOMSIL : Nat := 256

/-- The test `if (actionBits & mask)`. -/
def hasBits (actionBits mask : Nat) : Bool :=
  actionBits &&& mask != 0

/-- A visible wall segment (`viswall_t`), as far as `segLoop` and `drawSeg` read its plain
fields. `BottomSil` and `TopSil` are pointers into the silhouette memory. -/
structure viswall_t (F : Type) where
  leftX : Int
  rightX : Int
  WallActions : Nat
  LeftScale : F
  ScaleStep : F
  floorheight : F
  floornewheight : F
  ceilingheight : F
  ceilingnewheight : F
  FloorPic : Nat
  CeilingPic : Nat
  seglightlevel : Nat
  BottomSil : Int
  TopSil : Int
  t_topheight : F
  t_bottomheight : F
  t_texturemid : F
  b_topheight : F
  b_bottomheight : F
  b_texturemid : F
  offset : F
  distance : F
  CenterAngle : Nat

/-- The local variables of `segLoop` that live across columns. -/
structure SegLoopVars (F : Type) where
  floorYStep : F
  floorY : F
  newFloorYStep : F
  newFloorY : F
  ceilYStep : F
  ceilY : F
  newCeilYStep : F
  newCeilY : F
  pFloorPlane : Nat
  pCeilPlane : Nat
  columnScale : F

/-- The part of `segLoop` before the column loop. `uninit` holds what the declared but not
yet assigned locals contain; each of the four `if`s assigns one pair of them. -/
def segLoopSetup {F : Type} [FloatLike F] (s : RenderState F) (seg : viswall_t F)
    (uninit : SegLoopVars F) : SegLoopVars F :=
  let viewCenterY : F := FloatLike.ofUInt32 s.gCenterY
  let actionBits := seg.WallActions
  let segLeftScale := seg.LeftScale
  let segScaleStep := seg.ScaleStep
  let v0 := uninit
  let v1 :=
    if hasBits actionBits AC_ADDFLOOR then
      { v0 with floorYStep := -segScaleStep * seg.floorheight
                floorY := viewCenterY - seg.floorheight * segLeftScale }
    else v0
  let v2 :=
    if hasBits actionBits AC_ADDCEILING then
      { v1 with ceilYStep := -segScaleStep * seg.ceilingheight
                ceilY := viewCenterY - seg.ceilingheight * segLeftScale }
    else v1
  let v3 :=
    if hasBits actionBits AC_NEWFLOOR then
      { v2 with newFloorYStep := -segScaleStep * seg.floornewheight
                newFloorY := viewCenterY - seg.floornewheight * segLeftScale }
    else v2
  let v4 :=
    if hasBits actionBits AC_NEWCEILING then
      { v3 with newCeilYStep := -segScaleStep * seg.ceilingnewheight
                newCeilY := viewCenterY - seg.ceilingnewheight * segLeftScale }
    else v3
  { v4 with pFloorPlane := 0, pCeilPlane := 0, columnScale := segLeftScale }

/-- The assignment `pPlane->cols[viewX] = span`. -/
def setPlaneCol {F : Type} (s : RenderState F) (pPlane : Nat) (viewX : Int)
    (span : ScreenYPair) : RenderState F :=
  let old := s.gVisPlanes pPlane
  let new : visplane_t F := { old with cols := Function.update old.cols viewX span }
  { s with gVisPlanes := Function.update s.gVisPlanes pPlane new }

/-- The block `if (actionBits & AC_ADDFLOOR) { ... }` of one column. -/
def segLoopAddFloor {F : Type} [FloatLike F] (cfg : RendererConsts F) (seg : viswall_t F)
    (viewX clipBoundTY clipBoundBY : Int) (s : RenderState F) (v : SegLoopVars F) :
    Outcome F (SegLoopVars F) :=
  let top : Int := max (FloatLike.toInt32 v.floorY) (clipBoundTY + 1)
  let bottom : Int := clipBoundBY - 1
  let spanDone : Outcome F (SegLoopVars F) :=
    if top ≤ bottom then
      let found : Outcome F Nat :=
        if ((s.gVisPlanes v.pFloorPlane).cols viewX).isDefined then
          findPlane cfg s v.pFloorPlane seg.floorheight seg.FloorPic viewX seg.rightX
            seg.seglightlevel
        else .done s v.pFloorPlane
      found.andThen fun s1 pFloorPlane =>
        .done (setPlaneCol s1 pFloorPlane viewX { top := toU16 top, bottom := toU16 bottom })
          { v with pFloorPlane := pFloorPlane }
    else .done s v
  spanDone.andThen fun s2 v2 => .done s2 { v2 with floorY := v2.floorY + v2.floorYStep }

/-- The block `if (actionBits & AC_ADDCEILING) { ... }` of one column. -/
def segLoopAddCeiling {F : Type} [FloatLike F] (cfg : RendererConsts F) (seg : viswall_t F)
    (viewX clipBoundTY clipBoundBY : Int) (s : RenderState F) (v : SegLoopVars F) :
    Outcome F (SegLoopVars F) :=
  let top : Int := clipBoundTY + 1
  let bottom : Int := min (FloatLike.toInt32 v.ceilY - 1) (clipBoundBY - 1)
  let spanDone : Outcome F (SegLoopVars F) :=
    if top ≤ bottom then
      let found : Outcome F Nat :=
        if ((s.gVisPlanes v.pCeilPlane).cols viewX).isDefined then
          findPlane cfg s v.pCeilPlane seg.ceilingheight seg.CeilingPic viewX seg.rightX
            seg.seglightlevel
        else .done s v.pCeilPlane
      found.andThen fun s1 pCeilPlane =>
        .done (setPlaneCol s1 pCeilPlane viewX { top := toU16 top, bottom := toU16 bottom })
          { v with pCeilPlane := pCeilPlane }
    else .done s v
  spanDone.andThen fun s2 v2 => .done s2 { v2 with ceilY := v2.ceilY + v2.ceilYStep }

/-- The block `if (actionBits & (AC_BOTTOMSIL|AC_NEWFLOOR)) { ... }` of one column. -/
def segLoopBottomSil {F : Type} [FloatLike F] (seg : viswall_t F)
    (viewX clipBoundBY : Int) (s : RenderState F) (v : SegLoopVars F) :
    RenderState F × SegLoopVars F :=
  let actionBits := seg.WallActions
  let low : Int := max (min (FloatLike.toInt32 v.newFloorY) clipBoundBY) 0
  let s1 :=
    if hasBits actionBits AC_BOTTOMSIL then
      { s with silhouettes := Function.update s.silhouettes (seg.BottomSil + viewX) low }
    else s
  let s2 :=
    if hasBits actionBits AC_NEWFLOOR then
      { s1 with gClipBoundBottom := Function.update s1.gClipBoundBottom viewX (toU32 low) }
    else s1
  (s2, { v with newFloorY := v.newFloorY + v.newFloorYStep })

/-- The block `if (actionBits & (AC_TOPSIL|AC_NEWCEILING)) { ... }` of one column. -/
def segLoopTopSil {F : Type} [FloatLike F] (seg : viswall_t F)
    (viewX clipBoundTY : Int) (s : RenderState F) (v : SegLoopVars F) :
    RenderState F × SegLoopVars F :=
  let actionBits := seg.WallActions
  let high : Int :=
    min (max (FloatLike.toInt32 v.newCeilY - 1) clipBoundTY) ((s.gScreenHeight : Int) - 1)
  let s1 :=
    if hasBits actionBits AC_TOPSIL then
      { s with silhouettes := Function.update s.silhouettes (seg.TopSil + viewX) (high + 1) }
    else s
  let s2 :=
    if hasBits actionBits AC_NEWCEILING then
      { s1 with gClipBoundTop := Function.update s1.gClipBoundTop viewX (toU32 high) }
    else s1
  (s2, { v with newCeilY := v.newCeilY + v.newCeilYStep })

/-- The call `drawSkyColumn(viewX)`, recorded in `skyColumns`. -/
def drawSkyColumn {F : Type} (s : RenderState F) (viewX : Nat) : RenderState F :=
  { s with skyColumns := s.skyColumns ++ [(viewX : Int)] }

/-- The block `if (actionBits & AC_ADDSKY) { ... }` of one column. -/
def segLoopSky {F : Type} [FloatLike F] (seg : viswall_t F) (scale : F)
    (viewX clipBoundTY clipBoundBY : Int) (s : RenderState F) : RenderState F :=
  let viewCenterY : F := FloatLike.ofUInt32 s.gCenterY
  let bottom0 : Int := FloatLike.toInt32 (viewCenterY - scale * seg.ceilingheight)
  let bottom : Int := if bottom0 > clipBoundBY then clipBoundBY else bottom0
  if clipBoundTY + 1 < bottom then drawSkyColumn s (toU32 viewX) else s

/-- The body of the column loop of `segLoop` for the column `viewX`. -/
def segLoopColumn {F : Type} [FloatLike F] (cfg : RendererConsts F) (seg : viswall_t F)
    (viewX : Int) (s : RenderState F) (v : SegLoopVars F) : Outcome F (SegLoopVars F) :=
  let actionBits := seg.WallActions
  let scale : F := FloatLike.fmin v.columnScale cfg.MAX_RENDER_SCALE
  let clipBoundTY : Int := toI32 (s.gClipBoundTop viewX)
  let clipBoundBY : Int := toI32 (s.gClipBoundBottom viewX)
  let floorDone : Outcome F (SegLoopVars F) :=
    if hasBits actionBits AC_ADDFLOOR then
      segLoopAddFloor cfg seg viewX clipBoundTY clipBoundBY s v
    else .done s v
  floorDone.andThen fun s1 v1 =>
    let ceilDone : Outcome F (SegLoopVars F) :=
      if hasBits actionBits AC_ADDCEILING then
        segLoopAddCeiling cfg seg viewX clipBoundTY clipBoundBY s1 v1
      else .done s1 v1
    ceilDone.andThen fun s2 v2 =>
      let r3 : RenderState F × SegLoopVars F :=
        if hasBits actionBits (AC_BOTTOMSIL ||| AC_NEWFLOOR) then
          segLoopBottomSil seg viewX clipBoundBY s2 v2
        else (s2, v2)
      let r4 : RenderState F × SegLoopVars F :=
        if hasBits actionBits (AC_TOPSIL ||| AC_NEWCEILING) then
          segLoopTopSil seg viewX clipBoundTY r3.1 r3.2
        else r3
      let s5 : RenderState F :=
        if hasBits actionBits AC_ADDSKY then
          segLoopSky seg scale viewX clipBoundTY clipBoundBY r4.1
        else r4.1
      .done s5 { r4.2 with columnScale := r4.2.columnScale + seg.ScaleStep }

/-- The column loop of `segLoop`: `n` columns, the first of them `viewX`. -/
def segLoopColumns {F : Type} [FloatLike F] (cfg : RendererConsts F) (seg : viswall_t F) :
    Nat → Int → RenderState F → SegLoopVars F → Outcome F (SegLoopVars F)
  | 0, _, s, v => .done s v
  | n + 1, viewX, s, v =>
    (segLoopColumn cfg seg viewX s v).andThen fun s1 v1 =>
      segLoopColumns cfg seg n (viewX + 1) s1 v1

/-- The routine `segLoop(seg)`: the loop `for (viewX = seg.leftX; viewX <= seg.rightX; ++viewX)`
runs `seg.rightX - seg.leftX + 1` columns (none when that is not positive). -/
def segLoop {F : Type} [FloatLike F] (cfg : RendererConsts F) (s : RenderState F)
    (seg : viswall_t F) (uninit : SegLoopVars F) : Outcome F Unit :=
  (segLoopColumns cfg seg (seg.rightX - seg.leftX + 1).toNat seg.leftX s
      (segLoopSetup s seg uninit)).andThen fun s1 _ => .done s1 ()

/-- The value a stepped screen Y has at the start of column `leftX + k`: `y0` advanced `k`
times by `step`. -/
def steppedY {F : Type} [FloatLike F] (y0 step : F) : Nat → F
  | 0 => y0
  | k + 1 => steppedY y0 step k + step


/-! ## Notions used to state the properties of findPlane and segLoop -/

/-- No record after `plane` and below the pool end passes the test of the scan. -/
def noPlaneMatches {F : Type} [FloatLike F] (s : RenderState F) (plane : Nat) (height : F)
    (picHandle : Nat) (start : Int) (light : Nat) : Prop :=
  ∀ m, plane < m → m < s.gpEndVisPlane →
    planeMatches (s.gVisPlanes m) height picHandle start light = false

/-- The record `p` has the key (`height`, `picHandle`, `light`) and its span at the column
`start` is undefined: the four conditions of the scan of `findPlane`, as propositions. -/
def IsCandidate {F : Type} (p : visplane_t F) (height : F) (picHandle : Nat) (start : Int)
    (light : Nat) : Prop :=
  height = p.height ∧ picHandle = p.picHandle ∧ light = p.planeLight ∧
    (p.cols start).isUndefined = true

/-- The key of a plane record: height, flat and light. -/
def planeKey {F : Type} (p : visplane_t F) : F × Nat × Nat :=
  (p.height, p.picHandle, p.planeLight)

/-- The registration that the floor block and the ceiling block of a column share
(see `segLoopAddFloor_eq_registerSpan` and `segLoopAddCeiling_eq_registerSpan`): for a valid
span, take the current plane if its column `viewX` is still undefined and the result of
`findPlane` otherwise, and assign the span there. -/
def registerSpan {F : Type} [FloatLike F] (cfg : RendererConsts F) (s : RenderState F)
    (pPlane : Nat) (height : F) (picHandle : Nat) (viewX rightX : Int) (light : Nat)
    (top bottom : Int) : Outcome F Nat :=
  if top ≤ bottom then
    let found : Outcome F Nat :=
      if ((s.gVisPlanes pPlane).cols viewX).isDefined then
        findPlane cfg s pPlane height picHandle viewX rightX light
      else .done s pPlane
    found.andThen fun s1 p =>
      .done (setPlaneCol s1 p viewX { top := toU16 top, bottom := toU16 bottom }) p
  else .done s pPlane

/-- The globals other than the plane table and the pool count are the same in `s` and `t`. -/
structure SameFrame {F : Type} (s t : RenderState F) : Prop where
  clipTop : t.gClipBoundTop = s.gClipBoundTop
  clipBottom : t.gClipBoundBottom = s.gClipBoundBottom
  width : t.gScreenWidth = s.gScreenWidth
  height : t.gScreenHeight = s.gScreenHeight
  centerY : t.gCenterY = s.gCenterY
  sil : t.silhouettes = s.silhouettes
  sky : t.skyColumns = s.skyColumns

/-- The plane table and the pool count are the same in `s` and `t`. -/
structure SamePlanes {F : Type} (s t : RenderState F) : Prop where
  planes : t.gVisPlanes = s.gVisPlanes
  count : t.gpEndVisPlane = s.gpEndVisPlane
  width : t.gScreenWidth = s.gScreenWidth
  height : t.gScreenHeight = s.gScreenHeight
  centerY : t.gCenterY = s.gCenterY

/-- The effect of one successful registration of `span` at the column `viewX`, started at the
plane `pPlane` of the state `s` for the key `key`: `t` is the state after it and `idx` the
record the span went to. -/
structure Registered {F : Type} (s t : RenderState F) (pPlane idx : Nat) (viewX : Int)
    (span : ScreenYPair) (key : F × Nat × Nat) : Prop where
  real : 1 ≤ idx
  inPool : idx < t.gpEndVisPlane
  notBefore : pPlane ≤ idx
  countLe : s.gpEndVisPlane ≤ t.gpEndVisPlane
  countLe' : t.gpEndVisPlane ≤ s.gpEndVisPlane + 1
  span : (t.gVisPlanes idx).cols viewX = span
  others : ∀ m, m ≠ idx → t.gVisPlanes m = s.gVisPlanes m
  key : planeKey (t.gVisPlanes idx) = key ∨
    (idx = pPlane ∧ planeKey (t.gVisPlanes idx) = planeKey (s.gVisPlanes pPlane))
  oldKey : idx < s.gpEndVisPlane → planeKey (t.gVisPlanes idx) = planeKey (s.gVisPlanes idx)
  oldCols : idx < s.gpEndVisPlane →
    ∀ x, x ≠ viewX → (t.gVisPlanes idx).cols x = (s.gVisPlanes idx).cols x
  wasFree : idx < s.gpEndVisPlane → ((s.gVisPlanes idx).cols viewX).isUndefined = true
  looked : idx ≠ pPlane → ((s.gVisPlanes pPlane).cols viewX).isDefined = true
  frame : SameFrame s t

/-- What the column loop of `segLoop` keeps true of the plane table and of its two plane
pointers: record 0 reads as defined in every column, the pool holds at least the sentinel,
and each pointer is record 0 or a record of the pool that carries the segment's floor
(respectively ceiling) key. -/
structure SegLoopInv {F : Type} (seg : viswall_t F) (s : RenderState F)
    (v : SegLoopVars F) : Prop where
  rec0 : ∀ x, ((s.gVisPlanes 0).cols x).isDefined = true
  pool : 1 ≤ s.gpEndVisPlane
  floorLt : v.pFloorPlane < s.gpEndVisPlane
  floorKey : v.pFloorPlane ≠ 0 →
    planeKey (s.gVisPlanes v.pFloorPlane) = (seg.floorheight, seg.FloorPic, seg.seglightlevel)
  ceilLt : v.pCeilPlane < s.gpEndVisPlane
  ceilKey : v.pCeilPlane ≠ 0 →
    planeKey (s.gVisPlanes v.pCeilPlane) =
      (seg.ceilingheight, seg.CeilingPic, seg.seglightlevel)

/-- The screen Y of the world height `h` that `segLoop` holds at the start of the `k`-th
column of the segment (`k = 0` for `leftX`): `viewCenterY - h * LeftScale`, advanced `k` times
by `-ScaleStep * h`. -/
def segYAt {F : Type} [FloatLike F] (s : RenderState F) (seg : viswall_t F) (h : F)
    (k : Nat) : F :=
  steppedY (FloatLike.ofUInt32 s.gCenterY - h * seg.LeftScale) (-seg.ScaleStep * h) k

/-- The value of `columnScale` at the start of the `k`-th column of the segment. -/
def columnScaleAt {F : Type} [FloatLike F] (seg : viswall_t F) (k : Nat) : F :=
  steppedY seg.LeftScale seg.ScaleStep k

/-- The values of the stepped locals of `segLoop` at the start of the `k`-th column of the
segment, for the locals that the action bits of the segment initialise. -/
structure SegLoopVarsAt {F : Type} [FloatLike F] (s : RenderState F) (seg : viswall_t F)
    (k : Nat) (v : SegLoopVars F) : Prop where
  floorY : hasBits seg.WallActions AC_ADDFLOOR = true →
    v.floorY = segYAt s seg seg.floorheight k ∧ v.floorYStep = -seg.ScaleStep * seg.floorheight
  ceilY : hasBits seg.WallActions AC_ADDCEILING = true →
    v.ceilY = segYAt s seg seg.ceilingheight k ∧
      v.ceilYStep = -seg.ScaleStep * seg.ceilingheight
  newFloorY : hasBits seg.WallActions AC_NEWFLOOR = true →
    v.newFloorY = segYAt s seg seg.floornewheight k ∧
      v.newFloorYStep = -seg.ScaleStep * seg.floornewheight
  newCeilY : hasBits seg.WallActions AC_NEWCEILING = true →
    v.newCeilY = segYAt s seg seg.ceilingnewheight k ∧
      v.newCeilYStep = -seg.ScaleStep * seg.ceilingnewheight
  columnScale : v.columnScale = columnScaleAt seg k

/-- The top of the floor span of a column: `max((int32_t) floorY, clipBoundTY + 1)`. -/
def floorSpanTop {F : Type} [FloatLike F] (floorY : F) (clipBoundTY : Int) : Int :=
  max (FloatLike.toInt32 floorY) (clipBoundTY + 1)

/-- The bottom of the floor span of a column: `clipBoundBY - 1`. -/
def floorSpanBottom (clipBoundBY : Int) : Int :=
  clipBoundBY - 1

/-- The top of the ceiling span of a column: `clipBoundTY + 1`. -/
def ceilSpanTop (clipBoundTY : Int) : Int :=
  clipBoundTY + 1

/-- The bottom of the ceiling span of a column:
`min((int32_t) ceilY - 1, clipBoundBY - 1)`. -/
def ceilSpanBottom {F : Type} [FloatLike F] (ceilY : F) (clipBoundBY : Int) : Int :=
  min (FloatLike.toInt32 ceilY - 1) (clipBoundBY - 1)

/-- The bottom silhouette block of a column, or nothing when the segment has neither of
its two bits. -/
def segLoopBottomSilPart {F : Type} [FloatLike F] (seg : viswall_t F)
    (viewX clipBoundBY : Int) (r : RenderState F × SegLoopVars F) :
    RenderState F × SegLoopVars F :=
  if hasBits seg.WallActions (AC_BOTTOMSIL ||| AC_NEWFLOOR) then
    segLoopBottomSil seg viewX clipBoundBY r.1 r.2
  else r

/-- The top silhouette block of a column, or nothing when the segment has neither of its
two bits. -/
def segLoopTopSilPart {F : Type} [FloatLike F] (seg : viswall_t F)
    (viewX clipBoundTY : Int) (r : RenderState F × SegLoopVars F) :
    RenderState F × SegLoopVars F :=
  if hasBits seg.WallActions (AC_TOPSIL ||| AC_NEWCEILING) then
    segLoopTopSil seg viewX clipBoundTY r.1 r.2
  else r

/-- The sky block of a column, or nothing when the segment has no draw-sky bit. -/
def segLoopSkyPart {F : Type} [FloatLike F] (seg : viswall_t F) (scale : F)
    (viewX clipBoundTY clipBoundBY : Int) (s : RenderState F) : RenderState F :=
  if hasBits seg.WallActions AC_ADDSKY then
    segLoopSky seg scale viewX clipBoundTY clipBoundBY s
  else s

/-- The part of a column after the two registration blocks: the two silhouette blocks, the sky
block and the step of `columnScale` (see `segLoopColumn_eq`). -/
def segLoopColumnTail {F : Type} [FloatLike F] (seg : viswall_t F) (scale : F)
    (viewX clipBoundTY clipBoundBY : Int) (s2 : RenderState F) (v2 : SegLoopVars F) :
    RenderState F × SegLoopVars F :=
  let r3 := segLoopBottomSilPart seg viewX clipBoundBY (s2, v2)
  let r4 := segLoopTopSilPart seg viewX clipBoundTY r3
  (segLoopSkyPart seg scale viewX clipBoundTY clipBoundBY r4.1,
    { r4.2 with columnScale := r4.2.columnScale + seg.ScaleStep })

/-- The floor block of a column, or nothing when the segment has no add-floor bit. -/
def segLoopFloorPart {F : Type} [FloatLike F] (cfg : RendererConsts F) (seg : viswall_t F)
    (viewX : Int) (s : RenderState F) (v : SegLoopVars F) : Outcome F (SegLoopVars F) :=
  if hasBits seg.WallActions AC_ADDFLOOR then
    segLoopAddFloor cfg seg viewX (toI32 (s.gClipBoundTop viewX))
      (toI32 (s.gClipBoundBottom viewX)) s v
  else .done s v

/-- The ceiling block of a column whose clip bounds were read as `clipBoundTY` and
`clipBoundBY`, or nothing when the segment has no add-ceiling bit. -/
def segLoopCeilingPart {F : Type} [FloatLike F] (cfg : RendererConsts F) (seg : viswall_t F)
    (viewX clipBoundTY clipBoundBY : Int) (s : RenderState F) (v : SegLoopVars F) :
    Outcome F (SegLoopVars F) :=
  if hasBits seg.WallActions AC_ADDCEILING then
    segLoopAddCeiling cfg seg viewX clipBoundTY clipBoundBY s v
  else .done s v


/-! ## Concrete data for the worked examples -/

/-- A record of all zeros, as in static storage at program start. -/
def zeroPlane : visplane_t Int :=
  { cols := fun _ => { top := 0, bottom := 0 }
    height := 0, picHandle := 0, planeLight := 0, minX := 0, maxX := 0 }

/-- Globals right after the per-frame reset of the plane pool (`preDrawSetup`) and of the
clip bounds (`drawAllLineSegs`), on the 160 x 96 screen size, with a zeroed plane table. -/
def freshState : RenderState Int :=
  { gVisPlanes := fun _ => zeroPlane
    gpEndVisPlane := 1
    gClipBoundTop := fun _ => toU32 (-1)
    gClipBoundBottom := fun _ => 96
    gScreenWidth := 160
    gScreenHeight := 96
    gCenterY := 48
    silhouettes := fun _ => 0
    skyColumns := [] }

/-- Sample constants: room for 64 plane records. -/
def sampleConsts : RendererConsts Int :=
  { MAXVISPLANES := 64, MAX_RENDER_SCALE := 64 }

/-- Locals that happen to hold zeros before they are assigned. -/
def zeroVars : SegLoopVars Int :=
  { floorYStep := 0, floorY := 0, newFloorYStep := 0, newFloorY := 0
    ceilYStep := 0, ceilY := 0, newCeilYStep := 0, newCeilY := 0
    pFloorPlane := 0, pCeilPlane := 0, columnScale := 0 }

/-- A segment over columns 0..3 with no action bit, scale 1, every height 0. -/
def plainSeg : viswall_t Int :=
  { leftX := 0, rightX := 3, WallActions := 0, LeftScale := 1, ScaleStep := 0
    floorheight := 0, floornewheight := 0, ceilingheight := 0, ceilingnewheight := 0
    FloorPic := 0, CeilingPic := 0, seglightlevel := 0, BottomSil := 0, TopSil := 1000
    t_topheight := 0, t_bottomheight := 0, t_texturemid := 0
    b_topheight := 0, b_bottomheight := 0, b_texturemid := 0
    offset := 0, distance := 0, CenterAngle := 0 }

/-- The pool after one plane was registered for height 0, flat 5, light 128 and the columns
0..50 on a fresh 160-wide frame: record 1 carries it, every span of it still undefined. -/
def onePlaneState : RenderState Int :=
  { freshState with
    gVisPlanes := fun i =>
      if i = 1 then
        { cols := fun _ => { top := UINT16_MAX, bottom := 0 }
          height := 0, picHandle := 5, planeLight := 128, minX := 0, maxX := 50 }
      else zeroPlane
    gpEndVisPlane := 2 }

/-- Constants with a pool limit of two records, the number `onePlaneState` has in use. -/
def tinyConsts : RendererConsts Int :=
  { MAXVISPLANES := 2, MAX_RENDER_SCALE := 64 }

/-- The state `onePlaneState` after record 1 was widened to the columns 0..100. -/
def onePlaneWidened : RenderState Int :=
  { onePlaneState with
    gVisPlanes := Function.update onePlaneState.gVisPlanes 1
      (widenPlane (onePlaneState.gVisPlanes 1) 51 100) }

/-- A segment over the columns 0..3 that only adds the floor at height 10, flat 0, light 0,
at the constant scale 1. -/
def floorSeg : viswall_t Int :=
  { plainSeg with WallActions := AC_ADDFLOOR, floorheight := 10 }

/-- The globals after the column 0 of `floorSeg` on the fresh frame: record 1 was made for the
key (10, 0, 0) and the columns 0..3, and its span at column 0 is (38, 95). -/
def floorStateAfterOne : RenderState Int :=
  setPlaneCol
    { freshState with
      gVisPlanes := Function.update freshState.gVisPlanes 1
        { cols := fillCols zeroPlane.cols 0 (160 / 8)
          height := 10
          picHandle := 0
          planeLight := 0
          minX := 0
          maxX := 3 }
      gpEndVisPlane := 2 }
    1 0 { top := 38, bottom := 95 }

/-- The locals of `segLoop` after the column 0 of `floorSeg`. -/
def floorVarsAfterOne : SegLoopVars Int :=
  { zeroVars with floorYStep := 0, floorY := 38, pFloorPlane := 1, columnScale := 1 }

/-- A segment over the columns 0..3 that only adds the ceiling at height 10, flat 7,
light 128, at the constant scale 1. -/
def ceilSeg : viswall_t Int :=
  { plainSeg with
    WallActions := AC_ADDCEILING, ceilingheight := 10, CeilingPic := 7, seglightlevel := 128 }

/-- The fresh frame with a record 0 whose columns all hold the undefined pair. -/
def undefinedRecord0State : RenderState Int :=
  { freshState with
    gVisPlanes := fun _ =>
      { zeroPlane with cols := fun _ => { top := UINT16_MAX, bottom := 0 } } }

/-- A segment over the columns 0..3 with the bottom silhouette bit alone; its new floor
height is 10, so that the new floor is at screen Y 48 - 10 = 38. -/
def bottomSilSeg : viswall_t Int :=
  { plainSeg with WallActions := AC_BOTTOMSIL, floornewheight := 10 }

/-- A segment over the columns 0..3 with the top silhouette bit alone; its new ceiling
height is 10, so that the new ceiling is at screen Y 48 - 10 = 38. -/
def topSilSeg : viswall_t Int :=
  { plainSeg with WallActions := AC_TOPSIL, ceilingnewheight := 10 }


/-! ## The clip bounds over a frame -/

/-- The globals a routine ended with, whether it returned or stopped. -/
def Outcome.finalState {F α : Type} : Outcome F α → RenderState F
  | .done s _ => s
  | .fatal _ s => s

/-- The value of `gClipBoundTop[x]` read as `int32_t`, as `segLoop` reads it. -/
def clipTopAt {F : Type} (s : RenderState F) (x : Int) : Int :=
  toI32 (s.gClipBoundTop x)

/-- The value of `gClipBoundBottom[x]` read as `int32_t`, as `segLoop` reads it. -/
def clipBottomAt {F : Type} (s : RenderState F) (x : Int) : Int :=
  toI32 (s.gClipBoundBottom x)

/-- The clip bounds of the column `x` are in their range:
`-1 <= clipTop[x] <= gScreenHeight - 1` and `0 <= clipBottom[x] <= gScreenHeight`. -/
def ClipInRange {F : Type} (s : RenderState F) (x : Int) : Prop :=
  -1 ≤ clipTopAt s x ∧ clipTopAt s x ≤ (s.gScreenHeight : Int) - 1 ∧
    0 ≤ clipBottomAt s x ∧ clipBottomAt s x ≤ (s.gScreenHeight : Int)

/-- How the clip bounds in `t` relate to those in `s` when `t` comes from `s` by columns
`lo .. hi` of `segLoop` on `seg`: the screen size is the same, the columns outside `lo .. hi`
are untouched, `gClipBoundTop` is untouched without the new-ceiling bit and
`gClipBoundBottom` without the new-floor bit, and (for a screen height that fits `int32_t`) a
column whose bounds were in range has them in range still, the top not smaller and the
bottom not larger than before. -/
structure ClipStep {F : Type} (seg : viswall_t F) (lo hi : Int) (s t : RenderState F) :
    Prop where
  width : t.gScreenWidth = s.gScreenWidth
  height : t.gScreenHeight = s.gScreenHeight
  centerY : t.gCenterY = s.gCenterY
  outside : ∀ x, x < lo ∨ hi < x →
    t.gClipBoundTop x = s.gClipBoundTop x ∧ t.gClipBoundBottom x = s.gClipBoundBottom x
  topBit : hasBits seg.WallActions AC_NEWCEILING = false → t.gClipBoundTop = s.gClipBoundTop
  bottomBit : hasBits seg.WallActions AC_NEWFLOOR = false →
    t.gClipBoundBottom = s.gClipBoundBottom
  tighten : s.gScreenHeight < 2147483648 → ∀ x, ClipInRange s x →
    ClipInRange t x ∧ clipTopAt s x ≤ clipTopAt t x ∧ clipBottomAt t x ≤ clipBottomAt s x

/-- The loop `for (i = 0; i < gScreenWidth; ++i)` at the start of `drawAllLineSegs`, `n`
columns being left from the column `i` on: `gClipBoundTop[i] = -1` and
`gClipBoundBottom[i] = gScreenHeight`. -/
def resetClipLoop {F : Type} : Nat → Nat → RenderState F → RenderState F
  | 0, _, s => s
  | n + 1, i, s =>
    resetClipLoop n (i + 1)
      { s with
        gClipBoundTop := Function.update s.gClipBoundTop (i : Int) (toU32 (-1))
        gClipBoundBottom :=
          Function.update s.gClipBoundBottom (i : Int) (toU32 (s.gScreenHeight : Int)) }

/-- The per-frame reset of the clip bounds at the start of `drawAllLineSegs`. -/
def resetClipBounds {F : Type} (s : RenderState F) : RenderState F :=
  resetClipLoop s.gScreenWidth 0 s

/-- A sequence of calls of `segLoop`, each with its segment and with what its unassigned
locals hold. -/
def segLoopPass {F : Type} [FloatLike F] (cfg : RendererConsts F) :
    List (viswall_t F × SegLoopVars F) → RenderState F → Outcome F Unit
  | [], s => .done s ()
  | call :: rest, s =>
    (segLoop cfg s call.1 call.2).andThen fun s1 _ => segLoopPass cfg rest s1


/-! ## The states of a frame -/

/-- The states a frame goes through from its start `s0`: after any number of `findPlane`
calls, each made with an `afterPlane` that is a record of the pool, and of `segLoop` calls,
each of which returned. -/
inductive FrameReachable {F : Type} [FloatLike F] (cfg : RendererConsts F)
    (s0 : RenderState F) : RenderState F → Prop where
  | start : FrameReachable cfg s0 s0
  | findPlaneCall (s t : RenderState F) (plane : Nat) (height : F) (picHandle : Nat)
      (start stop : Int) (light : Nat) (j : Nat) :
      FrameReachable cfg s0 s → plane < s.gpEndVisPlane →
      findPlane cfg s plane height picHandle start stop light = .done t j →
      FrameReachable cfg s0 t
  | segLoopCall (s t : RenderState F) (seg : viswall_t F) (uninit : SegLoopVars F) :
      FrameReachable cfg s0 s → segLoop cfg s seg uninit = .done t () →
      FrameReachable cfg s0 t

/-- The condition under which the sky block of a column draws: the draw-sky bit is set and
`clipBoundTY + 1 < min((int32_t) (viewCenterY - scale * ceilingheight), clipBoundBY)`. -/
def skyDue {F : Type} [FloatLike F] (s : RenderState F) (seg : viswall_t F) (scale : F)
    (clipBoundTY clipBoundBY : Int) : Prop :=
  hasBits seg.WallActions AC_ADDSKY = true ∧
    clipBoundTY + 1 <
      min (FloatLike.toInt32 (FloatLike.ofUInt32 s.gCenterY - scale * seg.ceilingheight))
        clipBoundBY

/-- A segment over columns 0..3 of the fresh frame with the draw-sky and the new-ceiling
bit, scale 1: its ceiling is 10 above the eye (row 38), its new ceiling 20 below (row 68). -/
def skySeg : viswall_t Int :=
  { plainSeg with
    WallActions := AC_ADDSKY ||| AC_NEWCEILING, ceilingheight := 10, ceilingnewheight := -20 }

/-! ## The wall draw pass: data -/

/-- The further `float` operations of the wall draw pass: `/`, `<`, `std::ceil`, `std::fmod`,
`std::fmax`, `std::round` and the conversion `(uint32_t) f`. -/
class FloatWall (F : Type) extends FloatLike F where
  fdiv : F → F → F
  flt : F → F → Bool
  ceil : F → F
  fmod : F → F → F
  fmax : F → F → F
  round : F → F
  toUInt32 : F → Nat

/-- Floats with integral values: the quotient is the truncated one, so it is exact whenever
the divisor divides; every other operation is exact. -/
instance instFloatWallInt : FloatWall Int :=
  { instFloatLikeInt with
    fdiv := fun a b => Int.tdiv a b
    flt := fun a b => decide (a < b)
    ceil := fun a => a
    fmod := fun a b => Int.tmod a b
    fmax := fun a b => if a ≤ b then b else a
    round := fun a => a
    toUInt32 := fun a => toU32 a }

/-- Exact arithmetic: `std::round` rounds halves away from zero, `std::fmod` is the remainder
of the truncated quotient, `(uint32_t) q` truncates towards zero. -/
instance instFloatWallRat : FloatWall ℚ :=
  { instFloatLikeRat with
    fdiv := fun a b => a / b
    flt := fun a b => decide (a < b)
    ceil := fun a => ((⌈a⌉ : Int) : ℚ)
    fmod := fun a b =>
      a - (((if 0 ≤ a / b then ⌊a / b⌋ else ⌈a / b⌉ : Int) : ℚ)) * b
    fmax := fun a b => if a ≤ b then b else a
    round := fun a =>
      if 0 ≤ a then ((⌊a + 1 / 2⌋ : Int) : ℚ) else ((⌈a - 1 / 2⌉ : Int) : ℚ)
    toUInt32 := fun a => toU32 (if 0 ≤ a then ⌊a⌋ else ⌈a⌉) }

/-- The part of `ImageData` that the wall drawer reads: the size of the image. -/
structure ImageData where
  width : Nat
  height : Nat
deriving DecidableEq

/-- The record `drawtex_t`; the pointer `pData` is read as the image it points to. -/
structure drawtex_t (F : Type) where
  pData : ImageData
  topheight : F
  bottomheight : F
  texturemid : F

/-- Modelled from the spec: the record `LightParams` (declared in `Renderer_Internal.h`), with
the four fields that `getLightParams` assigns. -/
structure LightParams (F : Type) where
  lightMin : F
  lightMax : F
  lightSub : F
  lightCoef : F

/-- The globals, tables and helpers of other files that the wall draw pass reads: the screen
offsets, `gStretchWidth`, the three light tables and their size `C_ARRAY_SIZE(gLightCoefs)`,
`MIN_LIGHT_MUL`, the conversions `FMath::doomFixed16ToFloat` and `FMath::doomAngleToRadians`,
`getViewAngleForX`, `std::tan`, `LightParams::getLightMulForDist`, and the memory behind the
pointers of a segment: `seg.t_texture->data`, `seg.b_texture->data`, `seg.SegPtr->lightMul`.
None of them is defined under the sources at hand, so they are parameters. -/
structure WallEnv (F : Type) where
  gScreenXOffset : Nat
  gScreenYOffset : Nat
  gStretchWidth : Int
  gLightMins : Nat → F
  gLightSubs : Nat → F
  gLightCoefs : Nat → F
  lightTableSize : Nat
  MIN_LIGHT_MUL : F
  doomFixed16ToFloat : Int → F
  doomAngleToRadians : Nat → F
  getViewAngleForX : Int → F
  tan : F → F
  getLightMulForDist : LightParams F → F → F
  t_texture : viswall_t F → ImageData
  b_texture : viswall_t F → ImageData
  segLightMul : viswall_t F → F

/-- One call of `Blit::blitColumn` (declared in `Blit.h`), with the arguments the wall drawer
passes, in their order: the image, the texel coordinates `srcX` and `srcY`, a fourth float
(`0.0f` in every call here), the destination pixel `(dstX, dstY)`, the number `dstCount` of
pixels, the two texel steps (`0` and `invColumnScale`: only Y is stepped, `BCF_STEP_Y`) and
the three colour multipliers. The frame buffer and its constant size are left out. -/
structure BlitCall (F : Type) where
  texData : ImageData
  srcX : F
  srcY : F
  srcYSubPixelAdjustment : F
  dstX : Nat
  dstY : Nat
  dstCount : Nat
  stepX : F
  stepY : F
  rMul : F
  gMul : F
  bMul : F

/-- The arguments of one call of `drawClippedWallColumn`. -/
structure ClippedColumnCall (F : Type) where
  viewX : Int
  viewY : F
  columnHeight : Nat
  invColumnScale : F
  texX : Nat
  texY : F
  lightMultiplier : F
  texData : ImageData

/-- The arguments of one call of `drawWallColumn`. -/
structure WallColumnCall (F : Type) where
  tex : drawtex_t F
  viewX : Nat
  texX : Nat
  wallTopY : F
  wallBottomY : F
  invColumnScale : F
  lightMultiplier : F

/-- The locals of `drawSeg` that live across columns. The eight stepped values and the two
texture records are declared without a value and assigned only under their texture bit. -/
structure DrawSegVars (F : Type) where
  topTexViewTYStep : F
  topTexViewBYStep : F
  topTexViewTY : F
  topTexViewBY : F
  bottomTexViewTYStep : F
  bottomTexViewBYStep : F
  bottomTexViewTY : F
  bottomTexViewBY : F
  topTex : drawtex_t F
  bottomTex : drawtex_t F
  columnScale : F

/-- What `drawAllLineSegs` does, call by call: `segLoop` on the wall of an index, or `drawSeg`
on the wall of an index together with the blits that call makes. -/
inductive PassEvent (F : Type) where
  | segLoopCall (i : Nat)
  | drawSegCall (i : Nat) (blits : List (BlitCall F))

/-! ## The wall draw pass: routines -/

/-- The routine `getLightParams(sectorLightLevel, bIsFloor)` of `Renderer.cpp`. -/
def getLightParams {F : Type} [FloatLike F] (env : WallEnv F) (sectorLightLevel : Nat)
    (_bIsFloor : Bool) : LightParams F :=
  let lightMax : Nat := min sectorLightLevel (toU32 ((env.lightTableSize : Int) - 1))
  { lightMin := env.gLightMins lightMax
    lightMax := FloatLike.ofUInt32 lightMax
    lightSub := env.gLightSubs lightMax
    lightCoef := env.gLightCoefs lightMax }

/-- The routine `drawClippedWallColumn`: the blit it makes, or `none` when it returns before
the blit. In `(uint32_t) (viewYI < 0) ? -viewYI : 0` the cast binds to the comparison, so the
choice is made on `viewYI < 0` and the chosen `int` becomes the `uint32_t`. Mixed `int32_t` and
`uint32_t` operands are computed as `uint32_t`. -/
def drawClippedWallColumn {F : Type} [FloatWall F] (env : WallEnv F) (s : RenderState F)
    (c : ClippedColumnCall F) : Option (BlitCall F) :=
  let viewYI : Int := FloatLike.toInt32 c.viewY
  if viewYI ≥ toI32 s.gScreenHeight then none
  else
    let texYStep : F := c.invColumnScale
    let pixelsOffscreenAtTop : Nat := if viewYI < 0 then toU32 (-viewYI) else toU32 0
    if pixelsOffscreenAtTop ≥ toU32 (toI32 c.columnHeight) then none
    else
      let pixelsOffscreenAtTopF : F :=
        if FloatWall.flt c.viewY (FloatLike.ofUInt32 0) then -c.viewY else FloatLike.ofUInt32 0
      let pixelSkip : F :=
        if pixelsOffscreenAtTop > 0 then pixelsOffscreenAtTopF + FloatLike.ofUInt32 1
        else FloatLike.ofUInt32 1 - FloatWall.fmod c.viewY (FloatLike.ofUInt32 1)
      let texYClipped : F := c.texY + pixelSkip * texYStep
      let clippedViewY : Int := toI32 (toU32 (viewYI + (pixelsOffscreenAtTop : Int)))
      let maxColumnHeight : Nat := toU32 ((s.gScreenHeight : Int) - clippedViewY)
      let clippedColumnHeight : Nat :=
        min (toU32 ((c.columnHeight : Int) - (pixelsOffscreenAtTop : Int))) maxColumnHeight
      some
        { texData := c.texData
          srcX := FloatLike.ofUInt32 c.texX
          srcY := texYClipped
          srcYSubPixelAdjustment := FloatLike.ofUInt32 0
          dstX := toU32 (c.viewX + (env.gScreenXOffset : Int))
          dstY := toU32 (clippedViewY + (env.gScreenYOffset : Int))
          dstCount := clippedColumnHeight
          stepX := FloatLike.ofUInt32 0
          stepY := c.invColumnScale
          rMul := c.lightMultiplier
          gMul := c.lightMultiplier
          bMul := c.lightMultiplier }

/-- The routine `getWallColumnHeight`: `(int32_t) std::ceil(bottomY - topY)`. -/
def getWallColumnHeight {F : Type} [FloatWall F] (topY bottomY : F) : Int :=
  FloatLike.toInt32 (FloatWall.ceil (bottomY - topY))

/-- The first half of `drawWallColumn`: the call of `drawClippedWallColumn` it ends with, or
`none` when it returns before that call. -/
def drawWallColumnCall {F : Type} [FloatWall F] (c : WallColumnCall F) :
    Option (ClippedColumnCall F) :=
  let columnHeight : Int := getWallColumnHeight c.wallTopY c.wallBottomY
  if columnHeight ≤ 0 then none
  else
    let texData : ImageData := c.tex.pData
    let texWidth : Nat := texData.width
    let texHeight : Nat := texData.height
    let viewY : F := c.wallTopY
    let texYNotOffset : F := c.tex.texturemid - c.tex.topheight
    let texY : F :=
      if FloatWall.flt texYNotOffset (FloatLike.ofUInt32 0) then
        texYNotOffset + FloatLike.ofUInt32 texHeight
      else texYNotOffset
    some
      { viewX := toI32 c.viewX
        viewY := viewY
        columnHeight := toU32 columnHeight
        invColumnScale := c.invColumnScale
        texX := c.texX % texWidth
        texY := texY
        lightMultiplier := c.lightMultiplier
        texData := texData }

/-- The routine `drawWallColumn`: the blit it leads to, if any. -/
def drawWallColumn {F : Type} [FloatWall F] (env : WallEnv F) (s : RenderState F)
    (c : WallColumnCall F) : Option (BlitCall F) :=
  (drawWallColumnCall c).bind fun cc => drawClippedWallColumn env s cc

/-- The part of `drawSeg` between the early return and the column loop. `uninit` holds what
the declared but not yet assigned locals contain. -/
def drawSegSetup {F : Type} [FloatWall F] (env : WallEnv F) (s : RenderState F)
    (seg : viswall_t F) (uninit : DrawSegVars F) : DrawSegVars F :=
  let actionBits := seg.WallActions
  let viewCenterY : F := FloatLike.ofUInt32 s.gCenterY
  let segLeftScale := seg.LeftScale
  let segScaleStep := seg.ScaleStep
  let v0 := uninit
  let v1 :=
    if hasBits actionBits AC_TOPTEXTURE then
      let topWorldTY := seg.t_topheight
      let topWorldBY := seg.t_bottomheight
      { v0 with
        topTex :=
          { pData := env.t_texture seg, topheight := seg.t_topheight
            bottomheight := seg.t_bottomheight, texturemid := seg.t_texturemid }
        topTexViewTYStep := -segScaleStep * topWorldTY
        topTexViewBYStep := -segScaleStep * topWorldBY
        topTexViewTY := viewCenterY - topWorldTY * segLeftScale
        topTexViewBY := viewCenterY - topWorldBY * segLeftScale }
    else v0
  let v2 :=
    if hasBits actionBits AC_BOTTOMTEXTURE then
      let bottomWorldTY := seg.b_topheight
      let bottomWorldBY := seg.b_bottomheight
      { v1 with
        bottomTex :=
          { pData := env.b_texture seg, topheight := seg.b_topheight
            bottomheight := seg.b_bottomheight, texturemid := seg.b_texturemid }
        bottomTexViewTYStep := -segScaleStep * bottomWorldTY
        bottomTexViewBYStep := -segScaleStep * bottomWorldBY
        bottomTexViewTY := viewCenterY - bottomWorldTY * segLeftScale
        bottomTexViewBY := viewCenterY - bottomWorldBY * segLeftScale }
    else v1
  { v2 with columnScale := segLeftScale }

/-- One pass of the body of the column loop of `drawSeg`: the calls of `drawWallColumn` it
makes, in order, and the locals after it. `lightParams`, `segLightMul` and `segCenterAngle`
are set once before the loop from the segment alone; they are written out here where they
are used. `getLightParams` is called without its second argument. -/
def drawSegColumn {F : Type} [FloatWall F] (env : WallEnv F) (seg : viswall_t F)
    (viewX : Int) (v : DrawSegVars F) : List (WallColumnCall F) × DrawSegVars F :=
  let actionBits := seg.WallActions
  let lightParams : LightParams F := getLightParams env seg.seglightlevel false
  let segLightMul : F := env.segLightMul seg
  let segCenterAngle : F := env.doomAngleToRadians seg.CenterAngle
  let invColumnScale : F := FloatWall.fdiv (FloatLike.ofUInt32 1) v.columnScale
  let texX : Nat :=
    FloatWall.toUInt32
      (FloatWall.round
        (seg.offset - env.tan (segCenterAngle - env.getViewAngleForX viewX) * seg.distance))
  let viewStretchWidthF : F := env.doomFixed16ToFloat env.gStretchWidth
  let columnDist : F := FloatWall.fdiv (FloatLike.ofUInt32 1) v.columnScale * viewStretchWidthF
  let distLightMul : F := env.getLightMulForDist lightParams columnDist
  let lightMul : F := FloatWall.fmax (distLightMul * segLightMul) env.MIN_LIGHT_MUL
  let r1 : List (WallColumnCall F) × DrawSegVars F :=
    if hasBits actionBits AC_TOPTEXTURE then
      ([{ tex := v.topTex, viewX := toU32 viewX, texX := texX, wallTopY := v.topTexViewTY
          wallBottomY := v.topTexViewBY, invColumnScale := invColumnScale
          lightMultiplier := lightMul }],
        { v with topTexViewTY := v.topTexViewTY + v.topTexViewTYStep
                 topTexViewBY := v.topTexViewBY + v.topTexViewBYStep })
    else ([], v)
  let r2 : List (WallColumnCall F) × DrawSegVars F :=
    if hasBits actionBits AC_BOTTOMTEXTURE then
      (r1.1 ++ [{ tex := r1.2.bottomTex, viewX := toU32 viewX, texX := texX
                  wallTopY := r1.2.bottomTexViewTY, wallBottomY := r1.2.bottomTexViewBY
                  invColumnScale := invColumnScale, lightMultiplier := lightMul }],
        { r1.2 with bottomTexViewTY := r1.2.bottomTexViewTY + r1.2.bottomTexViewTYStep
                    bottomTexViewBY := r1.2.bottomTexViewBY + r1.2.bottomTexViewBYStep })
    else r1
  (r2.1, { r2.2 with columnScale := r2.2.columnScale + seg.ScaleStep })

/-- The column loop of `drawSeg`, `n` columns from `viewX` on: the calls of `drawWallColumn`
in the order they are made. -/
def drawSegColumns {F : Type} [FloatWall F] (env : WallEnv F) (seg : viswall_t F) :
    Nat → Int → DrawSegVars F → List (WallColumnCall F)
  | 0, _, _ => []
  | n + 1, viewX, v =>
    (drawSegColumn env seg viewX v).1 ++
      drawSegColumns env seg n (viewX + 1) (drawSegColumn env seg viewX v).2

/-- The calls of `drawWallColumn` that `drawSeg(seg)` makes, in order: none when the segment
has neither texture bit, else those of the loop
`for (viewX = seg.leftX; viewX <= seg.rightX; ++viewX)`. -/
def drawSegCalls {F : Type} [FloatWall F] (env : WallEnv F) (s : RenderState F)
    (seg : viswall_t F) (uninit : DrawSegVars F) : List (WallColumnCall F) :=
  if seg.WallActions &&& (AC_TOPTEXTURE ||| AC_BOTTOMTEXTURE) = 0 then []
  else
    drawSegColumns env seg (seg.rightX - seg.leftX + 1).toNat seg.leftX
      (drawSegSetup env s seg uninit)

/-- The routine `drawSeg(seg)`, as the blits it makes, in order: those of its calls of
`drawWallColumn`. -/
def drawSeg {F : Type} [FloatWall F] (env : WallEnv F) (s : RenderState F)
    (seg : viswall_t F) (uninit : DrawSegVars F) : List (BlitCall F) :=
  (drawSegCalls env s seg uninit).filterMap fun c => drawWallColumn env s c

/-- The second loop of `drawAllLineSegs`, walls `0 .. n - 1`:
`for (pWall = pStartWall; pWall < pEndWall; ++pWall) segLoop(*pWall)`, with `m` walls left
and `i` the index of the next one. A fatal stop in a call ends the run. -/
def segLoopWalls {F : Type} [FloatLike F] (cfg : RendererConsts F)
    (gVisWalls : Nat → viswall_t F) (uninit : Nat → SegLoopVars F) :
    Nat → Nat → RenderState F → List (PassEvent F) → Outcome F (List (PassEvent F))
  | 0, _, s, events => .done s events
  | m + 1, i, s, events =>
    (segLoop cfg s (gVisWalls i) (uninit i)).andThen fun s1 _ =>
      segLoopWalls cfg gVisWalls uninit m (i + 1) s1 (events ++ [PassEvent.segLoopCall i])

/-- The third loop of `drawAllLineSegs`:
`for (pWall = gpEndVisWall - 1; pWall >= pStartWall; --pWall) drawSeg(*pWall)`, with `m` walls
left, so that the next one has the index `m - 1`. -/
def drawSegWalls {F : Type} [FloatWall F] (env : WallEnv F) (s : RenderState F)
    (gVisWalls : Nat → viswall_t F) (uninit : Nat → DrawSegVars F) :
    Nat → List (PassEvent F)
  | 0 => []
  | m + 1 =>
    PassEvent.drawSegCall m (drawSeg env s (gVisWalls m) (uninit m)) ::
      drawSegWalls env s gVisWalls uninit m

/-- The routine `drawAllLineSegs` on the wall list `gVisWalls[0 .. nWalls - 1]`
(`gpEndVisWall = gVisWalls + nWalls`): the reset of the clip bounds, `segLoop` on every wall,
then `drawSeg` on every wall. It returns the calls made, in order. -/
def drawAllLineSegs {F : Type} [FloatWall F] (cfg : RendererConsts F) (env : WallEnv F)
    (s : RenderState F) (gVisWalls : Nat → viswall_t F) (nWalls : Nat)
    (uninitSegLoop : Nat → SegLoopVars F) (uninitDrawSeg : Nat → DrawSegVars F) :
    Outcome F (List (PassEvent F)) :=
  (segLoopWalls cfg gVisWalls uninitSegLoop nWalls 0 (resetClipBounds s) []).andThen
    fun s1 events =>
      .done s1 (events ++ drawSegWalls env s1 gVisWalls uninitDrawSeg nWalls)

/-! ## Concrete data for the clip bounds and the wall draw pass -/

/-- A segment over columns 2..5 with the new-ceiling and the new-floor bit, scale 1: on the
fresh 96-row frame its new floor line is at `48 - 20 = 28` and its new ceiling line at
`48 + 20 = 68`, below the floor line. -/
def clipSeg : viswall_t Int :=
  { plainSeg with
    leftX := 2, rightX := 5, WallActions := AC_NEWCEILING ||| AC_NEWFLOOR
    floornewheight := 20, ceilingnewheight := -20 }

/-- The fresh frame with clip bounds that were never reset: every bound reads 7. -/
def staleState : RenderState Int :=
  { freshState with gClipBoundTop := fun _ => 7, gClipBoundBottom := fun _ => 7 }

/-- A 224 x 128 frame: the screen offsets are `(320 - 224) / 2` and `(160 - 128) / 2`, the
centre row is `128 / 2`. -/
def scenarioState : RenderState Int :=
  { freshState with
    gClipBoundBottom := fun _ => 128
    gScreenWidth := 224
    gScreenHeight := 128
    gCenterY := 64 }

/-- An environment for the 224 x 128 frame with flat lighting (every distance gives the
multiplier 1), a view straight at the wall (every angle and tangent 0) and 64 x 64
textures. -/
def scenarioEnv : WallEnv Int :=
  { gScreenXOffset := 48
    gScreenYOffset := 16
    gStretchWidth := 0
    gLightMins := fun _ => 0
    gLightSubs := fun _ => 0
    gLightCoefs := fun _ => 0
    lightTableSize := 256
    MIN_LIGHT_MUL := 0
    doomFixed16ToFloat := fun _ => 0
    doomAngleToRadians := fun _ => 0
    getViewAngleForX := fun _ => 0
    tan := fun _ => 0
    getLightMulForDist := fun _ _ => 1
    t_texture := fun _ => { width := 64, height := 64 }
    b_texture := fun _ => { width := 64, height := 64 }
    segLightMul := fun _ => 1 }

/-- The segment of the end-to-end scenario: columns 10..20, only the top-texture bit, scale 1
with step 0, top texture from the world height 64 down to 0, texture anchor 0. -/
def scenarioSeg : viswall_t Int :=
  { plainSeg with
    leftX := 10, rightX := 20, WallActions := AC_TOPTEXTURE
    t_topheight := 64, t_bottomheight := 0, t_texturemid := 0 }

/-- Locals of `drawSeg` that happen to hold zeros before they are assigned. -/
def zeroDrawVars : DrawSegVars Int :=
  { topTexViewTYStep := 0, topTexViewBYStep := 0, topTexViewTY := 0, topTexViewBY := 0
    bottomTexViewTYStep := 0, bottomTexViewBYStep := 0, bottomTexViewTY := 0
    bottomTexViewBY := 0
    topTex := { pData := { width := 0, height := 0 }, topheight := 0, bottomheight := 0
                texturemid := 0 }
    bottomTex := { pData := { width := 0, height := 0 }, topheight := 0, bottomheight := 0
                   texturemid := 0 }
    columnScale := 0 }

/-- The blit every column of the scenario makes, but for the destination column: 64 pixels
from the screen row `0 + 16` on, texel row 1 first, one texel row per pixel. -/
def scenarioBlit (viewX : Nat) : BlitCall Int :=
  { texData := { width := 64, height := 64 }
    srcX := 0, srcY := 1, srcYSubPixelAdjustment := 0
    dstX := viewX + 48, dstY := 16, dstCount := 64
    stepX := 0, stepY := 1, rMul := 1, gMul := 1, bMul := 1 }

/-- A wall list of two: `plainSeg`, then `clipSeg`. -/
def twoWalls (i : Nat) : viswall_t Int :=
  if i = 0 then plainSeg else clipSeg

/-- A wall column over exact arithmetic from the screen Y `5/2` down to `27/4`, drawn at
scale 1 from a 64 x 64 texture. -/
def sampleWallColumn : WallColumnCall ℚ :=
  { tex := { pData := { width := 64, height := 64 }, topheight := 64, bottomheight := 0
             texturemid := 0 }
    viewX := 10, texX := 3, wallTopY := 5 / 2, wallBottomY := 27 / 4
    invColumnScale := 1, lightMultiplier := 1 }

/-- A column of 200 pixels handed to the clipped drawer at the row -30. -/
def sampleClippedColumn : ClippedColumnCall Int :=
  { viewX := 10, viewY := -30, columnHeight := 200, invColumnScale := 1, texX := 3
    texY := 0, lightMultiplier := 1, texData := { width := 64, height := 64 } }

/-! ## Notions used to state the properties of the wall draw pass -/

/-- The texture record `topTex` as `drawSeg` fills it under the top-texture bit. -/
def topTexOf {F : Type} (env : WallEnv F) (seg : viswall_t F) : drawtex_t F :=
  { pData := env.t_texture seg, topheight := seg.t_topheight
    bottomheight := seg.t_bottomheight, texturemid := seg.t_texturemid }

/-- The texture record `bottomTex` as `drawSeg` fills it under the bottom-texture bit. -/
def bottomTexOf {F : Type} (env : WallEnv F) (seg : viswall_t F) : drawtex_t F :=
  { pData := env.b_texture seg, topheight := seg.b_topheight
    bottomheight := seg.b_bottomheight, texturemid := seg.b_texturemid }

/-- The wall columns that are due at the screen column `viewX` of a segment, as pairs of the
`uint32_t` column and the texture record: the top one if the segment has the top-texture
bit, then the bottom one if it has the bottom-texture bit. -/
def columnAttempts {F : Type} (env : WallEnv F) (seg : viswall_t F) (viewX : Int) :
    List (Nat × drawtex_t F) :=
  (if hasBits seg.WallActions AC_TOPTEXTURE then [(toU32 viewX, topTexOf env seg)] else []) ++
    (if hasBits seg.WallActions AC_BOTTOMTEXTURE then [(toU32 viewX, bottomTexOf env seg)]
      else [])

/-- The number of texture bits of a segment: 0, 1 or 2. -/
def textureBitCount {F : Type} (seg : viswall_t F) : Nat :=
  (if hasBits seg.WallActions AC_TOPTEXTURE then 1 else 0) +
    (if hasBits seg.WallActions AC_BOTTOMTEXTURE then 1 else 0)

/-- The texture records among the locals of `drawSeg` are the ones of the segment, each under
its bit. -/
def DrawSegTexOk {F : Type} (env : WallEnv F) (seg : viswall_t F) (v : DrawSegVars F) : Prop :=
  (hasBits seg.WallActions AC_TOPTEXTURE = true → v.topTex = topTexOf env seg) ∧
    (hasBits seg.WallActions AC_BOTTOMTEXTURE = true → v.bottomTex = bottomTexOf env seg)

/-! ## The light tables and the light of a wall column -/

/-- The last loop of `initMathTables`, `for (uint32_t i = 0; i < 256; ++i)`, with `n` rounds
left and `i` the index of the next one; the three light tables are those of the environment.
The constants of the loop body are `LIGHT_MIN_PERCENT = 1.0f / 4.0f`,
`MAX_BRIGHT_RANGE_SCALE = 2.0f`, `LIGHT_COEF_BASE = 0.75f` and
`LIGHT_COEF_ADJUST_FACTOR = 0.50f`; the last two literals are written as the quotients
`3 / 4` and `1 / 2`, which they are exactly. -/
def lightTableLoop {F : Type} [FloatWall F] : Nat → Nat → WallEnv F → WallEnv F
  | 0, _, env => env
  | n + 1, i, env =>
    let LIGHT_MIN_PERCENT : F := FloatWall.fdiv (FloatLike.ofUInt32 1) (FloatLike.ofUInt32 4)
    let MAX_BRIGHT_RANGE_SCALE : F := FloatLike.ofUInt32 2
    let LIGHT_COEF_BASE : F := FloatWall.fdiv (FloatLike.ofUInt32 3) (FloatLike.ofUInt32 4)
    let LIGHT_COEF_ADJUST_FACTOR : F :=
      FloatWall.fdiv (FloatLike.ofUInt32 1) (FloatLike.ofUInt32 2)
    let lightLevel : F := FloatWall.fdiv (FloatLike.ofUInt32 i) (FloatLike.ofUInt32 255)
    let maxBrightRange : F := lightLevel * MAX_BRIGHT_RANGE_SCALE
    lightTableLoop n (i + 1)
      { env with
        gLightMins := Function.update env.gLightMins i (FloatLike.ofUInt32 i * LIGHT_MIN_PERCENT)
        gLightSubs := Function.update env.gLightSubs i maxBrightRange
        gLightCoefs := Function.update env.gLightCoefs i
          (LIGHT_COEF_BASE - lightLevel * LIGHT_COEF_ADJUST_FACTOR) }

/-- The part of `initMathTables` that makes the lighting tables. -/
def initLightTables {F : Type} [FloatWall F] (env : WallEnv F) : WallEnv F :=
  lightTableLoop 256 0 env

/-- The light multiplier that `drawSeg` computes in a column in which `columnScale` has the
value `columnScale`: `std::fmax(distLightMul * segLightMul, MIN_LIGHT_MUL)`, where
`distLightMul = lightParams.getLightMulForDist((1.0f / columnScale) * viewStretchWidthF)`. -/
def lightMulAt {F : Type} [FloatWall F] (env : WallEnv F) (seg : viswall_t F)
    (columnScale : F) : F :=
  FloatWall.fmax
    (env.getLightMulForDist (getLightParams env seg.seglightlevel false)
        (FloatWall.fdiv (FloatLike.ofUInt32 1) columnScale *
          env.doomFixed16ToFloat env.gStretchWidth) *
      env.segLightMul seg)
    env.MIN_LIGHT_MUL

/-- An environment over exact arithmetic with tables of 256 entries that are still all zero,
a minimal light multiplier of `1/8` and a distance light of `1/16` everywhere. -/
def ratEnv : WallEnv ℚ :=
  { gScreenXOffset := 48
    gScreenYOffset := 16
    gStretchWidth := 0
    gLightMins := fun _ => 0
    gLightSubs := fun _ => 0
    gLightCoefs := fun _ => 0
    lightTableSize := 256
    MIN_LIGHT_MUL := 1 / 8
    doomFixed16ToFloat := fun _ => 0
    doomAngleToRadians := fun _ => 0
    getViewAngleForX := fun _ => 0
    tan := fun _ => 0
    getLightMulForDist := fun _ _ => 1 / 16
    t_texture := fun _ => { width := 64, height := 64 }
    b_texture := fun _ => { width := 64, height := 64 }
    segLightMul := fun _ => 1 }

/-- A 224 x 128 frame over exact arithmetic. -/
def ratState : RenderState ℚ :=
  { gVisPlanes := fun _ =>
      { cols := fun _ => { top := 0, bottom := 0 }
        height := 0, picHandle := 0, planeLight := 0, minX := 0, maxX := 0 }
    gpEndVisPlane := 1
    gClipBoundTop := fun _ => toU32 (-1)
    gClipBoundBottom := fun _ => 128
    gScreenWidth := 224
    gScreenHeight := 128
    gCenterY := 64
    silhouettes := fun _ => 0
    skyColumns := [] }

/-- A column of 200 pixels over exact arithmetic handed to the clipped drawer at the row
`-5/2`, with the texel step `1/2` and the base texel coordinate 3. -/
def ratClippedColumn : ClippedColumnCall ℚ :=
  { viewX := 10, viewY := -5 / 2, columnHeight := 200, invColumnScale := 1 / 2, texX := 3
    texY := 3, lightMultiplier := 1, texData := { width := 64, height := 64 } }

/-- A pool of three records on the fresh frame: the sentinel, record 1 for the height 0, the
flat 5 and the light 64, and record 2 for the height 0, the flat 5 and the light 128; no span
of the records 1 and 2 is defined yet. -/
def twoPlaneState : RenderState Int :=
  { freshState with
    gVisPlanes := fun i =>
      if i = 1 then
        { cols := fun _ => { top := UINT16_MAX, bottom := 0 }
          height := 0, picHandle := 5, planeLight := 64, minX := 0, maxX := 50 }
      else if i = 2 then
        { cols := fun _ => { top := UINT16_MAX, bottom := 0 }
          height := 0, picHandle := 5, planeLight := 128, minX := 0, maxX := 50 }
      else zeroPlane
    gpEndVisPlane := 3 }

/-! ## AddToBox -/

/-- Modelled from the spec: the four indices `BOXTOP`, `BOXBOTTOM`, `BOXLEFT` and `BOXRIGHT`
of a bounding box (their declaration is not under the sources at hand); they are four
different indices. -/
inductive BoxIndex where
  | BOXTOP
  | BOXBOTTOM
  | BOXLEFT
  | BOXRIGHT
deriving DecidableEq

/-- The routine `AddToBox(box, x, y)` of `Doom_Main.cpp`; the result is the box after it. -/
def AddToBox (box : BoxIndex → Int) (x y : Int) : BoxIndex → Int :=
  let box1 : BoxIndex → Int :=
    if x < box BoxIndex.BOXLEFT then Function.update box BoxIndex.BOXLEFT x
    else if x > box BoxIndex.BOXRIGHT then Function.update box BoxIndex.BOXRIGHT x
    else box
  if y < box1 BoxIndex.BOXBOTTOM then Function.update box1 BoxIndex.BOXBOTTOM y
  else if y > box1 BoxIndex.BOXTOP then Function.update box1 BoxIndex.BOXTOP y
  else box1

/-- A box that holds no point yet: left and bottom at the greatest `Fixed` value, right and
top at the least. -/
def clearedBox : BoxIndex → Int
  | .BOXTOP => -2147483648
  | .BOXBOTTOM => 2147483647
  | .BOXLEFT => 2147483647
  | .BOXRIGHT => -2147483648

/-! ## Rounded arithmetic: the binary32 `float` -/

/-- The number of binary digits of `n`, with `fuel` halvings left. -/
def bitLengthLoop : Nat → Nat → Nat
  | 0, _ => 0
  | fuel + 1, n => if n = 0 then 0 else bitLengthLoop fuel (n / 2) + 1

/-- The number of binary digits of `n` (0 for 0): `n` halvings are always enough. -/
def bitLength (n : Nat) : Nat :=
  bitLengthLoop n n

/-- A finite value of the binary32 `float`: the number `num * 2^exp`, kept in the form in which
`num` is odd, or `num = 0` and `exp = 0`, so that equal numbers are equal records. The
significand has at most 24 binary digits. The exponent range of binary32 is left out: there
is no overflow to an infinity, no subnormal number and no NaN, and the two zeros are one. -/
structure Binary32 where
  num : Int
  exp : Int
deriving DecidableEq

/-- The number a `Binary32` stands for. -/
def Binary32.toRat (x : Binary32) : ℚ :=
  (x.num : ℚ) * (2 : ℚ) ^ x.exp

/-- The record of the number `m * 2^e` with the factors 2 moved from `m` to the exponent, with
`fuel` divisions left. -/
def Binary32.normLoop : Nat → Int → Int → Binary32
  | 0, m, e => { num := m, exp := e }
  | fuel + 1, m, e =>
    if m = 0 then { num := 0, exp := 0 }
    else if m % 2 = 0 then Binary32.normLoop fuel (m / 2) (e + 1)
    else { num := m, exp := e }

/-- The record of the number `m * 2^e`, which has at most 24 significant digits. -/
def Binary32.norm (m e : Int) : Binary32 :=
  Binary32.normLoop (bitLength m.natAbs) m e

/-- The `float` nearest to the number `m * 2^e`, ties going to the even significand (the
rounding of binary32 arithmetic): a number of more than 24 digits loses its low digits
`r`, and the 24 digits kept are raised by one when `r` is more than half a unit of the last
place kept, or is half of it and the digits kept are odd. -/
def Binary32.nearest (m e : Int) : Binary32 :=
  let a : Nat := m.natAbs
  let len : Nat := bitLength a
  if len ≤ 24 then Binary32.norm m e
  else
    let shift : Nat := len - 24
    let q : Nat := a / 2 ^ shift
    let r : Nat := a % 2 ^ shift
    let half : Nat := 2 ^ (shift - 1)
    let q1 : Nat := if r > half ∨ (r = half ∧ q % 2 = 1) then q + 1 else q
    Binary32.norm (if m < 0 then -(q1 : Int) else (q1 : Int)) (e + (shift : Int))

/-- The numerator of `x` over the common exponent `min x.exp y.exp`. -/
def Binary32.numOver (x y : Binary32) : Int :=
  x.num * 2 ^ (x.exp - min x.exp y.exp).toNat

/-- The sum `x + y` of binary32: the exact sum, rounded. -/
def Binary32.add (x y : Binary32) : Binary32 :=
  Binary32.nearest (x.numOver y + y.numOver x) (min x.exp y.exp)

/-- The difference `x - y` of binary32: the exact difference, rounded. -/
def Binary32.sub (x y : Binary32) : Binary32 :=
  Binary32.nearest (x.numOver y - y.numOver x) (min x.exp y.exp)

/-- The product `x * y` of binary32: the exact product, rounded. -/
def Binary32.mul (x y : Binary32) : Binary32 :=
  Binary32.nearest (x.num * y.num) (x.exp + y.exp)

/-- The value `-x`, which is exact. -/
def Binary32.neg (x : Binary32) : Binary32 :=
  { num := -x.num, exp := x.exp }

/-- The comparison `x < y`. -/
def Binary32.lt (x y : Binary32) : Bool :=
  decide (x.numOver y < y.numOver x)

/-- The comparison `x <= y`. -/
def Binary32.le (x y : Binary32) : Bool :=
  decide (x.numOver y ≤ y.numOver x)

/-- The integral part of `x`, the fraction cut off (rounding towards zero). -/
def Binary32.trunc (x : Binary32) : Int :=
  if 0 ≤ x.exp then x.num * 2 ^ x.exp.toNat else Int.tdiv x.num (2 ^ (-x.exp).toNat)

/-- The quotient `x / y` of binary32: the exact quotient, rounded. The quotient of the
numerators is taken to 26 digits or more, with one more digit that tells whether a remainder
was left, so that the rounding sees on which side of a tie the exact quotient lies. A
division by zero, which gives an infinity or a NaN in binary32, gives 0 here. -/
def Binary32.div (x y : Binary32) : Binary32 :=
  if y.num = 0 then { num := 0, exp := 0 }
  else
    let k : Nat := 26 + bitLength y.num.natAbs
    let a : Nat := x.num.natAbs * 2 ^ k
    let b : Nat := y.num.natAbs
    let q : Nat := 2 * (a / b) + (if a % b = 0 then 0 else 1)
    Binary32.nearest (Int.sign x.num * Int.sign y.num * (q : Int))
      (x.exp - y.exp - (k : Int) - 1)

/-- The value `std::ceil(x)`: the least integer that is not below `x`, which is exact. -/
def Binary32.ceil (x : Binary32) : Binary32 :=
  if 0 ≤ x.exp then x else Binary32.nearest (-((-x.num) / 2 ^ (-x.exp).toNat)) 0

/-- The value `std::round(x)`: the nearest integer, halves going away from zero, which is
exact. -/
def Binary32.roundHalfAway (x : Binary32) : Binary32 :=
  if 0 ≤ x.exp then x
  else
    let d : Nat := 2 ^ (-x.exp).toNat
    let n : Nat := (2 * x.num.natAbs + d) / (2 * d)
    Binary32.nearest (if x.num < 0 then -(n : Int) else (n : Int)) 0

/-- The value `std::fmod(x, y)`: the remainder of `x` by `y` with the sign of `x`, which is
exact. A zero `y`, which gives a NaN in binary32, gives 0 here. -/
def Binary32.fmod (x y : Binary32) : Binary32 :=
  if y.num = 0 then { num := 0, exp := 0 }
  else Binary32.nearest (Int.tmod (x.numOver y) (y.numOver x)) (min x.exp y.exp)

instance instAddBinary32 : Add Binary32 := ⟨Binary32.add⟩

instance instSubBinary32 : Sub Binary32 := ⟨Binary32.sub⟩

instance instMulBinary32 : Mul Binary32 := ⟨Binary32.mul⟩

instance instNegBinary32 : Neg Binary32 := ⟨Binary32.neg⟩

/-- The binary32 `float` of the clip pass: every operation gives the `float` nearest to the
exact result; `(float) n` rounds, `(int32_t) f` cuts the fraction off. -/
instance instFloatLikeBinary32 : FloatLike Binary32 where
  fmin := fun a b => if Binary32.le a b then a else b
  ofUInt32 := fun n => Binary32.nearest (n : Int) 0
  toInt32 := Binary32.trunc
  eqDec := inferInstance

/-- The binary32 `float` of the draw pass. -/
instance instFloatWallBinary32 : FloatWall Binary32 :=
  { instFloatLikeBinary32 with
    fdiv := Binary32.div
    flt := Binary32.lt
    ceil := Binary32.ceil
    fmod := Binary32.fmod
    fmax := fun a b => if Binary32.le a b then b else a
    round := Binary32.roundHalfAway
    toUInt32 := fun a => toU32 a.trunc }

/-- An environment over binary32 with tables of 256 entries that are still all zero, a minimal
light multiplier of `1/8` and a distance light of `1/16` everywhere. -/
def binary32Env : WallEnv Binary32 :=
  { gScreenXOffset := 48
    gScreenYOffset := 16
    gStretchWidth := 0
    gLightMins := fun _ => { num := 0, exp := 0 }
    gLightSubs := fun _ => { num := 0, exp := 0 }
    gLightCoefs := fun _ => { num := 0, exp := 0 }
    lightTableSize := 256
    MIN_LIGHT_MUL := { num := 1, exp := -3 }
    doomFixed16ToFloat := fun _ => { num := 0, exp := 0 }
    doomAngleToRadians := fun _ => { num := 0, exp := 0 }
    getViewAngleForX := fun _ => { num := 0, exp := 0 }
    tan := fun _ => { num := 0, exp := 0 }
    getLightMulForDist := fun _ _ => { num := 1, exp := -4 }
    t_texture := fun _ => { width := 64, height := 64 }
    b_texture := fun _ => { width := 64, height := 64 }
    segLightMul := fun _ => { num := 1, exp := 0 } }

/-- A 224 x 128 frame over binary32. -/
def binary32State : RenderState Binary32 :=
  { gVisPlanes := fun _ =>
      { cols := fun _ => { top := 0, bottom := 0 }
        height := { num := 0, exp := 0 }, picHandle := 0, planeLight := 0, minX := 0
        maxX := 0 }
    gpEndVisPlane := 1
    gClipBoundTop := fun _ => toU32 (-1)
    gClipBoundBottom := fun _ => 128
    gScreenWidth := 224
    gScreenHeight := 128
    gCenterY := 64
    silhouettes := fun _ => 0
    skyColumns := [] }

/-- A column of 200 pixels over binary32 handed to the clipped drawer at the row
`-(1 + 2^-23) = -8388609 * 2^-23`, the `float` next below -1, with the texel step 1 and the
base texel coordinate 0. -/
def binary32Column : ClippedColumnCall Binary32 :=
  { viewX := 10, viewY := { num := -8388609, exp := -23 }, columnHeight := 200
    invColumnScale := { num := 1, exp := 0 }, texX := 3, texY := { num := 0, exp := 0 }
    lightMultiplier := { num := 1, exp := 0 }, texData := { width := 64, height := 64 } }

/-! ## Fixed point helpers -/

/-- Reduction of a value to the range of `Fixed`, a signed 32 bit number. -/
def wrapFixed (x : Int) : Int := toI32 (toU32 x)

/-- Modelled from the spec: the constant `FRACUNIT`, the `Fixed` value of 1.0. The fixed point
helpers are not under the sources at hand; a `Fixed` is a 16.16 number, with 16 fractional
bits (`doomFixed16ToFloat`). -/
def FRACUNIT : Int := 65536

/-- Modelled from the spec: `intToFixed(x)`, the `Fixed` value of the integer `x`:
`x << 16`. -/
def intToFixed (x : Int) : Int := wrapFixed (x * 65536)

/-- Modelled from the spec: `fixedToInt(x)`, the integer part of a `Fixed` value: the
arithmetic shift `x >> 16`. -/
def fixedToInt (x : Int) : Int := x / 65536

/-- Modelled from the spec: `fixedMul(a, b)`, the 16.16 product: the 64 bit product shifted
right by 16 bits, as a `Fixed`. -/
def fixedMul (a b : Int) : Int := wrapFixed ((a * b) / 65536)

/-- Modelled from the spec: `fixedDiv(a, b)`, the 16.16 quotient: the 64 bit value `a << 16`
divided by `b` (the quotient of C, truncated), as a `Fixed`. -/
def fixedDiv (a b : Int) : Int := wrapFixed (Int.tdiv (a * 65536) b)

/-- Modelled from the spec: `x & FRACMASK`, the 16 fractional bits of a `Fixed` value. -/
def fracBits (x : Int) : Nat := toU32 x &&& 65535

/-! ## The sky column -/

/-- The globals, constants and helpers of other files that `drawSkyColumn` reads:
`gXToViewAngle`, `gViewAngleBAM`, `ANGLETOSKYSHIFT`, the height `pTexture->data.height` of
the current sky texture, `REFERENCE_3D_VIEW_HEIGHT` and `Blit::calcTexelStep`. -/
structure SkyEnv where
  gXToViewAngle : Nat → Nat
  gViewAngleBAM : Nat
  ANGLETOSKYSHIFT : Nat
  skyTexH : Nat
  REFERENCE_3D_VIEW_HEIGHT : Nat
  calcTexelStep : Nat → Nat → Int

/-- The local `texX` of `drawSkyColumn(viewX)`:
`((gXToViewAngle[viewX] + gViewAngleBAM) >> ANGLETOSKYSHIFT) & 0xFF`, the sum being one of
32 bit angles. -/
def skyTexX (sky : SkyEnv) (viewX : Nat) : Nat :=
  (((sky.gXToViewAngle viewX + sky.gViewAngleBAM) % 4294967296) >>> sky.ANGLETOSKYSHIFT) &&&
    0xFF

/-- The local `scaledColHeight` of `drawSkyColumn`. -/
def skyScaledColHeight (sky : SkyEnv) (gScreenHeight : Nat) : Int :=
  let skyScale : Int :=
    fixedDiv (intToFixed (toI32 gScreenHeight))
      (intToFixed (sky.REFERENCE_3D_VIEW_HEIGHT : Int))
  fixedMul (intToFixed (toI32 sky.skyTexH)) skyScale

/-- The local `colHeight` of `drawSkyColumn`:
`(uint32_t) fixedToInt(scaledColHeight) + roundColHeight`. -/
def skyColHeight (sky : SkyEnv) (gScreenHeight : Nat) : Nat :=
  let scaledColHeight : Int := skyScaledColHeight sky gScreenHeight
  let roundColHeight : Nat := if fracBits scaledColHeight ≠ 0 then 1 else 0
  (toU32 (fixedToInt scaledColHeight) + roundColHeight) % 4294967296

/-- The arguments of the call of `Blit::blitColumn` that `drawSkyColumn` ends with, as far
as they vary: the texel column, the destination pixel, the number of pixels and the texel
step as the `Fixed` value that `Blit::calcTexelStep` returns. -/
structure SkyBlit where
  texX : Nat
  dstX : Nat
  dstY : Nat
  dstCount : Nat
  texYStep : Int

/-- The routine `drawSkyColumn(viewX)`, as the blit it makes; its `BLIT_ASSERT` is a debug
check and left out. -/
def drawSkyColumnBlit {F : Type} (env : WallEnv F) (sky : SkyEnv) (s : RenderState F)
    (viewX : Nat) : SkyBlit :=
  let texX := skyTexX sky viewX
  let skyTexH := sky.skyTexH
  let colHeight := skyColHeight sky s.gScreenHeight
  { texX := texX
    dstX := (viewX + env.gScreenXOffset) % 4294967296
    dstY := env.gScreenYOffset
    dstCount := colHeight
    texYStep := sky.calcTexelStep skyTexH colHeight }

/-- A sky environment: a 128 texel high sky, the reference view height 160, the sky shift
22, a view angle of `0xC0000000` and a column angle table that is constant. -/
def sampleSky : SkyEnv :=
  { gXToViewAngle := fun _ => 0x20000000
    gViewAngleBAM := 0xC0000000
    ANGLETOSKYSHIFT := 22
    skyTexH := 128
    REFERENCE_3D_VIEW_HEIGHT := 160
    calcTexelStep := fun _ _ => 0 }

/-! ## The view angle tables -/

/-- The constants and the table of other files that the view angle loops of
`initMathTables` read. -/
structure ViewConsts where
  FINEANGLES : Nat
  FIELDOFVIEW : Nat
  ANGLETOFINESHIFT : Nat
  ANG90 : Nat
  gFineTangent : Nat → Int

/-- The tables `gViewAngleToX` and `gXToViewAngle`. -/
structure ViewTables where
  gViewAngleToX : Nat → Int
  gXToViewAngle : Nat → Nat

/-- The value `t` that one round of the first loop of `initMathTables` stores, for the
tangent `gFineTangent[i]` of the round. `gCenterX` is a `uint32_t` like `gScreenWidth`, so
`((gCenterX << FRACBITS) - t + FRACUNIT - 1) >> FRACBITS` is computed as `uint32_t`. -/
def viewAngleToXEntry (gScreenWidth gCenterX : Nat) (j : Int) (tangent : Int) : Int :=
  if tangent > FRACUNIT * 2 then -1
  else if tangent < -FRACUNIT * 2 then toI32 ((gScreenWidth + 1) % 4294967296)
  else
    let t0 : Int := fixedMul tangent j
    let t1 : Int :=
      toI32 (toU32 ((toU32 ((gCenterX : Int) * 65536) : Int) - t0 + FRACUNIT - 1) >>> 16)
    if t1 < -1 then -1
    else if t1 > toI32 gScreenWidth + 1 then toI32 ((gScreenWidth + 1) % 4294967296)
    else t1

/-- The first loop, `for (uint32_t i = 0; i < FINEANGLES / 2; i += 2)`, with `n` rounds left
and `i` the index of the next one. -/
def projectionLoop (vc : ViewConsts) (gScreenWidth gCenterX : Nat) (j : Int) :
    Nat → Nat → (Nat → Int) → (Nat → Int)
  | 0, _, tbl => tbl
  | n + 1, i, tbl =>
    projectionLoop vc gScreenWidth gCenterX j n (i + 2)
      (Function.update tbl (i / 2)
        (viewAngleToXEntry gScreenWidth gCenterX j (vc.gFineTangent i)))

/-- The table `gViewAngleToX` after the first loop of `initMathTables` for the screen size
`gScreenSize`, started from the table `old`. -/
def viewAngleToXProjected (vc : ViewConsts) (gScreenSize : Nat) (old : Nat → Int) :
    Nat → Int :=
  let gScreenWidth : Nat := SCREEN_WIDTHS.getD gScreenSize 0
  let gCenterX : Nat := gScreenWidth / 2
  let j : Int :=
    fixedDiv (toI32 (toU32 ((gCenterX : Int) * 65536)))
      (vc.gFineTangent (vc.FINEANGLES / 4 + vc.FIELDOFVIEW / 2))
  projectionLoop vc gScreenWidth gCenterX j ((vc.FINEANGLES / 2 + 1) / 2) 0 old

/-- The loop `while (gViewAngleToX[x] > (int) i) ++x` with `fuel` rounds allowed: the `x` it
stops at, if it stops within them. -/
def xToViewAngleScan (tbl : Nat → Int) (i : Int) : Nat → Nat → Option Nat
  | 0, _ => none
  | fuel + 1, x => if tbl x > i then xToViewAngleScan tbl i fuel (x + 1) else some x

/-- The second loop, `for (uint32_t i = 0; i <= gScreenWidth; ++i)`, with `n` rounds left and
`i` the index of the next one. -/
def xToViewAngleLoop (vc : ViewConsts) (tbl : Nat → Int) (fuel : Nat) :
    Nat → Nat → (Nat → Nat) → Option (Nat → Nat)
  | 0, _, out => some out
  | n + 1, i, out =>
    match xToViewAngleScan tbl (toI32 i) fuel 0 with
    | none => none
    | some x =>
      xToViewAngleLoop vc tbl fuel n (i + 1)
        (Function.update out i
          (toU32 ((((x <<< (vc.ANGLETOFINESHIFT + 1)) % 4294967296 : Nat) : Int) -
            (vc.ANG90 : Int))))

/-- The third loop, `for (uint32_t i = 0; i < FINEANGLES / 4; ++i)`, with `n` rounds left
and `i` the index of the next one. The entry, an `int`, is compared with the `uint32_t`
value `gScreenWidth + 1` as a `uint32_t`. -/
def renormLoop (gScreenWidth : Nat) : Nat → Nat → (Nat → Int) → (Nat → Int)
  | 0, _, tbl => tbl
  | n + 1, i, tbl =>
    renormLoop gScreenWidth n (i + 1)
      (if tbl i = -1 then Function.update tbl i 0
       else if toU32 (tbl i) = (gScreenWidth + 1) % 4294967296 then
         Function.update tbl i (toI32 gScreenWidth)
       else tbl)

/-- The three view angle loops of `initMathTables` for the screen size `gScreenSize`; `none`
when a scan of the second loop does not stop within `fuel` rounds. -/
def initViewTables (vc : ViewConsts) (gScreenSize : Nat) (fuel : Nat) (old : ViewTables) :
    Option ViewTables :=
  let gScreenWidth : Nat := SCREEN_WIDTHS.getD gScreenSize 0
  let projected : Nat → Int := viewAngleToXProjected vc gScreenSize old.gViewAngleToX
  match xToViewAngleLoop vc projected fuel (gScreenWidth + 1) 0 old.gXToViewAngle with
  | none => none
  | some xToViewAngle =>
    some
      { gViewAngleToX := renormLoop gScreenWidth (vc.FINEANGLES / 4) 0 projected
        gXToViewAngle := xToViewAngle }

/-- View constants with 16 fine angles; the tangents fall from 4.0 by 0.5 per angle. -/
def sampleViewConsts : ViewConsts :=
  { FINEANGLES := 16
    FIELDOFVIEW := 4
    ANGLETOFINESHIFT := 19
    ANG90 := 0x40000000
    gFineTangent := fun i => 262144 - 32768 * (i : Int) }

/-- Tables that hold zeros. -/
def zeroViewTables : ViewTables :=
  { gViewAngleToX := fun _ => 0, gXToViewAngle := fun _ => 0 }

/-! ## The span writes of a frame -/

/-- The statement `if (pPlane->cols[viewX].isDefined()) pPlane = findPlane(...)` that comes
before each span assignment of `segLoop`: the plane record the span goes to. -/
def lookupPlane {F : Type} [FloatLike F] (cfg : RendererConsts F) (s : RenderState F)
    (pPlane : Nat) (height : F) (picHandle : Nat) (viewX rightX : Int) (light : Nat) :
    Outcome F Nat :=
  if ((s.gVisPlanes pPlane).cols viewX).isDefined then
    findPlane cfg s pPlane height picHandle viewX rightX light
  else .done s pPlane

/-- One assignment `pPlane->cols[viewX] = ScreenYPair{ (uint16_t) top, (uint16_t) bottom }` of
`segLoop`: the globals right before it (`before`), the record and the column it goes to, and
the `int32_t` values `top` and `bottom`. -/
structure SpanWrite (F : Type) where
  before : RenderState F
  record : Nat
  column : Int
  top : Int
  bottom : Int

/-- The span assignment that a registration makes, if it makes one: none for an empty span
and none when `findPlane` stops. -/
def registerSpanWrites {F : Type} [FloatLike F] (cfg : RendererConsts F) (s : RenderState F)
    (pPlane : Nat) (height : F) (picHandle : Nat) (viewX rightX : Int) (light : Nat)
    (top bottom : Int) : List (SpanWrite F) :=
  if top ≤ bottom then
    match lookupPlane cfg s pPlane height picHandle viewX rightX light with
    | .done s1 p => [{ before := s1, record := p, column := viewX, top := top, bottom := bottom }]
    | .fatal _ _ => []
  else []

/-- The span assignment of the floor block of a column, if any. -/
def segLoopFloorPartWrites {F : Type} [FloatLike F] (cfg : RendererConsts F)
    (seg : viswall_t F) (viewX : Int) (s : RenderState F) (v : SegLoopVars F) :
    List (SpanWrite F) :=
  if hasBits seg.WallActions AC_ADDFLOOR then
    registerSpanWrites cfg s v.pFloorPlane seg.floorheight seg.FloorPic viewX seg.rightX
      seg.seglightlevel (floorSpanTop v.floorY (toI32 (s.gClipBoundTop viewX)))
      (floorSpanBottom (toI32 (s.gClipBoundBottom viewX)))
  else []

/-- The span assignment of the ceiling block of a column whose clip bounds were read as
`clipBoundTY` and `clipBoundBY`, if any. -/
def segLoopCeilingPartWrites {F : Type} [FloatLike F] (cfg : RendererConsts F)
    (seg : viswall_t F) (viewX clipBoundTY clipBoundBY : Int) (s : RenderState F)
    (v : SegLoopVars F) : List (SpanWrite F) :=
  if hasBits seg.WallActions AC_ADDCEILING then
    registerSpanWrites cfg s v.pCeilPlane seg.ceilingheight seg.CeilingPic viewX seg.rightX
      seg.seglightlevel (ceilSpanTop clipBoundTY) (ceilSpanBottom v.ceilY clipBoundBY)
  else []

/-- The span assignments of one column of `segLoop`, in order: that of the floor block, then
that of the ceiling block if the floor block returned. -/
def segLoopColumnWrites {F : Type} [FloatLike F] (cfg : RendererConsts F) (seg : viswall_t F)
    (viewX : Int) (s : RenderState F) (v : SegLoopVars F) : List (SpanWrite F) :=
  segLoopFloorPartWrites cfg seg viewX s v ++
    match segLoopFloorPart cfg seg viewX s v with
    | .done s1 v1 =>
      segLoopCeilingPartWrites cfg seg viewX (toI32 (s.gClipBoundTop viewX))
        (toI32 (s.gClipBoundBottom viewX)) s1 v1
    | .fatal _ _ => []

/-- The span assignments of `n` columns of `segLoop` from the column `viewX` on, in order. -/
def segLoopColumnsWrites {F : Type} [FloatLike F] (cfg : RendererConsts F)
    (seg : viswall_t F) : Nat → Int → RenderState F → SegLoopVars F → List (SpanWrite F)
  | 0, _, _, _ => []
  | n + 1, viewX, s, v =>
    segLoopColumnWrites cfg seg viewX s v ++
      match segLoopColumn cfg seg viewX s v with
      | .done s1 v1 => segLoopColumnsWrites cfg seg n (viewX + 1) s1 v1
      | .fatal _ _ => []

/-- The span assignments of one call of `segLoop`, in order. -/
def segLoopWrites {F : Type} [FloatLike F] (cfg : RendererConsts F) (s : RenderState F)
    (seg : viswall_t F) (uninit : SegLoopVars F) : List (SpanWrite F) :=
  segLoopColumnsWrites cfg seg (seg.rightX - seg.leftX + 1).toNat seg.leftX s
    (segLoopSetup s seg uninit)

/-- The span assignments of a sequence of `segLoop` calls, in order. -/
def segLoopPassWrites {F : Type} [FloatLike F] (cfg : RendererConsts F) :
    List (viswall_t F × SegLoopVars F) → RenderState F → List (SpanWrite F)
  | [], _ => []
  | call :: rest, s =>
    segLoopWrites cfg s call.1 call.2 ++
      match segLoop cfg s call.1 call.2 with
      | .done s1 _ => segLoopPassWrites cfg rest s1
      | .fatal _ _ => []

/-- Every defined span of a real plane record of the pool, at a column of the screen, lies
inside the extent of the record: `minX <= x <= maxX`. -/
def SpansInExtent {F : Type} (s : RenderState F) : Prop :=
  ∀ i, 1 ≤ i → i < s.gpEndVisPlane → ∀ x : Int, 0 ≤ x → x < (s.gScreenWidth : Int) →
    ((s.gVisPlanes i).cols x).isDefined = true →
    (s.gVisPlanes i).minX ≤ x ∧ x ≤ (s.gVisPlanes i).maxX

/-- Every defined span of a real plane record of the pool, at a column of the screen, is a
span of screen rows: the stored pair has `top <= bottom <= gScreenHeight - 1`. -/
def SpansValid {F : Type} (s : RenderState F) : Prop :=
  ∀ i, 1 ≤ i → i < s.gpEndVisPlane → ∀ x : Int, 0 ≤ x → x < (s.gScreenWidth : Int) →
    ((s.gVisPlanes i).cols x).isDefined = true →
    ((s.gVisPlanes i).cols x).top ≤ ((s.gVisPlanes i).cols x).bottom ∧
      ((s.gVisPlanes i).cols x).bottom + 1 ≤ s.gScreenHeight

/-- What a frame keeps true of its globals from the reset on: the pool holds the sentinel, the
width is a multiple of 8 (as each of `SCREEN_WIDTHS` is) and the height fits 16 bits, the
clip bounds of every column of the screen are in range, and the defined spans lie inside the
extents and are spans of screen rows. -/
structure SpanInv {F : Type} (s : RenderState F) : Prop where
  pool : 1 ≤ s.gpEndVisPlane
  width8 : 8 ∣ s.gScreenWidth
  height16 : s.gScreenHeight ≤ 65535
  clip : ∀ x : Int, 0 ≤ x → x < (s.gScreenWidth : Int) → ClipInRange s x
  extent : SpansInExtent s
  valid : SpansValid s

/-- What `segLoop` keeps true of a plane pointer at the column `viewX`: it is a record of the
pool, and unless it is record 0 the extent of its record reaches from `viewX` or before to
the last column of the segment or beyond. -/
structure PtrOk {F : Type} (seg : viswall_t F) (viewX : Int) (s : RenderState F) (p : Nat) :
    Prop where
  inPool : p < s.gpEndVisPlane
  extent : p ≠ 0 → (s.gVisPlanes p).minX ≤ viewX ∧ seg.rightX ≤ (s.gVisPlanes p).maxX

/-- The state `t` is later in the frame than `s`: the pool did not shrink, and every span of
a pool record that was defined in `s` is the same pair in `t`. -/
def DefinedKept {F : Type} (s t : RenderState F) : Prop :=
  s.gpEndVisPlane ≤ t.gpEndVisPlane ∧
    ∀ i, i < s.gpEndVisPlane → ∀ x, ((s.gVisPlanes i).cols x).isDefined = true →
      (t.gVisPlanes i).cols x = (s.gVisPlanes i).cols x

/-- The span assignment `w`, made at or after the state `s`, is a good one: its span is
`0 <= top <= bottom <= screenHeight - 1`, and it goes to a column that is undefined in its
record, a record of the pool. -/
structure WriteOk {F : Type} (s : RenderState F) (w : SpanWrite F) : Prop where
  topNonneg : 0 ≤ w.top
  ordered : w.top ≤ w.bottom
  bottomLt : w.bottom ≤ (w.before.gScreenHeight : Int) - 1
  height16 : w.before.gScreenHeight ≤ 65535
  height : w.before.gScreenHeight = s.gScreenHeight
  free : ((w.before.gVisPlanes w.record).cols w.column).isUndefined = true
  inPool : w.record < w.before.gpEndVisPlane
  later : DefinedKept s w.before

/-- The span assignments `ws` of a run from the state `s` to the state `t` are good ones, no
two of them go to the same column of the same record, and the plane table of `t` holds, at
the record and column of each, the pair `{ (uint16_t) top, (uint16_t) bottom }` of it. -/
structure WritesOk {F : Type} (s t : RenderState F) (ws : List (SpanWrite F)) : Prop where
  each : ∀ w ∈ ws, WriteOk s w
  distinct : ws.Pairwise fun a b => ¬ (a.record = b.record ∧ a.column = b.column)
  kept : DefinedKept s t
  height : t.gScreenHeight = s.gScreenHeight
  stored : ∀ w ∈ ws, w.record < t.gpEndVisPlane ∧
    (t.gVisPlanes w.record).cols w.column =
      { top := toU16 w.top, bottom := toU16 w.bottom }

/-- The span assignments of `segLoop` on `floorSeg` after the reset of the fresh frame. -/
def floorSegWrites : List (SpanWrite Int) :=
  segLoopPassWrites sampleConsts [(floorSeg, zeroVars)] (resetClipBounds freshState)

/-- The first of `floorSegWrites`: the floor span (38, 95) of column 0, stored in record 1. -/
def firstFloorWrite : SpanWrite Int :=
  floorSegWrites.headD { before := freshState, record := 0, column := 0, top := 0, bottom := 0 }

/-- The span assignments of `segLoop` on `ceilSeg` after the reset of the fresh frame. -/
def ceilSegWrites : List (SpanWrite Int) :=
  segLoopPassWrites sampleConsts [(ceilSeg, zeroVars)] (resetClipBounds freshState)

/-- The last of `ceilSegWrites`: the ceiling span (0, 37) of column 3, stored in record 1. -/
def lastCeilWrite : SpanWrite Int :=
  ceilSegWrites.getD 3
    { before := freshState, record := 0, column := 0, top := 0, bottom := 0 }

/-! ## The stepped screen Y of the two passes -/

/-- The locals of `drawSeg` after `n` passes of the body of its column loop, the first of them
for the column `viewX`. -/
def drawSegVarsAt {F : Type} [FloatWall F] (env : WallEnv F) (seg : viswall_t F) :
    Nat → Int → DrawSegVars F → DrawSegVars F
  | 0, _, v => v
  | n + 1, viewX, v => drawSegVarsAt env seg n (viewX + 1) (drawSegColumn env seg viewX v).2

/-- The local `y` of `segLoop` is the stepped screen Y of the world height `h`: one of
`floorY`, `ceilY`, `newFloorY`, `newCeilY`, under the action bit that assigns it, with `h` the
height of the segment it was set up from. -/
def SegLoopYFor {F : Type} (seg : viswall_t F) (v : SegLoopVars F) (h y : F) : Prop :=
  (hasBits seg.WallActions AC_ADDFLOOR = true ∧ h = seg.floorheight ∧ y = v.floorY) ∨
  (hasBits seg.WallActions AC_ADDCEILING = true ∧ h = seg.ceilingheight ∧ y = v.ceilY) ∨
  (hasBits seg.WallActions AC_NEWFLOOR = true ∧ h = seg.floornewheight ∧ y = v.newFloorY) ∨
  (hasBits seg.WallActions AC_NEWCEILING = true ∧ h = seg.ceilingnewheight ∧ y = v.newCeilY)

/-- The local `y` of `drawSeg` is the stepped screen Y of the world height `h`: one of
`topTexViewTY`, `topTexViewBY`, `bottomTexViewTY`, `bottomTexViewBY`, under the texture bit
that assigns it, with `h` the height of the segment it was set up from. -/
def DrawSegYFor {F : Type} (seg : viswall_t F) (v : DrawSegVars F) (h y : F) : Prop :=
  (hasBits seg.WallActions AC_TOPTEXTURE = true ∧ h = seg.t_topheight ∧ y = v.topTexViewTY) ∨
  (hasBits seg.WallActions AC_TOPTEXTURE = true ∧ h = seg.t_bottomheight ∧
    y = v.topTexViewBY) ∨
  (hasBits seg.WallActions AC_BOTTOMTEXTURE = true ∧ h = seg.b_topheight ∧
    y = v.bottomTexViewTY) ∨
  (hasBits seg.WallActions AC_BOTTOMTEXTURE = true ∧ h = seg.b_bottomheight ∧
    y = v.bottomTexViewBY)

/-- A segment over the columns 0..3 of the fresh frame that adds the ceiling at height 10 and
has a top texture from that height down to 4; its scale is 1 at column 0 and grows by 1 per
column. -/
def steppedSeg : viswall_t Int :=
  { plainSeg with
    WallActions := AC_ADDCEILING ||| AC_TOPTEXTURE, ScaleStep := 1
    ceilingheight := 10, t_topheight := 10, t_bottomheight := 4 }

/-- The globals after the columns 0 and 1 of `segLoop` on `steppedSeg` on the fresh frame:
record 1 was made for the ceiling, with the spans (0, 37) and (0, 27). -/
def steppedState : RenderState Int :=
  setPlaneCol
    (setPlaneCol
      { freshState with
        gVisPlanes := Function.update freshState.gVisPlanes 1
          { cols := fillCols zeroPlane.cols 0 (160 / 8)
            height := 10
            picHandle := 0
            planeLight := 0
            minX := 0
            maxX := 3 }
        gpEndVisPlane := 2 }
      1 0 { top := 0, bottom := 37 })
    1 1 { top := 0, bottom := 27 }

/-- The locals of `segLoop` after the columns 0 and 1 of `steppedSeg`. -/
def steppedVars : SegLoopVars Int :=
  { zeroVars with ceilYStep := -10, ceilY := 18, pCeilPlane := 1, columnScale := 3 }


/-! ## The audio loader of `Audio/AudioLoader.cpp`

Bytes are naturals below 256, a `double` is the natural below `2^64` that holds its 64 bits,
and a routine marked `THROWS` returns `none` when it throws. -/

/-- Reading of a byte as `int8_t`. -/
def toI8 (n : Nat) : Int :=
  if n % 256 < 128 then ((n % 256 : Nat) : Int) else ((n % 256 : Nat) : Int) - 256

/-- Conversion of a signed value to `int16_t`. -/
def toI16 (x : Int) : Int :=
  (x + 32768) % 65536 - 32768

/-- Conversion of a signed value to `uint64_t`. -/
def toU64 (x : Int) : Nat :=
  (x % 18446744073709551616).toNat

/-- The shift `x << n` of a `uint64_t`. -/
def shl64 (x n : Nat) : Nat :=
  (x <<< n) % 18446744073709551616

/-! ### SDX2 decoding -/

/-- The two statements of the single-channel loop of `readSdx2CompressedSoundData` that
compute `sample16` from the input byte and `prevSample`:
`(sample8 * (int16_t) std::abs(sample8)) << (int16_t) 1`, converted to `int16_t`, then
`sample16 += prevSample * int16_t(sample8 & int8_t(0x01))`. The operands are promoted to
`int`; the left shift by one doubles the value. -/
def sdx2MonoSample (prevSample : Int) (byte : Nat) : Int :=
  let sample8 : Int := toI8 byte
  let sample16 : Int := toI16 ((sample8 * toI16 |sample8|) * 2 ^ 1)
  toI16 (sample16 + prevSample * toI16 ((toU32 sample8 &&& toU32 (toI8 1) : Nat) : Int))

/-- The statements of the two-channel loop that compute the sample of one channel:
`(int16_t)((sample8 * (int16_t) std::abs(sample8)) * 2)`, then
`sample16 += prevSample * int16_t(sample8 & int8_t(0x01))`. -/
def sdx2StereoSample (prevSample : Int) (byte : Nat) : Int :=
  let sample8 : Int := toI8 byte
  let sample16 : Int := toI16 ((sample8 * toI16 |sample8|) * 2)
  toI16 (sample16 + prevSample * toI16 ((toU32 sample8 &&& toU32 (toI8 1) : Nat) : Int))

/-- The single-channel loop `while (pOutput < pEndOutput)`, with `n` samples left to write;
`pInput` is the input memory, `i` the offset of the next input byte in it. The result is the
list of the samples written, in order. -/
def sdx2MonoLoop (pInput : Nat → Nat) : Nat → Nat → Int → List Int
  | 0, _, _ => []
  | n + 1, i, prevSample =>
    let sample16 := sdx2MonoSample prevSample (pInput i)
    sample16 :: sdx2MonoLoop pInput n (i + 1) sample16

/-- The two-channel loop `while (pOutput < pEndOutput)`, with `n` rounds left; every round
reads two input bytes and writes two samples. -/
def sdx2StereoLoop (pInput : Nat → Nat) : Nat → Nat → Int → Int → List Int
  | 0, _, _, _ => []
  | n + 1, i, prevSampleL, prevSampleR =>
    let sampleL16 := sdx2StereoSample prevSampleL (pInput i)
    let sampleR16 := sdx2StereoSample prevSampleR (pInput (i + 1))
    sampleL16 :: sampleR16 :: sdx2StereoLoop pInput n (i + 2) sampleL16 sampleR16

/-- The decoding part of `readSdx2CompressedSoundData`: the samples written to the output for
`numChannelSamples` output samples. The two-channel loop advances by two samples a round, so
it makes `(numChannelSamples + 1) / 2` rounds. -/
def sdx2Decode (pInput : Nat → Nat) (numChannels numChannelSamples : Nat) : List Int :=
  if numChannels = 2 then sdx2StereoLoop pInput ((numChannelSamples + 1) / 2) 0 0 0
  else sdx2MonoLoop pInput numChannelSamples 0 0

/-- Two lists taken in turns, as the left and the right channel of an interleaved stream. -/
def interleave : List Int → List Int → List Int
  | l :: ls, r :: rs => l :: r :: interleave ls rs
  | _, _ => []


/-! ### Byte streams, byte order and the audio record -/

/-- Modelled from the spec: the class `ByteInputStream` (`Base/ByteInputStream.h`) is not part
of the sources at hand. It is taken as a block of bytes (`data`, the `size` bytes at the
pointer it was made from) with a read position `curByteIdx`; every operation that moves the
position past the end of the block throws and is `none` here. -/
structure ByteInputStream where
  data : List Nat
  curByteIdx : Nat
deriving DecidableEq

/-- Modelled from the spec: `ByteInputStream::hasBytesLeft`: the position is before the end. -/
def ByteInputStream.hasBytesLeft (s : ByteInputStream) : Bool :=
  decide (s.curByteIdx < s.data.length)

/-- Modelled from the spec: `ByteInputStream::getCurData`: the memory from the position on. -/
def ByteInputStream.getCurData (s : ByteInputStream) : List Nat :=
  s.data.drop s.curByteIdx

/-- Modelled from the spec: `ByteInputStream::consume(numBytes)`: skips `numBytes` bytes, and
throws when fewer are left. -/
def ByteInputStream.consume (s : ByteInputStream) (numBytes : Nat) : Option ByteInputStream :=
  if s.curByteIdx + numBytes ≤ s.data.length then
    some { s with curByteIdx := s.curByteIdx + numBytes }
  else none

/-- Modelled from the spec: `ByteInputStream::readBytes` and `ByteInputStream::read<T>`: the
next `numBytes` bytes, which are skipped; throws when fewer are left. -/
def ByteInputStream.readBytes (s : ByteInputStream) (numBytes : Nat) :
    Option (List Nat × ByteInputStream) :=
  if s.curByteIdx + numBytes ≤ s.data.length then
    some ((s.data.drop s.curByteIdx).take numBytes,
      { s with curByteIdx := s.curByteIdx + numBytes })
  else none

/-- Modelled from the spec: `ByteInputStream::align(numBytes)`: skips to the next position that
is a multiple of `numBytes`, and throws when that is past the end. -/
def ByteInputStream.align (s : ByteInputStream) (numBytes : Nat) : Option ByteInputStream :=
  if 2 ≤ numBytes ∧ s.curByteIdx % numBytes ≠ 0 then
    s.consume (numBytes - s.curByteIdx % numBytes)
  else some s

/-- The value of a `uint16_t` object whose two bytes in memory are `b`: the macro `BIG_ENDIAN`
(defined outside the sources at hand, a parameter here) says whether the host stores the high
byte first. -/
def hostU16 (BIG_ENDIAN : Nat) (b : List Nat) : Nat :=
  if BIG_ENDIAN = 1 then b.getD 0 0 * 256 + b.getD 1 0
  else b.getD 0 0 + b.getD 1 0 * 256

/-- The value of a `uint32_t` object whose four bytes in memory are `b`. -/
def hostU32 (BIG_ENDIAN : Nat) (b : List Nat) : Nat :=
  if BIG_ENDIAN = 1 then
    b.getD 0 0 * 16777216 + b.getD 1 0 * 65536 + b.getD 2 0 * 256 + b.getD 3 0
  else b.getD 0 0 + b.getD 1 0 * 256 + b.getD 2 0 * 65536 + b.getD 3 0 * 16777216

/-- The call `stream.read<uint8_t>()`. -/
def ByteInputStream.readU8 (s : ByteInputStream) : Option (Nat × ByteInputStream) :=
  (s.readBytes 1).map fun r => (r.1.getD 0 0, r.2)

/-- The call `stream.read<uint16_t>()`: the bytes are copied to the object as they are. -/
def ByteInputStream.readU16 (BIG_ENDIAN : Nat) (s : ByteInputStream) :
    Option (Nat × ByteInputStream) :=
  (s.readBytes 2).map fun r => (hostU16 BIG_ENDIAN r.1, r.2)

/-- The call `stream.read<uint32_t>()`: the bytes are copied to the object as they are. -/
def ByteInputStream.readU32 (BIG_ENDIAN : Nat) (s : ByteInputStream) :
    Option (Nat × ByteInputStream) :=
  (s.readBytes 4).map fun r => (hostU32 BIG_ENDIAN r.1, r.2)

/-- The routine `byteSwappedU16` of `Endian.h`. -/
def byteSwappedU16 (num : Nat) : Nat :=
  (((num &&& 0x00FF) <<< 8) ||| ((num &&& 0xFF00) >>> 8)) % 65536

/-- The routine `byteSwappedU32` of `Endian.h`. -/
def byteSwappedU32 (num : Nat) : Nat :=
  (((num &&& 0x000000FF) <<< 24) ||| ((num &&& 0x0000FF00) <<< 8) |||
    ((num &&& 0x00FF0000) >>> 8) ||| ((num &&& 0xFF000000) >>> 24)) % 4294967296

/-- Modelled from the spec: `Endian::bigToHost` for `uint16_t` (`Base/Endian.h` is not part of
the sources at hand): the bytes are swapped unless the host is big endian. -/
def bigToHost16 (BIG_ENDIAN : Nat) (num : Nat) : Nat :=
  if BIG_ENDIAN = 1 then num else byteSwappedU16 num

/-- Modelled from the spec: `Endian::bigToHost` and `Endian::convertBigToHost` for `uint32_t`:
the bytes are swapped unless the host is big endian. -/
def bigToHost32 (BIG_ENDIAN : Nat) (num : Nat) : Nat :=
  if BIG_ENDIAN = 1 then num else byteSwappedU32 num

/-- The buffer behind `AudioData::pBuffer`: no buffer, a buffer of bytes, or a buffer that was
written as `int16_t` samples. -/
inductive SoundBuffer where
  | null
  | bytes (data : List Nat)
  | samples16 (data : List Int)
deriving DecidableEq

/-- Modelled from the spec: the record `AudioData` (`AudioData.h`) is not part of the sources
at hand; these are the fields `AudioLoader.cpp` uses. -/
structure AudioData where
  pBuffer : SoundBuffer
  bufferSize : Nat
  numSamples : Nat
  sampleRate : Nat
  numChannels : Nat
  bitDepth : Nat
deriving DecidableEq

/-- Modelled from the spec: `AudioData::clear`: the buffer is freed and every field is zero. -/
def AudioData.clear (_a : AudioData) : AudioData :=
  { pBuffer := SoundBuffer.null, bufferSize := 0, numSamples := 0, sampleRate := 0
    numChannels := 0, bitDepth := 0 }

/-- Modelled from the spec: `AudioData::allocBuffer(size)`: the record gets a new buffer of
`size` bytes (written as zeros here; the loader overwrites all of them). -/
def AudioData.allocBuffer (a : AudioData) (size : Nat) : AudioData :=
  { a with pBuffer := SoundBuffer.bytes (List.replicate size 0), bufferSize := size }

/-- How a routine of the loader that works on the audio record ends: it returns a `bool`, or
it throws; either way the record is as the routine left it. -/
inductive AudioRun where
  | returned (audioData : AudioData) (result : Bool)
  | threw (audioData : AudioData)
deriving DecidableEq

/-! ### Chunks -/

/-- The routine `makeIffId`, on the codes of the four characters. -/
def makeIffId (c0 c1 c2 c3 : Nat) : Nat :=
  ((c0 % 256) <<< 0 ||| (c1 % 256) <<< 8 ||| (c2 % 256) <<< 16 ||| (c3 % 256) <<< 24) %
    4294967296

/-- The id `makeIffId("FORM")`. -/
def ID_FORM : Nat := makeIffId 70 79 82 77

/-- The id `makeIffId("AIFF")`. -/
def ID_AIFF : Nat := makeIffId 65 73 70 70

/-- The id `makeIffId("AIFC")`. -/
def ID_AIFC : Nat := makeIffId 65 73 70 67

/-- The id `makeIffId("COMM")`. -/
def ID_COMM : Nat := makeIffId 67 79 77 77

/-- The id `makeIffId("SSND")`. -/
def ID_SSND : Nat := makeIffId 83 83 78 68

/-- The id `makeIffId("NONE")`. -/
def ID_NONE : Nat := makeIffId 78 79 78 69

/-- The id `makeIffId("SDX2")`. -/
def ID_SDX2 : Nat := makeIffId 83 68 88 50

/-- The record `IffChunk`; `pData` is the memory from the pointer on. -/
structure IffChunk where
  id : Nat
  dataSize : Nat
  pData : List Nat
deriving DecidableEq

/-- The method `IffChunk::toStream`: `ByteInputStream(pData, dataSize)`. -/
def IffChunk.toStream (c : IffChunk) : ByteInputStream :=
  { data := c.pData.take c.dataSize, curByteIdx := 0 }

/-- The routine `readIffChunk`: the chunk read and the stream after it. The header is read as
it is in memory and its `dataSize` is then converted from big endian. -/
def readIffChunk (BIG_ENDIAN : Nat) (stream : ByteInputStream) :
    Option (IffChunk × ByteInputStream) :=
  match stream.readBytes 8 with
  | none => none
  | some (header, s1) =>
    let headerId : Nat := hostU32 BIG_ENDIAN (header.take 4)
    let headerDataSize : Nat := bigToHost32 BIG_ENDIAN (hostU32 BIG_ENDIAN (header.drop 4))
    let chunk : IffChunk := { id := headerId, dataSize := headerDataSize, pData := s1.getCurData }
    match s1.consume chunk.dataSize with
    | none => none
    | some s2 =>
      match s2.align 2 with
      | none => none
      | some s3 => some (chunk, s3)

/-- The loop `while (stream.hasBytesLeft()) { ...; readIffChunk(chunk, stream); }` with `fuel`
rounds allowed: the outer `none` says that the rounds did not suffice, the inner one that
`readIffChunk` threw. -/
def readIffChunksLoop (BIG_ENDIAN : Nat) :
    Nat → ByteInputStream → List IffChunk → Option (Option (List IffChunk × ByteInputStream))
  | 0, stream, chunks => if stream.hasBytesLeft then none else some (some (chunks, stream))
  | fuel + 1, stream, chunks =>
    if stream.hasBytesLeft then
      match readIffChunk BIG_ENDIAN stream with
      | none => some none
      | some (chunk, s1) => readIffChunksLoop BIG_ENDIAN fuel s1 (chunks ++ [chunk])
    else some (some (chunks, stream))

/-- The routine `findIffChunkWithId`: the first chunk with the id, if any. -/
def findIffChunkWithId (id : Nat) : List IffChunk → Option IffChunk
  | [] => none
  | chunk :: rest => if chunk.id = id then some chunk else findIffChunkWithId id rest

/-- The routine `findAiffFormChunk`: the first `FORM` chunk of at least four bytes whose first
four bytes, read as they are in memory, are the id `AIFF` or `AIFC`. -/
def findAiffFormChunk (BIG_ENDIAN : Nat) : List IffChunk → Option IffChunk
  | [] => none
  | chunk :: rest =>
    if chunk.id = ID_FORM ∧ chunk.dataSize ≥ 4 ∧
        (hostU32 BIG_ENDIAN (chunk.pData.take 4) = ID_AIFF ∨
          hostU32 BIG_ENDIAN (chunk.pData.take 4) = ID_AIFC) then
      some chunk
    else findAiffFormChunk BIG_ENDIAN rest


/-! ### The 80-bit float and the FORM chunk -/

/-- The loop of `readBigEndianExtendedFloat` that fills `bytes[0 .. 9]`, with `n` reads left.
With `BIG_ENDIAN == 1` the loop counts up (the next index is `9 - (n - 1)`), otherwise it
counts down (the next index is `n - 1`). -/
def readExtendedBytesLoop (BIG_ENDIAN : Nat) :
    Nat → ByteInputStream → (Nat → Nat) → Option ((Nat → Nat) × ByteInputStream)
  | 0, stream, bytes => some (bytes, stream)
  | n + 1, stream, bytes =>
    match stream.readU8 with
    | none => none
    | some (b, s1) =>
      readExtendedBytesLoop BIG_ENDIAN n s1
        (Function.update bytes (if BIG_ENDIAN = 1 then 9 - n else n) b)

/-- The bits of `std::numeric_limits<double>::infinity()`. -/
def DOUBLE_INFINITY : Nat := 0x7FF0000000000000

/-- The bits of `-std::numeric_limits<double>::infinity()`. -/
def DOUBLE_NEG_INFINITY : Nat := 0xFFF0000000000000

/-- The part of `readBigEndianExtendedFloat` after the bytes were read: the 64 bits of the
`double` it returns (`BitCast<double>` hands the bits on as they are). `int16_t` operands are
promoted to `int`, so `|` and `+` are those of `int`. -/
def extendedFloatBits (bytes : Nat → Nat) : Nat :=
  let integerPartSet : Bool := (bytes 7 &&& 0x80) != 0
  let sign : Bool := (bytes 9 &&& 0x80) != 0
  let unbiasedExponent : Int :=
    toI16
      (toI32
          (toU32 (toI16 ((((bytes 9 &&& toU32 (toI16 0x7F)) <<< 8 : Nat)) : Int)) |||
            toU32 (toI16 ((bytes 8 : Nat) : Int))) +
        (if integerPartSet then toI16 0 else toI16 (-1)))
  let exponent : Int := toI16 (unbiasedExponent - toI16 0x3FFF)
  let fraction : Nat :=
    shl64 (bytes 7 &&& 0x7F) 57 ||| shl64 (bytes 6) 49 ||| shl64 (bytes 5) 41 |||
      shl64 (bytes 4) 33 ||| shl64 (bytes 3) 25 ||| shl64 (bytes 2) 17 |||
      shl64 (bytes 1) 9 ||| shl64 (bytes 0) 1
  if exponent > 1023 then
    if sign then DOUBLE_INFINITY else DOUBLE_NEG_INFINITY
  else if exponent < -1022 then 0
  else
    (if sign then 0x8000000000000000 else 0) |||
      shl64 (toU64 (exponent + 1023) &&& 0x7FF) 52 ||| (fraction >>> 12)

/-- The routine `readBigEndianExtendedFloat`: the bits of the `double` and the stream after
the ten bytes. -/
def readBigEndianExtendedFloat (BIG_ENDIAN : Nat) (stream : ByteInputStream) :
    Option (Nat × ByteInputStream) :=
  (readExtendedBytesLoop BIG_ENDIAN 10 stream (fun _ => 0)).map fun r =>
    (extendedFloatBits r.1, r.2)

/-- The routine `readRawSoundData`. Its `ASSERT` holds at its one call. -/
def readRawSoundData (stream : ByteInputStream) (audioData : AudioData) : AudioRun :=
  let bytesPerSample : Nat := if audioData.bitDepth = 8 then 1 else 2
  let soundDataSize : Nat :=
    (bytesPerSample * audioData.numSamples * audioData.numChannels) % 4294967296
  let a1 := audioData.allocBuffer soundDataSize
  match stream.readBytes soundDataSize with
  | none => AudioRun.threw a1
  | some (data, _) => AudioRun.returned { a1 with pBuffer := SoundBuffer.bytes data } true

/-- The routine `readSdx2CompressedSoundData`. -/
def readSdx2CompressedSoundData (stream : ByteInputStream) (audioData : AudioData) :
    AudioRun :=
  if audioData.bitDepth ≠ 16 then AudioRun.returned audioData false
  else if audioData.numChannels ≠ 1 ∧ audioData.numChannels ≠ 2 then
    AudioRun.returned audioData false
  else
    let bufferSize : Nat := (audioData.numSamples * audioData.numChannels * 2) % 4294967296
    let a1 := audioData.allocBuffer bufferSize
    let numSamples : Nat := a1.numSamples
    let numChannels : Nat := a1.numChannels
    let numChannelSamples : Nat := (numSamples * numChannels) % 4294967296
    let pInput : List Nat := stream.getCurData
    match stream.consume numChannelSamples with
    | none => AudioRun.threw a1
    | some _ =>
      AudioRun.returned
        { a1 with
          pBuffer :=
            SoundBuffer.samples16
              (sdx2Decode (fun i => pInput.getD i 0) numChannels numChannelSamples) }
        true

/-- The file format fields that `readFormChunk` reads from the common chunk. -/
structure CommonInfo where
  numChannels : Nat
  numSamples : Nat
  bitDepth : Nat
  sampleRate : Nat
  compressionType : Nat
deriving DecidableEq

/-- The block of `readFormChunk` that reads the common chunk. `toUInt32` is the conversion
`(uint32_t) d` of a `double` given by its bits. -/
def readCommonChunk (BIG_ENDIAN : Nat) (toUInt32 : Nat → Nat) (commonStream : ByteInputStream)
    (bIsAifc : Bool) : Option CommonInfo :=
  match commonStream.readU16 BIG_ENDIAN with
  | none => none
  | some (v1, s1) =>
    match s1.readU32 BIG_ENDIAN with
    | none => none
    | some (v2, s2) =>
      match s2.readU16 BIG_ENDIAN with
      | none => none
      | some (v3, s3) =>
        match readBigEndianExtendedFloat BIG_ENDIAN s3 with
        | none => none
        | some (d, s4) =>
          let numChannels := bigToHost16 BIG_ENDIAN v1
          let numSamples := bigToHost32 BIG_ENDIAN v2
          let bitDepth := bigToHost16 BIG_ENDIAN v3
          let sampleRate := toUInt32 d
          if bIsAifc then
            match s4.readU32 BIG_ENDIAN with
            | none => none
            | some (compressionType, _) =>
              some { numChannels := numChannels, numSamples := numSamples
                     bitDepth := bitDepth, sampleRate := sampleRate
                     compressionType := compressionType }
          else
            some { numChannels := numChannels, numSamples := numSamples, bitDepth := bitDepth
                   sampleRate := sampleRate, compressionType := ID_NONE }

/-- The part of `readFormChunk` from the sanity checks on. -/
def readFormSound (info : CommonInfo) (pSoundChunk : IffChunk) (audioData : AudioData) :
    AudioRun :=
  if info.numChannels ≠ 1 ∧ info.numChannels ≠ 2 then AudioRun.returned audioData false
  else if info.bitDepth ≠ 8 ∧ info.bitDepth ≠ 16 then AudioRun.returned audioData false
  else if info.sampleRate ≤ 0 then AudioRun.returned audioData false
  else
    let a1 : AudioData :=
      { audioData with
        numSamples := info.numSamples
        sampleRate := info.sampleRate
        numChannels := info.numChannels
        bitDepth := info.bitDepth }
    let soundChunkStream := pSoundChunk.toStream
    if info.compressionType = ID_NONE then readRawSoundData soundChunkStream a1
    else if info.compressionType = ID_SDX2 then readSdx2CompressedSoundData soundChunkStream a1
    else AudioRun.returned a1 false

/-- The routine `readFormChunk`; `none` says that the rounds allowed to the chunk loop (one for
each byte of the chunk) did not suffice. -/
def readFormChunk (BIG_ENDIAN : Nat) (toUInt32 : Nat → Nat) (formChunk : IffChunk)
    (audioData : AudioData) : Option AudioRun :=
  let formStream := formChunk.toStream
  match formStream.readU32 BIG_ENDIAN with
  | none => some (AudioRun.threw audioData)
  | some (formType, s1) =>
    if formType ≠ ID_AIFF ∧ formType ≠ ID_AIFC then some (AudioRun.returned audioData false)
    else
      let bIsAifc : Bool := decide (formType = ID_AIFC)
      match readIffChunksLoop BIG_ENDIAN s1.data.length s1 [] with
      | none => none
      | some none => some (AudioRun.threw audioData)
      | some (some (chunks, _)) =>
        match findIffChunkWithId ID_COMM chunks, findIffChunkWithId ID_SSND chunks with
        | some pCommonChunk, some pSoundChunk =>
          match readCommonChunk BIG_ENDIAN toUInt32 pCommonChunk.toStream bIsAifc with
          | none => some (AudioRun.threw audioData)
          | some info => some (readFormSound info pSoundChunk audioData)
        | _, _ => some (AudioRun.returned audioData false)

/-- The `try` block of `AudioLoader::loadFromBuffer` with its `catch (...)`: the value of
`bLoadedSuccessfully` and the audio record after it. -/
def loadFromBufferTry (BIG_ENDIAN : Nat) (toUInt32 : Nat → Nat) (stream : ByteInputStream)
    (audioData : AudioData) : Option (Bool × AudioData) :=
  match readIffChunksLoop BIG_ENDIAN stream.data.length stream [] with
  | none => none
  | some none => some (false, audioData)
  | some (some (rootChunks, _)) =>
    match findAiffFormChunk BIG_ENDIAN rootChunks with
    | none => some (false, audioData)
    | some formChunk =>
      match readFormChunk BIG_ENDIAN toUInt32 formChunk audioData with
      | none => none
      | some (AudioRun.threw a1) => some (false, a1)
      | some (AudioRun.returned a1 result) => some (result, a1)

/-- The routine `AudioLoader::loadFromBuffer(pBuffer, bufferSize, audioData)`: the value it
returns and the audio record after it; `none` says that the rounds allowed to a chunk loop did
not suffice. -/
def loadFromBuffer (BIG_ENDIAN : Nat) (toUInt32 : Nat → Nat) (pBuffer : List Nat)
    (bufferSize : Nat) (audioData : AudioData) : Option (Bool × AudioData) :=
  let stream : ByteInputStream := { data := pBuffer.take bufferSize, curByteIdx := 0 }
  match loadFromBufferTry BIG_ENDIAN toUInt32 stream audioData with
  | none => none
  | some (bLoadedSuccessfully, a1) =>
    if !bLoadedSuccessfully then some (bLoadedSuccessfully, a1.clear)
    else some (bLoadedSuccessfully, a1)


/-! ### Notions used to state the properties of the audio loader -/

/-- The sign bit of the 80-bit extended value whose ten bytes are `b`, the first byte (the one
with the sign) first. -/
def extendedSignBit (b : List Nat) : Nat :=
  b.getD 0 0 / 128

/-- The 15-bit exponent field of the 80-bit extended value with the bytes `b`. -/
def extendedExponentField (b : List Nat) : Nat :=
  (b.getD 0 0 % 128) * 256 + b.getD 1 0

/-- The explicit integer bit of the 80-bit extended value with the bytes `b`. -/
def extendedIntegerBit (b : List Nat) : Nat :=
  b.getD 2 0 / 128

/-- The 63-bit fraction of the 80-bit extended value with the bytes `b`. -/
def extendedFraction (b : List Nat) : Nat :=
  (b.getD 2 0 % 128) * 2 ^ 56 + b.getD 3 0 * 2 ^ 48 + b.getD 4 0 * 2 ^ 40 +
    b.getD 5 0 * 2 ^ 32 + b.getD 6 0 * 2 ^ 24 + b.getD 7 0 * 2 ^ 16 + b.getD 8 0 * 2 ^ 8 +
    b.getD 9 0

/-- The exponent of the 80-bit extended value with the bytes `b`: the field minus 16383. -/
def extendedExponent (b : List Nat) : Int :=
  (extendedExponentField b : Int) - 16383

/-- The number that the 80-bit extended value with the bytes `b` stands for when its integer
bit is set: `(-1)^sign * (1 + fraction / 2^63) * 2^exponent`. -/
def extendedValue (b : List Nat) : ℚ :=
  (-1) ^ extendedSignBit b * (1 + (extendedFraction b : ℚ) / 2 ^ 63) *
    (2 : ℚ) ^ extendedExponent b

/-- The 64 bits of the IEEE double with the sign bit `sign`, the biased exponent
`biasedExponent` (11 bits) and the mantissa `mantissa` (52 bits). -/
def doubleOfFields (sign biasedExponent mantissa : Nat) : Nat :=
  sign * 2 ^ 63 + biasedExponent * 2 ^ 52 + mantissa

/-- The number that a normal IEEE double with the 64 bits `bits` stands for:
`(-1)^sign * (1 + mantissa / 2^52) * 2^(biasedExponent - 1023)`. -/
def doubleValue (bits : Nat) : ℚ :=
  (-1) ^ (bits / 2 ^ 63) * (1 + ((bits % 2 ^ 52 : Nat) : ℚ) / 2 ^ 52) *
    (2 : ℚ) ^ (((bits / 2 ^ 52 % 2048 : Nat) : Int) - 1023)

/-- The ten bytes `40 0E AC 44 00 00 00 00 00 00`: the sample rate 44100 as an 80-bit extended
value. -/
def rate44100 : List Nat :=
  [0x40, 0x0E, 0xAC, 0x44, 0, 0, 0, 0, 0, 0]

/-- A conversion `(uint32_t) d` for the examples: the integral part of a positive normal
double below `2^32`, and 0 for every other `double`. -/
def truncToUInt32 (bits : Nat) : Nat :=
  let biasedExponent := bits / 2 ^ 52 % 2048
  if bits / 2 ^ 63 = 0 ∧ 1023 ≤ biasedExponent ∧ biasedExponent < 1055 then
    (2 ^ 52 + bits % 2 ^ 52) * 2 ^ (biasedExponent - 1023) / 2 ^ 52
  else 0

/-- The buffer holds a sound in the form `loadFromBuffer` reads, with the format fields `info`:
its root chunks can be read and one of them is a `FORM` chunk of the type `AIFF` or `AIFC`,
the chunks inside that one can be read and among them are a `COMM` and an `SSND` chunk, and
the fields of the `COMM` chunk can be read and are `info`. -/
def HoldsSound (BIG_ENDIAN : Nat) (toUInt32 : Nat → Nat) (pBuffer : List Nat)
    (bufferSize : Nat) (info : CommonInfo) : Prop :=
  ∃ (rootChunks : List IffChunk) (rest : ByteInputStream) (formChunk : IffChunk)
    (formType : Nat) (formStream : ByteInputStream) (subChunks : List IffChunk)
    (rest2 : ByteInputStream) (commonChunk soundChunk : IffChunk),
    readIffChunksLoop BIG_ENDIAN (pBuffer.take bufferSize).length
        { data := pBuffer.take bufferSize, curByteIdx := 0 } [] =
      some (some (rootChunks, rest)) ∧
    formChunk ∈ rootChunks ∧ formChunk.id = ID_FORM ∧
    formChunk.toStream.readU32 BIG_ENDIAN = some (formType, formStream) ∧
    (formType = ID_AIFF ∨ formType = ID_AIFC) ∧
    readIffChunksLoop BIG_ENDIAN formStream.data.length formStream [] =
      some (some (subChunks, rest2)) ∧
    commonChunk ∈ subChunks ∧ commonChunk.id = ID_COMM ∧
    soundChunk ∈ subChunks ∧ soundChunk.id = ID_SSND ∧
    readCommonChunk BIG_ENDIAN toUInt32 commonChunk.toStream (decide (formType = ID_AIFC)) =
      some info

/-- An audio record with no buffer and all fields zero. -/
def emptyAudio : AudioData :=
  { pBuffer := SoundBuffer.null, bufferSize := 0, numSamples := 0, sampleRate := 0
    numChannels := 0, bitDepth := 0 }

/-- A small AIFF file of 48 bytes: a `FORM` chunk of the type `AIFF` that holds a `COMM` chunk
(1 channel, 2 samples, 8 bits, 44100 Hz) and an `SSND` chunk with the two bytes `11 22`. -/
def sampleAiff : List Nat :=
  [70, 79, 82, 77, 0, 0, 0, 40, 65, 73, 70, 70,
   67, 79, 77, 77, 0, 0, 0, 18, 0, 1, 0, 0, 0, 2, 0, 8,
   0x40, 0x0E, 0xAC, 0x44, 0, 0, 0, 0, 0, 0,
   83, 83, 78, 68, 0, 0, 0, 2, 0x11, 0x22]

/-- A small AIFF-C file of 52 bytes like `sampleAiff`, but with the compression type `SDX2`
after the sample rate: the format fields pass the checks, and the SDX2 reader then refuses
the bit depth 8. -/
def sampleAifcDepth8 : List Nat :=
  [70, 79, 82, 77, 0, 0, 0, 44, 65, 73, 70, 67,
   67, 79, 77, 77, 0, 0, 0, 22, 0, 1, 0, 0, 0, 2, 0, 8,
   0x40, 0x0E, 0xAC, 0x44, 0, 0, 0, 0, 0, 0, 83, 68, 88, 50,
   83, 83, 78, 68, 0, 0, 0, 2, 0x11, 0x22]

/-- The file `sampleAiff` cut off after 47 bytes: the `FORM` chunk says it has 40 bytes of
data, and 39 are left. -/
def sampleAiffCut : List Nat :=
  sampleAiff.take 47

/-- The audio record after `sampleAiff` was loaded. -/
def sampleAiffLoaded : AudioData :=
  { pBuffer := SoundBuffer.bytes [0x11, 0x22], bufferSize := 2, numSamples := 2
    sampleRate := 44100, numChannels := 1, bitDepth := 8 }


/-! ## The joypad mapping of `Doom_Main.cpp` -/

/-- The button constants `PadA`, `PadB`, `PadC` and the globals `PadSpeed`, `PadAttack`,
`PadUse` that hold the local bindings, all of them `uint32_t`. They are declared outside the
sources at hand, so they are parameters. -/
structure PadBits where
  PadA : Nat
  PadB : Nat
  PadC : Nat
  PadSpeed : Nat
  PadAttack : Nat
  PadUse : Nat

/-- The complement `~x` of a `uint32_t` value `x`. -/
def notU32 (x : Nat) : Nat :=
  4294967295 ^^^ x

/-- The routine `LocalToNet(cmd)`. -/
def LocalToNet (p : PadBits) (cmd : Nat) : Nat :=
  let NewCmd0 : Nat := 0
  let NewCmd1 : Nat := if cmd &&& p.PadSpeed ≠ 0 then p.PadA else NewCmd0
  let NewCmd2 : Nat := if cmd &&& p.PadAttack ≠ 0 then NewCmd1 ||| p.PadB else NewCmd1
  let NewCmd3 : Nat := if cmd &&& p.PadUse ≠ 0 then NewCmd2 ||| p.PadC else NewCmd2
  (cmd &&& notU32 (p.PadA ||| p.PadB ||| p.PadC)) ||| NewCmd3

/-- The routine `NetToLocal(cmd)`. -/
def NetToLocal (p : PadBits) (cmd : Nat) : Nat :=
  let NewCmd0 : Nat := 0
  let NewCmd1 : Nat := if cmd &&& p.PadA ≠ 0 then p.PadSpeed else NewCmd0
  let NewCmd2 : Nat := if cmd &&& p.PadB ≠ 0 then NewCmd1 ||| p.PadAttack else NewCmd1
  let NewCmd3 : Nat := if cmd &&& p.PadC ≠ 0 then NewCmd2 ||| p.PadUse else NewCmd2
  (cmd &&& notU32 (p.PadA ||| p.PadB ||| p.PadC)) ||| NewCmd3

/-- Button bits 4, 5 and 6 with the bindings speed = C, attack = A, use = B. -/
def samplePads : PadBits :=
  { PadA := 16, PadB := 32, PadC := 64, PadSpeed := 64, PadAttack := 16, PadUse := 32 }


/-! ## Lemmas on findPlane -/

theorem planeMatches_iff {F : Type} [FloatLike F] (p : visplane_t F) (height : F)
    (picHandle : Nat) (start : Int) (light : Nat) :
    planeMatches p height picHandle start light = true ↔
      height = p.height ∧ picHandle = p.picHandle ∧ light = p.planeLight ∧
        (p.cols start).isUndefined = true := by
  simp [planeMatches, and_assoc]

theorem findPlaneScan_some {F : Type} [FloatLike F] (planes : Nat → visplane_t F) (height : F)
    (picHandle : Nat) (start : Int) (light : Nat) (n : Nat) :
    ∀ (p j : Nat), findPlaneScan planes height picHandle start light p n = some j →
      p ≤ j ∧ j < p + n ∧ planeMatches (planes j) height picHandle start light = true ∧
        ∀ m, p ≤ m → m < j → planeMatches (planes m) height picHandle start light = false := by
  induction n with
  | zero => intro p j h; simp [findPlaneScan] at h
  | succ n ih =>
    intro p j h
    unfold findPlaneScan at h
    by_cases hm : planeMatches (planes p) height picHandle start light = true
    · rw [if_pos hm] at h
      have hj : p = j := by simpa using h
      subst hj
      exact ⟨le_refl _, by omega, hm, fun m h1 h2 => by omega⟩
    · rw [if_neg hm] at h
      obtain ⟨h1, h2, h3, h4⟩ := ih (p + 1) j h
      refine ⟨by omega, by omega, h3, fun m hm1 hm2 => ?_⟩
      by_cases hmp : m = p
      · subst hmp; simpa using hm
      · exact h4 m (by omega) hm2

theorem findPlaneScan_none {F : Type} [FloatLike F] (planes : Nat → visplane_t F) (height : F)
    (picHandle : Nat) (start : Int) (light : Nat) (n : Nat) :
    ∀ (p : Nat), findPlaneScan planes height picHandle start light p n = none ↔
      ∀ m, p ≤ m → m < p + n → planeMatches (planes m) height picHandle start light = false := by
  induction n with
  | zero => intro p; simp [findPlaneScan]; intro m h1 h2; omega
  | succ n ih =>
    intro p
    unfold findPlaneScan
    by_cases hm : planeMatches (planes p) height picHandle start light = true
    · rw [if_pos hm]
      simp only [reduceCtorEq, false_iff]
      intro h
      have := h p (le_refl _) (by omega)
      rw [hm] at this; exact absurd this (by decide)
    · rw [if_neg hm, ih (p + 1)]
      constructor
      · intro h m h1 h2
        by_cases hmp : m = p
        · subst hmp; simpa using hm
        · exact h m (by omega) (by omega)
      · intro h m h1 h2
        exact h m (by omega) (by omega)

theorem findPlaneScan_eq_none_iff {F : Type} [FloatLike F] (s : RenderState F) (plane : Nat)
    (height : F) (picHandle : Nat) (start : Int) (light : Nat) :
    findPlaneScan s.gVisPlanes height picHandle start light (plane + 1)
        (s.gpEndVisPlane - (plane + 1)) = none ↔
      noPlaneMatches s plane height picHandle start light := by
  rw [findPlaneScan_none]
  constructor
  · intro h m h1 h2; exact h m (by omega) (by omega)
  · intro h m h1 h2; exact h m (by omega) (by omega)

/-- What `findPlane` does when the scan stops at the record `j`. -/
theorem findPlane_of_scan_some {F : Type} [FloatLike F] (cfg : RendererConsts F)
    (s : RenderState F) (plane : Nat) (height : F) (picHandle : Nat) (start stop : Int)
    (light : Nat) (j : Nat)
    (h : findPlaneScan s.gVisPlanes height picHandle start light (plane + 1)
        (s.gpEndVisPlane - (plane + 1)) = some j) :
    findPlane cfg s plane height picHandle start stop light =
      .done { s with gVisPlanes :=
                Function.update s.gVisPlanes j (widenPlane (s.gVisPlanes j) start stop) } j := by
  unfold findPlane; rw [h]

/-- What `findPlane` does when the scan finds nothing. -/
theorem findPlane_of_scan_none {F : Type} [FloatLike F] (cfg : RendererConsts F)
    (s : RenderState F) (plane : Nat) (height : F) (picHandle : Nat) (start stop : Int)
    (light : Nat)
    (h : findPlaneScan s.gVisPlanes height picHandle start light (plane + 1)
        (s.gpEndVisPlane - (plane + 1)) = none) :
    findPlane cfg s plane height picHandle start stop light =
      if s.gpEndVisPlane < cfg.MAXVISPLANES then
        .done { s with
                  gVisPlanes := Function.update s.gVisPlanes s.gpEndVisPlane
                    { cols := fillCols (s.gVisPlanes s.gpEndVisPlane).cols 0 (s.gScreenWidth / 8)
                      height := height
                      picHandle := picHandle
                      planeLight := light
                      minX := start
                      maxX := stop }
                  gpEndVisPlane := s.gpEndVisPlane + 1 } s.gpEndVisPlane
      else .fatal "No more visplanes!" s := by
  unfold findPlane; rw [h]

theorem widenPlane_minX {F : Type} (p : visplane_t F) (start stop : Int) :
    (widenPlane p start stop).minX = min p.minX start := by
  unfold widenPlane
  by_cases h1 : start < p.minX <;> by_cases h2 : stop > p.maxX <;>
    simp [h1, h2, min_def] <;> omega

theorem widenPlane_maxX {F : Type} (p : visplane_t F) (start stop : Int) :
    (widenPlane p start stop).maxX = max p.maxX stop := by
  unfold widenPlane
  by_cases h1 : start < p.minX <;> by_cases h2 : stop > p.maxX <;>
    simp [h1, h2, max_def] <;> omega

theorem widenPlane_rest {F : Type} (p : visplane_t F) (start stop : Int) :
    (widenPlane p start stop).cols = p.cols ∧ (widenPlane p start stop).height = p.height ∧
      (widenPlane p start stop).picHandle = p.picHandle ∧
      (widenPlane p start stop).planeLight = p.planeLight := by
  unfold widenPlane
  by_cases h1 : start < p.minX <;> by_cases h2 : stop > p.maxX <;> simp [h1, h2]

theorem fillEight_apply (cols : Int → ScreenYPair) (pSet x : Int) :
    fillEight cols pSet x =
      if pSet ≤ x ∧ x < pSet + 8 then { top := UINT16_MAX, bottom := 0 } else cols x := by
  unfold fillEight
  simp only [Function.update_apply]
  by_cases h : pSet ≤ x ∧ x < pSet + 8
  · rw [if_pos h]
    have : x = pSet + 0 ∨ x = pSet + 1 ∨ x = pSet + 2 ∨ x = pSet + 3 ∨ x = pSet + 4 ∨
        x = pSet + 5 ∨ x = pSet + 6 ∨ x = pSet + 7 := by omega
    rcases this with h | h | h | h | h | h | h | h <;> simp [h]
  · rw [if_neg h]
    have h0 : x ≠ pSet := by omega
    have h1 : x ≠ pSet + 1 := by omega
    have h2 : x ≠ pSet + 2 := by omega
    have h3 : x ≠ pSet + 3 := by omega
    have h4 : x ≠ pSet + 4 := by omega
    have h5 : x ≠ pSet + 5 := by omega
    have h6 : x ≠ pSet + 6 := by omega
    have h7 : x ≠ pSet + 7 := by omega
    simp [h0, h1, h2, h3, h4, h5, h6, h7]

theorem fillCols_apply (j : Nat) :
    ∀ (cols : Int → ScreenYPair) (pSet x : Int),
      fillCols cols pSet j x =
        if pSet ≤ x ∧ x < pSet + 8 * (j : Int) then { top := UINT16_MAX, bottom := 0 }
        else cols x := by
  induction j with
  | zero =>
    intro cols pSet x
    have : ¬ (pSet ≤ x ∧ x < pSet + 8 * ((0 : Nat) : Int)) := by omega
    rw [if_neg this]; rfl
  | succ j ih =>
    intro cols pSet x
    unfold fillCols
    rw [ih, fillEight_apply]
    by_cases h1 : pSet + 8 ≤ x ∧ x < pSet + 8 + 8 * (j : Int)
    · have h2 : pSet ≤ x ∧ x < pSet + 8 * ((j + 1 : Nat) : Int) := by
        push_cast; omega
      rw [if_pos h1, if_pos h2]
    · rw [if_neg h1]
      by_cases h3 : pSet ≤ x ∧ x < pSet + 8
      · have h2 : pSet ≤ x ∧ x < pSet + 8 * ((j + 1 : Nat) : Int) := by
          push_cast; omega
        rw [if_pos h3, if_pos h2]
      · have h2 : ¬ (pSet ≤ x ∧ x < pSet + 8 * ((j + 1 : Nat) : Int)) := by
          push_cast; omega
        rw [if_neg h3, if_neg h2]

theorem planeMatches_eq_true_iff {F : Type} [FloatLike F] (p : visplane_t F) (height : F)
    (picHandle : Nat) (start : Int) (light : Nat) :
    planeMatches p height picHandle start light = true ↔
      IsCandidate p height picHandle start light :=
  planeMatches_iff p height picHandle start light

theorem planeMatches_eq_false_iff {F : Type} [FloatLike F] (p : visplane_t F) (height : F)
    (picHandle : Nat) (start : Int) (light : Nat) :
    planeMatches p height picHandle start light = false ↔
      ¬ IsCandidate p height picHandle start light := by
  rw [← planeMatches_eq_true_iff]; simp

theorem noPlaneMatches_iff {F : Type} [FloatLike F] (s : RenderState F) (plane : Nat)
    (height : F) (picHandle : Nat) (start : Int) (light : Nat) :
    noPlaneMatches s plane height picHandle start light ↔
      ∀ m, plane < m → m < s.gpEndVisPlane →
        ¬ IsCandidate (s.gVisPlanes m) height picHandle start light := by
  unfold noPlaneMatches
  constructor
  · intro h m h1 h2; exact (planeMatches_eq_false_iff _ _ _ _ _).1 (h m h1 h2)
  · intro h m h1 h2; exact (planeMatches_eq_false_iff _ _ _ _ _).2 (h m h1 h2)

/-- The two ways `findPlane` goes: the scan stops at the lowest candidate `j`, or there is
no candidate. -/
theorem findPlane_cases {F : Type} [FloatLike F] (cfg : RendererConsts F)
    (s : RenderState F) (plane : Nat) (height : F) (picHandle : Nat) (start stop : Int)
    (light : Nat) :
    (∃ j, plane < j ∧ j < s.gpEndVisPlane ∧
        IsCandidate (s.gVisPlanes j) height picHandle start light ∧
        (∀ m, plane < m → m < j → ¬ IsCandidate (s.gVisPlanes m) height picHandle start light) ∧
        findPlane cfg s plane height picHandle start stop light =
          .done { s with gVisPlanes :=
                    Function.update s.gVisPlanes j (widenPlane (s.gVisPlanes j) start stop) } j) ∨
    ((∀ m, plane < m → m < s.gpEndVisPlane →
        ¬ IsCandidate (s.gVisPlanes m) height picHandle start light) ∧
      findPlane cfg s plane height picHandle start stop light =
        if s.gpEndVisPlane < cfg.MAXVISPLANES then
          .done { s with
                    gVisPlanes := Function.update s.gVisPlanes s.gpEndVisPlane
                      { cols := fillCols (s.gVisPlanes s.gpEndVisPlane).cols 0 (s.gScreenWidth / 8)
                        height := height
                        picHandle := picHandle
                        planeLight := light
                        minX := start
                        maxX := stop }
                    gpEndVisPlane := s.gpEndVisPlane + 1 } s.gpEndVisPlane
        else .fatal "No more visplanes!" s) := by
  cases hscan : findPlaneScan s.gVisPlanes height picHandle start light (plane + 1)
      (s.gpEndVisPlane - (plane + 1)) with
  | some j =>
    left
    obtain ⟨h1, h2, h3, h4⟩ := findPlaneScan_some _ _ _ _ _ _ _ _ hscan
    refine ⟨j, by omega, by omega, (planeMatches_eq_true_iff _ _ _ _ _).1 h3, ?_, ?_⟩
    · intro m hm1 hm2
      exact (planeMatches_eq_false_iff _ _ _ _ _).1 (h4 m (by omega) hm2)
    · exact findPlane_of_scan_some cfg s plane height picHandle start stop light j hscan
  | none =>
    right
    refine ⟨?_, findPlane_of_scan_none cfg s plane height picHandle start stop light hscan⟩
    exact (noPlaneMatches_iff _ _ _ _ _ _).1 ((findPlaneScan_eq_none_iff _ _ _ _ _ _).1 hscan)

/-- What `findPlane` does when there is no candidate and the pool has room: it makes the
record at the pool end. -/
theorem findPlane_alloc_spec {F : Type} [FloatLike F] (cfg : RendererConsts F)
    (s : RenderState F) (plane : Nat) (height : F) (picHandle : Nat) (start stop : Int)
    (light : Nat)
    (hno : ∀ m, plane < m → m < s.gpEndVisPlane →
      ¬ IsCandidate (s.gVisPlanes m) height picHandle start light)
    (hroom : s.gpEndVisPlane < cfg.MAXVISPLANES) :
    ∃ s', findPlane cfg s plane height picHandle start stop light = .done s' s.gpEndVisPlane ∧
      s'.gpEndVisPlane = s.gpEndVisPlane + 1 ∧
      s'.gVisPlanes s.gpEndVisPlane =
        { cols := fillCols (s.gVisPlanes s.gpEndVisPlane).cols 0 (s.gScreenWidth / 8)
          height := height
          picHandle := picHandle
          planeLight := light
          minX := start
          maxX := stop } ∧
      (∀ m, m ≠ s.gpEndVisPlane → s'.gVisPlanes m = s.gVisPlanes m) ∧
      (∀ x : Int, 0 ≤ x → x < 8 * ((s.gScreenWidth / 8 : Nat) : Int) →
        (s'.gVisPlanes s.gpEndVisPlane).cols x = { top := UINT16_MAX, bottom := 0 }) := by
  rcases findPlane_cases cfg s plane height picHandle start stop light with
    ⟨j, h1, h2, h3, _, _⟩ | ⟨_, h5⟩
  · exact absurd h3 (hno j h1 h2)
  · rw [if_pos hroom] at h5
    refine ⟨_, h5, rfl, ?_, ?_, ?_⟩
    · simp
    · intro m hm
      simp [Function.update_noteq hm]
    · intro x hx0 hx1
      simp only [Function.update_same]
      rw [fillCols_apply, if_pos ⟨by omega, by omega⟩]

/-- What `findPlane` does when the record `i` is a candidate: it returns the lowest
candidate `j` and widens it. -/
theorem findPlane_match_spec {F : Type} [FloatLike F] (cfg : RendererConsts F)
    (s : RenderState F) (plane : Nat) (height : F) (picHandle : Nat) (start stop : Int)
    (light : Nat) (i : Nat) (hi1 : plane < i) (hi2 : i < s.gpEndVisPlane)
    (hi3 : IsCandidate (s.gVisPlanes i) height picHandle start light) :
    ∃ s' j, findPlane cfg s plane height picHandle start stop light = .done s' j ∧
      plane < j ∧ j ≤ i ∧ s'.gpEndVisPlane = s.gpEndVisPlane ∧
      s'.gVisPlanes j = widenPlane (s.gVisPlanes j) start stop ∧
      (∀ m, m ≠ j → s'.gVisPlanes m = s.gVisPlanes m) := by
  rcases findPlane_cases cfg s plane height picHandle start stop light with
    ⟨j, h1, h2, h3, h4, h5⟩ | ⟨hno, _⟩
  · refine ⟨_, j, h5, h1, ?_, rfl, by simp, fun m hm => by simp [Function.update_noteq hm]⟩
    by_contra hlt
    exact h4 i hi1 (by omega) hi3
  · exact absurd hi3 (hno i hi1 hi2)

/-- With room in the pool `findPlane` returns, and the pool grows by at most one record. -/
theorem findPlane_returns_of_room {F : Type} [FloatLike F] (cfg : RendererConsts F)
    (s : RenderState F) (plane : Nat) (height : F) (picHandle : Nat) (start stop : Int)
    (light : Nat) (hroom : s.gpEndVisPlane < cfg.MAXVISPLANES) :
    ∃ s' j, findPlane cfg s plane height picHandle start stop light = .done s' j ∧
      s'.gpEndVisPlane ≤ s.gpEndVisPlane + 1 := by
  rcases findPlane_cases cfg s plane height picHandle start stop light with
    ⟨j, _, _, _, _, h5⟩ | ⟨_, h5⟩
  · exact ⟨_, j, h5, Nat.le_succ _⟩
  · rw [if_pos hroom] at h5
    exact ⟨_, _, h5, le_refl _⟩

/-! ## The claims on findPlane -/

/-- C1: if some record after `plane` and below the pool end has the height, the flat and the
light of the call and an undefined span at the column `start`, `findPlane` returns the
lowest-indexed such record and leaves the pool count as it is; and whenever `findPlane`
returns a record that was already in the pool, that record has the three keys of the call
and its span at `start` was undefined. -/
theorem findPlane_returns_lowest_candidate {F : Type} [FloatLike F] (cfg : RendererConsts F)
    (s : RenderState F) (plane : Nat) (height : F) (picHandle : Nat) (start stop : Int)
    (light : Nat) :
    ((∃ i, plane < i ∧ i < s.gpEndVisPlane ∧
          IsCandidate (s.gVisPlanes i) height picHandle start light) →
      ∃ s' j, findPlane cfg s plane height picHandle start stop light = .done s' j ∧
        plane < j ∧ j < s.gpEndVisPlane ∧
        IsCandidate (s.gVisPlanes j) height picHandle start light ∧
        (∀ m, plane < m → m < s.gpEndVisPlane →
          IsCandidate (s.gVisPlanes m) height picHandle start light → j ≤ m) ∧
        s'.gpEndVisPlane = s.gpEndVisPlane) ∧
    (∀ s' j, findPlane cfg s plane height picHandle start stop light = .done s' j →
      j < s.gpEndVisPlane →
        plane < j ∧ height = (s.gVisPlanes j).height ∧
          picHandle = (s.gVisPlanes j).picHandle ∧ light = (s.gVisPlanes j).planeLight ∧
          ((s.gVisPlanes j).cols start).isUndefined = true) := by
  rcases findPlane_cases cfg s plane height picHandle start stop light with
    ⟨j, h1, h2, h3, h4, h5⟩ | ⟨hno, h5⟩
  · refine ⟨fun _ => ⟨_, j, h5, h1, h2, h3, ?_, rfl⟩, ?_⟩
    · intro m hm1 hm2 hm3
      by_contra hlt
      exact h4 m hm1 (by omega) hm3
    · intro s' j' heq _
      rw [h5] at heq
      injection heq with _ hj
      subst hj
      exact ⟨h1, h3⟩
  · refine ⟨fun ⟨i, hi1, hi2, hi3⟩ => absurd hi3 (hno i hi1 hi2), ?_⟩
    intro s' j' heq hj
    rw [h5] at heq
    by_cases hroom : s.gpEndVisPlane < cfg.MAXVISPLANES
    · rw [if_pos hroom] at heq
      injection heq with _ hj'
      omega
    · rw [if_neg hroom] at heq
      cases heq

/-- C2: when `findPlane` returns a record that was already in the pool (a match), that
record's `minX` is the smaller of its old `minX` and `start`, its `maxX` the larger of its
old `maxX` and `stop`; its height, flat, light and every column span are as before, and so
are every other record, the pool count and the other globals. -/
theorem findPlane_match_only_widens {F : Type} [FloatLike F] (cfg : RendererConsts F)
    (s : RenderState F) (plane : Nat) (height : F) (picHandle : Nat) (start stop : Int)
    (light : Nat) (s' : RenderState F) (j : Nat)
    (hret : findPlane cfg s plane height picHandle start stop light = .done s' j)
    (hold : j < s.gpEndVisPlane) :
    (s'.gVisPlanes j).minX = min (s.gVisPlanes j).minX start ∧
    (s'.gVisPlanes j).maxX = max (s.gVisPlanes j).maxX stop ∧
    (s'.gVisPlanes j).height = (s.gVisPlanes j).height ∧
    (s'.gVisPlanes j).picHandle = (s.gVisPlanes j).picHandle ∧
    (s'.gVisPlanes j).planeLight = (s.gVisPlanes j).planeLight ∧
    (∀ x, (s'.gVisPlanes j).cols x = (s.gVisPlanes j).cols x) ∧
    (∀ m, m ≠ j → s'.gVisPlanes m = s.gVisPlanes m) ∧
    s'.gpEndVisPlane = s.gpEndVisPlane ∧
    s'.gClipBoundTop = s.gClipBoundTop ∧ s'.gClipBoundBottom = s.gClipBoundBottom ∧
    s'.silhouettes = s.silhouettes ∧ s'.skyColumns = s.skyColumns := by
  rcases findPlane_cases cfg s plane height picHandle start stop light with
    ⟨j', _, _, _, _, h5⟩ | ⟨_, h5⟩
  · rw [h5] at hret
    injection hret with hs hj
    subst hj; subst hs
    obtain ⟨hc, hh, hp, hl⟩ := widenPlane_rest (s.gVisPlanes j') start stop
    refine ⟨?_, ?_, ?_, ?_, ?_, ?_, ?_, rfl, rfl, rfl, rfl, rfl⟩
    · simp [widenPlane_minX]
    · simp [widenPlane_maxX]
    · simp [hh]
    · simp [hp]
    · simp [hl]
    · intro x; simp [hc]
    · intro m hm; simp [Function.update_noteq hm]
  · by_cases hroom : s.gpEndVisPlane < cfg.MAXVISPLANES
    · rw [h5, if_pos hroom] at hret
      injection hret with _ hj
      omega
    · rw [h5, if_neg hroom] at hret
      cases hret

/-- Witness for C1: with record 1 registered for (0, 5, 128) and undefined at column 51,
the call for the columns 51..100 returns record 1 and the pool keeps its two records. -/
theorem findPlane_returns_lowest_candidate_witness :
    ∃ s' j, findPlane sampleConsts onePlaneState 0 0 5 51 100 128 = .done s' j ∧
      0 < j ∧ j < onePlaneState.gpEndVisPlane ∧
      IsCandidate (onePlaneState.gVisPlanes j) 0 5 51 128 ∧
      (∀ m, 0 < m → m < onePlaneState.gpEndVisPlane →
        IsCandidate (onePlaneState.gVisPlanes m) 0 5 51 128 → j ≤ m) ∧
      s'.gpEndVisPlane = onePlaneState.gpEndVisPlane :=
  (findPlane_returns_lowest_candidate sampleConsts onePlaneState 0 0 5 51 100 128).1
    ⟨1, by decide, by decide, by unfold IsCandidate; decide⟩

/-- Witness for C2: the call for the columns 51..100 on `onePlaneState` returns record 1,
whose extent goes from [0, 50] to [0, 100]. -/
theorem findPlane_match_only_widens_witness :
    findPlane sampleConsts onePlaneState 0 0 5 51 100 128 = .done onePlaneWidened 1 ∧
      1 < onePlaneState.gpEndVisPlane ∧
      (onePlaneWidened.gVisPlanes 1).minX = 0 ∧ (onePlaneWidened.gVisPlanes 1).maxX = 100 ∧
      (∀ x, (onePlaneWidened.gVisPlanes 1).cols x = (onePlaneState.gVisPlanes 1).cols x) ∧
      (∀ m, m ≠ 1 → onePlaneWidened.gVisPlanes m = onePlaneState.gVisPlanes m) ∧
      onePlaneWidened.gpEndVisPlane = 2 := by
  have h := findPlane_match_only_widens sampleConsts onePlaneState 0 0 5 51 100 128
    onePlaneWidened 1 rfl (by decide)
  exact ⟨rfl, by decide, h.1, h.2.1, h.2.2.2.2.2.1, h.2.2.2.2.2.2.1, h.2.2.2.2.2.2.2.1⟩

/-- C3: when no record after `plane` and below the pool end is a candidate and the pool
holds fewer than `MAXVISPLANES` records, `findPlane` returns the record at the old pool
count, the pool count grows by one, the new record has the height, flat and light of the
call and the extent [`start`, `stop`], for each of the six screen widths every column
`0 <= x < gScreenWidth` of it holds the pair (0xFFFF, 0), and every other record is as
before. -/
theorem findPlane_allocates {F : Type} [FloatLike F] (cfg : RendererConsts F)
    (s : RenderState F) (plane : Nat) (height : F) (picHandle : Nat) (start stop : Int)
    (light : Nat)
    (hno : ∀ m, plane < m → m < s.gpEndVisPlane →
      ¬ IsCandidate (s.gVisPlanes m) height picHandle start light)
    (hroom : s.gpEndVisPlane < cfg.MAXVISPLANES) :
    ∃ s', findPlane cfg s plane height picHandle start stop light = .done s' s.gpEndVisPlane ∧
      s'.gpEndVisPlane = s.gpEndVisPlane + 1 ∧
      (s'.gVisPlanes s.gpEndVisPlane).height = height ∧
      (s'.gVisPlanes s.gpEndVisPlane).picHandle = picHandle ∧
      (s'.gVisPlanes s.gpEndVisPlane).planeLight = light ∧
      (s'.gVisPlanes s.gpEndVisPlane).minX = start ∧
      (s'.gVisPlanes s.gpEndVisPlane).maxX = stop ∧
      (s.gScreenWidth ∈ SCREEN_WIDTHS → ∀ x : Int, 0 ≤ x → x < (s.gScreenWidth : Int) →
        (s'.gVisPlanes s.gpEndVisPlane).cols x = { top := 65535, bottom := 0 }) ∧
      (∀ m, m ≠ s.gpEndVisPlane → s'.gVisPlanes m = s.gVisPlanes m) := by
  obtain ⟨s', h1, h2, h3, h4, _⟩ :=
    findPlane_alloc_spec cfg s plane height picHandle start stop light hno hroom
  refine ⟨s', h1, h2, ?_, ?_, ?_, ?_, ?_, ?_, h4⟩
  · rw [h3]
  · rw [h3]
  · rw [h3]
  · rw [h3]
  · rw [h3]
  · intro hw x hx0 hx1
    rw [h3]
    show fillCols (s.gVisPlanes s.gpEndVisPlane).cols 0 (s.gScreenWidth / 8) x = _
    rw [fillCols_apply]
    have h8 : 8 * ((s.gScreenWidth / 8 : Nat) : Int) = (s.gScreenWidth : Int) := by
      simp only [SCREEN_WIDTHS, List.mem_cons, List.mem_singleton, List.not_mem_nil,
        or_false] at hw
      rcases hw with h | h | h | h | h | h <;> rw [h] <;> decide
    rw [if_pos ⟨by omega, by omega⟩]
    rfl

/-- Witness for C3: on the fresh 160-wide frame the first call allocates record 1, whose
160 columns all hold the undefined pair. -/
theorem findPlane_allocates_witness :
    (∀ m, 0 < m → m < freshState.gpEndVisPlane →
      ¬ IsCandidate (freshState.gVisPlanes m) 0 5 0 128) ∧
    freshState.gpEndVisPlane < sampleConsts.MAXVISPLANES ∧
    ∃ s', findPlane sampleConsts freshState 0 0 5 0 50 128 = .done s' 1 ∧
      s'.gpEndVisPlane = 2 ∧
      (s'.gVisPlanes 1).height = 0 ∧ (s'.gVisPlanes 1).picHandle = 5 ∧
      (s'.gVisPlanes 1).planeLight = 128 ∧
      (s'.gVisPlanes 1).minX = 0 ∧ (s'.gVisPlanes 1).maxX = 50 ∧
      (160 ∈ SCREEN_WIDTHS → ∀ x : Int, 0 ≤ x → x < 160 →
        (s'.gVisPlanes 1).cols x = { top := 65535, bottom := 0 }) ∧
      (∀ m, m ≠ 1 → s'.gVisPlanes m = freshState.gVisPlanes m) :=
  ⟨fun m h1 h2 => absurd h2 (by show ¬ m < 1; omega), by decide,
    findPlane_allocates sampleConsts freshState 0 0 5 0 50 128
      (fun m h1 h2 => absurd h2 (by show ¬ m < 1; omega)) (by decide)⟩

/-- C4: `findPlane` stops with the fatal error "No more visplanes!" exactly when no record
after `plane` and below the pool end is a candidate and the pool count has reached
`MAXVISPLANES` (the sentinel record 0 counted); the globals are then as they were before the
call (nothing written, pool count the same); it never stops with another message, and never
stops when a candidate exists. -/
theorem findPlane_fatal_iff {F : Type} [FloatLike F] (cfg : RendererConsts F)
    (s : RenderState F) (plane : Nat) (height : F) (picHandle : Nat) (start stop : Int)
    (light : Nat) :
    (findPlane cfg s plane height picHandle start stop light = .fatal "No more visplanes!" s ↔
      (∀ m, plane < m → m < s.gpEndVisPlane →
        ¬ IsCandidate (s.gVisPlanes m) height picHandle start light) ∧
      cfg.MAXVISPLANES ≤ s.gpEndVisPlane) ∧
    (∀ msg s', findPlane cfg s plane height picHandle start stop light = .fatal msg s' →
      msg = "No more visplanes!" ∧ s' = s) ∧
    ((∃ i, plane < i ∧ i < s.gpEndVisPlane ∧
        IsCandidate (s.gVisPlanes i) height picHandle start light) →
      ∀ msg s', findPlane cfg s plane height picHandle start stop light ≠ .fatal msg s') ∧
    (s.gpEndVisPlane ≤ cfg.MAXVISPLANES →
      ((∃ msg s', findPlane cfg s plane height picHandle start stop light = .fatal msg s') ↔
        (∀ m, plane < m → m < s.gpEndVisPlane →
          ¬ IsCandidate (s.gVisPlanes m) height picHandle start light) ∧
        s.gpEndVisPlane = cfg.MAXVISPLANES)) := by
  rcases findPlane_cases cfg s plane height picHandle start stop light with
    ⟨j, h1, h2, h3, _, h5⟩ | ⟨hno, h5⟩
  · rw [h5]
    refine ⟨⟨fun h => (by cases h), fun h => absurd h3 (h.1 j h1 h2)⟩,
      fun _ _ h => (by cases h), fun _ _ _ h => (by cases h),
      fun _ => ⟨fun ⟨_, _, h⟩ => (by cases h), fun h => absurd h3 (h.1 j h1 h2)⟩⟩
  · rw [h5]
    by_cases hroom : s.gpEndVisPlane < cfg.MAXVISPLANES
    · rw [if_pos hroom]
      refine ⟨⟨fun h => (by cases h), fun h => (by omega)⟩, fun _ _ h => (by cases h),
        fun _ _ _ h => (by cases h),
        fun _ => ⟨fun ⟨_, _, h⟩ => (by cases h), fun h => (by omega)⟩⟩
    · rw [if_neg hroom]
      refine ⟨⟨fun _ => ⟨hno, by omega⟩, fun _ => rfl⟩, ?_, ?_, ?_⟩
      · intro msg s' h
        injection h with h1 h2
        exact ⟨h1.symm, h2.symm⟩
      · rintro ⟨i, hi1, hi2, hi3⟩
        exact absurd hi3 (hno i hi1 hi2)
      · intro hle
        exact ⟨fun _ => ⟨hno, by omega⟩, fun _ => ⟨_, _, rfl⟩⟩

/-- Witness for C4: with a pool limit of two records, both in use, a call with another light
stops with the fatal error, and a call that record 1 is a candidate for does not. -/
theorem findPlane_fatal_iff_witness :
    findPlane tinyConsts onePlaneState 0 0 5 51 100 129 =
        .fatal "No more visplanes!" onePlaneState ∧
    ∀ msg s', findPlane tinyConsts onePlaneState 0 0 5 51 100 128 ≠ .fatal msg s' :=
  ⟨(findPlane_fatal_iff tinyConsts onePlaneState 0 0 5 51 100 129).1.2
      ⟨fun m h1 h2 => by
          have hm : m = 1 := by
            have : m < 2 := h2
            omega
          subst hm
          unfold IsCandidate
          decide,
        by decide⟩,
    (findPlane_fatal_iff tinyConsts onePlaneState 0 0 5 51 100 128).2.2.1
      ⟨1, by decide, by decide, by unfold IsCandidate; decide⟩⟩

/-- C5: on a freshly reset pool (only the sentinel record 0 in use, room for one more
record), for every key and every two column ranges [a, b] and [c, d], the first call
`findPlane(record 0, key, a, b)` returns record 1, and if record 1's span at column `c` is
still undefined when the second call `findPlane(record 0, key, c, d)` starts, that call
returns record 1 too: the pool ends with the sentinel and one real record, which has the
key of the calls and the extent [min a c, max b d]. -/
theorem findPlane_merges_same_key {F : Type} [FloatLike F] (cfg : RendererConsts F)
    (s : RenderState F) (height : F) (picHandle light : Nat) (a b c d : Int)
    (hfresh : s.gpEndVisPlane = 1) (hcap : 1 < cfg.MAXVISPLANES) :
    ∃ s1, findPlane cfg s 0 height picHandle a b light = .done s1 1 ∧
      (((s1.gVisPlanes 1).cols c).isUndefined = true →
        ∃ s2, findPlane cfg s1 0 height picHandle c d light = .done s2 1 ∧
          s2.gpEndVisPlane = 2 ∧
          (s2.gVisPlanes 1).minX = min a c ∧ (s2.gVisPlanes 1).maxX = max b d ∧
          (s2.gVisPlanes 1).height = height ∧ (s2.gVisPlanes 1).picHandle = picHandle ∧
          (s2.gVisPlanes 1).planeLight = light) := by
  obtain ⟨s1, h1, hend1, hrec, _, _⟩ :=
    findPlane_alloc_spec cfg s 0 height picHandle a b light
      (fun m hm1 hm2 => by omega) (by omega)
  rw [hfresh] at h1 hend1 hrec
  refine ⟨s1, h1, fun hundef => ?_⟩
  have hcand : IsCandidate (s1.gVisPlanes 1) height picHandle c light := by
    refine ⟨?_, ?_, ?_, hundef⟩ <;> rw [hrec]
  obtain ⟨s2, j, h2, hj0, hj1, hend2, hrec2, _⟩ :=
    findPlane_match_spec cfg s1 0 height picHandle c d light 1 (by omega) (by omega) hcand
  have hj : j = 1 := by omega
  subst hj
  obtain ⟨_, wh, wp, wl⟩ := widenPlane_rest (s1.gVisPlanes 1) c d
  refine ⟨s2, h2, by omega, ?_, ?_, ?_, ?_, ?_⟩
  · rw [hrec2, widenPlane_minX, hrec]
  · rw [hrec2, widenPlane_maxX, hrec]
  · rw [hrec2, wh, hrec]
  · rw [hrec2, wp, hrec]
  · rw [hrec2, wl, hrec]

/-- Witness for C5, the scenario of the specification: height 0, flat 5, light 128, the
columns 0..50 and then 51..100 on a fresh 160-wide frame give one plane, record 1, with the
extent [0, 100]. -/
theorem findPlane_merges_same_key_witness :
    freshState.gpEndVisPlane = 1 ∧ 1 < sampleConsts.MAXVISPLANES ∧
    ∃ s1, findPlane sampleConsts freshState 0 0 5 0 50 128 = .done s1 1 ∧
      ((s1.gVisPlanes 1).cols 51).isUndefined = true ∧
      ∃ s2, findPlane sampleConsts s1 0 0 5 51 100 128 = .done s2 1 ∧
        s2.gpEndVisPlane = 2 ∧ (s2.gVisPlanes 1).minX = 0 ∧ (s2.gVisPlanes 1).maxX = 100 := by
  obtain ⟨s1, h1, h2⟩ :=
    findPlane_merges_same_key sampleConsts freshState 0 5 128 0 50 51 100 rfl (by decide)
  have hundef : ((s1.gVisPlanes 1).cols 51).isUndefined = true := by
    obtain ⟨s1', h1', _, _, _, hcols⟩ :=
      findPlane_alloc_spec sampleConsts freshState 0 0 5 0 50 128
        (fun m _ hm2 => absurd hm2 (by show ¬ m < 1; omega)) (by decide)
    rw [h1] at h1'
    injection h1' with hs _
    subst hs
    have hc := hcols 51 (by decide) (by decide)
    rw [show freshState.gpEndVisPlane = 1 from rfl] at hc
    rw [hc]
    rfl
  obtain ⟨s2, h3, h4, h5, h6, _⟩ := h2 hundef
  exact ⟨rfl, by decide, s1, h1, hundef, s2, h3, h4, h5, h6⟩

/-- C6: two registrations with the same height and flat but different lights never share a
record. If the first call returns record `i1`, then in every later state of the frame (the
pool count not smaller, record `i1` with the light it was given), a call with the other
light, from any `plane` and for any columns, returns a record other than `i1`. With room for
two more records in the pool both calls do return; and from a freshly reset pool the two
calls return records 1 and 2, so the pool ends with two real records. -/
theorem findPlane_distinct_lights {F : Type} [FloatLike F] (cfg : RendererConsts F)
    (s : RenderState F) (plane1 plane2 : Nat) (height : F) (picHandle : Nat)
    (a b c d : Int) (light1 light2 : Nat) (hne : light1 ≠ light2) :
    (∀ s1 i1, findPlane cfg s plane1 height picHandle a b light1 = .done s1 i1 →
      ∀ t : RenderState F, s1.gpEndVisPlane ≤ t.gpEndVisPlane →
        (t.gVisPlanes i1).planeLight = (s1.gVisPlanes i1).planeLight →
        ∀ s2 i2, findPlane cfg t plane2 height picHandle c d light2 = .done s2 i2 →
          i1 ≠ i2 ∧ (s2.gVisPlanes i1).planeLight = light1 ∧
            (s2.gVisPlanes i2).planeLight = light2) ∧
    (s.gpEndVisPlane + 2 ≤ cfg.MAXVISPLANES →
      ∃ s1 i1 s2 i2, findPlane cfg s plane1 height picHandle a b light1 = .done s1 i1 ∧
        findPlane cfg s1 plane2 height picHandle c d light2 = .done s2 i2 ∧ i1 ≠ i2) ∧
    (s.gpEndVisPlane = 1 → 2 < cfg.MAXVISPLANES →
      ∃ s1 s2, findPlane cfg s plane1 height picHandle a b light1 = .done s1 1 ∧
        findPlane cfg s1 plane2 height picHandle c d light2 = .done s2 2 ∧
        s2.gpEndVisPlane = 3 ∧ (s2.gVisPlanes 1).planeLight = light1 ∧
        (s2.gVisPlanes 2).planeLight = light2) := by
  have key : ∀ (u : RenderState F) (p : Nat) (x y : Int) (l : Nat) (u' : RenderState F)
      (i : Nat), findPlane cfg u p height picHandle x y l = .done u' i →
      i < u'.gpEndVisPlane ∧ (u'.gVisPlanes i).planeLight = l ∧
        u.gpEndVisPlane ≤ u'.gpEndVisPlane ∧
        (i < u.gpEndVisPlane → (u.gVisPlanes i).planeLight = l) ∧
        (u.gpEndVisPlane ≤ i → i = u.gpEndVisPlane) ∧
        ∀ m, m ≠ i → u'.gVisPlanes m = u.gVisPlanes m := by
    intro u p x y l u' i hret
    rcases findPlane_cases cfg u p height picHandle x y l with
      ⟨j, _, hj2, hj3, _, h5⟩ | ⟨_, h5⟩
    · rw [h5] at hret
      injection hret with hs hj
      subst hj; subst hs
      have hl := (widenPlane_rest (u.gVisPlanes j) x y).2.2.2
      refine ⟨hj2, ?_, le_refl _, fun _ => hj3.2.2.1.symm, fun h => ?_, fun m hm => ?_⟩
      · simp only [Function.update_same]; rw [hl]; exact hj3.2.2.1.symm
      · exact absurd hj2 (by simpa using h)
      · simp [Function.update_noteq hm]
    · by_cases hroom : u.gpEndVisPlane < cfg.MAXVISPLANES
      · rw [h5, if_pos hroom] at hret
        injection hret with hs hj
        subst hj; subst hs
        refine ⟨Nat.lt_succ_self _, ?_, Nat.le_succ _, fun h => absurd h (lt_irrefl _),
          fun _ => rfl, fun m hm => ?_⟩
        · simp
        · simp [Function.update_noteq hm]
      · rw [h5, if_neg hroom] at hret
        cases hret
  have part1 : ∀ s1 i1, findPlane cfg s plane1 height picHandle a b light1 = .done s1 i1 →
      ∀ t : RenderState F, s1.gpEndVisPlane ≤ t.gpEndVisPlane →
        (t.gVisPlanes i1).planeLight = (s1.gVisPlanes i1).planeLight →
        ∀ s2 i2, findPlane cfg t plane2 height picHandle c d light2 = .done s2 i2 →
          i1 ≠ i2 ∧ (s2.gVisPlanes i1).planeLight = light1 ∧
            (s2.gVisPlanes i2).planeLight = light2 := by
    intro s1 i1 h1 t hle hkeep s2 i2 h2
    obtain ⟨k1, k2, _, _, _, _⟩ := key s plane1 a b light1 s1 i1 h1
    obtain ⟨_, m2, _, m4, m5, m6⟩ := key t plane2 c d light2 s2 i2 h2
    have hdiff : i1 ≠ i2 := by
      intro heq
      subst heq
      by_cases hlt : i1 < t.gpEndVisPlane
      · have := m4 hlt
        rw [hkeep, k2] at this
        exact hne this
      · have := m5 (by omega)
        omega
    refine ⟨hdiff, ?_, m2⟩
    rw [m6 i1 hdiff, hkeep, k2]
  refine ⟨part1, ?_, ?_⟩
  · intro hroom
    obtain ⟨s1, i1, h1, hle1⟩ :=
      findPlane_returns_of_room cfg s plane1 height picHandle a b light1 (by omega)
    obtain ⟨s2, i2, h2, _⟩ :=
      findPlane_returns_of_room cfg s1 plane2 height picHandle c d light2 (by omega)
    exact ⟨s1, i1, s2, i2, h1, h2, (part1 s1 i1 h1 s1 (le_refl _) rfl s2 i2 h2).1⟩
  · intro hfresh hcap
    obtain ⟨s1, h1, hend1, hrec1, _, _⟩ :=
      findPlane_alloc_spec cfg s plane1 height picHandle a b light1
        (fun m hm1 hm2 => by omega) (by omega)
    rw [hfresh] at h1 hend1 hrec1
    have hl1 : (s1.gVisPlanes 1).planeLight = light1 := by rw [hrec1]
    obtain ⟨s2, h2, hend2, hrec2, hrest, _⟩ :=
      findPlane_alloc_spec cfg s1 plane2 height picHandle c d light2
        (fun m hm1 hm2 hcand => by
          have hm : m = 1 := by omega
          subst hm
          exact hne (hl1 ▸ hcand.2.2.1).symm)
        (by omega)
    rw [hend1] at h2 hend2 hrec2 hrest
    refine ⟨s1, s2, h1, h2, hend2, ?_, by rw [hrec2]⟩
    rw [hrest 1 (by decide), hl1]

/-- Witness for C6: on the fresh frame, height 0 and flat 5 registered with light 128 and then
with light 129 give the records 1 and 2. -/
theorem findPlane_distinct_lights_witness :
    (128 : Nat) ≠ 129 ∧ freshState.gpEndVisPlane = 1 ∧ 2 < sampleConsts.MAXVISPLANES ∧
    ∃ s1 s2, findPlane sampleConsts freshState 0 0 5 0 50 128 = .done s1 1 ∧
      findPlane sampleConsts s1 0 0 5 51 100 129 = .done s2 2 ∧
      s2.gpEndVisPlane = 3 ∧ (s2.gVisPlanes 1).planeLight = 128 ∧
      (s2.gVisPlanes 2).planeLight = 129 :=
  ⟨by decide, rfl, by decide,
    (findPlane_distinct_lights sampleConsts freshState 0 0 0 5 0 50 51 100 128 129
      (by decide)).2.2 rfl (by decide)⟩

/-! ## Lemmas on segLoop -/

theorem Outcome.andThen_eq_done {F α β : Type} (o : Outcome F α)
    (f : RenderState F → α → Outcome F β) (t : RenderState F) (b : β) :
    o.andThen f = .done t b ↔ ∃ s1 a1, o = .done s1 a1 ∧ f s1 a1 = .done t b := by
  cases o with
  | done s a =>
    constructor
    · intro h; exact ⟨s, a, rfl, h⟩
    · rintro ⟨s1, a1, h1, h2⟩
      injection h1 with hs ha
      subst hs; subst ha
      exact h2
  | fatal msg s =>
    constructor
    · intro h; cases h
    · rintro ⟨s1, a1, h1, _⟩; cases h1

theorem setPlaneCol_same {F : Type} (s : RenderState F) (p : Nat) (x : Int)
    (span : ScreenYPair) :
    ((setPlaneCol s p x span).gVisPlanes p).cols x = span ∧
    planeKey ((setPlaneCol s p x span).gVisPlanes p) = planeKey (s.gVisPlanes p) ∧
    ((setPlaneCol s p x span).gVisPlanes p).minX = (s.gVisPlanes p).minX ∧
    ((setPlaneCol s p x span).gVisPlanes p).maxX = (s.gVisPlanes p).maxX ∧
    (∀ y, y ≠ x → ((setPlaneCol s p x span).gVisPlanes p).cols y = (s.gVisPlanes p).cols y) := by
  refine ⟨by simp [setPlaneCol], by simp [setPlaneCol, planeKey], by simp [setPlaneCol],
    by simp [setPlaneCol], fun y hy => by simp [setPlaneCol, Function.update_noteq hy]⟩

theorem setPlaneCol_other {F : Type} (s : RenderState F) (p : Nat) (x : Int)
    (span : ScreenYPair) (m : Nat) (hm : m ≠ p) :
    (setPlaneCol s p x span).gVisPlanes m = s.gVisPlanes m := by
  simp [setPlaneCol, Function.update_noteq hm]

theorem setPlaneCol_frame {F : Type} (s : RenderState F) (p : Nat) (x : Int)
    (span : ScreenYPair) :
    (setPlaneCol s p x span).gpEndVisPlane = s.gpEndVisPlane ∧
      SameFrame s (setPlaneCol s p x span) :=
  ⟨rfl, ⟨rfl, rfl, rfl, rfl, rfl, rfl, rfl⟩⟩

theorem isDefined_eq_false_iff (p : ScreenYPair) :
    p.isDefined = false ↔ p.isUndefined = true := by
  simp [ScreenYPair.isDefined]

/-- The three ways a registration goes: the span is empty and nothing happens; the span is
assigned to a record; the pool is exhausted and `findPlane` stops. -/
theorem registerSpan_cases {F : Type} [FloatLike F] (cfg : RendererConsts F)
    (s : RenderState F) (pPlane : Nat) (height : F) (picHandle : Nat) (viewX rightX : Int)
    (light : Nat) (top bottom : Int)
    (hrec0 : ((s.gVisPlanes 0).cols viewX).isDefined = true)
    (hpool : 1 ≤ s.gpEndVisPlane) (hlt : pPlane < s.gpEndVisPlane) :
    (bottom < top ∧
      registerSpan cfg s pPlane height picHandle viewX rightX light top bottom =
        .done s pPlane) ∨
    (top ≤ bottom ∧ ∃ t idx,
      registerSpan cfg s pPlane height picHandle viewX rightX light top bottom = .done t idx ∧
      Registered s t pPlane idx viewX { top := toU16 top, bottom := toU16 bottom }
        (height, picHandle, light)) ∨
    (top ≤ bottom ∧ cfg.MAXVISPLANES ≤ s.gpEndVisPlane ∧
      registerSpan cfg s pPlane height picHandle viewX rightX light top bottom =
        .fatal "No more visplanes!" s) := by
  unfold registerSpan
  by_cases hspan : top ≤ bottom
  swap
  · left; rw [if_neg hspan]; exact ⟨by omega, rfl⟩
  right
  rw [if_pos hspan]
  by_cases hdef : ((s.gVisPlanes pPlane).cols viewX).isDefined = true
  · simp only [hdef, if_true]
    rcases findPlane_cases cfg s pPlane height picHandle viewX rightX light with
      ⟨j, h1, h2, h3, _, h5⟩ | ⟨_, h5⟩
    · left
      rw [h5]
      refine ⟨hspan, _, j, rfl, ?_⟩
      obtain ⟨hc, hh, hp, hl⟩ := widenPlane_rest (s.gVisPlanes j) viewX rightX
      obtain ⟨e1, e2, _, _, e5⟩ := setPlaneCol_same
        { s with gVisPlanes :=
            Function.update s.gVisPlanes j (widenPlane (s.gVisPlanes j) viewX rightX) }
        j viewX { top := toU16 top, bottom := toU16 bottom }
      have hkey : planeKey (widenPlane (s.gVisPlanes j) viewX rightX) =
          planeKey (s.gVisPlanes j) := by simp [planeKey, hh, hp, hl]
      simp only [Function.update_same] at e2 e5
      refine
        { real := by omega, inPool := h2, notBefore := by omega, countLe := le_refl _
          countLe' := Nat.le_succ _, span := e1, others := ?_, key := ?_, oldKey := ?_
          oldCols := ?_, wasFree := fun _ => h3.2.2.2, looked := fun _ => hdef
          frame := ⟨rfl, rfl, rfl, rfl, rfl, rfl, rfl⟩ }
      · intro m hm
        rw [setPlaneCol_other _ _ _ _ _ hm]
        simp [Function.update_noteq hm]
      · left
        rw [e2, hkey]
        simp [planeKey, h3.1, h3.2.1, h3.2.2.1]
      · intro _; rw [e2, hkey]
      · intro _ x hx; rw [e5 x hx, hc]
    · by_cases hroom : s.gpEndVisPlane < cfg.MAXVISPLANES
      · left
        rw [h5, if_pos hroom]
        refine ⟨hspan, _, s.gpEndVisPlane, rfl, ?_⟩
        obtain ⟨e1, e2, _, _, _⟩ := setPlaneCol_same
          { s with
            gVisPlanes := Function.update s.gVisPlanes s.gpEndVisPlane
              { cols := fillCols (s.gVisPlanes s.gpEndVisPlane).cols 0 (s.gScreenWidth / 8)
                height := height
                picHandle := picHandle
                planeLight := light
                minX := viewX
                maxX := rightX }
            gpEndVisPlane := s.gpEndVisPlane + 1 }
          s.gpEndVisPlane viewX { top := toU16 top, bottom := toU16 bottom }
        simp only [Function.update_same] at e2
        refine
          { real := hpool, inPool := Nat.lt_succ_self _, notBefore := by omega
            countLe := Nat.le_succ _, countLe' := le_refl _, span := e1, others := ?_
            key := Or.inl e2, oldKey := fun h => absurd h (lt_irrefl _)
            oldCols := fun h => absurd h (lt_irrefl _)
            wasFree := fun h => absurd h (lt_irrefl _), looked := fun _ => hdef
            frame := ⟨rfl, rfl, rfl, rfl, rfl, rfl, rfl⟩ }
        intro m hm
        rw [setPlaneCol_other _ _ _ _ _ hm]
        simp [Function.update_noteq hm]
      · right
        rw [h5, if_neg hroom]
        exact ⟨hspan, by omega, rfl⟩
  · left
    have hdef' : ((s.gVisPlanes pPlane).cols viewX).isDefined = false := by
      simpa using hdef
    simp only [hdef', Bool.false_eq_true, if_false]
    refine ⟨hspan, _, pPlane, rfl, ?_⟩
    have hne : pPlane ≠ 0 := by
      intro h0
      rw [h0, hrec0] at hdef'
      exact absurd hdef' (by decide)
    obtain ⟨e1, e2, _, _, e5⟩ := setPlaneCol_same s pPlane viewX
      { top := toU16 top, bottom := toU16 bottom }
    exact
      { real := by omega, inPool := hlt, notBefore := le_refl _, countLe := le_refl _
        countLe' := Nat.le_succ _, span := e1
        others := fun m hm => setPlaneCol_other _ _ _ _ _ hm
        key := Or.inr ⟨rfl, e2⟩, oldKey := fun _ => e2, oldCols := fun _ x hx => e5 x hx
        wasFree := fun _ => (isDefined_eq_false_iff _).1 hdef'
        looked := fun h => absurd rfl h
        frame := ⟨rfl, rfl, rfl, rfl, rfl, rfl, rfl⟩ }

theorem segLoopAddFloor_eq_registerSpan {F : Type} [FloatLike F] (cfg : RendererConsts F)
    (seg : viswall_t F) (viewX clipBoundTY clipBoundBY : Int) (s : RenderState F)
    (v : SegLoopVars F) :
    segLoopAddFloor cfg seg viewX clipBoundTY clipBoundBY s v =
      (registerSpan cfg s v.pFloorPlane seg.floorheight seg.FloorPic viewX seg.rightX
          seg.seglightlevel (floorSpanTop v.floorY clipBoundTY)
          (floorSpanBottom clipBoundBY)).andThen
        fun t p => .done t { v with pFloorPlane := p, floorY := v.floorY + v.floorYStep } := by
  unfold segLoopAddFloor registerSpan floorSpanTop floorSpanBottom
  by_cases hspan : max (FloatLike.toInt32 v.floorY) (clipBoundTY + 1) ≤ clipBoundBY - 1
  · simp only [hspan, if_true]
    by_cases hdef : ((s.gVisPlanes v.pFloorPlane).cols viewX).isDefined = true
    · simp only [hdef, if_true]
      cases findPlane cfg s v.pFloorPlane seg.floorheight seg.FloorPic viewX seg.rightX
        seg.seglightlevel <;> rfl
    · simp only [hdef, if_false]
      rfl
  · simp only [hspan, if_false]
    rfl

theorem segLoopAddCeiling_eq_registerSpan {F : Type} [FloatLike F] (cfg : RendererConsts F)
    (seg : viswall_t F) (viewX clipBoundTY clipBoundBY : Int) (s : RenderState F)
    (v : SegLoopVars F) :
    segLoopAddCeiling cfg seg viewX clipBoundTY clipBoundBY s v =
      (registerSpan cfg s v.pCeilPlane seg.ceilingheight seg.CeilingPic viewX seg.rightX
          seg.seglightlevel (ceilSpanTop clipBoundTY)
          (ceilSpanBottom v.ceilY clipBoundBY)).andThen
        fun t p => .done t { v with pCeilPlane := p, ceilY := v.ceilY + v.ceilYStep } := by
  unfold segLoopAddCeiling registerSpan ceilSpanTop ceilSpanBottom
  by_cases hspan : clipBoundTY + 1 ≤ min (FloatLike.toInt32 v.ceilY - 1) (clipBoundBY - 1)
  · simp only [hspan, if_true]
    by_cases hdef : ((s.gVisPlanes v.pCeilPlane).cols viewX).isDefined = true
    · simp only [hdef, if_true]
      cases findPlane cfg s v.pCeilPlane seg.ceilingheight seg.CeilingPic viewX seg.rightX
        seg.seglightlevel <;> rfl
    · simp only [hdef, if_false]
      rfl
  · simp only [hspan, if_false]
    rfl

theorem lor_eq_zero_iff (x y : Nat) : x ||| y = 0 ↔ x = 0 ∧ y = 0 := by
  constructor
  · intro h
    constructor
    · apply Nat.eq_of_testBit_eq
      intro i
      have := congrArg (fun n => n.testBit i) h
      simp only [Nat.testBit_or, Nat.zero_testBit, Bool.or_eq_false_iff] at this
      simp [this.1]
    · apply Nat.eq_of_testBit_eq
      intro i
      have := congrArg (fun n => n.testBit i) h
      simp only [Nat.testBit_or, Nat.zero_testBit, Bool.or_eq_false_iff] at this
      simp [this.2]
  · rintro ⟨rfl, rfl⟩; rfl

theorem hasBits_iff (w m : Nat) : hasBits w m = true ↔ w &&& m ≠ 0 := by
  simp [hasBits]

theorem hasBits_lor (w a b : Nat) :
    hasBits w (a ||| b) = true ↔ hasBits w a = true ∨ hasBits w b = true := by
  rw [hasBits_iff, hasBits_iff, hasBits_iff, Nat.and_or_distrib_left, Ne, lor_eq_zero_iff]
  tauto

/-- The column body is the floor block, then the ceiling block, then the rest. -/
theorem segLoopColumn_eq {F : Type} [FloatLike F] (cfg : RendererConsts F) (seg : viswall_t F)
    (viewX : Int) (s : RenderState F) (v : SegLoopVars F) :
    segLoopColumn cfg seg viewX s v =
      (segLoopFloorPart cfg seg viewX s v).andThen fun s1 v1 =>
        (segLoopCeilingPart cfg seg viewX (toI32 (s.gClipBoundTop viewX))
            (toI32 (s.gClipBoundBottom viewX)) s1 v1).andThen fun s2 v2 =>
          .done
            (segLoopColumnTail seg (FloatLike.fmin v.columnScale cfg.MAX_RENDER_SCALE) viewX
              (toI32 (s.gClipBoundTop viewX)) (toI32 (s.gClipBoundBottom viewX)) s2 v2).1
            (segLoopColumnTail seg (FloatLike.fmin v.columnScale cfg.MAX_RENDER_SCALE) viewX
              (toI32 (s.gClipBoundTop viewX)) (toI32 (s.gClipBoundBottom viewX)) s2 v2).2 :=
  rfl

theorem segLoopBottomSil_spec {F : Type} [FloatLike F] (seg : viswall_t F)
    (viewX clipBoundBY : Int) (s : RenderState F) (v : SegLoopVars F) :
    SamePlanes s (segLoopBottomSil seg viewX clipBoundBY s v).1 ∧
      (segLoopBottomSil seg viewX clipBoundBY s v).2 =
        { v with newFloorY := v.newFloorY + v.newFloorYStep } := by
  refine ⟨?_, rfl⟩
  unfold segLoopBottomSil
  by_cases h1 : hasBits seg.WallActions AC_BOTTOMSIL = true <;>
    by_cases h2 : hasBits seg.WallActions AC_NEWFLOOR = true <;>
    simp only [h1, h2, if_true, if_false] <;>
    exact ⟨rfl, rfl, rfl, rfl, rfl⟩

theorem segLoopTopSil_spec {F : Type} [FloatLike F] (seg : viswall_t F)
    (viewX clipBoundTY : Int) (s : RenderState F) (v : SegLoopVars F) :
    SamePlanes s (segLoopTopSil seg viewX clipBoundTY s v).1 ∧
      (segLoopTopSil seg viewX clipBoundTY s v).2 =
        { v with newCeilY := v.newCeilY + v.newCeilYStep } := by
  refine ⟨?_, rfl⟩
  unfold segLoopTopSil
  by_cases h1 : hasBits seg.WallActions AC_TOPSIL = true <;>
    by_cases h2 : hasBits seg.WallActions AC_NEWCEILING = true <;>
    simp only [h1, h2, if_true, if_false] <;>
    exact ⟨rfl, rfl, rfl, rfl, rfl⟩

theorem segLoopSky_spec {F : Type} [FloatLike F] (seg : viswall_t F) (scale : F)
    (viewX clipBoundTY clipBoundBY : Int) (s : RenderState F) :
    SamePlanes s (segLoopSky seg scale viewX clipBoundTY clipBoundBY s) := by
  unfold segLoopSky drawSkyColumn
  simp only []
  split_ifs <;> exact ⟨rfl, rfl, rfl, rfl, rfl⟩

theorem SamePlanes.trans {F : Type} {s t u : RenderState F} (h1 : SamePlanes s t)
    (h2 : SamePlanes t u) : SamePlanes s u :=
  ⟨h2.planes.trans h1.planes, h2.count.trans h1.count, h2.width.trans h1.width,
    h2.height.trans h1.height, h2.centerY.trans h1.centerY⟩

theorem SamePlanes.refl {F : Type} (s : RenderState F) : SamePlanes s s :=
  ⟨rfl, rfl, rfl, rfl, rfl⟩

theorem segLoopBottomSilPart_spec {F : Type} [FloatLike F] (seg : viswall_t F)
    (viewX clipBoundBY : Int) (r : RenderState F × SegLoopVars F) :
    SamePlanes r.1 (segLoopBottomSilPart seg viewX clipBoundBY r).1 ∧
      (segLoopBottomSilPart seg viewX clipBoundBY r).2 =
        { r.2 with
          newFloorY :=
            if hasBits seg.WallActions (AC_BOTTOMSIL ||| AC_NEWFLOOR) then
              r.2.newFloorY + r.2.newFloorYStep
            else r.2.newFloorY } := by
  unfold segLoopBottomSilPart
  by_cases h : hasBits seg.WallActions (AC_BOTTOMSIL ||| AC_NEWFLOOR) = true
  · rw [if_pos h, if_pos h]
    exact segLoopBottomSil_spec seg viewX clipBoundBY r.1 r.2
  · rw [if_neg h, if_neg h]
    exact ⟨SamePlanes.refl _, rfl⟩

theorem segLoopTopSilPart_spec {F : Type} [FloatLike F] (seg : viswall_t F)
    (viewX clipBoundTY : Int) (r : RenderState F × SegLoopVars F) :
    SamePlanes r.1 (segLoopTopSilPart seg viewX clipBoundTY r).1 ∧
      (segLoopTopSilPart seg viewX clipBoundTY r).2 =
        { r.2 with
          newCeilY :=
            if hasBits seg.WallActions (AC_TOPSIL ||| AC_NEWCEILING) then
              r.2.newCeilY + r.2.newCeilYStep
            else r.2.newCeilY } := by
  unfold segLoopTopSilPart
  by_cases h : hasBits seg.WallActions (AC_TOPSIL ||| AC_NEWCEILING) = true
  · rw [if_pos h, if_pos h]
    exact segLoopTopSil_spec seg viewX clipBoundTY r.1 r.2
  · rw [if_neg h, if_neg h]
    exact ⟨SamePlanes.refl _, rfl⟩

theorem segLoopSkyPart_spec {F : Type} [FloatLike F] (seg : viswall_t F) (scale : F)
    (viewX clipBoundTY clipBoundBY : Int) (s : RenderState F) :
    SamePlanes s (segLoopSkyPart seg scale viewX clipBoundTY clipBoundBY s) := by
  unfold segLoopSkyPart
  by_cases h : hasBits seg.WallActions AC_ADDSKY = true
  · rw [if_pos h]; exact segLoopSky_spec seg scale viewX clipBoundTY clipBoundBY s
  · rw [if_neg h]; exact SamePlanes.refl _

/-- The rest of a column leaves the plane table and the plane pointers alone and steps the
locals. -/
theorem segLoopColumnTail_spec {F : Type} [FloatLike F] (seg : viswall_t F) (scale : F)
    (viewX clipBoundTY clipBoundBY : Int) (s2 : RenderState F) (v2 : SegLoopVars F) :
    SamePlanes s2 (segLoopColumnTail seg scale viewX clipBoundTY clipBoundBY s2 v2).1 ∧
    (segLoopColumnTail seg scale viewX clipBoundTY clipBoundBY s2 v2).2 =
      { v2 with
        newFloorY :=
          if hasBits seg.WallActions (AC_BOTTOMSIL ||| AC_NEWFLOOR) then
            v2.newFloorY + v2.newFloorYStep
          else v2.newFloorY
        newCeilY :=
          if hasBits seg.WallActions (AC_TOPSIL ||| AC_NEWCEILING) then
            v2.newCeilY + v2.newCeilYStep
          else v2.newCeilY
        columnScale := v2.columnScale + seg.ScaleStep } := by
  obtain ⟨a1, a2⟩ := segLoopBottomSilPart_spec seg viewX clipBoundBY (s2, v2)
  obtain ⟨b1, b2⟩ := segLoopTopSilPart_spec seg viewX clipBoundTY
    (segLoopBottomSilPart seg viewX clipBoundBY (s2, v2))
  have c1 := segLoopSkyPart_spec seg scale viewX clipBoundTY clipBoundBY
    (segLoopTopSilPart seg viewX clipBoundTY
      (segLoopBottomSilPart seg viewX clipBoundBY (s2, v2))).1
  refine ⟨(a1.trans b1).trans c1, ?_⟩
  show ({ (segLoopTopSilPart seg viewX clipBoundTY
      (segLoopBottomSilPart seg viewX clipBoundBY (s2, v2))).2 with
    columnScale := (segLoopTopSilPart seg viewX clipBoundTY
      (segLoopBottomSilPart seg viewX clipBoundBY (s2, v2))).2.columnScale + seg.ScaleStep } :
      SegLoopVars F) = _
  rw [b2, a2]

/-- A registration that returns either did nothing (empty span) or assigned the span. -/
theorem registerSpan_done {F : Type} [FloatLike F] (cfg : RendererConsts F)
    (s : RenderState F) (pPlane : Nat) (height : F) (picHandle : Nat) (viewX rightX : Int)
    (light : Nat) (top bottom : Int) (t : RenderState F) (p : Nat)
    (hrec0 : ((s.gVisPlanes 0).cols viewX).isDefined = true)
    (hpool : 1 ≤ s.gpEndVisPlane) (hlt : pPlane < s.gpEndVisPlane)
    (h : registerSpan cfg s pPlane height picHandle viewX rightX light top bottom =
      .done t p) :
    (bottom < top ∧ t = s ∧ p = pPlane) ∨
    (top ≤ bottom ∧
      Registered s t pPlane p viewX { top := toU16 top, bottom := toU16 bottom }
        (height, picHandle, light)) := by
  rcases registerSpan_cases cfg s pPlane height picHandle viewX rightX light top bottom
      hrec0 hpool hlt with ⟨h1, e⟩ | ⟨h1, t', idx, e, R⟩ | ⟨_, _, e⟩
  · rw [e] at h
    injection h with hs hp
    exact Or.inl ⟨h1, hs.symm, hp.symm⟩
  · rw [e] at h
    injection h with hs hp
    subst hs; subst hp
    exact Or.inr ⟨h1, R⟩
  · rw [e] at h
    cases h

theorem Registered.keepsKey {F : Type} {s t : RenderState F} {pPlane idx : Nat} {viewX : Int}
    {span : ScreenYPair} {key : F × Nat × Nat} (h : Registered s t pPlane idx viewX span key)
    (m : Nat) (hm : m < s.gpEndVisPlane) :
    planeKey (t.gVisPlanes m) = planeKey (s.gVisPlanes m) := by
  by_cases hmi : m = idx
  · subst hmi; exact h.oldKey hm
  · rw [h.others m hmi]

theorem Registered.keepsRec0 {F : Type} {s t : RenderState F} {pPlane idx : Nat} {viewX : Int}
    {span : ScreenYPair} {key : F × Nat × Nat} (h : Registered s t pPlane idx viewX span key) :
    t.gVisPlanes 0 = s.gVisPlanes 0 :=
  h.others 0 (by have := h.real; omega)

theorem Registered.hasKey {F : Type} {s t : RenderState F} {pPlane idx : Nat} {viewX : Int}
    {span : ScreenYPair} {key : F × Nat × Nat} (h : Registered s t pPlane idx viewX span key)
    (hold : pPlane ≠ 0 → planeKey (s.gVisPlanes pPlane) = key) :
    planeKey (t.gVisPlanes idx) = key := by
  rcases h.key with hk | ⟨hi, hk⟩
  · exact hk
  · rw [hk]
    exact hold (by have := h.real; omega)

/-- The floor part of a column keeps the invariant of the column loop. -/
theorem segLoopFloorPart_done {F : Type} [FloatLike F] (cfg : RendererConsts F)
    (seg : viswall_t F) (viewX : Int) (s : RenderState F) (v : SegLoopVars F)
    (s1 : RenderState F) (v1 : SegLoopVars F) (hinv : SegLoopInv seg s v)
    (h : segLoopFloorPart cfg seg viewX s v = .done s1 v1) :
    SegLoopInv seg s1 v1 ∧ SameFrame s s1 ∧
      v1 = { v with
        pFloorPlane := v1.pFloorPlane
        floorY :=
          if hasBits seg.WallActions AC_ADDFLOOR then v.floorY + v.floorYStep
          else v.floorY } := by
  unfold segLoopFloorPart at h
  by_cases hbit : hasBits seg.WallActions AC_ADDFLOOR = true
  · rw [if_pos hbit, segLoopAddFloor_eq_registerSpan, Outcome.andThen_eq_done] at h
    obtain ⟨t, p, hreg, hdone⟩ := h
    injection hdone with hs hv
    subst hs; subst hv
    rw [if_pos hbit]
    rcases registerSpan_done cfg s v.pFloorPlane seg.floorheight seg.FloorPic viewX seg.rightX
        seg.seglightlevel _ _ t p (hinv.rec0 viewX) hinv.pool hinv.floorLt hreg with
      ⟨_, hs, hp⟩ | ⟨_, R⟩
    · subst hs; subst hp
      exact ⟨⟨hinv.rec0, hinv.pool, hinv.floorLt, hinv.floorKey, hinv.ceilLt, hinv.ceilKey⟩,
        ⟨rfl, rfl, rfl, rfl, rfl, rfl, rfl⟩, rfl⟩
    · refine ⟨⟨?_, ?_, R.inPool, fun _ => R.hasKey hinv.floorKey, ?_, ?_⟩, R.frame, rfl⟩
      · intro x; rw [R.keepsRec0]; exact hinv.rec0 x
      · exact le_trans hinv.pool R.countLe
      · exact lt_of_lt_of_le hinv.ceilLt R.countLe
      · intro hne
        show planeKey (t.gVisPlanes v.pCeilPlane) = _
        rw [R.keepsKey _ hinv.ceilLt]
        exact hinv.ceilKey hne
  · rw [if_neg hbit] at h
    injection h with hs hv
    subst hs; subst hv
    rw [if_neg hbit]
    exact ⟨hinv, ⟨rfl, rfl, rfl, rfl, rfl, rfl, rfl⟩, rfl⟩

/-- The ceiling part of a column keeps the invariant of the column loop. -/
theorem segLoopCeilingPart_done {F : Type} [FloatLike F] (cfg : RendererConsts F)
    (seg : viswall_t F) (viewX clipBoundTY clipBoundBY : Int) (s : RenderState F)
    (v : SegLoopVars F) (s1 : RenderState F) (v1 : SegLoopVars F)
    (hinv : SegLoopInv seg s v)
    (h : segLoopCeilingPart cfg seg viewX clipBoundTY clipBoundBY s v = .done s1 v1) :
    SegLoopInv seg s1 v1 ∧ SameFrame s s1 ∧
      v1 = { v with
        pCeilPlane := v1.pCeilPlane
        ceilY :=
          if hasBits seg.WallActions AC_ADDCEILING then v.ceilY + v.ceilYStep
          else v.ceilY } := by
  unfold segLoopCeilingPart at h
  by_cases hbit : hasBits seg.WallActions AC_ADDCEILING = true
  · rw [if_pos hbit, segLoopAddCeiling_eq_registerSpan, Outcome.andThen_eq_done] at h
    obtain ⟨t, p, hreg, hdone⟩ := h
    injection hdone with hs hv
    subst hs; subst hv
    rw [if_pos hbit]
    rcases registerSpan_done cfg s v.pCeilPlane seg.ceilingheight seg.CeilingPic viewX
        seg.rightX seg.seglightlevel _ _ t p (hinv.rec0 viewX) hinv.pool hinv.ceilLt hreg with
      ⟨_, hs, hp⟩ | ⟨_, R⟩
    · subst hs; subst hp
      exact ⟨⟨hinv.rec0, hinv.pool, hinv.floorLt, hinv.floorKey, hinv.ceilLt, hinv.ceilKey⟩,
        ⟨rfl, rfl, rfl, rfl, rfl, rfl, rfl⟩, rfl⟩
    · refine ⟨⟨?_, ?_, ?_, ?_, R.inPool, fun _ => R.hasKey hinv.ceilKey⟩, R.frame, rfl⟩
      · intro x; rw [R.keepsRec0]; exact hinv.rec0 x
      · exact le_trans hinv.pool R.countLe
      · exact lt_of_lt_of_le hinv.floorLt R.countLe
      · intro hne
        show planeKey (t.gVisPlanes v.pFloorPlane) = _
        rw [R.keepsKey _ hinv.floorLt]
        exact hinv.floorKey hne
  · rw [if_neg hbit] at h
    injection h with hs hv
    subst hs; subst hv
    rw [if_neg hbit]
    exact ⟨hinv, ⟨rfl, rfl, rfl, rfl, rfl, rfl, rfl⟩, rfl⟩

theorem SegLoopInv.ofSamePlanes {F : Type} {seg : viswall_t F} {s t : RenderState F}
    {v w : SegLoopVars F} (h : SegLoopInv seg s v) (hp : SamePlanes s t)
    (hf : w.pFloorPlane = v.pFloorPlane) (hc : w.pCeilPlane = v.pCeilPlane) :
    SegLoopInv seg t w := by
  refine ⟨?_, ?_, ?_, ?_, ?_, ?_⟩
  · rw [hp.planes]; exact h.rec0
  · rw [hp.count]; exact h.pool
  · rw [hp.count, hf]; exact h.floorLt
  · rw [hp.planes, hf]; exact h.floorKey
  · rw [hp.count, hc]; exact h.ceilLt
  · rw [hp.planes, hc]; exact h.ceilKey

/-- A column that returns went through its floor part, its ceiling part and the rest. -/
theorem segLoopColumn_done {F : Type} [FloatLike F] (cfg : RendererConsts F)
    (seg : viswall_t F) (viewX : Int) (s : RenderState F) (v : SegLoopVars F)
    (s' : RenderState F) (v' : SegLoopVars F)
    (h : segLoopColumn cfg seg viewX s v = .done s' v') :
    ∃ s1 v1 s2 v2, segLoopFloorPart cfg seg viewX s v = .done s1 v1 ∧
      segLoopCeilingPart cfg seg viewX (toI32 (s.gClipBoundTop viewX))
        (toI32 (s.gClipBoundBottom viewX)) s1 v1 = .done s2 v2 ∧
      s' = (segLoopColumnTail seg (FloatLike.fmin v.columnScale cfg.MAX_RENDER_SCALE) viewX
        (toI32 (s.gClipBoundTop viewX)) (toI32 (s.gClipBoundBottom viewX)) s2 v2).1 ∧
      v' = (segLoopColumnTail seg (FloatLike.fmin v.columnScale cfg.MAX_RENDER_SCALE) viewX
        (toI32 (s.gClipBoundTop viewX)) (toI32 (s.gClipBoundBottom viewX)) s2 v2).2 := by
  rw [segLoopColumn_eq, Outcome.andThen_eq_done] at h
  obtain ⟨s1, v1, h1, h⟩ := h
  rw [Outcome.andThen_eq_done] at h
  obtain ⟨s2, v2, h2, h⟩ := h
  injection h with hs hv
  exact ⟨s1, v1, s2, v2, h1, h2, hs.symm, hv.symm⟩

/-- One column keeps the invariant of the column loop and advances the stepped locals. -/
theorem segLoopColumn_inv {F : Type} [FloatLike F] (cfg : RendererConsts F)
    (seg : viswall_t F) (viewX : Int) (s0 s : RenderState F) (v : SegLoopVars F)
    (s' : RenderState F) (v' : SegLoopVars F) (k : Nat) (hinv : SegLoopInv seg s v)
    (hvars : SegLoopVarsAt s0 seg k v)
    (h : segLoopColumn cfg seg viewX s v = .done s' v') :
    SegLoopInv seg s' v' ∧ SegLoopVarsAt s0 seg (k + 1) v' := by
  obtain ⟨s1, v1, s2, v2, h1, h2, hs, hv⟩ := segLoopColumn_done cfg seg viewX s v s' v' h
  obtain ⟨i1, _, e1⟩ := segLoopFloorPart_done cfg seg viewX s v s1 v1 hinv h1
  obtain ⟨i2, _, e2⟩ := segLoopCeilingPart_done cfg seg viewX _ _ s1 v1 s2 v2 i1 h2
  obtain ⟨t1, t2⟩ := segLoopColumnTail_spec seg
    (FloatLike.fmin v.columnScale cfg.MAX_RENDER_SCALE) viewX
    (toI32 (s.gClipBoundTop viewX)) (toI32 (s.gClipBoundBottom viewX)) s2 v2
  rw [← hs] at t1
  rw [← hv] at t2
  refine ⟨i2.ofSamePlanes t1 (by rw [t2]) (by rw [t2]), ?_⟩
  have hv' : v' =
      { v with
        pFloorPlane := v1.pFloorPlane
        pCeilPlane := v2.pCeilPlane
        floorY :=
          if hasBits seg.WallActions AC_ADDFLOOR then v.floorY + v.floorYStep else v.floorY
        ceilY :=
          if hasBits seg.WallActions AC_ADDCEILING then v.ceilY + v.ceilYStep else v.ceilY
        newFloorY :=
          if hasBits seg.WallActions (AC_BOTTOMSIL ||| AC_NEWFLOOR) then
            v.newFloorY + v.newFloorYStep
          else v.newFloorY
        newCeilY :=
          if hasBits seg.WallActions (AC_TOPSIL ||| AC_NEWCEILING) then
            v.newCeilY + v.newCeilYStep
          else v.newCeilY
        columnScale := v.columnScale + seg.ScaleStep } := by
    rw [t2, e2, e1]
  rw [hv']
  refine ⟨fun hb => ?_, fun hb => ?_, fun hb => ?_, fun hb => ?_, ?_⟩
  · obtain ⟨a, b⟩ := hvars.floorY hb
    simp only [hb, if_true]
    exact ⟨by rw [a, b]; rfl, b⟩
  · obtain ⟨a, b⟩ := hvars.ceilY hb
    simp only [hb, if_true]
    exact ⟨by rw [a, b]; rfl, b⟩
  · obtain ⟨a, b⟩ := hvars.newFloorY hb
    have hb' := (hasBits_lor seg.WallActions AC_BOTTOMSIL AC_NEWFLOOR).2 (Or.inr hb)
    simp only [hb', if_true]
    exact ⟨by rw [a, b]; rfl, b⟩
  · obtain ⟨a, b⟩ := hvars.newCeilY hb
    have hb' := (hasBits_lor seg.WallActions AC_TOPSIL AC_NEWCEILING).2 (Or.inr hb)
    simp only [hb', if_true]
    exact ⟨by rw [a, b]; rfl, b⟩
  · show v.columnScale + seg.ScaleStep = _
    rw [hvars.columnScale]; rfl

/-- The invariant of the column loop and the values of the stepped locals after `n` columns. -/
theorem segLoopColumns_inv {F : Type} [FloatLike F] (cfg : RendererConsts F)
    (seg : viswall_t F) (s0 : RenderState F) (n : Nat) :
    ∀ (viewX : Int) (s : RenderState F) (v : SegLoopVars F) (s' : RenderState F)
      (v' : SegLoopVars F) (k : Nat), SegLoopInv seg s v → SegLoopVarsAt s0 seg k v →
      segLoopColumns cfg seg n viewX s v = .done s' v' →
      SegLoopInv seg s' v' ∧ SegLoopVarsAt s0 seg (k + n) v' := by
  induction n with
  | zero =>
    intro viewX s v s' v' k hinv hvars h
    injection h with hs hv
    subst hs; subst hv
    exact ⟨hinv, hvars⟩
  | succ n ih =>
    intro viewX s v s' v' k hinv hvars h
    unfold segLoopColumns at h
    rw [Outcome.andThen_eq_done] at h
    obtain ⟨s1, v1, h1, h2⟩ := h
    obtain ⟨i1, w1⟩ := segLoopColumn_inv cfg seg viewX s0 s v s1 v1 k hinv hvars h1
    have := ih (viewX + 1) s1 v1 s' v' (k + 1) i1 w1 h2
    rw [show k + (n + 1) = k + 1 + n by omega]
    exact this

/-- The locals after the setup of `segLoop` satisfy the invariant of the column loop. -/
theorem segLoopSetup_inv {F : Type} [FloatLike F] (s : RenderState F) (seg : viswall_t F)
    (uninit : SegLoopVars F) (hrec0 : ∀ x, ((s.gVisPlanes 0).cols x).isDefined = true)
    (hpool : 1 ≤ s.gpEndVisPlane) :
    SegLoopInv seg s (segLoopSetup s seg uninit) ∧
      SegLoopVarsAt s seg 0 (segLoopSetup s seg uninit) := by
  refine ⟨⟨hrec0, hpool, hpool, fun h => absurd rfl h, hpool, fun h => absurd rfl h⟩, ?_⟩
  unfold segLoopSetup
  refine ⟨fun hb => ?_, fun hb => ?_, fun hb => ?_, fun hb => ?_, rfl⟩
  · by_cases h2 : hasBits seg.WallActions AC_ADDCEILING = true <;>
      by_cases h3 : hasBits seg.WallActions AC_NEWFLOOR = true <;>
      by_cases h4 : hasBits seg.WallActions AC_NEWCEILING = true <;>
      simp [hb, h2, h3, h4, segYAt, steppedY]
  · by_cases h2 : hasBits seg.WallActions AC_ADDFLOOR = true <;>
      by_cases h3 : hasBits seg.WallActions AC_NEWFLOOR = true <;>
      by_cases h4 : hasBits seg.WallActions AC_NEWCEILING = true <;>
      simp [hb, h2, h3, h4, segYAt, steppedY]
  · by_cases h2 : hasBits seg.WallActions AC_ADDFLOOR = true <;>
      by_cases h3 : hasBits seg.WallActions AC_ADDCEILING = true <;>
      by_cases h4 : hasBits seg.WallActions AC_NEWCEILING = true <;>
      simp [hb, h2, h3, h4, segYAt, steppedY]
  · by_cases h2 : hasBits seg.WallActions AC_ADDFLOOR = true <;>
      by_cases h3 : hasBits seg.WallActions AC_ADDCEILING = true <;>
      by_cases h4 : hasBits seg.WallActions AC_NEWFLOOR = true <;>
      simp [hb, h2, h3, h4, segYAt, steppedY]

theorem Outcome.andThen_assoc {F α β γ : Type} (o : Outcome F α)
    (f : RenderState F → α → Outcome F β) (g : RenderState F → β → Outcome F γ) :
    (o.andThen f).andThen g = o.andThen fun s a => (f s a).andThen g := by
  cases o <;> rfl

theorem segLoopColumns_succ {F : Type} [FloatLike F] (cfg : RendererConsts F)
    (seg : viswall_t F) (n : Nat) (viewX : Int) (s : RenderState F) (v : SegLoopVars F) :
    segLoopColumns cfg seg (n + 1) viewX s v =
      (segLoopColumn cfg seg viewX s v).andThen fun s1 v1 =>
        segLoopColumns cfg seg n (viewX + 1) s1 v1 :=
  rfl

/-- Running `k + m` columns is running `k` columns and then `m` more. -/
theorem segLoopColumns_add {F : Type} [FloatLike F] (cfg : RendererConsts F)
    (seg : viswall_t F) (m : Nat) (k : Nat) :
    ∀ (viewX : Int) (s : RenderState F) (v : SegLoopVars F),
      segLoopColumns cfg seg (k + m) viewX s v =
        (segLoopColumns cfg seg k viewX s v).andThen fun s1 v1 =>
          segLoopColumns cfg seg m (viewX + (k : Int)) s1 v1 := by
  induction k with
  | zero =>
    intro viewX s v
    simp [segLoopColumns, Outcome.andThen]
  | succ k ih =>
    intro viewX s v
    rw [show k + 1 + m = (k + m) + 1 by omega, segLoopColumns_succ, segLoopColumns_succ,
      Outcome.andThen_assoc]
    congr 1
    funext s1 v1
    rw [ih (viewX + 1) s1 v1]
    have hx : viewX + 1 + (k : Int) = viewX + ((k + 1 : Nat) : Int) := by
      push_cast; ring
    rw [hx]

/-- From the state `sk`, `vk` reached after `k` columns, `segLoop` goes on with the column
`leftX + k`, as long as that column is not beyond `rightX`. -/
theorem segLoop_eq_of_columns {F : Type} [FloatLike F] (cfg : RendererConsts F)
    (s : RenderState F) (seg : viswall_t F) (uninit : SegLoopVars F) (k : Nat)
    (sk : RenderState F) (vk : SegLoopVars F) (hk : seg.leftX + (k : Int) ≤ seg.rightX)
    (hrun : segLoopColumns cfg seg k seg.leftX s (segLoopSetup s seg uninit) = .done sk vk) :
    segLoop cfg s seg uninit =
      ((segLoopColumn cfg seg (seg.leftX + (k : Int)) sk vk).andThen fun s1 v1 =>
        segLoopColumns cfg seg ((seg.rightX - seg.leftX + 1).toNat - (k + 1))
          (seg.leftX + (k : Int) + 1) s1 v1).andThen fun s1 _ => .done s1 () := by
  unfold segLoop
  have hn : (seg.rightX - seg.leftX + 1).toNat =
      k + (((seg.rightX - seg.leftX + 1).toNat - (k + 1)) + 1) := by omega
  rw [hn, segLoopColumns_add, hrun]
  have hn' : k + ((seg.rightX - seg.leftX + 1).toNat - (k + 1) + 1) - (k + 1) =
      (seg.rightX - seg.leftX + 1).toNat - (k + 1) := by omega
  rw [hn']
  rfl

theorem toU16_cast_of_range (x : Int) (h0 : 0 ≤ x) (h1 : x ≤ 65535) :
    ((toU16 x : Nat) : Int) = x := by
  unfold toU16
  omega

theorem span_isUndefined_eq_false (top bottom : Int) (h0 : 0 ≤ top) (h1 : top ≤ bottom)
    (h2 : bottom ≤ 65535) :
    ({ top := toU16 top, bottom := toU16 bottom } : ScreenYPair).isUndefined = false := by
  have ht := toU16_cast_of_range top h0 (by omega)
  have hb := toU16_cast_of_range bottom (by omega) h2
  unfold ScreenYPair.isUndefined UINT16_MAX
  by_cases hb0 : toU16 bottom = 0
  · have hne : toU16 top ≠ 65535 := by
      intro h
      rw [hb0] at hb
      rw [h] at ht
      omega
    simp [hne]
  · simp [hb0]

/-- The ceiling part of a column leaves alone a record whose span at the column is already
defined: it changes at most the record its plane pointer ends on. -/
theorem segLoopCeilingPart_keeps_defined {F : Type} [FloatLike F] (cfg : RendererConsts F)
    (seg : viswall_t F) (viewX clipBoundTY clipBoundBY : Int) (s : RenderState F)
    (v : SegLoopVars F) (s2 : RenderState F) (v2 : SegLoopVars F) (idx : Nat)
    (hinv : SegLoopInv seg s v) (hidx : idx < s.gpEndVisPlane)
    (hdef : ((s.gVisPlanes idx).cols viewX).isUndefined = false)
    (h : segLoopCeilingPart cfg seg viewX clipBoundTY clipBoundBY s v = .done s2 v2) :
    s2.gVisPlanes idx = s.gVisPlanes idx ∧ v2.pFloorPlane = v.pFloorPlane ∧
      ∀ m, m ≠ v2.pCeilPlane → s2.gVisPlanes m = s.gVisPlanes m := by
  unfold segLoopCeilingPart at h
  by_cases hbit : hasBits seg.WallActions AC_ADDCEILING = true
  · rw [if_pos hbit, segLoopAddCeiling_eq_registerSpan, Outcome.andThen_eq_done] at h
    obtain ⟨t, p, hreg, hdone⟩ := h
    injection hdone with hs hv
    subst hs; subst hv
    rcases registerSpan_done cfg s v.pCeilPlane seg.ceilingheight seg.CeilingPic viewX
        seg.rightX seg.seglightlevel _ _ t p (hinv.rec0 viewX) hinv.pool hinv.ceilLt hreg with
      ⟨_, hs, hp⟩ | ⟨_, R⟩
    · subst hs; subst hp
      exact ⟨rfl, rfl, fun _ _ => rfl⟩
    · have hne : idx ≠ p := by
        intro heq
        subst heq
        have := R.wasFree hidx
        rw [hdef] at this
        exact absurd this (by decide)
      exact ⟨R.others idx hne, rfl, fun m hm => R.others m hm⟩
  · rw [if_neg hbit] at h
    injection h with hs hv
    subst hs; subst hv
    exact ⟨rfl, rfl, fun _ _ => rfl⟩

/-! ## The claims on segLoop -/

/-- C7 (floor registration of `segLoop`): let the segment have the add-floor bit, let record
0 read as defined in every column and the pool hold at least the sentinel when `segLoop`
starts, and let `sk`, `vk` be the globals and locals that `segLoop` has reached after `k`
columns, the column `x = leftX + k` being one of the segment and the pool not exhausted
there. `segLoop` then runs the column `x` from `sk`, `vk`. With the clip bounds read at the
start of the column, `top = max(trunc(floorY_x), clipTop[x] + 1)` and
`bottom = clipBottom[x] - 1`, `floorY_x` being `viewCenterY - floorheight * LeftScale`
advanced `k` times by `-ScaleStep * floorheight`: if `top <= bottom`, the floor block returns,
it assigns the span at `x` of exactly one record (every other record is left as it was), a
real one (index at least 1) that carries the key (floorheight, FloorPic, seglightlevel), the
span assigned is (`top`, `bottom`) as converted to `uint16_t` (which is the pair itself when
`0 <= top` and `bottom <= 65535`). Without the add-ceiling bit this is the plane table after
the column; in any case, for a span in that range, the record still holds it after the
column and the only other record that may differ from the start of the column is the one
the ceiling block ends on. If `top > bottom` the floor block changes no global and keeps the
current plane (no lookup), it only steps `floorY`. -/
theorem segLoop_floor_registration {F : Type} [FloatLike F] (cfg : RendererConsts F)
    (s : RenderState F) (seg : viswall_t F) (uninit : SegLoopVars F) (k : Nat)
    (sk : RenderState F) (vk : SegLoopVars F)
    (hbit : hasBits seg.WallActions AC_ADDFLOOR = true)
    (hrec0 : ∀ x, ((s.gVisPlanes 0).cols x).isDefined = true)
    (hpool : 1 ≤ s.gpEndVisPlane)
    (hk : seg.leftX + (k : Int) ≤ seg.rightX)
    (hrun : segLoopColumns cfg seg k seg.leftX s (segLoopSetup s seg uninit) = .done sk vk)
    (hroom : sk.gpEndVisPlane < cfg.MAXVISPLANES) :
    segLoop cfg s seg uninit =
      ((segLoopColumn cfg seg (seg.leftX + (k : Int)) sk vk).andThen fun s1 v1 =>
        segLoopColumns cfg seg ((seg.rightX - seg.leftX + 1).toNat - (k + 1))
          (seg.leftX + (k : Int) + 1) s1 v1).andThen (fun s1 _ => .done s1 ()) ∧
    (floorSpanTop (segYAt s seg seg.floorheight k)
          (toI32 (sk.gClipBoundTop (seg.leftX + (k : Int)))) ≤
        floorSpanBottom (toI32 (sk.gClipBoundBottom (seg.leftX + (k : Int)))) →
      ∃ t w,
        segLoopAddFloor cfg seg (seg.leftX + (k : Int))
          (toI32 (sk.gClipBoundTop (seg.leftX + (k : Int))))
          (toI32 (sk.gClipBoundBottom (seg.leftX + (k : Int)))) sk vk = .done t w ∧
        1 ≤ w.pFloorPlane ∧
        (t.gVisPlanes w.pFloorPlane).cols (seg.leftX + (k : Int)) =
          { top := toU16 (floorSpanTop (segYAt s seg seg.floorheight k)
              (toI32 (sk.gClipBoundTop (seg.leftX + (k : Int)))))
            bottom := toU16 (floorSpanBottom
              (toI32 (sk.gClipBoundBottom (seg.leftX + (k : Int))))) } ∧
        (0 ≤ floorSpanTop (segYAt s seg seg.floorheight k)
              (toI32 (sk.gClipBoundTop (seg.leftX + (k : Int)))) →
          floorSpanBottom (toI32 (sk.gClipBoundBottom (seg.leftX + (k : Int)))) ≤ 65535 →
          ((((t.gVisPlanes w.pFloorPlane).cols (seg.leftX + (k : Int))).top : Nat) : Int) =
              floorSpanTop (segYAt s seg seg.floorheight k)
                (toI32 (sk.gClipBoundTop (seg.leftX + (k : Int)))) ∧
            ((((t.gVisPlanes w.pFloorPlane).cols (seg.leftX + (k : Int))).bottom : Nat) : Int) =
              floorSpanBottom (toI32 (sk.gClipBoundBottom (seg.leftX + (k : Int))))) ∧
        planeKey (t.gVisPlanes w.pFloorPlane) =
          (seg.floorheight, seg.FloorPic, seg.seglightlevel) ∧
        (∀ m, m ≠ w.pFloorPlane → t.gVisPlanes m = sk.gVisPlanes m) ∧
        (hasBits seg.WallActions AC_ADDCEILING = false →
          ∀ s' v', segLoopColumn cfg seg (seg.leftX + (k : Int)) sk vk = .done s' v' →
            s'.gVisPlanes = t.gVisPlanes ∧ s'.gpEndVisPlane = t.gpEndVisPlane) ∧
        (0 ≤ floorSpanTop (segYAt s seg seg.floorheight k)
              (toI32 (sk.gClipBoundTop (seg.leftX + (k : Int)))) →
          floorSpanBottom (toI32 (sk.gClipBoundBottom (seg.leftX + (k : Int)))) ≤ 65535 →
          ∀ s' v', segLoopColumn cfg seg (seg.leftX + (k : Int)) sk vk = .done s' v' →
            v'.pFloorPlane = w.pFloorPlane ∧
            s'.gVisPlanes w.pFloorPlane = t.gVisPlanes w.pFloorPlane ∧
            (∀ m, m ≠ w.pFloorPlane → m ≠ v'.pCeilPlane →
              s'.gVisPlanes m = sk.gVisPlanes m))) ∧
    (floorSpanBottom (toI32 (sk.gClipBoundBottom (seg.leftX + (k : Int)))) <
        floorSpanTop (segYAt s seg seg.floorheight k)
          (toI32 (sk.gClipBoundTop (seg.leftX + (k : Int)))) →
      segLoopAddFloor cfg seg (seg.leftX + (k : Int))
          (toI32 (sk.gClipBoundTop (seg.leftX + (k : Int))))
          (toI32 (sk.gClipBoundBottom (seg.leftX + (k : Int)))) sk vk =
        .done sk { vk with floorY := vk.floorY + vk.floorYStep }) := by
  obtain ⟨i0, w0⟩ := segLoopSetup_inv s seg uninit hrec0 hpool
  obtain ⟨hinv, hvars⟩ := segLoopColumns_inv cfg seg s k seg.leftX s _ sk vk 0 i0 w0 hrun
  rw [Nat.zero_add] at hvars
  obtain ⟨hfy, _⟩ := hvars.floorY hbit
  refine ⟨segLoop_eq_of_columns cfg s seg uninit k sk vk hk hrun, ?_, ?_⟩
  · intro hspan
    rw [segLoopAddFloor_eq_registerSpan, hfy]
    rcases registerSpan_cases cfg sk vk.pFloorPlane seg.floorheight seg.FloorPic
        (seg.leftX + (k : Int)) seg.rightX seg.seglightlevel
        (floorSpanTop (segYAt s seg seg.floorheight k)
          (toI32 (sk.gClipBoundTop (seg.leftX + (k : Int)))))
        (floorSpanBottom (toI32 (sk.gClipBoundBottom (seg.leftX + (k : Int)))))
        (hinv.rec0 _) hinv.pool hinv.floorLt with ⟨h1, _⟩ | ⟨_, t, idx, e, R⟩ | ⟨_, h2, _⟩
    · omega
    · rw [e]
      refine ⟨t, _, rfl, R.real, R.span, ?_, R.hasKey hinv.floorKey, R.others, ?_, ?_⟩
      · intro h0 h1
        show ((((t.gVisPlanes idx).cols (seg.leftX + (k : Int))).top : Nat) : Int) = _ ∧
          ((((t.gVisPlanes idx).cols (seg.leftX + (k : Int))).bottom : Nat) : Int) = _
        rw [R.span]
        exact ⟨toU16_cast_of_range _ h0 (by omega), toU16_cast_of_range _ (by omega) h1⟩
      · intro hnc s' v' hcol
        obtain ⟨s1, v1, s2, v2, c1, c2, hs, _⟩ :=
          segLoopColumn_done cfg seg _ sk vk s' v' hcol
        unfold segLoopFloorPart at c1
        rw [if_pos hbit, segLoopAddFloor_eq_registerSpan, hfy, e] at c1
        injection c1 with c1s c1v
        unfold segLoopCeilingPart at c2
        rw [hnc] at c2
        injection c2 with c2s c2v
        have hsame := (segLoopColumnTail_spec seg
          (FloatLike.fmin vk.columnScale cfg.MAX_RENDER_SCALE) (seg.leftX + (k : Int))
          (toI32 (sk.gClipBoundTop (seg.leftX + (k : Int))))
          (toI32 (sk.gClipBoundBottom (seg.leftX + (k : Int)))) s2 v2).1
        rw [← hs] at hsame
        rw [hsame.planes, hsame.count, ← c2s, ← c1s]
        exact ⟨rfl, rfl⟩
      · intro h0 h1 s' v' hcol
        obtain ⟨s1, v1, s2, v2, c1, c2, hs, hv⟩ :=
          segLoopColumn_done cfg seg _ sk vk s' v' hcol
        obtain ⟨inv1, _, _⟩ := segLoopFloorPart_done cfg seg _ sk vk s1 v1 hinv c1
        unfold segLoopFloorPart at c1
        rw [if_pos hbit, segLoopAddFloor_eq_registerSpan, hfy, e] at c1
        injection c1 with c1s c1v
        subst c1s; subst c1v
        have hdef : ((t.gVisPlanes idx).cols (seg.leftX + (k : Int))).isUndefined = false := by
          rw [R.span]
          exact span_isUndefined_eq_false _ _ h0 hspan h1
        obtain ⟨k1, k2, k3⟩ := segLoopCeilingPart_keeps_defined cfg seg _ _ _ t _ s2 v2 idx
          inv1 R.inPool hdef c2
        obtain ⟨t1, t2⟩ := segLoopColumnTail_spec seg
          (FloatLike.fmin vk.columnScale cfg.MAX_RENDER_SCALE) (seg.leftX + (k : Int))
          (toI32 (sk.gClipBoundTop (seg.leftX + (k : Int))))
          (toI32 (sk.gClipBoundBottom (seg.leftX + (k : Int)))) s2 v2
        rw [← hs] at t1
        rw [← hv] at t2
        have hvf : v'.pFloorPlane = v2.pFloorPlane := by rw [t2]
        have hvc : v'.pCeilPlane = v2.pCeilPlane := by rw [t2]
        refine ⟨by rw [hvf, k2], by rw [t1.planes]; exact k1, fun m hm1 hm2 => ?_⟩
        rw [t1.planes, k3 m (by rw [← hvc]; exact hm2)]
        exact R.others m hm1
    · omega
  · intro hspan
    rw [segLoopAddFloor_eq_registerSpan, hfy]
    rcases registerSpan_cases cfg sk vk.pFloorPlane seg.floorheight seg.FloorPic
        (seg.leftX + (k : Int)) seg.rightX seg.seglightlevel
        (floorSpanTop (segYAt s seg seg.floorheight k)
          (toI32 (sk.gClipBoundTop (seg.leftX + (k : Int)))))
        (floorSpanBottom (toI32 (sk.gClipBoundBottom (seg.leftX + (k : Int)))))
        (hinv.rec0 _) hinv.pool hinv.floorLt with ⟨_, e⟩ | ⟨h1, _⟩ | ⟨h1, _⟩
    · rw [e]; rfl
    · omega
    · omega

/-- Witness for C7: the column 1 of `floorSeg` on the fresh frame, after the column 0 made
record 1. The floor span is (38, 95); it goes to record 1, which carries the key
(10, 0, 0). -/
theorem segLoop_floor_registration_witness :
    hasBits floorSeg.WallActions AC_ADDFLOOR = true ∧
    segLoopColumns sampleConsts floorSeg 1 floorSeg.leftX freshState
        (segLoopSetup freshState floorSeg zeroVars) =
      .done floorStateAfterOne floorVarsAfterOne ∧
    floorSpanTop (segYAt freshState floorSeg floorSeg.floorheight 1)
        (toI32 (floorStateAfterOne.gClipBoundTop 1)) = 38 ∧
    floorSpanBottom (toI32 (floorStateAfterOne.gClipBoundBottom 1)) = 95 ∧
    ∃ t w, segLoopAddFloor sampleConsts floorSeg 1 (-1) 96 floorStateAfterOne
        floorVarsAfterOne = .done t w ∧
      1 ≤ w.pFloorPlane ∧
      (t.gVisPlanes w.pFloorPlane).cols 1 = { top := 38, bottom := 95 } ∧
      planeKey (t.gVisPlanes w.pFloorPlane) = (10, 0, 0) ∧
      (∀ m, m ≠ w.pFloorPlane → t.gVisPlanes m = floorStateAfterOne.gVisPlanes m) := by
  have h := segLoop_floor_registration sampleConsts freshState floorSeg zeroVars 1
    floorStateAfterOne floorVarsAfterOne (by decide) (fun _ => rfl) (by decide)
    (by decide) rfl (by decide)
  obtain ⟨t, w, h1, h2, h3, _, h5, h6, _, _⟩ := h.2.1 (by decide)
  exact ⟨by decide, rfl, by decide, by decide, t, w, h1, h2, h3, h5, h6⟩

/-- C8 as stated fails without the preconditions of C7. (1) On a pool of two records that is
full (`MAXVISPLANES = 2`), the column 0 of `ceilSeg` has the valid ceiling span (0, 37), no
record matches its key, and the ceiling block, hence `segLoop`, stops with the fatal error,
the globals as before: no span was assigned. (2) With a record 0 that reads as undefined,
the same column assigns the span (0, 37) to record 0, whose key is (0, 0, 0) and not the key
(10, 7, 128) of the segment, and no record is allocated. -/
theorem segLoop_ceiling_needs_preconditions :
    (hasBits ceilSeg.WallActions AC_ADDCEILING = true ∧
      ceilSpanTop (toI32 (onePlaneState.gClipBoundTop 0)) = 0 ∧
      ceilSpanBottom (segYAt onePlaneState ceilSeg ceilSeg.ceilingheight 0)
        (toI32 (onePlaneState.gClipBoundBottom 0)) = 37 ∧
      segLoopAddCeiling tinyConsts ceilSeg 0 (-1) 96 onePlaneState
          (segLoopSetup onePlaneState ceilSeg zeroVars) =
        .fatal "No more visplanes!" onePlaneState ∧
      segLoop tinyConsts onePlaneState ceilSeg zeroVars =
        .fatal "No more visplanes!" onePlaneState) ∧
    ((segLoopColumn sampleConsts ceilSeg 0 undefinedRecord0State
          (segLoopSetup undefinedRecord0State ceilSeg zeroVars)).state?.map
        (fun t => ((t.gVisPlanes 0).cols 0, planeKey (t.gVisPlanes 0), t.gpEndVisPlane)) =
      some ({ top := 0, bottom := 37 }, (0, 0, 0), 1)) := by
  refine ⟨⟨by decide, by decide, by decide, rfl, rfl⟩, by decide⟩

/-- C8, amended (ceiling registration of `segLoop`): let the segment have the add-ceiling
bit, let record 0 read as defined in every column and the pool hold at least the sentinel
when `segLoop` starts, let `sk`, `vk` be the globals and locals reached after `k` columns, the
column `x = leftX + k` being one of the segment, and let the floor part of that column have
returned with `s1`, `v1`, the pool not exhausted there. With the clip bounds read at the
start of the column, `top = clipTop[x] + 1` and
`bottom = min(trunc(ceilY_x) - 1, clipBottom[x] - 1)`, `ceilY_x` being
`viewCenterY - ceilingheight * LeftScale` advanced `k` times by `-ScaleStep * ceilingheight`:
if `top <= bottom`, the ceiling block returns and assigns the span (`top`, `bottom`), as
converted to `uint16_t`, at the column `x` of one real record that carries the key
(ceilingheight, CeilingPic, seglightlevel), every other record is left as it was, and this is
the plane table after the column; otherwise the ceiling block changes no global and keeps
the current plane, it only steps `ceilY`. -/
theorem segLoop_ceiling_registration {F : Type} [FloatLike F] (cfg : RendererConsts F)
    (s : RenderState F) (seg : viswall_t F) (uninit : SegLoopVars F) (k : Nat)
    (sk : RenderState F) (vk : SegLoopVars F) (s1 : RenderState F) (v1 : SegLoopVars F)
    (hbit : hasBits seg.WallActions AC_ADDCEILING = true)
    (hrec0 : ∀ x, ((s.gVisPlanes 0).cols x).isDefined = true)
    (hpool : 1 ≤ s.gpEndVisPlane)
    (hk : seg.leftX + (k : Int) ≤ seg.rightX)
    (hrun : segLoopColumns cfg seg k seg.leftX s (segLoopSetup s seg uninit) = .done sk vk)
    (hfloor : segLoopFloorPart cfg seg (seg.leftX + (k : Int)) sk vk = .done s1 v1)
    (hroom : s1.gpEndVisPlane < cfg.MAXVISPLANES) :
    segLoop cfg s seg uninit =
      ((segLoopColumn cfg seg (seg.leftX + (k : Int)) sk vk).andThen fun s1 v1 =>
        segLoopColumns cfg seg ((seg.rightX - seg.leftX + 1).toNat - (k + 1))
          (seg.leftX + (k : Int) + 1) s1 v1).andThen (fun s1 _ => .done s1 ()) ∧
    (ceilSpanTop (toI32 (sk.gClipBoundTop (seg.leftX + (k : Int)))) ≤
        ceilSpanBottom (segYAt s seg seg.ceilingheight k)
          (toI32 (sk.gClipBoundBottom (seg.leftX + (k : Int)))) →
      ∃ t w,
        segLoopAddCeiling cfg seg (seg.leftX + (k : Int))
          (toI32 (sk.gClipBoundTop (seg.leftX + (k : Int))))
          (toI32 (sk.gClipBoundBottom (seg.leftX + (k : Int)))) s1 v1 = .done t w ∧
        1 ≤ w.pCeilPlane ∧
        (t.gVisPlanes w.pCeilPlane).cols (seg.leftX + (k : Int)) =
          { top := toU16 (ceilSpanTop (toI32 (sk.gClipBoundTop (seg.leftX + (k : Int)))))
            bottom := toU16 (ceilSpanBottom (segYAt s seg seg.ceilingheight k)
              (toI32 (sk.gClipBoundBottom (seg.leftX + (k : Int))))) } ∧
        (0 ≤ ceilSpanTop (toI32 (sk.gClipBoundTop (seg.leftX + (k : Int)))) →
          ceilSpanBottom (segYAt s seg seg.ceilingheight k)
              (toI32 (sk.gClipBoundBottom (seg.leftX + (k : Int)))) ≤ 65535 →
          ((((t.gVisPlanes w.pCeilPlane).cols (seg.leftX + (k : Int))).top : Nat) : Int) =
              ceilSpanTop (toI32 (sk.gClipBoundTop (seg.leftX + (k : Int)))) ∧
            ((((t.gVisPlanes w.pCeilPlane).cols (seg.leftX + (k : Int))).bottom : Nat) : Int) =
              ceilSpanBottom (segYAt s seg seg.ceilingheight k)
                (toI32 (sk.gClipBoundBottom (seg.leftX + (k : Int))))) ∧
        planeKey (t.gVisPlanes w.pCeilPlane) =
          (seg.ceilingheight, seg.CeilingPic, seg.seglightlevel) ∧
        (∀ m, m ≠ w.pCeilPlane → t.gVisPlanes m = s1.gVisPlanes m) ∧
        (∀ s' v', segLoopColumn cfg seg (seg.leftX + (k : Int)) sk vk = .done s' v' →
          s'.gVisPlanes = t.gVisPlanes ∧ s'.gpEndVisPlane = t.gpEndVisPlane)) ∧
    (ceilSpanBottom (segYAt s seg seg.ceilingheight k)
          (toI32 (sk.gClipBoundBottom (seg.leftX + (k : Int)))) <
        ceilSpanTop (toI32 (sk.gClipBoundTop (seg.leftX + (k : Int)))) →
      segLoopAddCeiling cfg seg (seg.leftX + (k : Int))
          (toI32 (sk.gClipBoundTop (seg.leftX + (k : Int))))
          (toI32 (sk.gClipBoundBottom (seg.leftX + (k : Int)))) s1 v1 =
        .done s1 { v1 with ceilY := v1.ceilY + v1.ceilYStep }) := by
  obtain ⟨i0, w0⟩ := segLoopSetup_inv s seg uninit hrec0 hpool
  obtain ⟨hinvk, hvars⟩ := segLoopColumns_inv cfg seg s k seg.leftX s _ sk vk 0 i0 w0 hrun
  rw [Nat.zero_add] at hvars
  obtain ⟨hinv, _, e1⟩ := segLoopFloorPart_done cfg seg _ sk vk s1 v1 hinvk hfloor
  have hcy : v1.ceilY = segYAt s seg seg.ceilingheight k := by
    rw [e1]; exact (hvars.ceilY hbit).1
  refine ⟨segLoop_eq_of_columns cfg s seg uninit k sk vk hk hrun, ?_, ?_⟩
  · intro hspan
    rw [segLoopAddCeiling_eq_registerSpan, hcy]
    rcases registerSpan_cases cfg s1 v1.pCeilPlane seg.ceilingheight seg.CeilingPic
        (seg.leftX + (k : Int)) seg.rightX seg.seglightlevel
        (ceilSpanTop (toI32 (sk.gClipBoundTop (seg.leftX + (k : Int)))))
        (ceilSpanBottom (segYAt s seg seg.ceilingheight k)
          (toI32 (sk.gClipBoundBottom (seg.leftX + (k : Int)))))
        (hinv.rec0 _) hinv.pool hinv.ceilLt with ⟨h1, _⟩ | ⟨_, t, idx, e, R⟩ | ⟨_, h2, _⟩
    · omega
    · rw [e]
      refine ⟨t, _, rfl, R.real, R.span, ?_, R.hasKey hinv.ceilKey, R.others, ?_⟩
      · intro h0 h1
        show ((((t.gVisPlanes idx).cols (seg.leftX + (k : Int))).top : Nat) : Int) = _ ∧
          ((((t.gVisPlanes idx).cols (seg.leftX + (k : Int))).bottom : Nat) : Int) = _
        rw [R.span]
        exact ⟨toU16_cast_of_range _ h0 (by omega), toU16_cast_of_range _ (by omega) h1⟩
      · intro s' v' hcol
        obtain ⟨s1', v1', s2, v2, c1, c2, hs, _⟩ :=
          segLoopColumn_done cfg seg _ sk vk s' v' hcol
        rw [hfloor] at c1
        injection c1 with c1s c1v
        subst c1s; subst c1v
        unfold segLoopCeilingPart at c2
        rw [if_pos hbit, segLoopAddCeiling_eq_registerSpan, hcy, e] at c2
        injection c2 with c2s c2v
        have hsame := (segLoopColumnTail_spec seg
          (FloatLike.fmin vk.columnScale cfg.MAX_RENDER_SCALE) (seg.leftX + (k : Int))
          (toI32 (sk.gClipBoundTop (seg.leftX + (k : Int))))
          (toI32 (sk.gClipBoundBottom (seg.leftX + (k : Int)))) s2 v2).1
        rw [← hs] at hsame
        rw [hsame.planes, hsame.count, ← c2s]
        exact ⟨rfl, rfl⟩
    · omega
  · intro hspan
    rw [segLoopAddCeiling_eq_registerSpan, hcy]
    rcases registerSpan_cases cfg s1 v1.pCeilPlane seg.ceilingheight seg.CeilingPic
        (seg.leftX + (k : Int)) seg.rightX seg.seglightlevel
        (ceilSpanTop (toI32 (sk.gClipBoundTop (seg.leftX + (k : Int)))))
        (ceilSpanBottom (segYAt s seg seg.ceilingheight k)
          (toI32 (sk.gClipBoundBottom (seg.leftX + (k : Int)))))
        (hinv.rec0 _) hinv.pool hinv.ceilLt with ⟨_, e⟩ | ⟨h1, _⟩ | ⟨h1, _⟩
    · rw [e, ← hcy]; rfl
    · omega
    · omega

/-- Witness for C8, amended: the column 0 of `ceilSeg` on the fresh frame. The ceiling span is
(0, 37); it goes to a real record that carries the key (10, 7, 128). -/
theorem segLoop_ceiling_registration_witness :
    hasBits ceilSeg.WallActions AC_ADDCEILING = true ∧
    freshState.gpEndVisPlane < sampleConsts.MAXVISPLANES ∧
    ceilSpanTop (toI32 (freshState.gClipBoundTop 0)) = 0 ∧
    ceilSpanBottom (segYAt freshState ceilSeg ceilSeg.ceilingheight 0)
      (toI32 (freshState.gClipBoundBottom 0)) = 37 ∧
    ∃ t w, segLoopAddCeiling sampleConsts ceilSeg 0 (-1) 96 freshState
        (segLoopSetup freshState ceilSeg zeroVars) = .done t w ∧
      1 ≤ w.pCeilPlane ∧
      (t.gVisPlanes w.pCeilPlane).cols 0 = { top := 0, bottom := 37 } ∧
      planeKey (t.gVisPlanes w.pCeilPlane) = (10, 7, 128) := by
  have h := segLoop_ceiling_registration sampleConsts freshState ceilSeg zeroVars 0
    freshState (segLoopSetup freshState ceilSeg zeroVars) freshState
    (segLoopSetup freshState ceilSeg zeroVars) (by decide) (fun _ => rfl) (by decide)
    (by decide) rfl rfl (by decide)
  obtain ⟨t, w, h1, h2, h3, _, h5, _⟩ := h.2.1 (by decide)
  exact ⟨by decide, by decide, by decide, by decide, t, w, h1, h2, h3, h5⟩

/-- C9, the code at a segment with the bottom silhouette bit alone: `newFloorY` is only
assigned under the new-floor bit but read under either bit, so the value stored in
`BottomSil[0]` is computed from what the local happened to hold (0 gives 0, 77 gives 77),
not from the new floor height, which would give `clamp(48 - 10, 0, 96) = 38`. -/
theorem segLoop_bottomSil_alone_reads_unassigned_local :
    hasBits bottomSilSeg.WallActions AC_BOTTOMSIL = true ∧
    hasBits bottomSilSeg.WallActions AC_NEWFLOOR = false ∧
    max (min (FloatLike.toInt32
      (segYAt freshState bottomSilSeg bottomSilSeg.floornewheight 0))
        (toI32 (freshState.gClipBoundBottom 0))) 0 = 38 ∧
    (segLoop sampleConsts freshState bottomSilSeg zeroVars).state?.map
        (fun t => t.silhouettes (bottomSilSeg.BottomSil + 0)) = some 0 ∧
    (segLoop sampleConsts freshState bottomSilSeg { zeroVars with newFloorY := 77 }).state?.map
        (fun t => t.silhouettes (bottomSilSeg.BottomSil + 0)) = some 77 := by
  refine ⟨by decide, by decide, by decide, by decide, by decide⟩

/-- C10, the code at a segment with the top silhouette bit alone: `newCeilY` is only assigned
under the new-ceiling bit but read under either bit, so the value stored in `TopSil[0]` is
computed from what the local happened to hold (0 gives 0, 77 gives 77), not from the new
ceiling height, which would give `clamp(48 - 10 - 1, -1, 95) + 1 = 38`. -/
theorem segLoop_topSil_alone_reads_unassigned_local :
    hasBits topSilSeg.WallActions AC_TOPSIL = true ∧
    hasBits topSilSeg.WallActions AC_NEWCEILING = false ∧
    min (max (FloatLike.toInt32
      (segYAt freshState topSilSeg topSilSeg.ceilingnewheight 0) - 1)
        (toI32 (freshState.gClipBoundTop 0))) ((freshState.gScreenHeight : Int) - 1) + 1 = 38 ∧
    (segLoop sampleConsts freshState topSilSeg zeroVars).state?.map
        (fun t => t.silhouettes (topSilSeg.TopSil + 0)) = some 0 ∧
    (segLoop sampleConsts freshState topSilSeg { zeroVars with newCeilY := 77 }).state?.map
        (fun t => t.silhouettes (topSilSeg.TopSil + 0)) = some 77 := by
  refine ⟨by decide, by decide, by decide, by decide, by decide⟩

/-! ## What the silhouette blocks compute when the stepped local was assigned -/

/-- Over exact arithmetic the stepped screen Y of the world height `h` at the `k`-th column is
`viewCenterY - h * (LeftScale + k * ScaleStep)`. -/
theorem segYAt_rat (s : RenderState ℚ) (seg : viswall_t ℚ) (h : ℚ) (k : Nat) :
    segYAt s seg h k = (s.gCenterY : ℚ) - h * (seg.LeftScale + (k : ℚ) * seg.ScaleStep) := by
  unfold segYAt
  induction k with
  | zero =>
    show (s.gCenterY : ℚ) - h * seg.LeftScale = _
    push_cast
    ring
  | succ k ih =>
    show steppedY _ _ k + -seg.ScaleStep * h = _
    rw [ih]
    push_cast
    ring

/-- The bottom silhouette block at the `k`-th column of a segment with the new-floor bit:
`low` is computed from the stepped new floor Y; it overwrites `clipBottom[x]`, and it is
stored in `BottomSil[x]` exactly when the bottom silhouette bit is set. -/
theorem segLoopBottomSil_of_newFloor {F : Type} [FloatLike F] (s : RenderState F)
    (seg : viswall_t F) (k : Nat) (viewX clipBoundBY : Int) (s2 : RenderState F)
    (v2 : SegLoopVars F) (hbit : hasBits seg.WallActions AC_NEWFLOOR = true)
    (hvars : SegLoopVarsAt s seg k v2) :
    (segLoopBottomSil seg viewX clipBoundBY s2 v2).1.gClipBoundBottom viewX =
        toU32 (max (min (FloatLike.toInt32 (segYAt s seg seg.floornewheight k)) clipBoundBY) 0) ∧
    (∀ x, x ≠ viewX →
      (segLoopBottomSil seg viewX clipBoundBY s2 v2).1.gClipBoundBottom x =
        s2.gClipBoundBottom x) ∧
    (hasBits seg.WallActions AC_BOTTOMSIL = true →
      (segLoopBottomSil seg viewX clipBoundBY s2 v2).1.silhouettes (seg.BottomSil + viewX) =
        max (min (FloatLike.toInt32 (segYAt s seg seg.floornewheight k)) clipBoundBY) 0) ∧
    (hasBits seg.WallActions AC_BOTTOMSIL = false →
      (segLoopBottomSil seg viewX clipBoundBY s2 v2).1.silhouettes = s2.silhouettes) := by
  obtain ⟨hy, _⟩ := hvars.newFloorY hbit
  unfold segLoopBottomSil
  rw [hy]
  by_cases hb : hasBits seg.WallActions AC_BOTTOMSIL = true
  · simp [hbit, hb]
    intro x hx
    exact Function.update_noteq hx _ _
  · have hb' : hasBits seg.WallActions AC_BOTTOMSIL = false := by simpa using hb
    simp [hbit, hb']
    intro x hx
    exact Function.update_noteq hx _ _

/-- The top silhouette block at the `k`-th column of a segment with the new-ceiling bit:
`high` is computed from the stepped new ceiling Y; it overwrites `clipTop[x]`, and `high + 1`
is stored in `TopSil[x]` exactly when the top silhouette bit is set. -/
theorem segLoopTopSil_of_newCeiling {F : Type} [FloatLike F] (s : RenderState F)
    (seg : viswall_t F) (k : Nat) (viewX clipBoundTY : Int) (s2 : RenderState F)
    (v2 : SegLoopVars F) (hbit : hasBits seg.WallActions AC_NEWCEILING = true)
    (hvars : SegLoopVarsAt s seg k v2) :
    (segLoopTopSil seg viewX clipBoundTY s2 v2).1.gClipBoundTop viewX =
        toU32 (min (max (FloatLike.toInt32 (segYAt s seg seg.ceilingnewheight k) - 1)
          clipBoundTY) ((s2.gScreenHeight : Int) - 1)) ∧
    (∀ x, x ≠ viewX →
      (segLoopTopSil seg viewX clipBoundTY s2 v2).1.gClipBoundTop x = s2.gClipBoundTop x) ∧
    (hasBits seg.WallActions AC_TOPSIL = true →
      (segLoopTopSil seg viewX clipBoundTY s2 v2).1.silhouettes (seg.TopSil + viewX) =
        min (max (FloatLike.toInt32 (segYAt s seg seg.ceilingnewheight k) - 1)
          clipBoundTY) ((s2.gScreenHeight : Int) - 1) + 1) ∧
    (hasBits seg.WallActions AC_TOPSIL = false →
      (segLoopTopSil seg viewX clipBoundTY s2 v2).1.silhouettes = s2.silhouettes) := by
  obtain ⟨hy, _⟩ := hvars.newCeilY hbit
  unfold segLoopTopSil
  rw [hy]
  by_cases hb : hasBits seg.WallActions AC_TOPSIL = true
  · simp [hbit, hb]
    intro x hx
    exact Function.update_noteq hx _ _
  · have hb' : hasBits seg.WallActions AC_TOPSIL = false := by simpa using hb
    simp [hbit, hb']
    intro x hx
    exact Function.update_noteq hx _ _

/-! ## Lemmas on the clip bounds -/

theorem sameFrame_refl {F : Type} (s : RenderState F) : SameFrame s s :=
  ⟨rfl, rfl, rfl, rfl, rfl, rfl, rfl⟩

theorem sameFrame_trans {F : Type} {s t u : RenderState F} (h1 : SameFrame s t)
    (h2 : SameFrame t u) : SameFrame s u :=
  ⟨h2.clipTop.trans h1.clipTop, h2.clipBottom.trans h1.clipBottom, h2.width.trans h1.width,
    h2.height.trans h1.height, h2.centerY.trans h1.centerY, h2.sil.trans h1.sil,
    h2.sky.trans h1.sky⟩

/-- A relation that goes through two routines in sequence goes through their composition,
whether they return or stop. -/
theorem Outcome.finalState_andThen {F α β : Type} (R : RenderState F → RenderState F → Prop)
    (htrans : ∀ a b c, R a b → R b c → R a c) (s : RenderState F) (o : Outcome F α)
    (f : RenderState F → α → Outcome F β) (h1 : R s o.finalState)
    (h2 : ∀ s1 a, o = .done s1 a → R s1 (f s1 a).finalState) :
    R s (o.andThen f).finalState := by
  cases o with
  | done s1 a => exact htrans _ _ _ h1 (h2 s1 a rfl)
  | fatal msg s1 => exact h1

/-- `findPlane` touches nothing but the plane table and the pool count, also when it
stops. -/
theorem findPlane_finalState_frame {F : Type} [FloatLike F] (cfg : RendererConsts F)
    (s : RenderState F) (plane : Nat) (height : F) (picHandle : Nat) (start stop : Int)
    (light : Nat) :
    SameFrame s (findPlane cfg s plane height picHandle start stop light).finalState := by
  rcases findPlane_cases cfg s plane height picHandle start stop light with
    ⟨j, _, _, _, _, h5⟩ | ⟨_, h5⟩
  · rw [h5]; exact ⟨rfl, rfl, rfl, rfl, rfl, rfl, rfl⟩
  · rw [h5]
    by_cases hroom : s.gpEndVisPlane < cfg.MAXVISPLANES
    · rw [if_pos hroom]; exact ⟨rfl, rfl, rfl, rfl, rfl, rfl, rfl⟩
    · rw [if_neg hroom]; exact ⟨rfl, rfl, rfl, rfl, rfl, rfl, rfl⟩

theorem registerSpan_finalState_frame {F : Type} [FloatLike F] (cfg : RendererConsts F)
    (s : RenderState F) (pPlane : Nat) (height : F) (picHandle : Nat) (viewX rightX : Int)
    (light : Nat) (top bottom : Int) :
    SameFrame s
      (registerSpan cfg s pPlane height picHandle viewX rightX light top bottom).finalState := by
  unfold registerSpan
  by_cases hspan : top ≤ bottom
  · rw [if_pos hspan]
    apply Outcome.finalState_andThen SameFrame (fun _ _ _ => sameFrame_trans)
    · by_cases hdef : ((s.gVisPlanes pPlane).cols viewX).isDefined = true
      · simp only [hdef, if_true]
        exact findPlane_finalState_frame cfg s pPlane height picHandle viewX rightX light
      · simp only [hdef, if_false]
        exact sameFrame_refl s
    · intro s1 p _
      exact (setPlaneCol_frame s1 p viewX _).2
  · rw [if_neg hspan]
    exact sameFrame_refl s

theorem segLoopFloorPart_finalState_frame {F : Type} [FloatLike F] (cfg : RendererConsts F)
    (seg : viswall_t F) (viewX : Int) (s : RenderState F) (v : SegLoopVars F) :
    SameFrame s (segLoopFloorPart cfg seg viewX s v).finalState := by
  unfold segLoopFloorPart
  by_cases hbit : hasBits seg.WallActions AC_ADDFLOOR = true
  · rw [if_pos hbit, segLoopAddFloor_eq_registerSpan]
    apply Outcome.finalState_andThen SameFrame (fun _ _ _ => sameFrame_trans)
    · exact registerSpan_finalState_frame _ _ _ _ _ _ _ _ _ _
    · intro s1 p _
      exact sameFrame_refl s1
  · rw [if_neg hbit]
    exact sameFrame_refl s

theorem segLoopCeilingPart_finalState_frame {F : Type} [FloatLike F] (cfg : RendererConsts F)
    (seg : viswall_t F) (viewX clipBoundTY clipBoundBY : Int) (s : RenderState F)
    (v : SegLoopVars F) :
    SameFrame s
      (segLoopCeilingPart cfg seg viewX clipBoundTY clipBoundBY s v).finalState := by
  unfold segLoopCeilingPart
  by_cases hbit : hasBits seg.WallActions AC_ADDCEILING = true
  · rw [if_pos hbit, segLoopAddCeiling_eq_registerSpan]
    apply Outcome.finalState_andThen SameFrame (fun _ _ _ => sameFrame_trans)
    · exact registerSpan_finalState_frame _ _ _ _ _ _ _ _ _ _
    · intro s1 p _
      exact sameFrame_refl s1
  · rw [if_neg hbit]
    exact sameFrame_refl s

theorem toI32_toU32 (v : Int) (h0 : -2147483648 ≤ v) (h1 : v < 2147483648) :
    toI32 (toU32 v) = v := by
  unfold toI32 toU32
  split_ifs <;> omega

theorem finalState_andThen_done {F α β : Type} (o : Outcome F α) (g : RenderState F → α → β) :
    (o.andThen fun t a => .done t (g t a)).finalState = o.finalState := by
  cases o <;> rfl

theorem toI32_natCast (n : Nat) (h : n < 2147483648) : toI32 n = (n : Int) := by
  unfold toI32
  split_ifs <;> omega

theorem toU32_natCast (n : Nat) (h : n < 4294967296) : toU32 (n : Int) = n := by
  unfold toU32
  omega

theorem toU32_of_range (x : Int) (h0 : 0 ≤ x) (h1 : x < 4294967296) :
    ((toU32 x : Nat) : Int) = x := by
  unfold toU32
  omega

theorem clipStep_refl {F : Type} (seg : viswall_t F) (lo hi : Int) (s : RenderState F) :
    ClipStep seg lo hi s s :=
  ⟨rfl, rfl, rfl, fun _ _ => ⟨rfl, rfl⟩, fun _ => rfl, fun _ => rfl,
    fun _ _ h => ⟨h, le_refl _, le_refl _⟩⟩

theorem clipStep_trans {F : Type} {seg : viswall_t F} {lo hi : Int} {s t u : RenderState F}
    (h1 : ClipStep seg lo hi s t) (h2 : ClipStep seg lo hi t u) : ClipStep seg lo hi s u := by
  refine ⟨h2.width.trans h1.width, h2.height.trans h1.height, h2.centerY.trans h1.centerY,
    ?_, ?_, ?_, ?_⟩
  · intro x hx
    exact ⟨(h2.outside x hx).1.trans (h1.outside x hx).1,
      (h2.outside x hx).2.trans (h1.outside x hx).2⟩
  · intro hb; exact (h2.topBit hb).trans (h1.topBit hb)
  · intro hb; exact (h2.bottomBit hb).trans (h1.bottomBit hb)
  · intro hH x hx
    obtain ⟨a1, a2, a3⟩ := h1.tighten hH x hx
    obtain ⟨b1, b2, b3⟩ := h2.tighten (by rw [h1.height]; exact hH) x a1
    exact ⟨b1, le_trans a2 b2, le_trans b3 a3⟩

theorem clipStep_widen {F : Type} {seg : viswall_t F} {lo hi lo' hi' : Int}
    {s t : RenderState F} (h : ClipStep seg lo hi s t) (hlo : lo' ≤ lo) (hhi : hi ≤ hi') :
    ClipStep seg lo' hi' s t :=
  ⟨h.width, h.height, h.centerY,
    fun x hx => h.outside x (by rcases hx with hx | hx; exact Or.inl (by omega); exact Or.inr (by omega)),
    h.topBit, h.bottomBit, h.tighten⟩

theorem clipInRange_congr {F : Type} {s t : RenderState F} {x : Int}
    (h : ClipInRange s x) (hH : t.gScreenHeight = s.gScreenHeight)
    (hT : t.gClipBoundTop x = s.gClipBoundTop x)
    (hB : t.gClipBoundBottom x = s.gClipBoundBottom x) : ClipInRange t x := by
  unfold ClipInRange clipTopAt clipBottomAt at *
  rw [hH, hT, hB]
  exact h

theorem clipStep_ofSameFrame {F : Type} (seg : viswall_t F) (lo hi : Int)
    {s t : RenderState F} (h : SameFrame s t) : ClipStep seg lo hi s t := by
  refine ⟨h.width, h.height, h.centerY, fun x _ => ?_, fun _ => h.clipTop,
    fun _ => h.clipBottom, fun _ x hx => ?_⟩
  · rw [h.clipTop, h.clipBottom]; exact ⟨rfl, rfl⟩
  · refine ⟨clipInRange_congr hx h.height (by rw [h.clipTop]) (by rw [h.clipBottom]), ?_, ?_⟩
    · unfold clipTopAt; rw [h.clipTop]
    · unfold clipBottomAt; rw [h.clipBottom]

/-- What the bottom silhouette part of a column does to the globals. -/
theorem segLoopBottomSilPart_globals {F : Type} [FloatLike F] (seg : viswall_t F)
    (viewX clipBoundBY : Int) (r : RenderState F × SegLoopVars F) :
    (segLoopBottomSilPart seg viewX clipBoundBY r).1.gClipBoundTop = r.1.gClipBoundTop ∧
    (segLoopBottomSilPart seg viewX clipBoundBY r).1.gClipBoundBottom =
      (if hasBits seg.WallActions AC_NEWFLOOR then
        Function.update r.1.gClipBoundBottom viewX
          (toU32 (max (min (FloatLike.toInt32 r.2.newFloorY) clipBoundBY) 0))
      else r.1.gClipBoundBottom) ∧
    (segLoopBottomSilPart seg viewX clipBoundBY r).1.skyColumns = r.1.skyColumns := by
  unfold segLoopBottomSilPart
  by_cases h : hasBits seg.WallActions (AC_BOTTOMSIL ||| AC_NEWFLOOR) = true
  · rw [if_pos h]
    unfold segLoopBottomSil
    by_cases h1 : hasBits seg.WallActions AC_BOTTOMSIL = true <;>
      by_cases h2 : hasBits seg.WallActions AC_NEWFLOOR = true <;>
      simp [h1, h2]
  · rw [if_neg h]
    have h2 : ¬ hasBits seg.WallActions AC_NEWFLOOR = true := fun h2 =>
      h ((hasBits_lor _ _ _).2 (Or.inr h2))
    simp [h2]

/-- What the top silhouette part of a column does to the globals. -/
theorem segLoopTopSilPart_globals {F : Type} [FloatLike F] (seg : viswall_t F)
    (viewX clipBoundTY : Int) (r : RenderState F × SegLoopVars F) :
    (segLoopTopSilPart seg viewX clipBoundTY r).1.gClipBoundBottom = r.1.gClipBoundBottom ∧
    (segLoopTopSilPart seg viewX clipBoundTY r).1.gClipBoundTop =
      (if hasBits seg.WallActions AC_NEWCEILING then
        Function.update r.1.gClipBoundTop viewX
          (toU32 (min (max (FloatLike.toInt32 r.2.newCeilY - 1) clipBoundTY)
            ((r.1.gScreenHeight : Int) - 1)))
      else r.1.gClipBoundTop) ∧
    (segLoopTopSilPart seg viewX clipBoundTY r).1.skyColumns = r.1.skyColumns := by
  unfold segLoopTopSilPart
  by_cases h : hasBits seg.WallActions (AC_TOPSIL ||| AC_NEWCEILING) = true
  · rw [if_pos h]
    unfold segLoopTopSil
    by_cases h1 : hasBits seg.WallActions AC_TOPSIL = true <;>
      by_cases h2 : hasBits seg.WallActions AC_NEWCEILING = true <;>
      simp [h1, h2]
  · rw [if_neg h]
    have h2 : ¬ hasBits seg.WallActions AC_NEWCEILING = true := fun h2 =>
      h ((hasBits_lor _ _ _).2 (Or.inr h2))
    simp [h2]

/-- What the sky part of a column does to the globals: nothing but the list of sky
columns. -/
theorem segLoopSkyPart_globals {F : Type} [FloatLike F] (seg : viswall_t F) (scale : F)
    (viewX clipBoundTY clipBoundBY : Int) (s : RenderState F) :
    (segLoopSkyPart seg scale viewX clipBoundTY clipBoundBY s).gClipBoundTop =
        s.gClipBoundTop ∧
    (segLoopSkyPart seg scale viewX clipBoundTY clipBoundBY s).gClipBoundBottom =
        s.gClipBoundBottom := by
  unfold segLoopSkyPart segLoopSky drawSkyColumn
  simp only []
  split_ifs <;> exact ⟨rfl, rfl⟩

/-- A state that differs from `s` only by tightened clip bounds at the column `x` is one clip
step away from `s`. -/
theorem clipStep_of_updates {F : Type} (seg : viswall_t F) (x a b : Int)
    {s t : RenderState F} (hW : t.gScreenWidth = s.gScreenWidth)
    (hH : t.gScreenHeight = s.gScreenHeight) (hC : t.gCenterY = s.gCenterY)
    (hT : t.gClipBoundTop =
      (if hasBits seg.WallActions AC_NEWCEILING then
        Function.update s.gClipBoundTop x
          (toU32 (min (max a (clipTopAt s x)) ((s.gScreenHeight : Int) - 1)))
      else s.gClipBoundTop))
    (hB : t.gClipBoundBottom =
      (if hasBits seg.WallActions AC_NEWFLOOR then
        Function.update s.gClipBoundBottom x (toU32 (max (min b (clipBottomAt s x)) 0))
      else s.gClipBoundBottom)) :
    ClipStep seg x x s t := by
  refine ⟨hW, hH, hC, ?_, ?_, ?_, ?_⟩
  · intro y hy
    have hne : y ≠ x := by omega
    rw [hT, hB]
    constructor
    · split_ifs
      · exact Function.update_noteq hne _ _
      · rfl
    · split_ifs
      · exact Function.update_noteq hne _ _
      · rfl
  · intro hb; rw [hT, hb]; rfl
  · intro hb; rw [hB, hb]; rfl
  · intro hlt y hy
    by_cases hyx : y = x
    · subst hyx
      obtain ⟨r1, r2, r3, r4⟩ := hy
      have eT : clipTopAt s y ≤ clipTopAt t y ∧ clipTopAt t y ≤ (s.gScreenHeight : Int) - 1 := by
        by_cases hb : hasBits seg.WallActions AC_NEWCEILING = true
        · have e : clipTopAt t y =
              min (max a (clipTopAt s y)) ((s.gScreenHeight : Int) - 1) := by
            unfold clipTopAt at *
            rw [hT, if_pos hb, Function.update_same]
            apply toI32_toU32 <;> omega
          rw [e]; omega
        · have e : clipTopAt t y = clipTopAt s y := by
            unfold clipTopAt; rw [hT, if_neg hb]
          rw [e]; omega
      have eB : 0 ≤ clipBottomAt t y ∧ clipBottomAt t y ≤ clipBottomAt s y := by
        by_cases hb : hasBits seg.WallActions AC_NEWFLOOR = true
        · have e : clipBottomAt t y = max (min b (clipBottomAt s y)) 0 := by
            unfold clipBottomAt at *
            rw [hB, if_pos hb, Function.update_same]
            apply toI32_toU32 <;> omega
          rw [e]; omega
        · have e : clipBottomAt t y = clipBottomAt s y := by
            unfold clipBottomAt; rw [hB, if_neg hb]
          rw [e]; omega
      refine ⟨⟨by omega, by rw [hH]; omega, eB.1, by rw [hH]; omega⟩, eT.1, eB.2⟩
    · have e1 : t.gClipBoundTop y = s.gClipBoundTop y := by
        rw [hT]; split_ifs
        · exact Function.update_noteq hyx _ _
        · rfl
      have e2 : t.gClipBoundBottom y = s.gClipBoundBottom y := by
        rw [hB]; split_ifs
        · exact Function.update_noteq hyx _ _
        · rfl
      refine ⟨clipInRange_congr hy hH e1 e2, ?_, ?_⟩
      · unfold clipTopAt; rw [e1]
      · unfold clipBottomAt; rw [e2]

/-- The rest of a column, run with the bounds read at the start of the column, is a clip
step at that column. -/
theorem segLoopColumnTail_clip {F : Type} [FloatLike F] (seg : viswall_t F) (scale : F)
    (viewX : Int) (s2 : RenderState F) (v2 : SegLoopVars F) :
    ClipStep seg viewX viewX s2
      (segLoopColumnTail seg scale viewX (clipTopAt s2 viewX) (clipBottomAt s2 viewX)
        s2 v2).1 := by
  obtain ⟨sp, -⟩ := segLoopColumnTail_spec seg scale viewX (clipTopAt s2 viewX)
    (clipBottomAt s2 viewX) s2 v2
  obtain ⟨b1, b2, -⟩ := segLoopBottomSilPart_globals seg viewX (clipBottomAt s2 viewX) (s2, v2)
  obtain ⟨bp, -⟩ := segLoopBottomSilPart_spec seg viewX (clipBottomAt s2 viewX) (s2, v2)
  obtain ⟨c1, c2, -⟩ := segLoopTopSilPart_globals seg viewX (clipTopAt s2 viewX)
    (segLoopBottomSilPart seg viewX (clipBottomAt s2 viewX) (s2, v2))
  obtain ⟨d1, d2⟩ := segLoopSkyPart_globals seg scale viewX (clipTopAt s2 viewX)
    (clipBottomAt s2 viewX)
    (segLoopTopSilPart seg viewX (clipTopAt s2 viewX)
      (segLoopBottomSilPart seg viewX (clipBottomAt s2 viewX) (s2, v2))).1
  refine clipStep_of_updates seg viewX
    (FloatLike.toInt32
      (segLoopBottomSilPart seg viewX (clipBottomAt s2 viewX) (s2, v2)).2.newCeilY - 1)
    (FloatLike.toInt32 v2.newFloorY) sp.width sp.height sp.centerY ?_ ?_
  · show (segLoopSkyPart _ _ _ _ _ _).gClipBoundTop = _
    rw [d1, c2, b1, bp.height]
  · show (segLoopSkyPart _ _ _ _ _ _).gClipBoundBottom = _
    rw [d2, c1, b2]

/-- One column of `segLoop` is a clip step at that column, whether it returns or stops. -/
theorem segLoopColumn_clip {F : Type} [FloatLike F] (cfg : RendererConsts F)
    (seg : viswall_t F) (viewX : Int) (s : RenderState F) (v : SegLoopVars F) :
    ClipStep seg viewX viewX s (segLoopColumn cfg seg viewX s v).finalState := by
  rw [segLoopColumn_eq]
  refine Outcome.finalState_andThen (ClipStep seg viewX viewX) (fun _ _ _ => clipStep_trans) _ _ _
    (clipStep_ofSameFrame seg viewX viewX (segLoopFloorPart_finalState_frame cfg seg viewX s v))
    ?_
  intro s1 v1 h1
  have f1 : SameFrame s s1 := by
    have h := segLoopFloorPart_finalState_frame cfg seg viewX s v
    rw [h1] at h; exact h
  refine Outcome.finalState_andThen (ClipStep seg viewX viewX) (fun _ _ _ => clipStep_trans) _ _ _
    (clipStep_ofSameFrame seg viewX viewX
      (segLoopCeilingPart_finalState_frame cfg seg viewX _ _ s1 v1)) ?_
  intro s2 v2 h2
  have f2 : SameFrame s1 s2 := by
    have h := segLoopCeilingPart_finalState_frame cfg seg viewX
      (toI32 (s.gClipBoundTop viewX)) (toI32 (s.gClipBoundBottom viewX)) s1 v1
    rw [h2] at h; exact h
  have eT : toI32 (s.gClipBoundTop viewX) = clipTopAt s2 viewX := by
    unfold clipTopAt; rw [f2.clipTop, f1.clipTop]
  have eB : toI32 (s.gClipBoundBottom viewX) = clipBottomAt s2 viewX := by
    unfold clipBottomAt; rw [f2.clipBottom, f1.clipBottom]
  rw [eT, eB]
  exact segLoopColumnTail_clip seg _ viewX s2 v2

/-- A run of columns is a clip step over any range that holds the columns run. -/
theorem segLoopColumns_clip {F : Type} [FloatLike F] (cfg : RendererConsts F)
    (seg : viswall_t F) (lo hi : Int) (n : Nat) :
    ∀ (viewX : Int) (s : RenderState F) (v : SegLoopVars F), lo ≤ viewX →
      viewX + (n : Int) ≤ hi + 1 →
      ClipStep seg lo hi s (segLoopColumns cfg seg n viewX s v).finalState := by
  induction n with
  | zero => intro viewX s v _ _; exact clipStep_refl seg lo hi s
  | succ n ih =>
    intro viewX s v h1 h2
    rw [segLoopColumns_succ]
    refine Outcome.finalState_andThen (ClipStep seg lo hi) (fun _ _ _ => clipStep_trans) _ _ _
      (clipStep_widen (segLoopColumn_clip cfg seg viewX s v) h1 (by push_cast at h2; omega)) ?_
    intro s1 v1 _
    exact ih (viewX + 1) s1 v1 (by omega) (by push_cast at h2; omega)

/-- A whole `segLoop` call is a clip step over the columns of its segment. -/
theorem segLoop_clip {F : Type} [FloatLike F] (cfg : RendererConsts F) (s : RenderState F)
    (seg : viswall_t F) (uninit : SegLoopVars F) :
    ClipStep seg seg.leftX seg.rightX s (segLoop cfg s seg uninit).finalState := by
  unfold segLoop
  refine Outcome.finalState_andThen (ClipStep seg seg.leftX seg.rightX)
    (fun _ _ _ => clipStep_trans) _ _ _ ?_ ?_
  · by_cases h : seg.leftX ≤ seg.rightX
    · exact segLoopColumns_clip cfg seg seg.leftX seg.rightX _ seg.leftX s _ (le_refl _)
        (by omega)
    · have e : (seg.rightX - seg.leftX + 1).toNat = 0 := by omega
      rw [e]; exact clipStep_refl _ _ _ _
  · intro s1 _ _; exact clipStep_refl _ _ _ _

/-- The reset loop writes `-1` and the screen height into the columns it visits and leaves the
rest of the state alone. -/
theorem resetClipLoop_spec {F : Type} (n : Nat) :
    ∀ (i : Nat) (s : RenderState F),
      (resetClipLoop n i s).gScreenWidth = s.gScreenWidth ∧
      (resetClipLoop n i s).gScreenHeight = s.gScreenHeight ∧
      (resetClipLoop n i s).gCenterY = s.gCenterY ∧
      (resetClipLoop n i s).gVisPlanes = s.gVisPlanes ∧
      (resetClipLoop n i s).gpEndVisPlane = s.gpEndVisPlane ∧
      (resetClipLoop n i s).silhouettes = s.silhouettes ∧
      (resetClipLoop n i s).skyColumns = s.skyColumns ∧
      (∀ x : Int, (i : Int) ≤ x → x < (i : Int) + (n : Int) →
        (resetClipLoop n i s).gClipBoundTop x = toU32 (-1) ∧
        (resetClipLoop n i s).gClipBoundBottom x = toU32 (s.gScreenHeight : Int)) ∧
      (∀ x : Int, (x < (i : Int) ∨ (i : Int) + (n : Int) ≤ x) →
        (resetClipLoop n i s).gClipBoundTop x = s.gClipBoundTop x ∧
        (resetClipLoop n i s).gClipBoundBottom x = s.gClipBoundBottom x) := by
  induction n with
  | zero =>
    intro i s
    refine ⟨rfl, rfl, rfl, rfl, rfl, rfl, rfl, ?_, fun _ _ => ⟨rfl, rfl⟩⟩
    intro x h1 h2; omega
  | succ n ih =>
    intro i s
    obtain ⟨a1, a2, a3, a4, a5, a6, a7, a8, a9⟩ := ih (i + 1)
      { s with gClipBoundTop := Function.update s.gClipBoundTop (i : Int) (toU32 (-1))
               gClipBoundBottom :=
                 Function.update s.gClipBoundBottom (i : Int) (toU32 (s.gScreenHeight : Int)) }
    refine ⟨a1, a2, a3, a4, a5, a6, a7, ?_, ?_⟩
    · intro x h1 h2
      by_cases hx : x = (i : Int)
      · obtain ⟨b1, b2⟩ := a9 x (Or.inl (by push_cast; omega))
        subst hx
        exact ⟨b1.trans (Function.update_same _ _ _), b2.trans (Function.update_same _ _ _)⟩
      · exact a8 x (by push_cast; omega) (by push_cast at h2 ⊢; omega)
    · intro x hx
      have hne : x ≠ (i : Int) := by push_cast at hx; omega
      obtain ⟨b1, b2⟩ := a9 x (by push_cast at hx ⊢; omega)
      exact ⟨b1.trans (Function.update_noteq hne _ _), b2.trans (Function.update_noteq hne _ _)⟩

/-- After the reset every column of the screen has the bounds `-1` and the screen height. -/
theorem resetClipBounds_spec {F : Type} (s : RenderState F)
    (hH : s.gScreenHeight < 2147483648) :
    (resetClipBounds s).gScreenWidth = s.gScreenWidth ∧
    (resetClipBounds s).gScreenHeight = s.gScreenHeight ∧
    ∀ x : Int, 0 ≤ x → x < (s.gScreenWidth : Int) →
      clipTopAt (resetClipBounds s) x = -1 ∧
      clipBottomAt (resetClipBounds s) x = (s.gScreenHeight : Int) := by
  obtain ⟨a1, a2, -, -, -, -, -, a8, -⟩ := resetClipLoop_spec s.gScreenWidth 0 s
  refine ⟨a1, a2, fun x h1 h2 => ?_⟩
  obtain ⟨b1, b2⟩ := a8 x (by simpa using h1) (by simpa using h2)
  unfold clipTopAt clipBottomAt resetClipBounds
  rw [b1, b2]
  exact ⟨by decide, toI32_toU32 _ (by omega) (by omega)⟩

/-- A pass of `segLoop` calls keeps the screen size and, on a screen of less than `2^31` rows,
keeps every column that is in range in range, its top bound not lower and its bottom bound
not higher than before. -/
theorem segLoopPass_clip {F : Type} [FloatLike F] (cfg : RendererConsts F)
    (calls : List (viswall_t F × SegLoopVars F)) :
    ∀ s : RenderState F,
      (segLoopPass cfg calls s).finalState.gScreenWidth = s.gScreenWidth ∧
      (segLoopPass cfg calls s).finalState.gScreenHeight = s.gScreenHeight ∧
      (s.gScreenHeight < 2147483648 → ∀ x, ClipInRange s x →
        ClipInRange (segLoopPass cfg calls s).finalState x ∧
        clipTopAt s x ≤ clipTopAt (segLoopPass cfg calls s).finalState x ∧
        clipBottomAt (segLoopPass cfg calls s).finalState x ≤ clipBottomAt s x) := by
  induction calls with
  | nil => intro s; exact ⟨rfl, rfl, fun _ _ h => ⟨h, le_refl _, le_refl _⟩⟩
  | cons call rest ih =>
    intro s
    have hc := segLoop_clip cfg s call.1 call.2
    show (fun t : RenderState F => t.gScreenWidth = s.gScreenWidth ∧
        t.gScreenHeight = s.gScreenHeight ∧
        (s.gScreenHeight < 2147483648 → ∀ x, ClipInRange s x →
          ClipInRange t x ∧ clipTopAt s x ≤ clipTopAt t x ∧
          clipBottomAt t x ≤ clipBottomAt s x))
      ((segLoop cfg s call.1 call.2).andThen fun s1 _ => segLoopPass cfg rest s1).finalState
    cases hseg : segLoop cfg s call.1 call.2 with
    | fatal msg s1 =>
      rw [hseg] at hc
      exact ⟨hc.width, hc.height, hc.tighten⟩
    | done s1 a =>
      rw [hseg] at hc
      have hc : ClipStep call.1 call.1.leftX call.1.rightX s s1 := hc
      obtain ⟨i1, i2, i3⟩ := ih s1
      refine ⟨i1.trans hc.width, i2.trans hc.height, fun hH x hx => ?_⟩
      obtain ⟨a1, a2, a3⟩ := hc.tighten hH x hx
      obtain ⟨b1, b2, b3⟩ := i3 (by rw [hc.height]; exact hH) x a1
      exact ⟨b1, le_trans a2 b2, le_trans b3 a3⟩

/-- After the reset every column of the screen is in range. -/
theorem resetClipBounds_inRange {F : Type} (s : RenderState F)
    (hH : s.gScreenHeight < 2147483648) (x : Int) (h0 : 0 ≤ x)
    (h1 : x < (s.gScreenWidth : Int)) : ClipInRange (resetClipBounds s) x := by
  obtain ⟨-, a2, a3⟩ := resetClipBounds_spec s hH
  obtain ⟨b1, b2⟩ := a3 x h0 h1
  unfold ClipInRange
  rw [b1, b2, a2]
  omega

/-- C11: after the per-frame reset of the clip bounds and any sequence of `segLoop` calls
(whatever the segments, and also when the sequence ends in the fatal stop), every column
`x` of the screen has `-1 <= clipTop[x] <= screenHeight - 1` and
`0 <= clipBottom[x] <= screenHeight`, the bounds read as signed 32-bit values. The screen
height is one that fits `int32_t`. -/
theorem clip_bounds_stay_in_range {F : Type} [FloatLike F] (cfg : RendererConsts F)
    (s : RenderState F) (calls : List (viswall_t F × SegLoopVars F))
    (hH : s.gScreenHeight < 2147483648) (x : Int) (h0 : 0 ≤ x)
    (h1 : x < (s.gScreenWidth : Int)) :
    (segLoopPass cfg calls (resetClipBounds s)).finalState.gScreenHeight = s.gScreenHeight ∧
    -1 ≤ clipTopAt (segLoopPass cfg calls (resetClipBounds s)).finalState x ∧
    clipTopAt (segLoopPass cfg calls (resetClipBounds s)).finalState x ≤
      (s.gScreenHeight : Int) - 1 ∧
    0 ≤ clipBottomAt (segLoopPass cfg calls (resetClipBounds s)).finalState x ∧
    clipBottomAt (segLoopPass cfg calls (resetClipBounds s)).finalState x ≤
      (s.gScreenHeight : Int) := by
  obtain ⟨-, r2, -⟩ := resetClipBounds_spec s hH
  obtain ⟨-, p2, p3⟩ := segLoopPass_clip cfg calls (resetClipBounds s)
  obtain ⟨⟨c1, c2, c3, c4⟩, -, -⟩ :=
    p3 (by rw [r2]; exact hH) x (resetClipBounds_inRange s hH x h0 h1)
  rw [p2, r2] at c2 c4
  exact ⟨p2.trans r2, c1, c2, c3, c4⟩

/-- Witness for C11: the column 2 of the 160 x 96 frame after the reset of stale bounds and
`segLoop` on `plainSeg` and on `clipSeg`. -/
theorem clip_bounds_stay_in_range_witness :
    staleState.gScreenHeight < 2147483648 ∧ (0 : Int) ≤ 2 ∧
    (2 : Int) < (staleState.gScreenWidth : Int) ∧
    -1 ≤ clipTopAt (segLoopPass sampleConsts [(plainSeg, zeroVars), (clipSeg, zeroVars)]
      (resetClipBounds staleState)).finalState 2 ∧
    clipTopAt (segLoopPass sampleConsts [(plainSeg, zeroVars), (clipSeg, zeroVars)]
      (resetClipBounds staleState)).finalState 2 ≤ 95 ∧
    0 ≤ clipBottomAt (segLoopPass sampleConsts [(plainSeg, zeroVars), (clipSeg, zeroVars)]
      (resetClipBounds staleState)).finalState 2 ∧
    clipBottomAt (segLoopPass sampleConsts [(plainSeg, zeroVars), (clipSeg, zeroVars)]
      (resetClipBounds staleState)).finalState 2 ≤ 96 := by
  have h := clip_bounds_stay_in_range sampleConsts staleState
    [(plainSeg, zeroVars), (clipSeg, zeroVars)] (by decide) 2 (by decide) (by decide)
  exact ⟨by decide, by decide, by decide, h.2.1, h.2.2.1, h.2.2.2.1, h.2.2.2.2⟩

/-- C12: in every state reached from the per-frame reset by `segLoop` calls, a further
`segLoop` call on any segment only tightens the clip bounds: every column `x` of the screen
has `clipTop'[x] >= clipTop[x]` and `clipBottom'[x] <= clipBottom[x]`, the columns outside
`[leftX, rightX]` keep both bounds, the top bounds are untouched without the new-ceiling bit
and the bottom bounds without the new-floor bit. -/
theorem segLoop_clip_only_tightens {F : Type} [FloatLike F] (cfg : RendererConsts F)
    (s0 : RenderState F) (calls : List (viswall_t F × SegLoopVars F))
    (seg : viswall_t F) (uninit : SegLoopVars F) (hH : s0.gScreenHeight < 2147483648) :
    (∀ x : Int, 0 ≤ x → x < (s0.gScreenWidth : Int) →
      clipTopAt (segLoopPass cfg calls (resetClipBounds s0)).finalState x ≤
        clipTopAt (segLoop cfg (segLoopPass cfg calls (resetClipBounds s0)).finalState
          seg uninit).finalState x ∧
      clipBottomAt (segLoop cfg (segLoopPass cfg calls (resetClipBounds s0)).finalState
          seg uninit).finalState x ≤
        clipBottomAt (segLoopPass cfg calls (resetClipBounds s0)).finalState x) ∧
    (∀ x : Int, x < seg.leftX ∨ seg.rightX < x →
      (segLoop cfg (segLoopPass cfg calls (resetClipBounds s0)).finalState
          seg uninit).finalState.gClipBoundTop x =
        (segLoopPass cfg calls (resetClipBounds s0)).finalState.gClipBoundTop x ∧
      (segLoop cfg (segLoopPass cfg calls (resetClipBounds s0)).finalState
          seg uninit).finalState.gClipBoundBottom x =
        (segLoopPass cfg calls (resetClipBounds s0)).finalState.gClipBoundBottom x) ∧
    (hasBits seg.WallActions AC_NEWCEILING = false →
      (segLoop cfg (segLoopPass cfg calls (resetClipBounds s0)).finalState
          seg uninit).finalState.gClipBoundTop =
        (segLoopPass cfg calls (resetClipBounds s0)).finalState.gClipBoundTop) ∧
    (hasBits seg.WallActions AC_NEWFLOOR = false →
      (segLoop cfg (segLoopPass cfg calls (resetClipBounds s0)).finalState
          seg uninit).finalState.gClipBoundBottom =
        (segLoopPass cfg calls (resetClipBounds s0)).finalState.gClipBoundBottom) := by
  obtain ⟨-, r2, -⟩ := resetClipBounds_spec s0 hH
  obtain ⟨-, p2, p3⟩ := segLoopPass_clip cfg calls (resetClipBounds s0)
  have hc := segLoop_clip cfg (segLoopPass cfg calls (resetClipBounds s0)).finalState seg uninit
  refine ⟨fun x h0 h1 => ?_, hc.outside, hc.topBit, hc.bottomBit⟩
  obtain ⟨c1, -, -⟩ := p3 (by rw [r2]; exact hH) x (resetClipBounds_inRange s0 hH x h0 h1)
  exact (hc.tighten (by rw [p2, r2]; exact hH) x c1).2

set_option maxRecDepth 20000 in
/-- Witness for C12: `clipSeg` after `plainSeg` on the 160 x 96 frame. At the column 2 the
top bound goes from -1 to 67 and the bottom bound from 96 to 28; the column 6 is outside the
segment. -/
theorem segLoop_clip_only_tightens_witness :
    staleState.gScreenHeight < 2147483648 ∧
    clipTopAt (segLoopPass sampleConsts [(plainSeg, zeroVars)]
      (resetClipBounds staleState)).finalState 2 = -1 ∧
    clipBottomAt (segLoopPass sampleConsts [(plainSeg, zeroVars)]
      (resetClipBounds staleState)).finalState 2 = 96 ∧
    clipTopAt (segLoop sampleConsts (segLoopPass sampleConsts [(plainSeg, zeroVars)]
      (resetClipBounds staleState)).finalState clipSeg zeroVars).finalState 2 = 67 ∧
    clipBottomAt (segLoop sampleConsts (segLoopPass sampleConsts [(plainSeg, zeroVars)]
      (resetClipBounds staleState)).finalState clipSeg zeroVars).finalState 2 = 28 ∧
    (segLoop sampleConsts (segLoopPass sampleConsts [(plainSeg, zeroVars)]
      (resetClipBounds staleState)).finalState clipSeg zeroVars).finalState.gClipBoundTop 6 =
      (segLoopPass sampleConsts [(plainSeg, zeroVars)]
        (resetClipBounds staleState)).finalState.gClipBoundTop 6 := by
  have h := segLoop_clip_only_tightens sampleConsts staleState [(plainSeg, zeroVars)]
    clipSeg zeroVars (by decide)
  exact ⟨by decide, by decide, by decide, by decide, by decide,
    (h.2.1 6 (Or.inr (by decide))).1⟩

/-! ## The sky block of `segLoop` -/

theorem steppedY_front {F : Type} [FloatLike F] (y0 step : F) (n : Nat) :
    steppedY (y0 + step) step n = steppedY y0 step n + step := by
  induction n with
  | zero => rfl
  | succ n ih =>
    show steppedY (y0 + step) step n + step = steppedY y0 step n + step + step
    rw [ih]

theorem segLoopFloorPart_columnScale {F : Type} [FloatLike F] (cfg : RendererConsts F)
    (seg : viswall_t F) (viewX : Int) (s : RenderState F) (v : SegLoopVars F)
    (s1 : RenderState F) (v1 : SegLoopVars F)
    (h : segLoopFloorPart cfg seg viewX s v = .done s1 v1) :
    v1.columnScale = v.columnScale := by
  unfold segLoopFloorPart at h
  by_cases hbit : hasBits seg.WallActions AC_ADDFLOOR = true
  · rw [if_pos hbit, segLoopAddFloor_eq_registerSpan, Outcome.andThen_eq_done] at h
    obtain ⟨t, p, _, hdone⟩ := h
    injection hdone with _ hv
    rw [← hv]
  · rw [if_neg hbit] at h
    injection h with _ hv
    rw [← hv]

theorem segLoopCeilingPart_columnScale {F : Type} [FloatLike F] (cfg : RendererConsts F)
    (seg : viswall_t F) (viewX clipBoundTY clipBoundBY : Int) (s : RenderState F)
    (v : SegLoopVars F) (s1 : RenderState F) (v1 : SegLoopVars F)
    (h : segLoopCeilingPart cfg seg viewX clipBoundTY clipBoundBY s v = .done s1 v1) :
    v1.columnScale = v.columnScale := by
  unfold segLoopCeilingPart at h
  by_cases hbit : hasBits seg.WallActions AC_ADDCEILING = true
  · rw [if_pos hbit, segLoopAddCeiling_eq_registerSpan, Outcome.andThen_eq_done] at h
    obtain ⟨t, p, _, hdone⟩ := h
    injection hdone with _ hv
    rw [← hv]
  · rw [if_neg hbit] at h
    injection h with _ hv
    rw [← hv]

/-- The sky block appends the column to the sky columns exactly when the sky is due. -/
theorem segLoopSkyPart_sky {F : Type} [FloatLike F] (seg : viswall_t F) (scale : F)
    (viewX clipBoundTY clipBoundBY : Int) (s : RenderState F) :
    (skyDue s seg scale clipBoundTY clipBoundBY →
      (segLoopSkyPart seg scale viewX clipBoundTY clipBoundBY s).skyColumns =
        s.skyColumns ++ [((toU32 viewX : Nat) : Int)]) ∧
    (¬ skyDue s seg scale clipBoundTY clipBoundBY →
      (segLoopSkyPart seg scale viewX clipBoundTY clipBoundBY s).skyColumns =
        s.skyColumns) := by
  unfold skyDue segLoopSkyPart
  by_cases hbit : hasBits seg.WallActions AC_ADDSKY = true
  · rw [if_pos hbit]
    unfold segLoopSky drawSkyColumn
    simp only []
    have hmin : ∀ a b : Int, (if a > b then b else a) = min a b := by
      intro a b; split_ifs <;> omega
    rw [hmin]
    constructor
    · intro h; rw [if_pos h.2]
    · intro h
      have h2 : ¬ clipBoundTY + 1 <
          min (FloatLike.toInt32 (FloatLike.ofUInt32 s.gCenterY - scale * seg.ceilingheight))
            clipBoundBY := fun h2 => h ⟨hbit, h2⟩
      rw [if_neg h2]
  · rw [if_neg hbit]
    exact ⟨fun h => absurd h.1 hbit, fun _ => rfl⟩

/-- The rest of a column changes the sky columns by the sky block alone, which sees the
centre row of the state the column started in. -/
theorem segLoopColumnTail_sky {F : Type} [FloatLike F] (seg : viswall_t F) (scale : F)
    (viewX clipBoundTY clipBoundBY : Int) (s2 : RenderState F) (v2 : SegLoopVars F) :
    (skyDue s2 seg scale clipBoundTY clipBoundBY →
      (segLoopColumnTail seg scale viewX clipBoundTY clipBoundBY s2 v2).1.skyColumns =
        s2.skyColumns ++ [((toU32 viewX : Nat) : Int)]) ∧
    (¬ skyDue s2 seg scale clipBoundTY clipBoundBY →
      (segLoopColumnTail seg scale viewX clipBoundTY clipBoundBY s2 v2).1.skyColumns =
        s2.skyColumns) := by
  obtain ⟨-, -, b3⟩ := segLoopBottomSilPart_globals seg viewX clipBoundBY (s2, v2)
  obtain ⟨bp, -⟩ := segLoopBottomSilPart_spec seg viewX clipBoundBY (s2, v2)
  obtain ⟨-, -, c3⟩ := segLoopTopSilPart_globals seg viewX clipBoundTY
    (segLoopBottomSilPart seg viewX clipBoundBY (s2, v2))
  obtain ⟨cp, -⟩ := segLoopTopSilPart_spec seg viewX clipBoundTY
    (segLoopBottomSilPart seg viewX clipBoundBY (s2, v2))
  obtain ⟨d1, d2⟩ := segLoopSkyPart_sky seg scale viewX clipBoundTY clipBoundBY
    (segLoopTopSilPart seg viewX clipBoundTY
      (segLoopBottomSilPart seg viewX clipBoundBY (s2, v2))).1
  have hdue : skyDue (segLoopTopSilPart seg viewX clipBoundTY
      (segLoopBottomSilPart seg viewX clipBoundBY (s2, v2))).1 seg scale clipBoundTY
        clipBoundBY ↔ skyDue s2 seg scale clipBoundTY clipBoundBY := by
    unfold skyDue
    rw [cp.centerY, bp.centerY]
  rw [c3, b3, hdue] at d1
  rw [c3, b3, hdue] at d2
  exact ⟨d1, d2⟩

/-- A column that returns drew the sky exactly when the sky was due for the bounds read at its
start, and stepped `columnScale` once. -/
theorem segLoopColumn_sky {F : Type} [FloatLike F] (cfg : RendererConsts F)
    (seg : viswall_t F) (viewX : Int) (s : RenderState F) (v : SegLoopVars F)
    (s' : RenderState F) (v' : SegLoopVars F)
    (h : segLoopColumn cfg seg viewX s v = .done s' v') :
    (skyDue s seg (FloatLike.fmin v.columnScale cfg.MAX_RENDER_SCALE) (clipTopAt s viewX)
        (clipBottomAt s viewX) →
      s'.skyColumns = s.skyColumns ++ [((toU32 viewX : Nat) : Int)]) ∧
    (¬ skyDue s seg (FloatLike.fmin v.columnScale cfg.MAX_RENDER_SCALE) (clipTopAt s viewX)
        (clipBottomAt s viewX) →
      s'.skyColumns = s.skyColumns) ∧
    v'.columnScale = v.columnScale + seg.ScaleStep := by
  obtain ⟨s1, v1, s2, v2, h1, h2, hs, hv⟩ := segLoopColumn_done cfg seg viewX s v s' v' h
  have f1 : SameFrame s s1 := by
    have hf := segLoopFloorPart_finalState_frame cfg seg viewX s v
    rw [h1] at hf; exact hf
  have f2 : SameFrame s1 s2 := by
    have hf := segLoopCeilingPart_finalState_frame cfg seg viewX
      (toI32 (s.gClipBoundTop viewX)) (toI32 (s.gClipBoundBottom viewX)) s1 v1
    rw [h2] at hf; exact hf
  obtain ⟨d1, d2⟩ := segLoopColumnTail_sky seg
    (FloatLike.fmin v.columnScale cfg.MAX_RENDER_SCALE) viewX
    (toI32 (s.gClipBoundTop viewX)) (toI32 (s.gClipBoundBottom viewX)) s2 v2
  obtain ⟨-, t2⟩ := segLoopColumnTail_spec seg
    (FloatLike.fmin v.columnScale cfg.MAX_RENDER_SCALE) viewX
    (toI32 (s.gClipBoundTop viewX)) (toI32 (s.gClipBoundBottom viewX)) s2 v2
  have hdue : skyDue s2 seg (FloatLike.fmin v.columnScale cfg.MAX_RENDER_SCALE)
      (toI32 (s.gClipBoundTop viewX)) (toI32 (s.gClipBoundBottom viewX)) ↔
      skyDue s seg (FloatLike.fmin v.columnScale cfg.MAX_RENDER_SCALE) (clipTopAt s viewX)
        (clipBottomAt s viewX) := by
    unfold skyDue clipTopAt clipBottomAt
    rw [f2.centerY, f1.centerY]
  rw [hdue, f2.sky, f1.sky, ← hs] at d1 d2
  refine ⟨d1, d2, ?_⟩
  rw [hv, t2]
  show v2.columnScale + seg.ScaleStep = _
  rw [segLoopCeilingPart_columnScale cfg seg viewX _ _ s1 v1 s2 v2 h2,
    segLoopFloorPart_columnScale cfg seg viewX s v s1 v1 h1]

/-- A column that stops does so in a plane registration, before its sky block. -/
theorem segLoopColumn_fatal_sky {F : Type} [FloatLike F] (cfg : RendererConsts F)
    (seg : viswall_t F) (viewX : Int) (s : RenderState F) (v : SegLoopVars F)
    (msg : String) (t : RenderState F)
    (h : segLoopColumn cfg seg viewX s v = .fatal msg t) :
    t.skyColumns = s.skyColumns := by
  rw [segLoopColumn_eq] at h
  have f1 := segLoopFloorPart_finalState_frame cfg seg viewX s v
  cases h1 : segLoopFloorPart cfg seg viewX s v with
  | fatal msg1 t1 =>
    rw [h1] at h f1
    injection h with _ ht
    rw [← ht]; exact f1.sky
  | done s1 v1 =>
    rw [h1] at h f1
    have f2 := segLoopCeilingPart_finalState_frame cfg seg viewX
      (toI32 (s.gClipBoundTop viewX)) (toI32 (s.gClipBoundBottom viewX)) s1 v1
    cases h2 : segLoopCeilingPart cfg seg viewX (toI32 (s.gClipBoundTop viewX))
        (toI32 (s.gClipBoundBottom viewX)) s1 v1 with
    | fatal msg2 t2 =>
      simp only [Outcome.andThen, h2] at h
      rw [h2] at f2
      injection h with _ ht
      rw [← ht]
      exact f2.sky.trans f1.sky
    | done s2 v2 =>
      simp only [Outcome.andThen, h2] at h
      cases h

/-- Without the draw-sky bit a column leaves the sky columns alone. -/
theorem segLoopColumn_noSky {F : Type} [FloatLike F] (cfg : RendererConsts F)
    (seg : viswall_t F) (viewX : Int) (s : RenderState F) (v : SegLoopVars F)
    (hbit : hasBits seg.WallActions AC_ADDSKY = false) :
    (segLoopColumn cfg seg viewX s v).finalState.skyColumns = s.skyColumns := by
  cases h : segLoopColumn cfg seg viewX s v with
  | fatal msg t => exact segLoopColumn_fatal_sky cfg seg viewX s v msg t h
  | done s' v' =>
    refine (segLoopColumn_sky cfg seg viewX s v s' v' h).2.1 (fun hd => ?_)
    have := hd.1
    rw [hbit] at this
    cases this

theorem segLoopColumns_noSky {F : Type} [FloatLike F] (cfg : RendererConsts F)
    (seg : viswall_t F) (hbit : hasBits seg.WallActions AC_ADDSKY = false) (n : Nat) :
    ∀ (viewX : Int) (s : RenderState F) (v : SegLoopVars F),
      (segLoopColumns cfg seg n viewX s v).finalState.skyColumns = s.skyColumns := by
  induction n with
  | zero => intro viewX s v; rfl
  | succ n ih =>
    intro viewX s v
    rw [segLoopColumns_succ]
    exact Outcome.finalState_andThen (fun a b => b.skyColumns = a.skyColumns)
      (fun _ _ _ h1 h2 => h2.trans h1) s _ _ (segLoopColumn_noSky cfg seg viewX s v hbit)
      (fun s1 v1 _ => ih (viewX + 1) s1 v1)

/-- A segment without the draw-sky bit draws no sky column. -/
theorem segLoop_noSky {F : Type} [FloatLike F] (cfg : RendererConsts F) (s : RenderState F)
    (seg : viswall_t F) (uninit : SegLoopVars F)
    (hbit : hasBits seg.WallActions AC_ADDSKY = false) :
    (segLoop cfg s seg uninit).finalState.skyColumns = s.skyColumns := by
  unfold segLoop
  exact Outcome.finalState_andThen (fun a b => b.skyColumns = a.skyColumns)
    (fun _ _ _ h1 h2 => h2.trans h1) s _ _ (segLoopColumns_noSky cfg seg hbit _ _ _ _)
    (fun s1 _ _ => rfl)

/-- After `n` columns that returned, `columnScale` was stepped `n` times. -/
theorem segLoopColumns_columnScale {F : Type} [FloatLike F] (cfg : RendererConsts F)
    (seg : viswall_t F) (n : Nat) :
    ∀ (viewX : Int) (s : RenderState F) (v : SegLoopVars F) (s' : RenderState F)
      (v' : SegLoopVars F), segLoopColumns cfg seg n viewX s v = .done s' v' →
      v'.columnScale = steppedY v.columnScale seg.ScaleStep n := by
  induction n with
  | zero =>
    intro viewX s v s' v' h
    injection h with _ hv
    rw [← hv]; rfl
  | succ n ih =>
    intro viewX s v s' v' h
    rw [segLoopColumns_succ, Outcome.andThen_eq_done] at h
    obtain ⟨s1, v1, h1, h2⟩ := h
    rw [ih (viewX + 1) s1 v1 s' v' h2, (segLoopColumn_sky cfg seg viewX s v s1 v1 h1).2.2,
      steppedY_front]
    rfl

theorem segLoopSetup_columnScale {F : Type} [FloatLike F] (s : RenderState F)
    (seg : viswall_t F) (uninit : SegLoopVars F) :
    (segLoopSetup s seg uninit).columnScale = seg.LeftScale := by
  rfl

/-- With room in the pool a registration returns, and the pool grows by at most one. -/
theorem registerSpan_returns_of_room {F : Type} [FloatLike F] (cfg : RendererConsts F)
    (s : RenderState F) (pPlane : Nat) (height : F) (picHandle : Nat) (viewX rightX : Int)
    (light : Nat) (top bottom : Int)
    (hrec0 : ((s.gVisPlanes 0).cols viewX).isDefined = true)
    (hpool : 1 ≤ s.gpEndVisPlane) (hlt : pPlane < s.gpEndVisPlane)
    (hroom : s.gpEndVisPlane < cfg.MAXVISPLANES) :
    ∃ t p, registerSpan cfg s pPlane height picHandle viewX rightX light top bottom =
        .done t p ∧ t.gpEndVisPlane ≤ s.gpEndVisPlane + 1 := by
  rcases registerSpan_cases cfg s pPlane height picHandle viewX rightX light top bottom
      hrec0 hpool hlt with ⟨_, e⟩ | ⟨_, t, idx, e, R⟩ | ⟨_, hfull, _⟩
  · exact ⟨s, pPlane, e, Nat.le_succ _⟩
  · exact ⟨t, idx, e, R.countLe'⟩
  · omega

theorem segLoopFloorPart_returns_of_room {F : Type} [FloatLike F] (cfg : RendererConsts F)
    (seg : viswall_t F) (viewX : Int) (s : RenderState F) (v : SegLoopVars F)
    (hinv : SegLoopInv seg s v) (hroom : s.gpEndVisPlane < cfg.MAXVISPLANES) :
    ∃ s1 v1, segLoopFloorPart cfg seg viewX s v = .done s1 v1 ∧
      s1.gpEndVisPlane ≤ s.gpEndVisPlane + 1 := by
  unfold segLoopFloorPart
  by_cases hbit : hasBits seg.WallActions AC_ADDFLOOR = true
  · rw [if_pos hbit, segLoopAddFloor_eq_registerSpan]
    obtain ⟨t, p, e, hc⟩ := registerSpan_returns_of_room cfg s v.pFloorPlane seg.floorheight
      seg.FloorPic viewX seg.rightX seg.seglightlevel
      (floorSpanTop v.floorY (toI32 (s.gClipBoundTop viewX)))
      (floorSpanBottom (toI32 (s.gClipBoundBottom viewX))) (hinv.rec0 viewX) hinv.pool
      hinv.floorLt hroom
    rw [e]
    exact ⟨t, _, rfl, hc⟩
  · rw [if_neg hbit]
    exact ⟨s, v, rfl, Nat.le_succ _⟩

theorem segLoopCeilingPart_returns_of_room {F : Type} [FloatLike F] (cfg : RendererConsts F)
    (seg : viswall_t F) (viewX clipBoundTY clipBoundBY : Int) (s : RenderState F)
    (v : SegLoopVars F) (hinv : SegLoopInv seg s v)
    (hroom : s.gpEndVisPlane < cfg.MAXVISPLANES) :
    ∃ s1 v1, segLoopCeilingPart cfg seg viewX clipBoundTY clipBoundBY s v = .done s1 v1 ∧
      s1.gpEndVisPlane ≤ s.gpEndVisPlane + 1 := by
  unfold segLoopCeilingPart
  by_cases hbit : hasBits seg.WallActions AC_ADDCEILING = true
  · rw [if_pos hbit, segLoopAddCeiling_eq_registerSpan]
    obtain ⟨t, p, e, hc⟩ := registerSpan_returns_of_room cfg s v.pCeilPlane seg.ceilingheight
      seg.CeilingPic viewX seg.rightX seg.seglightlevel (ceilSpanTop clipBoundTY)
      (ceilSpanBottom v.ceilY clipBoundBY) (hinv.rec0 viewX) hinv.pool hinv.ceilLt hroom
    rw [e]
    exact ⟨t, _, rfl, hc⟩
  · rw [if_neg hbit]
    exact ⟨s, v, rfl, Nat.le_succ _⟩

/-- With room for two more records a column returns. -/
theorem segLoopColumn_returns_of_room {F : Type} [FloatLike F] (cfg : RendererConsts F)
    (seg : viswall_t F) (viewX : Int) (s : RenderState F) (v : SegLoopVars F)
    (hinv : SegLoopInv seg s v) (hroom : s.gpEndVisPlane + 2 ≤ cfg.MAXVISPLANES) :
    ∃ s' v', segLoopColumn cfg seg viewX s v = .done s' v' := by
  obtain ⟨s1, v1, h1, c1⟩ := segLoopFloorPart_returns_of_room cfg seg viewX s v hinv
    (by omega)
  obtain ⟨i1, -, -⟩ := segLoopFloorPart_done cfg seg viewX s v s1 v1 hinv h1
  obtain ⟨s2, v2, h2, -⟩ := segLoopCeilingPart_returns_of_room cfg seg viewX
    (toI32 (s.gClipBoundTop viewX)) (toI32 (s.gClipBoundBottom viewX)) s1 v1 i1 (by omega)
  rw [segLoopColumn_eq, h1]
  simp only [Outcome.andThen, h2]
  exact ⟨_, _, rfl⟩

/-- C14: at the column `x = leftX + k` of a segment, reached after `k` columns of `segLoop`
that returned, a column that returns has drawn one sky column at `x` if the segment has the
draw-sky bit and
`clipTop[x] + 1 < min(trunc(viewCenterY - min(columnScale_x, MAX_RENDER_SCALE) * ceilingheight), clipBottom[x])`,
and none otherwise, where `clipTop[x]` and `clipBottom[x]` are the bounds in the state the
column started in and `columnScale_x` is `LeftScale` stepped `k` times by `ScaleStep`. A
column that stops with the fatal error draws no sky column, and with room for two more plane
records the column returns. A segment without the draw-sky bit leaves the sky columns as
they are over the whole of `segLoop`. -/
theorem segLoop_sky_column {F : Type} [FloatLike F] (cfg : RendererConsts F)
    (s0 : RenderState F) (seg : viswall_t F) (uninit : SegLoopVars F) (k : Nat)
    (sk : RenderState F) (vk : SegLoopVars F)
    (hrun : segLoopColumns cfg seg k seg.leftX s0 (segLoopSetup s0 seg uninit) =
      .done sk vk) :
    (∀ s' v', segLoopColumn cfg seg (seg.leftX + (k : Int)) sk vk = .done s' v' →
      (skyDue sk seg (FloatLike.fmin (columnScaleAt seg k) cfg.MAX_RENDER_SCALE)
          (clipTopAt sk (seg.leftX + (k : Int))) (clipBottomAt sk (seg.leftX + (k : Int))) →
        s'.skyColumns =
          sk.skyColumns ++ [((toU32 (seg.leftX + (k : Int)) : Nat) : Int)]) ∧
      (¬ skyDue sk seg (FloatLike.fmin (columnScaleAt seg k) cfg.MAX_RENDER_SCALE)
          (clipTopAt sk (seg.leftX + (k : Int))) (clipBottomAt sk (seg.leftX + (k : Int))) →
        s'.skyColumns = sk.skyColumns)) ∧
    (∀ msg t, segLoopColumn cfg seg (seg.leftX + (k : Int)) sk vk = .fatal msg t →
      t.skyColumns = sk.skyColumns) ∧
    (0 ≤ seg.leftX + (k : Int) → seg.leftX + (k : Int) < 4294967296 →
      ((toU32 (seg.leftX + (k : Int)) : Nat) : Int) = seg.leftX + (k : Int)) ∧
    sk.gCenterY = s0.gCenterY ∧
    (hasBits seg.WallActions AC_ADDSKY = false →
      (segLoop cfg s0 seg uninit).finalState.skyColumns = s0.skyColumns) ∧
    ((∀ x, ((s0.gVisPlanes 0).cols x).isDefined = true) → 1 ≤ s0.gpEndVisPlane →
      sk.gpEndVisPlane + 2 ≤ cfg.MAXVISPLANES →
      ∃ s' v', segLoopColumn cfg seg (seg.leftX + (k : Int)) sk vk = .done s' v') := by
  have hscale : vk.columnScale = columnScaleAt seg k := by
    rw [segLoopColumns_columnScale cfg seg k seg.leftX s0 _ sk vk hrun,
      segLoopSetup_columnScale]
    rfl
  have hclip := segLoopColumns_clip cfg seg seg.leftX (seg.leftX + (k : Int)) k seg.leftX s0
    (segLoopSetup s0 seg uninit) (le_refl _) (by omega)
  rw [hrun] at hclip
  refine ⟨fun s' v' h => ?_, fun msg t h => segLoopColumn_fatal_sky cfg seg _ sk vk msg t h,
    fun h0 h1 => toU32_of_range _ h0 h1, hclip.centerY,
    fun hbit => segLoop_noSky cfg s0 seg uninit hbit, fun hrec0 hpool hroom => ?_⟩
  · obtain ⟨a1, a2, -⟩ := segLoopColumn_sky cfg seg _ sk vk s' v' h
    rw [hscale] at a1 a2
    exact ⟨a1, a2⟩
  · obtain ⟨i0, w0⟩ := segLoopSetup_inv s0 seg uninit hrec0 hpool
    obtain ⟨ik, -⟩ := segLoopColumns_inv cfg seg s0 k seg.leftX s0 _ sk vk 0 i0 w0 hrun
    exact segLoopColumn_returns_of_room cfg seg _ sk vk ik hroom

/-- Witness for C14: the column 0 of `skySeg` on the fresh frame. The bounds read at the start
are -1 and 96 and the ceiling line is at the row 38, so the sky is due and the column 0 is
drawn once, although the same column raises `clipTop[0]` to 67 before its sky block. -/
theorem segLoop_sky_column_witness :
    segLoopColumns sampleConsts skySeg 0 skySeg.leftX freshState
        (segLoopSetup freshState skySeg zeroVars) =
      .done freshState (segLoopSetup freshState skySeg zeroVars) ∧
    clipTopAt freshState 0 = -1 ∧ clipBottomAt freshState 0 = 96 ∧
    skyDue freshState skySeg (FloatLike.fmin (columnScaleAt skySeg 0)
      sampleConsts.MAX_RENDER_SCALE) (-1) 96 ∧
    clipTopAt (segLoopColumn sampleConsts skySeg 0 freshState
      (segLoopSetup freshState skySeg zeroVars)).finalState 0 = 67 ∧
    ∃ s' v', segLoopColumn sampleConsts skySeg 0 freshState
        (segLoopSetup freshState skySeg zeroVars) = .done s' v' ∧
      s'.skyColumns = [0] := by
  have h := segLoop_sky_column sampleConsts freshState skySeg zeroVars 0 freshState
    (segLoopSetup freshState skySeg zeroVars) rfl
  have hdue : skyDue freshState skySeg (FloatLike.fmin (columnScaleAt skySeg 0)
      sampleConsts.MAX_RENDER_SCALE) (-1) 96 := ⟨by decide, by decide⟩
  obtain ⟨s', v', hcol⟩ := h.2.2.2.2.2 (fun _ => rfl) (by decide) (by decide)
  exact ⟨rfl, by decide, by decide, hdue, by decide, s', v', hcol, (h.1 s' v' hcol).1 hdue⟩

/-! ## The sentinel record 0 -/

/-- A registration leaves record 0 as it is, also when it stops. -/
theorem registerSpan_finalState_rec0 {F : Type} [FloatLike F] (cfg : RendererConsts F)
    (s : RenderState F) (pPlane : Nat) (height : F) (picHandle : Nat) (viewX rightX : Int)
    (light : Nat) (top bottom : Int)
    (hrec0 : ((s.gVisPlanes 0).cols viewX).isDefined = true)
    (hpool : 1 ≤ s.gpEndVisPlane) (hlt : pPlane < s.gpEndVisPlane) :
    (registerSpan cfg s pPlane height picHandle viewX rightX light top
      bottom).finalState.gVisPlanes 0 = s.gVisPlanes 0 := by
  rcases registerSpan_cases cfg s pPlane height picHandle viewX rightX light top bottom
      hrec0 hpool hlt with ⟨_, e⟩ | ⟨_, t, idx, e, R⟩ | ⟨_, _, e⟩
  · rw [e]; rfl
  · rw [e]; exact R.keepsRec0
  · rw [e]; rfl

theorem segLoopFloorPart_finalState_rec0 {F : Type} [FloatLike F] (cfg : RendererConsts F)
    (seg : viswall_t F) (viewX : Int) (s : RenderState F) (v : SegLoopVars F)
    (hinv : SegLoopInv seg s v) :
    (segLoopFloorPart cfg seg viewX s v).finalState.gVisPlanes 0 = s.gVisPlanes 0 := by
  unfold segLoopFloorPart
  by_cases hbit : hasBits seg.WallActions AC_ADDFLOOR = true
  · rw [if_pos hbit, segLoopAddFloor_eq_registerSpan, finalState_andThen_done]
    exact registerSpan_finalState_rec0 cfg s _ _ _ viewX _ _ _ _ (hinv.rec0 viewX) hinv.pool
      hinv.floorLt
  · rw [if_neg hbit]; rfl

theorem segLoopCeilingPart_finalState_rec0 {F : Type} [FloatLike F] (cfg : RendererConsts F)
    (seg : viswall_t F) (viewX clipBoundTY clipBoundBY : Int) (s : RenderState F)
    (v : SegLoopVars F) (hinv : SegLoopInv seg s v) :
    (segLoopCeilingPart cfg seg viewX clipBoundTY clipBoundBY s v).finalState.gVisPlanes 0 =
      s.gVisPlanes 0 := by
  unfold segLoopCeilingPart
  by_cases hbit : hasBits seg.WallActions AC_ADDCEILING = true
  · rw [if_pos hbit, segLoopAddCeiling_eq_registerSpan, finalState_andThen_done]
    exact registerSpan_finalState_rec0 cfg s _ _ _ viewX _ _ _ _ (hinv.rec0 viewX) hinv.pool
      hinv.ceilLt
  · rw [if_neg hbit]; rfl

/-- One column leaves record 0 as it is, also when it stops. -/
theorem segLoopColumn_finalState_rec0 {F : Type} [FloatLike F] (cfg : RendererConsts F)
    (seg : viswall_t F) (viewX : Int) (s : RenderState F) (v : SegLoopVars F)
    (hinv : SegLoopInv seg s v) :
    (segLoopColumn cfg seg viewX s v).finalState.gVisPlanes 0 = s.gVisPlanes 0 := by
  rw [segLoopColumn_eq]
  refine Outcome.finalState_andThen (fun a b => b.gVisPlanes 0 = a.gVisPlanes 0)
    (fun _ _ _ h1 h2 => h2.trans h1) s _ _
    (segLoopFloorPart_finalState_rec0 cfg seg viewX s v hinv) ?_
  intro s1 v1 h1
  obtain ⟨i1, -, -⟩ := segLoopFloorPart_done cfg seg viewX s v s1 v1 hinv h1
  refine Outcome.finalState_andThen (fun a b => b.gVisPlanes 0 = a.gVisPlanes 0)
    (fun _ _ _ h1 h2 => h2.trans h1) s1 _ _
    (segLoopCeilingPart_finalState_rec0 cfg seg viewX _ _ s1 v1 i1) ?_
  intro s2 v2 _
  obtain ⟨sp, -⟩ := segLoopColumnTail_spec seg
    (FloatLike.fmin v.columnScale cfg.MAX_RENDER_SCALE) viewX
    (toI32 (s.gClipBoundTop viewX)) (toI32 (s.gClipBoundBottom viewX)) s2 v2
  show (segLoopColumnTail seg _ viewX _ _ s2 v2).1.gVisPlanes 0 = s2.gVisPlanes 0
  rw [sp.planes]

/-- A run of columns leaves record 0 as it is, also when it stops. -/
theorem segLoopColumns_finalState_rec0 {F : Type} [FloatLike F] (cfg : RendererConsts F)
    (seg : viswall_t F) (s0 : RenderState F) (n : Nat) :
    ∀ (viewX : Int) (s : RenderState F) (v : SegLoopVars F) (k : Nat),
      SegLoopInv seg s v → SegLoopVarsAt s0 seg k v →
      (segLoopColumns cfg seg n viewX s v).finalState.gVisPlanes 0 = s.gVisPlanes 0 := by
  induction n with
  | zero => intro viewX s v k _ _; rfl
  | succ n ih =>
    intro viewX s v k hinv hvars
    rw [segLoopColumns_succ]
    refine Outcome.finalState_andThen (fun a b => b.gVisPlanes 0 = a.gVisPlanes 0)
      (fun _ _ _ h1 h2 => h2.trans h1) s _ _
      (segLoopColumn_finalState_rec0 cfg seg viewX s v hinv) ?_
    intro s1 v1 h1
    obtain ⟨i1, w1⟩ := segLoopColumn_inv cfg seg viewX s0 s v s1 v1 k hinv hvars h1
    exact ih (viewX + 1) s1 v1 (k + 1) i1 w1

/-- A `segLoop` call leaves record 0 as it is, also when it stops, and a call that returns
leaves at least the sentinel in the pool. -/
theorem segLoop_finalState_rec0 {F : Type} [FloatLike F] (cfg : RendererConsts F)
    (s : RenderState F) (seg : viswall_t F) (uninit : SegLoopVars F)
    (hrec0 : ∀ x, ((s.gVisPlanes 0).cols x).isDefined = true) (hpool : 1 ≤ s.gpEndVisPlane) :
    (segLoop cfg s seg uninit).finalState.gVisPlanes 0 = s.gVisPlanes 0 ∧
      (∀ t, segLoop cfg s seg uninit = .done t () → 1 ≤ t.gpEndVisPlane) := by
  obtain ⟨i0, w0⟩ := segLoopSetup_inv s seg uninit hrec0 hpool
  constructor
  · unfold segLoop
    rw [finalState_andThen_done]
    exact segLoopColumns_finalState_rec0 cfg seg s _ seg.leftX s _ 0 i0 w0
  · intro t ht
    unfold segLoop at ht
    rw [Outcome.andThen_eq_done] at ht
    obtain ⟨s1, v1, h1, h2⟩ := ht
    injection h2 with hs _
    obtain ⟨i1, -⟩ := segLoopColumns_inv cfg seg s _ seg.leftX s _ s1 v1 0 i0 w0 h1
    rw [← hs]; exact i1.pool

/-- A `findPlane` call made after a record of the pool returns a later record and leaves
record 0 as it is, the pool not smaller. -/
theorem findPlane_after_sentinel {F : Type} [FloatLike F] (cfg : RendererConsts F)
    (s : RenderState F) (plane : Nat) (height : F) (picHandle : Nat) (start stop : Int)
    (light : Nat) (t : RenderState F) (j : Nat) (hlt : plane < s.gpEndVisPlane)
    (h : findPlane cfg s plane height picHandle start stop light = .done t j) :
    plane < j ∧ t.gVisPlanes 0 = s.gVisPlanes 0 ∧ s.gpEndVisPlane ≤ t.gpEndVisPlane := by
  rcases findPlane_cases cfg s plane height picHandle start stop light with
    ⟨i, h1, _, _, _, h5⟩ | ⟨_, h5⟩
  · rw [h5] at h
    injection h with hs hj
    subst hj
    rw [← hs]
    exact ⟨h1, Function.update_noteq (by omega) _ _, le_refl _⟩
  · rw [h5] at h
    by_cases hroom : s.gpEndVisPlane < cfg.MAXVISPLANES
    · rw [if_pos hroom] at h
      injection h with hs hj
      subst hj
      rw [← hs]
      exact ⟨hlt, Function.update_noteq (by omega) _ _, Nat.le_succ _⟩
    · rw [if_neg hroom] at h
      cases h

/-- Every state of a frame has the record 0 the frame started with and at least the sentinel
in the pool. -/
theorem frameReachable_inv {F : Type} [FloatLike F] (cfg : RendererConsts F)
    (s0 : RenderState F) (hpool : 1 ≤ s0.gpEndVisPlane)
    (hrec0 : ∀ x, ((s0.gVisPlanes 0).cols x).isDefined = true) (s : RenderState F)
    (hreach : FrameReachable cfg s0 s) :
    s.gVisPlanes 0 = s0.gVisPlanes 0 ∧ 1 ≤ s.gpEndVisPlane := by
  induction hreach with
  | start => exact ⟨rfl, hpool⟩
  | findPlaneCall s t plane height picHandle start stop light j _ hlt hcall ih =>
    obtain ⟨-, a2, a3⟩ := findPlane_after_sentinel cfg s plane height picHandle start stop
      light t j hlt hcall
    exact ⟨a2.trans ih.1, le_trans ih.2 a3⟩
  | segLoopCall s t seg uninit _ hcall ih =>
    obtain ⟨b1, b2⟩ := segLoop_finalState_rec0 cfg s seg uninit
      (fun x => by rw [ih.1]; exact hrec0 x) ih.2
    rw [hcall] at b1
    exact ⟨b1.trans ih.1, b2 t hcall⟩

/-- C15: from the start of a frame (pool count 1, every span of record 0 reading as
defined), in every state reached by `findPlane` and `segLoop` calls: record 0 is the record
the frame started with; a `findPlane` call made after a record of the pool returns a record
with a strictly greater index, so never record 0, and leaves record 0 as it is; a `segLoop`
call leaves record 0 as it is, after each of its columns and also when it stops; and as long
as the pool count is 1, that is until the first allocation, a `findPlane` call (the pool
limit being above 1) allocates record 1. -/
theorem sentinel_record_zero {F : Type} [FloatLike F] (cfg : RendererConsts F)
    (s0 : RenderState F) (hcount : s0.gpEndVisPlane = 1)
    (hrec0 : ∀ x, ((s0.gVisPlanes 0).cols x).isDefined = true) (s : RenderState F)
    (hreach : FrameReachable cfg s0 s) :
    s.gVisPlanes 0 = s0.gVisPlanes 0 ∧
    (∀ (plane : Nat) (height : F) (picHandle : Nat) (start stop : Int) (light : Nat)
        (t : RenderState F) (j : Nat), plane < s.gpEndVisPlane →
      findPlane cfg s plane height picHandle start stop light = .done t j →
      plane < j ∧ j ≠ 0 ∧ t.gVisPlanes 0 = s0.gVisPlanes 0) ∧
    (∀ (seg : viswall_t F) (uninit : SegLoopVars F),
      (segLoop cfg s seg uninit).finalState.gVisPlanes 0 = s0.gVisPlanes 0 ∧
      ∀ n, (segLoopColumns cfg seg n seg.leftX s
        (segLoopSetup s seg uninit)).finalState.gVisPlanes 0 = s0.gVisPlanes 0) ∧
    (∀ (plane : Nat) (height : F) (picHandle : Nat) (start stop : Int) (light : Nat),
      s.gpEndVisPlane = 1 → 1 < cfg.MAXVISPLANES →
      ∃ t, findPlane cfg s plane height picHandle start stop light = .done t 1 ∧
        t.gpEndVisPlane = 2 ∧ planeKey (t.gVisPlanes 1) = (height, picHandle, light) ∧
        t.gVisPlanes 0 = s0.gVisPlanes 0) := by
  obtain ⟨i1, i2⟩ := frameReachable_inv cfg s0 (by omega) hrec0 s hreach
  have hrec : ∀ x, ((s.gVisPlanes 0).cols x).isDefined = true := fun x => by
    rw [i1]; exact hrec0 x
  refine ⟨i1, ?_, ?_, ?_⟩
  · intro plane height picHandle start stop light t j hlt hcall
    obtain ⟨a1, a2, -⟩ := findPlane_after_sentinel cfg s plane height picHandle start stop
      light t j hlt hcall
    exact ⟨a1, by omega, a2.trans i1⟩
  · intro seg uninit
    obtain ⟨j0, w0⟩ := segLoopSetup_inv s seg uninit hrec i2
    exact ⟨(segLoop_finalState_rec0 cfg s seg uninit hrec i2).1.trans i1, fun n =>
      (segLoopColumns_finalState_rec0 cfg seg s n seg.leftX s _ 0 j0 w0).trans i1⟩
  · intro plane height picHandle start stop light hone hroom
    rcases findPlane_cases cfg s plane height picHandle start stop light with
      ⟨i, h1, h2, _, _, _⟩ | ⟨_, h5⟩
    · omega
    · rw [if_pos (by omega), hone] at h5
      refine ⟨_, h5, rfl, ?_, ?_⟩
      · simp [planeKey]
      · simpa using i1

/-- Witness for C15: the fresh frame is the start of a frame; its first `findPlane` call,
here for the height 10, the flat 5 and the light 128 over the columns 0..50, allocates
record 1, and `segLoop` on `floorSeg` leaves record 0 as it is. -/
theorem sentinel_record_zero_witness :
    freshState.gpEndVisPlane = 1 ∧
    (∀ x, ((freshState.gVisPlanes 0).cols x).isDefined = true) ∧
    FrameReachable sampleConsts freshState freshState ∧
    (∃ t, findPlane sampleConsts freshState 0 10 5 0 50 128 = .done t 1 ∧
      t.gpEndVisPlane = 2) ∧
    (segLoop sampleConsts freshState floorSeg zeroVars).finalState.gVisPlanes 0 =
      freshState.gVisPlanes 0 := by
  have h := sentinel_record_zero sampleConsts freshState rfl (fun _ => rfl) freshState
    FrameReachable.start
  obtain ⟨t, h1, h2, -⟩ := h.2.2.2 0 10 5 0 50 128 rfl (by decide)
  exact ⟨rfl, fun _ => rfl, FrameReachable.start, ⟨t, h1, h2⟩, (h.2.2.1 floorSeg zeroVars).1⟩

/-! ## The frame: `drawAllLineSegs` -/

/-- The loop over the walls in list order is the pass over the list of those walls; it adds
one event per wall, in that order. -/
theorem segLoopWalls_eq_pass {F : Type} [FloatLike F] (cfg : RendererConsts F)
    (gVisWalls : Nat → viswall_t F) (uninit : Nat → SegLoopVars F) (m : Nat) :
    ∀ (i : Nat) (s : RenderState F) (events : List (PassEvent F)),
      segLoopWalls cfg gVisWalls uninit m i s events =
        (segLoopPass cfg ((List.range m).map fun k => (gVisWalls (i + k), uninit (i + k)))
          s).andThen fun t _ =>
            .done t (events ++ (List.range m).map fun k => PassEvent.segLoopCall (i + k)) := by
  induction m with
  | zero => intro i s events; simp [segLoopWalls, segLoopPass, Outcome.andThen]
  | succ m ih =>
    intro i s events
    rw [List.range_succ_eq_map]
    simp only [segLoopWalls, List.map_cons, List.map_map, segLoopPass, Nat.add_zero]
    rw [Outcome.andThen_assoc]
    congr 1
    funext s1 _
    rw [ih (i + 1) s1 (events ++ [PassEvent.segLoopCall i])]
    have e1 : (fun k => (gVisWalls (i + 1 + k), uninit (i + 1 + k))) =
        ((fun k => (gVisWalls (i + k), uninit (i + k))) ∘ Nat.succ) := by
      funext k; simp only [Function.comp]; rw [show i + 1 + k = i + k.succ by omega]
    have e2 : (fun k => (PassEvent.segLoopCall (i + 1 + k) : PassEvent F)) =
        ((fun k => PassEvent.segLoopCall (i + k)) ∘ Nat.succ) := by
      funext k; simp only [Function.comp]; rw [show i + 1 + k = i + k.succ by omega]
    rw [e1, e2]
    simp [List.append_assoc]

/-- The loop over the walls from the last one down makes one event per wall, in reverse
list order. -/
theorem drawSegWalls_eq {F : Type} [FloatWall F] (env : WallEnv F) (s : RenderState F)
    (gVisWalls : Nat → viswall_t F) (uninit : Nat → DrawSegVars F) (m : Nat) :
    drawSegWalls env s gVisWalls uninit m =
      (List.range m).reverse.map fun i =>
        PassEvent.drawSegCall i (drawSeg env s (gVisWalls i) (uninit i)) := by
  induction m with
  | zero => rfl
  | succ m ih =>
    rw [List.range_succ, List.reverse_append]
    simp only [drawSegWalls, List.reverse_cons, List.reverse_nil, List.nil_append,
      List.singleton_append, List.map_cons]
    rw [ih]

/-- The routine `drawAllLineSegs` written out: the reset, the pass over the wall list in list
order, and then the draw calls in reverse list order, on the state the pass ends in. -/
theorem drawAllLineSegs_eq {F : Type} [FloatWall F] (cfg : RendererConsts F) (env : WallEnv F)
    (s : RenderState F) (gVisWalls : Nat → viswall_t F) (nWalls : Nat)
    (uninitSegLoop : Nat → SegLoopVars F) (uninitDrawSeg : Nat → DrawSegVars F) :
    drawAllLineSegs cfg env s gVisWalls nWalls uninitSegLoop uninitDrawSeg =
      (segLoopPass cfg ((List.range nWalls).map fun i => (gVisWalls i, uninitSegLoop i))
        (resetClipBounds s)).andThen fun t _ =>
          .done t
            (((List.range nWalls).map fun i => PassEvent.segLoopCall i) ++
              (List.range nWalls).reverse.map fun i =>
                PassEvent.drawSegCall i (drawSeg env t (gVisWalls i) (uninitDrawSeg i))) := by
  unfold drawAllLineSegs
  rw [segLoopWalls_eq_pass, Outcome.andThen_assoc]
  simp only [Nat.zero_add, List.nil_append]
  congr 1
  funext t _
  simp [Outcome.andThen, drawSegWalls_eq]

/-- The globals after `drawAllLineSegs` are those after its clip and plane pass. -/
theorem drawAllLineSegs_finalState {F : Type} [FloatWall F] (cfg : RendererConsts F)
    (env : WallEnv F) (s : RenderState F) (gVisWalls : Nat → viswall_t F) (nWalls : Nat)
    (uninitSegLoop : Nat → SegLoopVars F) (uninitDrawSeg : Nat → DrawSegVars F) :
    (drawAllLineSegs cfg env s gVisWalls nWalls uninitSegLoop uninitDrawSeg).finalState =
      (segLoopPass cfg ((List.range nWalls).map fun i => (gVisWalls i, uninitSegLoop i))
        (resetClipBounds s)).finalState := by
  rw [drawAllLineSegs_eq]
  exact finalState_andThen_done _ _

/-- After the reset and a pass of `segLoop` calls every column of the screen is in range. -/
theorem segLoopPass_reset_inRange {F : Type} [FloatLike F] (cfg : RendererConsts F)
    (s : RenderState F) (calls : List (viswall_t F × SegLoopVars F))
    (hH : s.gScreenHeight < 2147483648) (x : Int) (h0 : 0 ≤ x)
    (h1 : x < (s.gScreenWidth : Int)) :
    (segLoopPass cfg calls (resetClipBounds s)).finalState.gScreenHeight = s.gScreenHeight ∧
      ClipInRange (segLoopPass cfg calls (resetClipBounds s)).finalState x := by
  obtain ⟨-, r2, -⟩ := resetClipBounds_spec s hH
  obtain ⟨-, p2, p3⟩ := segLoopPass_clip cfg calls (resetClipBounds s)
  exact ⟨p2.trans r2,
    (p3 (by rw [r2]; exact hH) x (resetClipBounds_inRange s hH x h0 h1)).1⟩

set_option maxRecDepth 20000 in
/-- C13 as stated fails on the code. (1) With an empty wall list every column keeps the reset
value of its top bound, which is -1, below 0. (2) With the single wall `clipSeg`, whose new
ceiling line (row 68) lies below its new floor line (row 28), the column 2 ends with the top
bound 67 above the bottom bound 28: each bound is clamped against its own old value and the
screen, never against the other bound. -/
theorem clip_pass_breaks_zero_and_order :
    clipTopAt (drawAllLineSegs sampleConsts scenarioEnv staleState (fun _ => clipSeg) 0
      (fun _ => zeroVars) (fun _ => zeroDrawVars)).finalState 0 = -1 ∧
    ¬ (0 ≤ clipTopAt (drawAllLineSegs sampleConsts scenarioEnv staleState (fun _ => clipSeg) 0
      (fun _ => zeroVars) (fun _ => zeroDrawVars)).finalState 0) ∧
    clipTopAt (drawAllLineSegs sampleConsts scenarioEnv staleState (fun _ => clipSeg) 1
      (fun _ => zeroVars) (fun _ => zeroDrawVars)).finalState 2 = 67 ∧
    clipBottomAt (drawAllLineSegs sampleConsts scenarioEnv staleState (fun _ => clipSeg) 1
      (fun _ => zeroVars) (fun _ => zeroDrawVars)).finalState 2 = 28 ∧
    ¬ (clipTopAt (drawAllLineSegs sampleConsts scenarioEnv staleState (fun _ => clipSeg) 1
        (fun _ => zeroVars) (fun _ => zeroDrawVars)).finalState 2 ≤
      clipBottomAt (drawAllLineSegs sampleConsts scenarioEnv staleState (fun _ => clipSeg) 1
        (fun _ => zeroVars) (fun _ => zeroDrawVars)).finalState 2) := by
  refine ⟨by decide, by decide, by decide, by decide, by decide⟩

/-- C13, amended: after the clip and plane pass of `drawAllLineSegs` over any wall list (the
empty one too; also when a `segLoop` call ends the pass with the fatal stop), every column
`x` of the screen has `-1 <= clipTop[x] <= screenHeight - 1` and
`0 <= clipBottom[x] <= screenHeight`; nothing orders the two bounds of a column. -/
theorem drawAllLineSegs_clip_bounds {F : Type} [FloatWall F] (cfg : RendererConsts F)
    (env : WallEnv F) (s : RenderState F) (gVisWalls : Nat → viswall_t F) (nWalls : Nat)
    (uninitSegLoop : Nat → SegLoopVars F) (uninitDrawSeg : Nat → DrawSegVars F)
    (hH : s.gScreenHeight < 2147483648) (x : Int) (h0 : 0 ≤ x)
    (h1 : x < (s.gScreenWidth : Int)) :
    -1 ≤ clipTopAt (drawAllLineSegs cfg env s gVisWalls nWalls uninitSegLoop
      uninitDrawSeg).finalState x ∧
    clipTopAt (drawAllLineSegs cfg env s gVisWalls nWalls uninitSegLoop
      uninitDrawSeg).finalState x ≤ (s.gScreenHeight : Int) - 1 ∧
    0 ≤ clipBottomAt (drawAllLineSegs cfg env s gVisWalls nWalls uninitSegLoop
      uninitDrawSeg).finalState x ∧
    clipBottomAt (drawAllLineSegs cfg env s gVisWalls nWalls uninitSegLoop
      uninitDrawSeg).finalState x ≤ (s.gScreenHeight : Int) := by
  rw [drawAllLineSegs_finalState]
  obtain ⟨e, c1, c2, c3, c4⟩ := segLoopPass_reset_inRange cfg s
    ((List.range nWalls).map fun i => (gVisWalls i, uninitSegLoop i)) hH x h0 h1
  rw [e] at c2 c4
  exact ⟨c1, c2, c3, c4⟩

/-- Witness for C13, amended: the column 0 of the 160 x 96 frame after `drawAllLineSegs` on
the single wall `clipSeg`. -/
theorem drawAllLineSegs_clip_bounds_witness :
    staleState.gScreenHeight < 2147483648 ∧ (0 : Int) ≤ 0 ∧
    (0 : Int) < (staleState.gScreenWidth : Int) ∧
    -1 ≤ clipTopAt (drawAllLineSegs sampleConsts scenarioEnv staleState (fun _ => clipSeg) 1
      (fun _ => zeroVars) (fun _ => zeroDrawVars)).finalState 0 ∧
    clipTopAt (drawAllLineSegs sampleConsts scenarioEnv staleState (fun _ => clipSeg) 1
      (fun _ => zeroVars) (fun _ => zeroDrawVars)).finalState 0 ≤ 95 ∧
    0 ≤ clipBottomAt (drawAllLineSegs sampleConsts scenarioEnv staleState (fun _ => clipSeg) 1
      (fun _ => zeroVars) (fun _ => zeroDrawVars)).finalState 0 ∧
    clipBottomAt (drawAllLineSegs sampleConsts scenarioEnv staleState (fun _ => clipSeg) 1
      (fun _ => zeroVars) (fun _ => zeroDrawVars)).finalState 0 ≤ 96 :=
  ⟨by decide, by decide, by decide,
    drawAllLineSegs_clip_bounds sampleConsts scenarioEnv staleState (fun _ => clipSeg) 1
      (fun _ => zeroVars) (fun _ => zeroDrawVars) (by decide) 0 (by decide) (by decide)⟩

/-- C16: for every wall list `gVisWalls[0 .. n - 1]` (`n >= 0`), `drawAllLineSegs` first
sets, for every column `x < gScreenWidth`, `gClipBoundTop[x]` to -1 (stored as the
`uint32_t` that reads -1 as `int32_t`) and `gClipBoundBottom[x]` to `gScreenHeight`; then
runs `segLoop` on the walls 0, 1, ..., n - 1 in that order, each from the state the one
before left; then runs `drawSeg` on the walls n - 1, ..., 1, 0. The calls it makes are exactly
the n `segLoop` calls followed by the n `drawSeg` calls, whenever the clip and plane pass
returns; a fatal stop in a `segLoop` call ends the routine there. -/
theorem drawAllLineSegs_pass_order {F : Type} [FloatWall F] (cfg : RendererConsts F)
    (env : WallEnv F) (s : RenderState F) (gVisWalls : Nat → viswall_t F) (nWalls : Nat)
    (uninitSegLoop : Nat → SegLoopVars F) (uninitDrawSeg : Nat → DrawSegVars F) :
    (∀ x : Int, 0 ≤ x → x < (s.gScreenWidth : Int) →
      (resetClipBounds s).gClipBoundTop x = toU32 (-1) ∧
      (resetClipBounds s).gClipBoundBottom x = toU32 (s.gScreenHeight : Int)) ∧
    toI32 (toU32 (-1)) = -1 ∧
    drawAllLineSegs cfg env s gVisWalls nWalls uninitSegLoop uninitDrawSeg =
      ((segLoopPass cfg ((List.range nWalls).map fun i => (gVisWalls i, uninitSegLoop i))
        (resetClipBounds s)).andThen fun t _ =>
          .done t
            (((List.range nWalls).map fun i => PassEvent.segLoopCall i) ++
              (List.range nWalls).reverse.map fun i =>
                PassEvent.drawSegCall i (drawSeg env t (gVisWalls i) (uninitDrawSeg i)))) ∧
    (∀ t : RenderState F,
      segLoopPass cfg ((List.range nWalls).map fun i => (gVisWalls i, uninitSegLoop i))
        (resetClipBounds s) = .done t () →
      drawAllLineSegs cfg env s gVisWalls nWalls uninitSegLoop uninitDrawSeg =
        .done t
          (((List.range nWalls).map fun i => PassEvent.segLoopCall i) ++
            (List.range nWalls).reverse.map fun i =>
              PassEvent.drawSegCall i (drawSeg env t (gVisWalls i) (uninitDrawSeg i)))) := by
  refine ⟨fun x h0 h1 => ?_, by decide, drawAllLineSegs_eq _ _ _ _ _ _ _, fun t ht => ?_⟩
  · obtain ⟨-, -, -, -, -, -, -, a8, -⟩ := resetClipLoop_spec s.gScreenWidth 0 s
    exact a8 x (by simpa using h0) (by simpa using h1)
  · rw [drawAllLineSegs_eq, ht]
    rfl

set_option maxRecDepth 20000 in
/-- Witness for C16: the wall list `plainSeg`, `clipSeg` on the 160 x 96 frame with stale
clip bounds. Column 0 is reset, and the calls are `segLoop` on the walls 0 and 1, then
`drawSeg` on the walls 1 and 0 (neither has a texture bit, so neither blits). -/
theorem drawAllLineSegs_pass_order_witness :
    (0 : Int) ≤ 0 ∧ (0 : Int) < (staleState.gScreenWidth : Int) ∧
    (resetClipBounds staleState).gClipBoundTop 0 = 4294967295 ∧
    (resetClipBounds staleState).gClipBoundBottom 0 = 96 ∧
    ∃ t, drawAllLineSegs sampleConsts scenarioEnv staleState twoWalls 2 (fun _ => zeroVars)
        (fun _ => zeroDrawVars) =
      .done t [PassEvent.segLoopCall 0, PassEvent.segLoopCall 1, PassEvent.drawSegCall 1 [],
        PassEvent.drawSegCall 0 []] := by
  have h := drawAllLineSegs_pass_order sampleConsts scenarioEnv staleState twoWalls 2
    (fun _ => zeroVars) (fun _ => zeroDrawVars)
  refine ⟨by decide, by decide, (h.1 0 (by decide) (by decide)).1,
    (h.1 0 (by decide) (by decide)).2, ?_⟩
  refine ⟨(segLoopPass sampleConsts
    ((List.range 2).map fun i => (twoWalls i, zeroVars)) (resetClipBounds staleState)).finalState,
    ?_⟩
  rw [h.2.2.2 _ rfl]
  rfl

/-! ## The wall draw pass: `drawSeg` -/

theorem drawSegSetup_texOk {F : Type} [FloatWall F] (env : WallEnv F) (s : RenderState F)
    (seg : viswall_t F) (uninit : DrawSegVars F) :
    DrawSegTexOk env seg (drawSegSetup env s seg uninit) := by
  unfold drawSegSetup DrawSegTexOk topTexOf bottomTexOf
  by_cases h1 : hasBits seg.WallActions AC_TOPTEXTURE = true <;>
    by_cases h2 : hasBits seg.WallActions AC_BOTTOMTEXTURE = true <;>
    simp [h1, h2]

/-- One pass of the column body makes the wall columns due at that screen column and keeps
the texture records. -/
theorem drawSegColumn_attempts {F : Type} [FloatWall F] (env : WallEnv F) (seg : viswall_t F)
    (viewX : Int) (v : DrawSegVars F) (hv : DrawSegTexOk env seg v) :
    (drawSegColumn env seg viewX v).1.map (fun c => (c.viewX, c.tex)) =
        columnAttempts env seg viewX ∧
      DrawSegTexOk env seg (drawSegColumn env seg viewX v).2 := by
  unfold drawSegColumn DrawSegTexOk columnAttempts at *
  by_cases h1 : hasBits seg.WallActions AC_TOPTEXTURE = true <;>
    by_cases h2 : hasBits seg.WallActions AC_BOTTOMTEXTURE = true <;>
    simp [h1, h2] at hv ⊢ <;> simp [hv]

/-- The column loop makes, column after column, the wall columns due there. -/
theorem drawSegColumns_attempts {F : Type} [FloatWall F] (env : WallEnv F)
    (seg : viswall_t F) (n : Nat) :
    ∀ (viewX : Int) (v : DrawSegVars F), DrawSegTexOk env seg v →
      (drawSegColumns env seg n viewX v).map (fun c => (c.viewX, c.tex)) =
        (List.range n).flatMap fun k => columnAttempts env seg (viewX + (k : Int)) := by
  induction n with
  | zero => intro viewX v _; rfl
  | succ n ih =>
    intro viewX v hv
    obtain ⟨a1, a2⟩ := drawSegColumn_attempts env seg viewX v hv
    rw [List.range_succ_eq_map]
    simp only [drawSegColumns, List.map_append, List.flatMap_cons, Nat.cast_zero, add_zero]
    rw [a1, ih (viewX + 1) _ a2, List.flatMap_map]
    congr 2
    funext k
    simp only [Function.comp, Nat.succ_eq_add_one, Nat.cast_add, Nat.cast_one]
    rw [show viewX + 1 + (k : Int) = viewX + ((k : Int) + 1) by omega]

theorem columnAttempts_length {F : Type} (env : WallEnv F) (seg : viswall_t F) (viewX : Int) :
    (columnAttempts env seg viewX).length = textureBitCount seg := by
  unfold columnAttempts textureBitCount
  by_cases h1 : hasBits seg.WallActions AC_TOPTEXTURE = true <;>
    by_cases h2 : hasBits seg.WallActions AC_BOTTOMTEXTURE = true <;>
    simp [h1, h2]

theorem flatMap_columnAttempts_length {F : Type} (env : WallEnv F) (seg : viswall_t F)
    (viewX : Int) (n : Nat) :
    ((List.range n).flatMap fun k => columnAttempts env seg (viewX + (k : Int))).length =
      n * textureBitCount seg := by
  induction n with
  | zero => simp
  | succ n ih =>
    rw [List.range_succ, List.flatMap_append, List.length_append, ih]
    simp [columnAttempts_length, Nat.succ_mul]

theorem noTextureBits_iff {F : Type} (seg : viswall_t F) :
    seg.WallActions &&& (AC_TOPTEXTURE ||| AC_BOTTOMTEXTURE) = 0 ↔
      hasBits seg.WallActions AC_TOPTEXTURE = false ∧
        hasBits seg.WallActions AC_BOTTOMTEXTURE = false := by
  have h := hasBits_lor seg.WallActions AC_TOPTEXTURE AC_BOTTOMTEXTURE
  rw [hasBits_iff] at h
  constructor
  · intro h0
    have : ¬ (hasBits seg.WallActions AC_TOPTEXTURE = true ∨
        hasBits seg.WallActions AC_BOTTOMTEXTURE = true) := fun hh => (h.2 hh) h0
    simp only [not_or, Bool.not_eq_true] at this
    exact this
  · intro ⟨h1, h2⟩
    by_contra hne
    rcases h.1 hne with h3 | h3
    · rw [h1] at h3; cases h3
    · rw [h2] at h3; cases h3

/-- The wall columns `drawSeg` attempts: column after column of the segment, those due. -/
theorem drawSegCalls_attempts {F : Type} [FloatWall F] (env : WallEnv F) (s : RenderState F)
    (seg : viswall_t F) (uninit : DrawSegVars F) :
    (drawSegCalls env s seg uninit).map (fun c => (c.viewX, c.tex)) =
      (List.range (seg.rightX - seg.leftX + 1).toNat).flatMap fun k =>
        columnAttempts env seg (seg.leftX + (k : Int)) := by
  unfold drawSegCalls
  by_cases h : seg.WallActions &&& (AC_TOPTEXTURE ||| AC_BOTTOMTEXTURE) = 0
  · rw [if_pos h]
    obtain ⟨h1, h2⟩ := (noTextureBits_iff seg).1 h
    have e : ∀ x, columnAttempts env seg x = [] := by
      intro x; simp [columnAttempts, h1, h2]
    simp [e]
  · rw [if_neg h]
    exact drawSegColumns_attempts env seg _ seg.leftX _ (drawSegSetup_texOk env s seg uninit)

/-- C17: `drawSeg` attempts, for each column `leftX .. rightX` of the segment in turn, one
wall column per texture bit that is set (the top one first), and so
`(rightX - leftX + 1) * (number of texture bits)` wall columns in all, none when neither bit
is set; its blits are those of these attempts. In the scenario (columns 10..20, only the
top-texture bit, scale 1 with step 0, heights 64 and 0, anchor 0, a 128-row screen) the
attempts are the 11 columns 10..20, each of the height `ceil(64 - 0) = 64`, and each is
blitted with 64 pixels (at the screen column `x + 48`). -/
theorem drawSeg_column_attempts {F : Type} [FloatWall F] (env : WallEnv F) (s : RenderState F)
    (seg : viswall_t F) (uninit : DrawSegVars F) :
    (drawSegCalls env s seg uninit).map (fun c => (c.viewX, c.tex)) =
      ((List.range (seg.rightX - seg.leftX + 1).toNat).flatMap fun k =>
        columnAttempts env seg (seg.leftX + (k : Int))) ∧
    (drawSegCalls env s seg uninit).length =
      (seg.rightX - seg.leftX + 1).toNat * textureBitCount seg ∧
    (seg.leftX ≤ seg.rightX →
      (((seg.rightX - seg.leftX + 1).toNat : Nat) : Int) = seg.rightX - seg.leftX + 1) ∧
    (hasBits seg.WallActions AC_TOPTEXTURE = false →
      hasBits seg.WallActions AC_BOTTOMTEXTURE = false →
      drawSegCalls env s seg uninit = [] ∧ drawSeg env s seg uninit = []) ∧
    drawSeg env s seg uninit =
      (drawSegCalls env s seg uninit).filterMap (fun c => drawWallColumn env s c) ∧
    (drawSegCalls scenarioEnv scenarioState scenarioSeg zeroDrawVars).map
        (fun c => (c.viewX, getWallColumnHeight c.wallTopY c.wallBottomY)) =
      ((List.range 11).map fun k => (10 + k, (64 : Int))) ∧
    (drawSeg scenarioEnv scenarioState scenarioSeg zeroDrawVars).map
        (fun b => (b.dstX, b.dstCount)) =
      ((List.range 11).map fun k => (10 + k + 48, 64)) := by
  have hlen : (drawSegCalls env s seg uninit).length =
      (seg.rightX - seg.leftX + 1).toNat * textureBitCount seg := by
    have h := congrArg List.length (drawSegCalls_attempts env s seg uninit)
    rw [List.length_map, flatMap_columnAttempts_length] at h
    exact h
  refine ⟨drawSegCalls_attempts env s seg uninit, hlen, fun h => by omega, fun h1 h2 => ?_,
    rfl, rfl, rfl⟩
  have e : drawSegCalls env s seg uninit = [] := by
    apply List.eq_nil_of_length_eq_zero
    rw [hlen]
    simp [textureBitCount, h1, h2]
  exact ⟨e, by unfold drawSeg; rw [e]; rfl⟩

/-- Witness for C17: the scenario segment has `leftX <= rightX`, 11 columns and one texture
bit, hence 11 attempts. -/
theorem drawSeg_column_attempts_witness :
    scenarioSeg.leftX ≤ scenarioSeg.rightX ∧
    (((scenarioSeg.rightX - scenarioSeg.leftX + 1).toNat : Nat) : Int) = 11 ∧
    (drawSegCalls scenarioEnv scenarioState scenarioSeg zeroDrawVars).length = 11 ∧
    (hasBits plainSeg.WallActions AC_TOPTEXTURE = false ∧
      hasBits plainSeg.WallActions AC_BOTTOMTEXTURE = false ∧
      drawSeg scenarioEnv scenarioState plainSeg zeroDrawVars = []) :=
  ⟨by decide,
    (drawSeg_column_attempts scenarioEnv scenarioState scenarioSeg zeroDrawVars).2.2.1
      (by decide),
    (drawSeg_column_attempts scenarioEnv scenarioState scenarioSeg zeroDrawVars).2.1,
    by decide, by decide,
    ((drawSeg_column_attempts scenarioEnv scenarioState plainSeg zeroDrawVars).2.2.2.1
      (by decide) (by decide)).2⟩

/-- C18 as stated fails on the code: in the scenario the first blit (as every one) is handed
the vertical texel coordinate 1, not 0. The coordinate 0 is what `drawWallColumn` hands to
`drawClippedWallColumn`, which advances it by `(1 - fmod(viewY, 1)) * step = 1` before the
blit. -/
theorem scenario_texel_start_is_not_zero :
    ((drawSeg scenarioEnv scenarioState scenarioSeg zeroDrawVars).map fun b => b.srcY) =
      List.replicate 11 1 ∧
    ¬ (∀ b ∈ drawSeg scenarioEnv scenarioState scenarioSeg zeroDrawVars, b.srcY = 0) := by
  refine ⟨rfl, fun h => ?_⟩
  have h1 := h (scenarioBlit 10) (by
    show scenarioBlit 10 ∈ (List.range 11).map (fun k => scenarioBlit (10 + k))
    exact List.mem_map.2 ⟨0, by decide, rfl⟩)
  exact absurd h1 (by decide)

/-- C18, amended: in the scenario every one of the 11 columns is handed to
`drawClippedWallColumn` with the vertical texel coordinate 0 (`texturemid - topheight = -64`
wrapped by the texture height 64) at the row 0, and from there to the blitter with the
vertical texel coordinate `0 + 1 * 1 = 1` and the vertical texel step `1 / scale = 1`; the
blit is 64 pixels from the screen row `0 + 16` on. -/
theorem scenario_texel_start_and_step :
    (drawSegCalls scenarioEnv scenarioState scenarioSeg zeroDrawVars).map
        (fun c => (drawWallColumnCall c).map fun cc => (cc.viewX, cc.viewY, cc.texY)) =
      ((List.range 11).map fun k => some ((10 + k : Int), (0 : Int), (0 : Int))) ∧
    drawSeg scenarioEnv scenarioState scenarioSeg zeroDrawVars =
      ((List.range 11).map fun k => scenarioBlit (10 + k)) ∧
    (∀ k, (scenarioBlit k).srcY = 1 ∧ (scenarioBlit k).stepY = 1 ∧
      (scenarioBlit k).dstCount = 64) :=
  ⟨rfl, rfl, fun _ => ⟨rfl, rfl, rfl⟩⟩

/-! ## The wall draw pass: single columns -/

/-- Over exact arithmetic the height of a wall column is the ceiling of the difference. -/
theorem getWallColumnHeight_rat (topY bottomY : ℚ) :
    getWallColumnHeight topY bottomY = ⌈bottomY - topY⌉ := by
  show (if 0 ≤ ((⌈bottomY - topY⌉ : Int) : ℚ) then ⌊((⌈bottomY - topY⌉ : Int) : ℚ)⌋
    else ⌈((⌈bottomY - topY⌉ : Int) : ℚ)⌉) = ⌈bottomY - topY⌉
  split_ifs
  · exact Int.floor_intCast _
  · exact Int.ceil_intCast _

/-- C19: over exact arithmetic, `drawWallColumn` makes no call of the clipped drawer (and so
draws nothing) if and only if `ceil(wallBottomY - wallTopY) <= 0`, that is if and only if
`wallBottomY <= wallTopY`; such a column is skipped by a plain return. Otherwise it makes
exactly one call of `drawClippedWallColumn`, with the pixel height
`ceil(wallBottomY - wallTopY) >= 1` (as `uint32_t`) and the start position `wallTopY`, and
what it draws is what that call draws. -/
theorem drawWallColumn_degenerate (c : WallColumnCall ℚ) :
    (drawWallColumnCall c = none ↔ ⌈c.wallBottomY - c.wallTopY⌉ ≤ 0) ∧
    (⌈c.wallBottomY - c.wallTopY⌉ ≤ 0 ↔ c.wallBottomY ≤ c.wallTopY) ∧
    (c.wallBottomY ≤ c.wallTopY →
      ∀ (env : WallEnv ℚ) (s : RenderState ℚ), drawWallColumn env s c = none) ∧
    (c.wallTopY < c.wallBottomY →
      ∃ cc, drawWallColumnCall c = some cc ∧
        (∀ (env : WallEnv ℚ) (s : RenderState ℚ),
          drawWallColumn env s c = drawClippedWallColumn env s cc) ∧
        cc.columnHeight = toU32 ⌈c.wallBottomY - c.wallTopY⌉ ∧
        1 ≤ ⌈c.wallBottomY - c.wallTopY⌉ ∧
        (⌈c.wallBottomY - c.wallTopY⌉ < 4294967296 →
          (cc.columnHeight : Int) = ⌈c.wallBottomY - c.wallTopY⌉) ∧
        cc.viewY = c.wallTopY) := by
  have hceil : ⌈c.wallBottomY - c.wallTopY⌉ ≤ 0 ↔ c.wallBottomY ≤ c.wallTopY := by
    rw [Int.ceil_le]
    simp
  have hnone : drawWallColumnCall c = none ↔ ⌈c.wallBottomY - c.wallTopY⌉ ≤ 0 := by
    unfold drawWallColumnCall
    simp only [getWallColumnHeight_rat]
    split_ifs with h
    · exact ⟨fun _ => h, fun _ => rfl⟩
    · exact ⟨fun h0 => (by cases h0), fun h0 => absurd h0 h⟩
  refine ⟨hnone, hceil, fun hle env s => ?_, fun hlt => ?_⟩
  · unfold drawWallColumn
    rw [hnone.2 (hceil.2 hle)]
    rfl
  · have hpos : ¬ ⌈c.wallBottomY - c.wallTopY⌉ ≤ 0 := fun h => absurd (hceil.1 h) (not_le.2 hlt)
    have h1 : 1 ≤ ⌈c.wallBottomY - c.wallTopY⌉ := by omega
    unfold drawWallColumn drawWallColumnCall
    simp only [getWallColumnHeight_rat, if_neg hpos]
    exact ⟨_, rfl, fun _ _ => rfl, rfl, h1, fun hlt2 => toU32_of_range _ (by omega) hlt2, rfl⟩

/-- Witness for C19: the column from `5/2` down to `27/4` is forwarded with the height
`ceil(17/4) = 5` and the start position `5/2`. -/
theorem drawWallColumn_degenerate_witness :
    sampleWallColumn.wallTopY < sampleWallColumn.wallBottomY ∧
    ⌈sampleWallColumn.wallBottomY - sampleWallColumn.wallTopY⌉ = 5 ∧
    ∃ cc, drawWallColumnCall sampleWallColumn = some cc ∧
      (cc.columnHeight : Int) = ⌈sampleWallColumn.wallBottomY - sampleWallColumn.wallTopY⌉ ∧
      cc.viewY = 5 / 2 := by
  have hlt : sampleWallColumn.wallTopY < sampleWallColumn.wallBottomY := by
    norm_num [sampleWallColumn]
  have h5 : ⌈sampleWallColumn.wallBottomY - sampleWallColumn.wallTopY⌉ = 5 := by
    rw [Int.ceil_eq_iff]
    norm_num [sampleWallColumn]
  obtain ⟨cc, h1, -, -, -, h4, h5b⟩ := (drawWallColumn_degenerate sampleWallColumn).2.2.2 hlt
  exact ⟨hlt, h5, cc, h1, h4 (by rw [h5]; decide), h5b⟩

/-- C20: for a column of height at least 1 handed to `drawClippedWallColumn` at the start
position `viewY`, with `y = trunc(viewY)` and `rowsAbove = -y` if `y < 0`, else 0: nothing is
blitted when `y >= screenHeight` or `rowsAbove >= columnHeight`; otherwise one column is
blitted, its first row `r = max(y, 0)` (the blit starts at the screen row
`r + gScreenYOffset`) and its height `h = min(columnHeight - rowsAbove, screenHeight - r)`
satisfy `r >= 0`, `h >= 1` and `r + h <= screenHeight`. The screen height is positive, and
it, the column height and `y` fit `int32_t`. -/
theorem drawClippedWallColumn_on_screen {F : Type} [FloatWall F] (env : WallEnv F)
    (s : RenderState F) (c : ClippedColumnCall F) (hH0 : 0 < s.gScreenHeight)
    (hH : s.gScreenHeight < 2147483648) (hc1 : 1 ≤ c.columnHeight)
    (hc2 : c.columnHeight < 2147483648)
    (hy : -2147483648 ≤ FloatLike.toInt32 c.viewY) :
    (((s.gScreenHeight : Int) ≤ FloatLike.toInt32 c.viewY ∨
        (c.columnHeight : Int) ≤
          (if FloatLike.toInt32 c.viewY < 0 then -FloatLike.toInt32 c.viewY else 0)) →
      drawClippedWallColumn env s c = none) ∧
    (FloatLike.toInt32 c.viewY < (s.gScreenHeight : Int) →
      (if FloatLike.toInt32 c.viewY < 0 then -FloatLike.toInt32 c.viewY else 0) <
        (c.columnHeight : Int) →
      ∃ b, drawClippedWallColumn env s c = some b ∧
        b.dstY = toU32 (max (FloatLike.toInt32 c.viewY) 0 + (env.gScreenYOffset : Int)) ∧
        (b.dstCount : Int) =
          min ((c.columnHeight : Int) -
              (if FloatLike.toInt32 c.viewY < 0 then -FloatLike.toInt32 c.viewY else 0))
            ((s.gScreenHeight : Int) - max (FloatLike.toInt32 c.viewY) 0) ∧
        0 ≤ max (FloatLike.toInt32 c.viewY) 0 ∧
        1 ≤ b.dstCount ∧
        max (FloatLike.toInt32 c.viewY) 0 + (b.dstCount : Int) ≤ (s.gScreenHeight : Int)) := by
  have eH : toI32 s.gScreenHeight = (s.gScreenHeight : Int) := toI32_natCast _ hH
  have eC : toU32 (toI32 c.columnHeight) = c.columnHeight := by
    rw [toI32_natCast _ hc2]; exact toU32_natCast _ (by omega)
  have e0 : toU32 0 = 0 := rfl
  unfold drawClippedWallColumn
  simp only [eH, eC, e0, ge_iff_le]
  generalize FloatLike.toInt32 c.viewY = y at hy ⊢
  by_cases h1 : (s.gScreenHeight : Int) ≤ y
  · rw [if_pos h1]
    exact ⟨fun _ => rfl, fun h => absurd h1 (not_le.2 h)⟩
  · rw [if_neg h1]
    by_cases h2 : y < 0
    · have eP : toU32 (-y) = (-y).toNat := by unfold toU32; omega
      simp only [if_pos h2, eP]
      by_cases h3 : c.columnHeight ≤ (-y).toNat
      · rw [if_pos h3]
        exact ⟨fun _ => rfl, fun _ h => by omega⟩
      · rw [if_neg h3]
        have eV : toI32 (toU32 (y + ((-y).toNat : Int))) = 0 := by
          rw [show y + ((-y).toNat : Int) = 0 by omega]; rfl
        have eM : max y 0 = 0 := by omega
        refine ⟨fun h => by omega, fun _ _ => ⟨_, rfl, ?_, ?_, ?_, ?_, ?_⟩⟩
        · show toU32 (toI32 (toU32 (y + ((-y).toNat : Int))) + _) = _
          rw [eV, eM]
        · show ((min (toU32 _) (toU32 ((s.gScreenHeight : Int) -
            toI32 (toU32 (y + ((-y).toNat : Int))))) : Nat) : Int) = _
          rw [eV, eM]
          have a1 : ((toU32 ((c.columnHeight : Int) - ((-y).toNat : Int)) : Nat) : Int) =
              (c.columnHeight : Int) - ((-y).toNat : Int) := toU32_of_range _ (by omega) (by omega)
          have a2 : ((toU32 ((s.gScreenHeight : Int) - 0) : Nat) : Int) =
              (s.gScreenHeight : Int) - 0 := toU32_of_range _ (by omega) (by omega)
          omega
        · omega
        · show 1 ≤ min (toU32 _) (toU32 ((s.gScreenHeight : Int) -
            toI32 (toU32 (y + ((-y).toNat : Int)))))
          rw [eV]
          have a1 : ((toU32 ((c.columnHeight : Int) - ((-y).toNat : Int)) : Nat) : Int) =
              (c.columnHeight : Int) - ((-y).toNat : Int) := toU32_of_range _ (by omega) (by omega)
          have a2 : ((toU32 ((s.gScreenHeight : Int) - 0) : Nat) : Int) =
              (s.gScreenHeight : Int) - 0 := toU32_of_range _ (by omega) (by omega)
          omega
        · show max y 0 + ((min (toU32 _) (toU32 ((s.gScreenHeight : Int) -
            toI32 (toU32 (y + ((-y).toNat : Int))))) : Nat) : Int) ≤ _
          rw [eV, eM]
          have a2 : ((toU32 ((s.gScreenHeight : Int) - 0) : Nat) : Int) =
              (s.gScreenHeight : Int) - 0 := toU32_of_range _ (by omega) (by omega)
          omega
    · simp only [if_neg h2]
      have h3 : ¬ c.columnHeight ≤ 0 := by omega
      rw [if_neg h3]
      have eV : toI32 (toU32 (y + ((0 : Nat) : Int))) = y := by
        rw [show y + ((0 : Nat) : Int) = y by omega]
        exact toI32_toU32 y (by omega) (by omega)
      have eM : max y 0 = y := by omega
      refine ⟨fun h => by omega, fun _ _ => ⟨_, rfl, ?_, ?_, ?_, ?_, ?_⟩⟩
      · show toU32 (toI32 (toU32 (y + ((0 : Nat) : Int))) + _) = _
        rw [eV, eM]
      · show ((min (toU32 _) (toU32 ((s.gScreenHeight : Int) -
          toI32 (toU32 (y + ((0 : Nat) : Int))))) : Nat) : Int) = _
        rw [eV, eM]
        have a1 : ((toU32 ((c.columnHeight : Int) - ((0 : Nat) : Int)) : Nat) : Int) =
            (c.columnHeight : Int) - ((0 : Nat) : Int) := toU32_of_range _ (by omega) (by omega)
        have a2 : ((toU32 ((s.gScreenHeight : Int) - y) : Nat) : Int) =
            (s.gScreenHeight : Int) - y := toU32_of_range _ (by omega) (by omega)
        omega
      · omega
      · show 1 ≤ min (toU32 _) (toU32 ((s.gScreenHeight : Int) -
          toI32 (toU32 (y + ((0 : Nat) : Int)))))
        rw [eV]
        have a1 : ((toU32 ((c.columnHeight : Int) - ((0 : Nat) : Int)) : Nat) : Int) =
            (c.columnHeight : Int) - ((0 : Nat) : Int) := toU32_of_range _ (by omega) (by omega)
        have a2 : ((toU32 ((s.gScreenHeight : Int) - y) : Nat) : Int) =
            (s.gScreenHeight : Int) - y := toU32_of_range _ (by omega) (by omega)
        omega
      · show max y 0 + ((min (toU32 _) (toU32 ((s.gScreenHeight : Int) -
          toI32 (toU32 (y + ((0 : Nat) : Int))))) : Nat) : Int) ≤ _
        rw [eV, eM]
        have a2 : ((toU32 ((s.gScreenHeight : Int) - y) : Nat) : Int) =
            (s.gScreenHeight : Int) - y := toU32_of_range _ (by omega) (by omega)
        omega

/-- Witness for C20: a column of 200 pixels that starts at the row -30 of the 128-row frame.
30 rows are above the screen, so the blit starts at the row 0 (screen row 16) and has
`min(200 - 30, 128 - 0) = 128` pixels. -/
theorem drawClippedWallColumn_on_screen_witness :
    0 < scenarioState.gScreenHeight ∧ scenarioState.gScreenHeight < 2147483648 ∧
    1 ≤ sampleClippedColumn.columnHeight ∧ sampleClippedColumn.columnHeight < 2147483648 ∧
    -2147483648 ≤ FloatLike.toInt32 sampleClippedColumn.viewY ∧
    ∃ b, drawClippedWallColumn scenarioEnv scenarioState sampleClippedColumn = some b ∧
      b.dstY = 16 ∧ (b.dstCount : Int) = 128 := by
  obtain ⟨b, h1, h2, h3, -⟩ :=
    (drawClippedWallColumn_on_screen scenarioEnv scenarioState sampleClippedColumn
      (by decide) (by decide) (by decide) (by decide) (by decide)).2 (by decide) (by decide)
  exact ⟨by decide, by decide, by decide, by decide, by decide, b, h1,
    h2.trans (by decide), h3.trans (by decide)⟩

/-! ## The lighting model -/

/-- The result of `getLightParams` for tables of 256 entries, written out. -/
theorem getLightParams_eq {F : Type} [FloatLike F] (env : WallEnv F) (L : Nat) (flag : Bool)
    (hsize : env.lightTableSize = 256) :
    getLightParams env L flag =
      { lightMin := env.gLightMins (min L 255)
        lightMax := FloatLike.ofUInt32 (min L 255)
        lightSub := env.gLightSubs (min L 255)
        lightCoef := env.gLightCoefs (min L 255) } := by
  unfold getLightParams
  rw [hsize]
  rfl

/-- C22: with tables of 256 entries, `getLightParams` reads the three tables at the index
`min(L, 255)`, which is inside the tables, and nowhere else: its result is made of these
three entries and of `(float) min(L, 255)`, so it is the same for any two tables that agree
at that index. Two calls whose levels agree after clamping to 255 (the same level twice, or
any two levels of at least 255) return the same, whatever their floor flags. -/
theorem getLightParams_clamped {F : Type} [FloatLike F] (env : WallEnv F) (L : Nat)
    (flag : Bool) (hsize : env.lightTableSize = 256) :
    getLightParams env L flag =
      { lightMin := env.gLightMins (min L 255)
        lightMax := FloatLike.ofUInt32 (min L 255)
        lightSub := env.gLightSubs (min L 255)
        lightCoef := env.gLightCoefs (min L 255) } ∧
    min L 255 < env.lightTableSize ∧
    (∀ (env2 : WallEnv F) (flag2 : Bool), env2.lightTableSize = 256 →
      env2.gLightMins (min L 255) = env.gLightMins (min L 255) →
      env2.gLightSubs (min L 255) = env.gLightSubs (min L 255) →
      env2.gLightCoefs (min L 255) = env.gLightCoefs (min L 255) →
      getLightParams env2 L flag2 = getLightParams env L flag) ∧
    (∀ (L2 : Nat) (flag2 : Bool), min L2 255 = min L 255 →
      getLightParams env L2 flag2 = getLightParams env L flag) ∧
    (∀ (flag2 : Bool), getLightParams env L flag2 = getLightParams env L flag) ∧
    (∀ (L2 : Nat) (flag2 : Bool), 255 ≤ L → 255 ≤ L2 →
      getLightParams env L2 flag2 = getLightParams env L flag) := by
  refine ⟨getLightParams_eq env L flag hsize, by rw [hsize]; omega, ?_, ?_, ?_, ?_⟩
  · intro env2 flag2 h2 e1 e2 e3
    rw [getLightParams_eq env2 L flag2 h2, getLightParams_eq env L flag hsize, e1, e2, e3]
  · intro L2 flag2 h
    rw [getLightParams_eq env L2 flag2 hsize, getLightParams_eq env L flag hsize, h]
  · intro flag2
    rw [getLightParams_eq env L flag2 hsize, getLightParams_eq env L flag hsize]
  · intro L2 flag2 h1 h2
    rw [getLightParams_eq env L2 flag2 hsize, getLightParams_eq env L flag hsize,
      show min L2 255 = 255 by omega, show min L 255 = 255 by omega]

/-- Witness for C22: the levels 255 and 300 with different floor flags give the same result
on the tables of `scenarioEnv`. -/
theorem getLightParams_clamped_witness :
    scenarioEnv.lightTableSize = 256 ∧ (255 : Nat) ≤ 255 ∧ (255 : Nat) ≤ 300 ∧
    min 255 255 < scenarioEnv.lightTableSize ∧
    getLightParams scenarioEnv 300 true = getLightParams scenarioEnv 255 false :=
  ⟨rfl, by decide, by decide,
    (getLightParams_clamped scenarioEnv 255 false rfl).2.1,
    (getLightParams_clamped scenarioEnv 255 false rfl).2.2.2.2.2 300 true (by decide)
      (by decide)⟩

/-- C23 as stated fails on the code: for the light level 300 `getLightParams` returns
`lightMax = 255`, the clamped level, not 300. -/
theorem getLightParams_lightMax_is_clamped :
    (getLightParams scenarioEnv 300 false).lightMax = 255 ∧
    (getLightParams scenarioEnv 300 false).lightMax ≠ FloatLike.ofUInt32 300 := by
  constructor <;> decide

/-- C23, amended: with tables of 256 entries, `getLightParams` returns as `lightMax` the
float of the clamped level `min(lightLevel, 255)`; that is the given level verbatim for
every level up to 255. -/
theorem getLightParams_lightMax {F : Type} [FloatLike F] (env : WallEnv F) (L : Nat)
    (flag : Bool) (hsize : env.lightTableSize = 256) :
    (getLightParams env L flag).lightMax = FloatLike.ofUInt32 (min L 255) ∧
    (L ≤ 255 → (getLightParams env L flag).lightMax = FloatLike.ofUInt32 L) := by
  rw [getLightParams_eq env L flag hsize]
  refine ⟨rfl, fun h => ?_⟩
  show FloatLike.ofUInt32 (min L 255) = _
  rw [show min L 255 = L by omega]

/-- Witness for C23, amended: the level 200 comes back verbatim. -/
theorem getLightParams_lightMax_witness :
    scenarioEnv.lightTableSize = 256 ∧ (200 : Nat) ≤ 255 ∧
    (getLightParams scenarioEnv 200 true).lightMax = 200 :=
  ⟨rfl, by decide, (getLightParams_lightMax scenarioEnv 200 true rfl).2 (by decide)⟩

/-- The light table loop writes the entries `i .. i + n - 1` of the three tables and leaves
the rest of the environment alone. -/
theorem lightTableLoop_spec {F : Type} [FloatWall F] (n : Nat) :
    ∀ (i : Nat) (env : WallEnv F),
      (lightTableLoop n i env).lightTableSize = env.lightTableSize ∧
      (∀ k, i ≤ k → k < i + n →
        (lightTableLoop n i env).gLightMins k =
          FloatLike.ofUInt32 k *
            FloatWall.fdiv (FloatLike.ofUInt32 1) (FloatLike.ofUInt32 4) ∧
        (lightTableLoop n i env).gLightSubs k =
          FloatWall.fdiv (FloatLike.ofUInt32 k) (FloatLike.ofUInt32 255) *
            FloatLike.ofUInt32 2 ∧
        (lightTableLoop n i env).gLightCoefs k =
          FloatWall.fdiv (FloatLike.ofUInt32 3) (FloatLike.ofUInt32 4) -
            FloatWall.fdiv (FloatLike.ofUInt32 k) (FloatLike.ofUInt32 255) *
              FloatWall.fdiv (FloatLike.ofUInt32 1) (FloatLike.ofUInt32 2)) ∧
      (∀ k, (k < i ∨ i + n ≤ k) →
        (lightTableLoop n i env).gLightMins k = env.gLightMins k ∧
        (lightTableLoop n i env).gLightSubs k = env.gLightSubs k ∧
        (lightTableLoop n i env).gLightCoefs k = env.gLightCoefs k) := by
  induction n with
  | zero =>
    intro i env
    exact ⟨rfl, fun k h1 h2 => by omega, fun k _ => ⟨rfl, rfl, rfl⟩⟩
  | succ n ih =>
    intro i env
    obtain ⟨a1, a2, a3⟩ := ih (i + 1)
      { env with
        gLightMins := Function.update env.gLightMins i
          (FloatLike.ofUInt32 i * FloatWall.fdiv (FloatLike.ofUInt32 1) (FloatLike.ofUInt32 4))
        gLightSubs := Function.update env.gLightSubs i
          (FloatWall.fdiv (FloatLike.ofUInt32 i) (FloatLike.ofUInt32 255) *
            FloatLike.ofUInt32 2)
        gLightCoefs := Function.update env.gLightCoefs i
          (FloatWall.fdiv (FloatLike.ofUInt32 3) (FloatLike.ofUInt32 4) -
            FloatWall.fdiv (FloatLike.ofUInt32 i) (FloatLike.ofUInt32 255) *
              FloatWall.fdiv (FloatLike.ofUInt32 1) (FloatLike.ofUInt32 2)) }
    refine ⟨a1, fun k h1 h2 => ?_, fun k hk => ?_⟩
    · by_cases hk : k = i
      · subst hk
        obtain ⟨b1, b2, b3⟩ := a3 k (Or.inl (by omega))
        exact ⟨b1.trans (Function.update_same _ _ _), b2.trans (Function.update_same _ _ _),
          b3.trans (Function.update_same _ _ _)⟩
      · exact a2 k (by omega) (by omega)
    · have hne : k ≠ i := by omega
      obtain ⟨b1, b2, b3⟩ := a3 k (by omega)
      exact ⟨b1.trans (Function.update_noteq hne _ _), b2.trans (Function.update_noteq hne _ _),
        b3.trans (Function.update_noteq hne _ _)⟩

/-- Over exact arithmetic the table of light minimums made by `initMathTables` holds `k / 4`
at every index `k < 256`. -/
theorem initLightTables_mins_rat (env : WallEnv ℚ) (k : Nat) (hk : k < 256) :
    (initLightTables env).gLightMins k = (k : ℚ) / 4 ∧
    (initLightTables env).lightTableSize = env.lightTableSize := by
  obtain ⟨a1, a2, -⟩ := lightTableLoop_spec 256 0 env
  refine ⟨?_, a1⟩
  unfold initLightTables
  rw [(a2 k (Nat.zero_le _) (by omega)).1]
  show (k : ℚ) * (((1 : Nat) : ℚ) / ((4 : Nat) : ℚ)) = (k : ℚ) / 4
  push_cast
  ring

/-- C24: over exact arithmetic and with tables of 256 entries, after the light tables were
made by `initMathTables`, `getLightParams(0)` returns `lightMin = gLightMins[0] = 0`, and for
every light level `L` the returned `lightMin` is `min(L, 255) / 4`; so no level yields a
`lightMin` below that of the level 0, and `lightMin` does not decrease when `L` grows. -/
theorem getLightParams_lightMin (env : WallEnv ℚ) (hsize : env.lightTableSize = 256)
    (L : Nat) (flag : Bool) :
    (getLightParams (initLightTables env) 0 flag).lightMin =
      (initLightTables env).gLightMins 0 ∧
    (getLightParams (initLightTables env) 0 flag).lightMin = 0 ∧
    (getLightParams (initLightTables env) L flag).lightMin = ((min L 255 : Nat) : ℚ) / 4 ∧
    (getLightParams (initLightTables env) 0 flag).lightMin ≤
      (getLightParams (initLightTables env) L flag).lightMin ∧
    (∀ (L2 : Nat) (flag2 : Bool), L ≤ L2 →
      (getLightParams (initLightTables env) L flag).lightMin ≤
        (getLightParams (initLightTables env) L2 flag2).lightMin) := by
  have hs : (initLightTables env).lightTableSize = 256 :=
    (initLightTables_mins_rat env 0 (by decide)).2.trans hsize
  have hval : ∀ (M : Nat) (f : Bool),
      (getLightParams (initLightTables env) M f).lightMin = ((min M 255 : Nat) : ℚ) / 4 := by
    intro M f
    rw [getLightParams_eq _ M f hs]
    exact (initLightTables_mins_rat env (min M 255) (by omega)).1
  have h0 : (getLightParams (initLightTables env) 0 flag).lightMin = 0 := by
    rw [hval]; simp
  refine ⟨?_, h0, hval L flag, ?_, ?_⟩
  · rw [getLightParams_eq _ 0 flag hs]
    simp only [Nat.zero_min]
  · rw [h0, hval L flag]
    exact div_nonneg (Nat.cast_nonneg _) (by norm_num)
  · intro L2 flag2 hle
    rw [hval, hval]
    have : ((min L 255 : Nat) : ℚ) ≤ ((min L2 255 : Nat) : ℚ) := by
      exact_mod_cast (by omega : min L 255 ≤ min L2 255)
    linarith

/-- Witness for C24: on the tables made from `ratEnv`, the level 200 gives `lightMin = 50`
and the level 1000 gives `255 / 4`. -/
theorem getLightParams_lightMin_witness :
    ratEnv.lightTableSize = 256 ∧ (200 : Nat) ≤ 1000 ∧
    (getLightParams (initLightTables ratEnv) 200 false).lightMin = 50 ∧
    (getLightParams (initLightTables ratEnv) 200 false).lightMin ≤
      (getLightParams (initLightTables ratEnv) 1000 true).lightMin := by
  have h := getLightParams_lightMin ratEnv rfl 200 false
  refine ⟨rfl, by decide, ?_, h.2.2.2.2 1000 true (by decide)⟩
  rw [h.2.2.1]
  norm_num

/-! ## The light of the wall columns -/

/-- The calls of one column carry the light of that column, its screen column and the
reciprocal of its scale; the column steps `columnScale` once. -/
theorem drawSegColumn_light {F : Type} [FloatWall F] (env : WallEnv F) (seg : viswall_t F)
    (viewX : Int) (v : DrawSegVars F) :
    (∀ c ∈ (drawSegColumn env seg viewX v).1,
      c.lightMultiplier = lightMulAt env seg v.columnScale ∧ c.viewX = toU32 viewX ∧
        c.invColumnScale = FloatWall.fdiv (FloatLike.ofUInt32 1) v.columnScale) ∧
    (drawSegColumn env seg viewX v).2.columnScale = v.columnScale + seg.ScaleStep := by
  unfold drawSegColumn lightMulAt
  by_cases h1 : hasBits seg.WallActions AC_TOPTEXTURE = true <;>
    by_cases h2 : hasBits seg.WallActions AC_BOTTOMTEXTURE = true <;>
    simp [h1, h2]

/-- Every call of the column loop is the call of one of its columns `k < n`, with the light
of the scale stepped `k` times. -/
theorem drawSegColumns_light {F : Type} [FloatWall F] (env : WallEnv F) (seg : viswall_t F)
    (n : Nat) :
    ∀ (viewX : Int) (v : DrawSegVars F), ∀ c ∈ drawSegColumns env seg n viewX v,
      ∃ k, k < n ∧ c.viewX = toU32 (viewX + (k : Int)) ∧
        c.lightMultiplier = lightMulAt env seg (steppedY v.columnScale seg.ScaleStep k) ∧
        c.invColumnScale =
          FloatWall.fdiv (FloatLike.ofUInt32 1) (steppedY v.columnScale seg.ScaleStep k) := by
  induction n with
  | zero => intro viewX v c hc; cases hc
  | succ n ih =>
    intro viewX v c hc
    obtain ⟨a1, a2⟩ := drawSegColumn_light env seg viewX v
    simp only [drawSegColumns, List.mem_append] at hc
    rcases hc with hc | hc
    · obtain ⟨b1, b2, b3⟩ := a1 c hc
      exact ⟨0, Nat.succ_pos _, by simpa using b2, b1, b3⟩
    · obtain ⟨k, hk, b2, b1, b3⟩ := ih (viewX + 1) _ c hc
      rw [a2, steppedY_front] at b1 b3
      refine ⟨k + 1, by omega, ?_, b1, b3⟩
      rw [b2]
      congr 1
      push_cast
      omega

/-- A blit of the clipped drawer carries the light of the call on all three channels, its
texel step and its column. -/
theorem drawClippedWallColumn_light {F : Type} [FloatWall F] (env : WallEnv F)
    (s : RenderState F) (c : ClippedColumnCall F) (b : BlitCall F)
    (h : drawClippedWallColumn env s c = some b) :
    b.rMul = c.lightMultiplier ∧ b.gMul = c.lightMultiplier ∧ b.bMul = c.lightMultiplier ∧
      b.stepY = c.invColumnScale ∧ b.dstX = toU32 (c.viewX + (env.gScreenXOffset : Int)) := by
  unfold drawClippedWallColumn at h
  simp only [] at h
  by_cases h2 : FloatLike.toInt32 c.viewY ≥ toI32 s.gScreenHeight
  · rw [if_pos h2] at h; cases h
  · rw [if_neg h2] at h
    by_cases h3 : (if FloatLike.toInt32 c.viewY < 0 then toU32 (-FloatLike.toInt32 c.viewY)
        else toU32 0) ≥ toU32 (toI32 c.columnHeight)
    · rw [if_pos h3] at h; cases h
    · rw [if_neg h3] at h
      injection h with h
      rw [← h]
      exact ⟨rfl, rfl, rfl, rfl, rfl⟩

/-- A wall column that is blitted is blitted with its own light on all three channels and
its own texel step. -/
theorem drawWallColumn_light {F : Type} [FloatWall F] (env : WallEnv F) (s : RenderState F)
    (c : WallColumnCall F) (b : BlitCall F) (h : drawWallColumn env s c = some b) :
    b.rMul = c.lightMultiplier ∧ b.gMul = c.lightMultiplier ∧ b.bMul = c.lightMultiplier ∧
      b.stepY = c.invColumnScale ∧
      b.dstX = toU32 (toI32 c.viewX + (env.gScreenXOffset : Int)) := by
  unfold drawWallColumn at h
  cases hc : drawWallColumnCall c with
  | none => rw [hc] at h; cases h
  | some cc =>
    rw [hc] at h
    have hb := drawClippedWallColumn_light env s cc b h
    unfold drawWallColumnCall at hc
    simp only [] at hc
    by_cases h1 : getWallColumnHeight c.wallTopY c.wallBottomY ≤ 0
    · rw [if_pos h1] at hc; cases hc
    · rw [if_neg h1] at hc
      injection hc with hc
      rw [← hc] at hb
      exact hb

/-- Every blit of `drawSeg` comes from one of the columns of the segment and carries the
light and the texel step of that column. -/
theorem drawSeg_blit_column {F : Type} [FloatWall F] (env : WallEnv F) (s : RenderState F)
    (seg : viswall_t F) (uninit : DrawSegVars F) (b : BlitCall F)
    (hb : b ∈ drawSeg env s seg uninit) :
    ∃ k, k < (seg.rightX - seg.leftX + 1).toNat ∧
      b.rMul = lightMulAt env seg (columnScaleAt seg k) ∧
      b.gMul = b.rMul ∧ b.bMul = b.rMul ∧
      b.stepY = FloatWall.fdiv (FloatLike.ofUInt32 1) (columnScaleAt seg k) ∧
      b.dstX =
        toU32 (toI32 (toU32 (seg.leftX + (k : Int))) + (env.gScreenXOffset : Int)) := by
  unfold drawSeg at hb
  rw [List.mem_filterMap] at hb
  obtain ⟨c, hc, hcb⟩ := hb
  obtain ⟨l1, l2, l3, l4, l5⟩ := drawWallColumn_light env s c b hcb
  unfold drawSegCalls at hc
  split_ifs at hc with h0
  · cases hc
  · obtain ⟨k, hk, c1, c2, c3⟩ := drawSegColumns_light env seg _ seg.leftX _ c hc
    have hcs : (drawSegSetup env s seg uninit).columnScale = seg.LeftScale := rfl
    rw [hcs] at c2 c3
    exact ⟨k, hk, l1.trans c2, l2.trans l1.symm, l3.trans l1.symm, l4.trans c3, by
      rw [l5, c1]⟩

/-- Over exact arithmetic `std::fmax` with `MIN_LIGHT_MUL` is not below `MIN_LIGHT_MUL`. -/
theorem lightMulAt_ge_min_rat (env : WallEnv ℚ) (seg : viswall_t ℚ) (columnScale : ℚ) :
    env.MIN_LIGHT_MUL ≤ lightMulAt env seg columnScale := by
  unfold lightMulAt
  show env.MIN_LIGHT_MUL ≤ (if _ ≤ env.MIN_LIGHT_MUL then env.MIN_LIGHT_MUL else _)
  split_ifs with h
  · exact le_refl _
  · exact le_of_lt (not_le.1 h)

/-- C21: every column `drawSeg` blits is blitted with the light multiplier
`fmax(distLightMul * segLightMul, MIN_LIGHT_MUL)` of its screen column, where `distLightMul`
is `getLightMulForDist` of the light parameters of the segment's light level at the distance
`(1 / columnScale) * stretchWidth` and `columnScale` is `LeftScale` stepped by `ScaleStep`
once per column; the same value is passed for red, green and blue. Over exact arithmetic it
is never below `MIN_LIGHT_MUL`. -/
theorem drawSeg_light_floor {F : Type} [FloatWall F] (env : WallEnv F) (s : RenderState F)
    (seg : viswall_t F) (uninit : DrawSegVars F) :
    (∀ b ∈ drawSeg env s seg uninit,
      ∃ k, k < (seg.rightX - seg.leftX + 1).toNat ∧
        b.dstX =
          toU32 (toI32 (toU32 (seg.leftX + (k : Int))) + (env.gScreenXOffset : Int)) ∧
        b.rMul =
          FloatWall.fmax
            (env.getLightMulForDist (getLightParams env seg.seglightlevel false)
                (FloatWall.fdiv (FloatLike.ofUInt32 1) (columnScaleAt seg k) *
                  env.doomFixed16ToFloat env.gStretchWidth) *
              env.segLightMul seg)
            env.MIN_LIGHT_MUL ∧
        b.gMul = b.rMul ∧ b.bMul = b.rMul) ∧
    (∀ (envQ : WallEnv ℚ) (sQ : RenderState ℚ) (segQ : viswall_t ℚ)
        (uninitQ : DrawSegVars ℚ), ∀ b ∈ drawSeg envQ sQ segQ uninitQ,
      envQ.MIN_LIGHT_MUL ≤ b.rMul ∧ b.gMul = b.rMul ∧ b.bMul = b.rMul) := by
  constructor
  · intro b hb
    obtain ⟨k, hk, h1, h2, h3, -, h5⟩ := drawSeg_blit_column env s seg uninit b hb
    exact ⟨k, hk, h5, h1, h2, h3⟩
  · intro envQ sQ segQ uninitQ b hb
    obtain ⟨k, -, h1, h2, h3, -, -⟩ := drawSeg_blit_column envQ sQ segQ uninitQ b hb
    rw [h1] at h2 h3 ⊢
    exact ⟨lightMulAt_ge_min_rat envQ segQ _, h2, h3⟩

/-- Witness for C21: the blit of the column 10 of the scenario segment has the light
`fmax(1 * 1, 0) = 1` on all three channels. -/
theorem drawSeg_light_floor_witness :
    scenarioBlit 10 ∈ drawSeg scenarioEnv scenarioState scenarioSeg zeroDrawVars ∧
    (scenarioBlit 10).rMul = 1 ∧
    ∃ k, k < 11 ∧ (scenarioBlit 10).dstX = 10 + k + 48 ∧
      (scenarioBlit 10).gMul = (scenarioBlit 10).rMul ∧
      (scenarioBlit 10).bMul = (scenarioBlit 10).rMul := by
  have hmem : scenarioBlit 10 ∈ drawSeg scenarioEnv scenarioState scenarioSeg zeroDrawVars := by
    show scenarioBlit 10 ∈ (List.range 11).map (fun k => scenarioBlit (10 + k))
    exact List.mem_map.2 ⟨0, by decide, rfl⟩
  obtain ⟨k, hk, -, -, h3, h4⟩ :=
    (drawSeg_light_floor scenarioEnv scenarioState scenarioSeg zeroDrawVars).1 _ hmem
  exact ⟨hmem, rfl, 0, by decide, rfl, h3, h4⟩

/-! ## The binary32 model: its rounding -/

/-- Moving factors 2 to the exponent keeps the number. -/
theorem binary32_normLoop_toRat (fuel : Nat) :
    ∀ m e : Int, (Binary32.normLoop fuel m e).toRat = (m : ℚ) * (2 : ℚ) ^ e := by
  induction fuel with
  | zero => intro m e; rfl
  | succ n ih =>
    intro m e
    unfold Binary32.normLoop
    by_cases h0 : m = 0
    · rw [if_pos h0, h0]
      simp [Binary32.toRat]
    · rw [if_neg h0]
      by_cases h2 : m % 2 = 0
      · rw [if_pos h2, ih, zpow_add₀ (by norm_num : (2 : ℚ) ≠ 0), zpow_one]
        have hm : m = 2 * (m / 2) := by omega
        have hq : (m : ℚ) = 2 * ((m / 2 : Int) : ℚ) := by exact_mod_cast hm
        rw [hq]
        ring
      · rw [if_neg h2]
        rfl

/-- The record of a number stands for that number. -/
theorem binary32_norm_toRat (m e : Int) : (Binary32.norm m e).toRat = (m : ℚ) * (2 : ℚ) ^ e :=
  binary32_normLoop_toRat _ m e

/-- The rounding of binary32 is off by half a unit of the last place at most: for a numerator
of `len` digits the `float` nearest to `m * 2^e` differs from it by `2^(len - 24) * 2^e / 2`
at most, and not at all when `len <= 24`. -/
theorem binary32_nearest_error (m e : Int) :
    |(Binary32.nearest m e).toRat - (m : ℚ) * (2 : ℚ) ^ e| * 2 ≤
        (2 : ℚ) ^ (bitLength m.natAbs - 24) * (2 : ℚ) ^ e ∧
      (bitLength m.natAbs ≤ 24 → (Binary32.nearest m e).toRat = (m : ℚ) * (2 : ℚ) ^ e) := by
  have hpos : (0 : ℚ) < (2 : ℚ) ^ e := zpow_pos (by norm_num) e
  unfold Binary32.nearest
  by_cases hlen : bitLength m.natAbs ≤ 24
  · simp only [if_pos hlen]
    rw [binary32_norm_toRat]
    refine ⟨?_, fun _ => rfl⟩
    rw [sub_self, abs_zero, zero_mul]
    positivity
  · simp only [if_neg hlen]
    refine ⟨?_, fun h => absurd h hlen⟩
    rw [binary32_norm_toRat]
    generalize hs : bitLength m.natAbs - 24 = s
    have hs1 : 1 ≤ s := by omega
    generalize ha : m.natAbs = a
    have hhalf : 2 ^ s = 2 * 2 ^ (s - 1) := by
      obtain ⟨k, rfl⟩ : ∃ k, s = k + 1 := ⟨s - 1, by omega⟩
      rw [Nat.add_sub_cancel, pow_succ]
      ring
    have hdiv := Nat.div_add_mod a (2 ^ s)
    have hmod : a % 2 ^ s < 2 ^ s := Nat.mod_lt _ (by positivity)
    generalize hq : a / 2 ^ s = q at hdiv ⊢
    generalize hr : a % 2 ^ s = r at hdiv hmod ⊢
    generalize hh : 2 ^ (s - 1) = half at hhalf ⊢
    generalize hp : 2 ^ s = p at hhalf hdiv hmod
    have hpq : ((2 : ℚ) ^ s) = (p : ℚ) := by rw [← hp]; push_cast; rfl
    have hmq : (m : ℚ) = if m < 0 then -(a : ℚ) else (a : ℚ) := by
      by_cases hneg : m < 0
      · rw [if_pos hneg]
        have : m = -(a : Int) := by omega
        rw [this]; push_cast; rfl
      · rw [if_neg hneg]
        have : m = (a : Int) := by omega
        rw [this]; push_cast; rfl
    have haq : (a : ℚ) = (p : ℚ) * (q : ℚ) + (r : ℚ) := by exact_mod_cast hdiv.symm
    have hhq : (p : ℚ) = 2 * (half : ℚ) := by exact_mod_cast hhalf
    have hrq : (r : ℚ) < (p : ℚ) := by exact_mod_cast hmod
    rw [zpow_add₀ (by norm_num : (2 : ℚ) ≠ 0), zpow_natCast, hpq, hmq]
    have key : ∀ q1 : Nat, |(q1 : ℚ) * (p : ℚ) - (a : ℚ)| ≤ (half : ℚ) →
        |((if m < 0 then -(q1 : Int) else (q1 : Int) : Int) : ℚ) * ((2 : ℚ) ^ e * (p : ℚ)) -
          (if m < 0 then -(a : ℚ) else (a : ℚ)) * (2 : ℚ) ^ e| * 2 ≤ (p : ℚ) * (2 : ℚ) ^ e := by
      intro q1 hq1
      have e1 : ((if m < 0 then -(q1 : Int) else (q1 : Int) : Int) : ℚ) * ((2 : ℚ) ^ e * (p : ℚ)) -
          (if m < 0 then -(a : ℚ) else (a : ℚ)) * (2 : ℚ) ^ e =
          (if m < 0 then -1 else 1) * (((q1 : ℚ) * (p : ℚ) - (a : ℚ)) * (2 : ℚ) ^ e) := by
        by_cases hneg : m < 0
        · simp only [if_pos hneg]; push_cast; ring
        · simp only [if_neg hneg]; push_cast; ring
      rw [e1, abs_mul, abs_mul, abs_of_pos hpos]
      have e2 : |(if m < 0 then (-1 : ℚ) else 1)| = 1 := by
        by_cases hneg : m < 0
        · simp [if_pos hneg]
        · simp [if_neg hneg]
      rw [e2, one_mul]
      have := mul_le_mul_of_nonneg_right hq1 hpos.le
      have hp2 : (p : ℚ) * (2 : ℚ) ^ e = 2 * ((half : ℚ) * (2 : ℚ) ^ e) := by rw [hhq]; ring
      linarith
    by_cases hup : r > half ∨ (r = half ∧ q % 2 = 1)
    · simp only [if_pos hup]
      apply key
      have hr' : (half : ℚ) ≤ (r : ℚ) := by
        rcases hup with h | ⟨h, -⟩
        · exact_mod_cast h.le
        · rw [h]
      rw [abs_le]
      push_cast
      constructor <;> nlinarith
    · simp only [if_neg hup]
      apply key
      have hr' : (r : ℚ) ≤ (half : ℚ) := by
        have : r ≤ half := by
          by_contra hc
          exact hup (Or.inl (by omega))
        exact_mod_cast this
      have hr0 : (0 : ℚ) ≤ (r : ℚ) := by positivity
      rw [abs_le]
      constructor <;> nlinarith

/-- The numerator over the common exponent stands for the same number. -/
theorem binary32_numOver_toRat (x y : Binary32) :
    ((x.numOver y : Int) : ℚ) * (2 : ℚ) ^ (min x.exp y.exp) = x.toRat := by
  unfold Binary32.numOver Binary32.toRat
  have h : x.exp = ((x.exp - min x.exp y.exp).toNat : Int) + min x.exp y.exp := by
    have := min_le_left x.exp y.exp
    omega
  push_cast
  rw [mul_assoc]
  congr 1
  generalize (x.exp - min x.exp y.exp).toNat = n at h
  generalize min x.exp y.exp = mn at h
  rw [h, zpow_add₀ (by norm_num : (2 : ℚ) ≠ 0), zpow_natCast]

/-- The sum of binary32 is the exact sum rounded: it is off by half a unit of the last place
at most, and exact when the numerator of the exact sum has 24 digits or fewer. -/
theorem binary32_add_toRat (x y : Binary32) :
    |(x + y).toRat - (x.toRat + y.toRat)| * 2 ≤
        (2 : ℚ) ^ (bitLength (x.numOver y + y.numOver x).natAbs - 24) *
          (2 : ℚ) ^ (min x.exp y.exp) ∧
      (bitLength (x.numOver y + y.numOver x).natAbs ≤ 24 →
        (x + y).toRat = x.toRat + y.toRat) := by
  have h := binary32_nearest_error (x.numOver y + y.numOver x) (min x.exp y.exp)
  have e : ((x.numOver y + y.numOver x : Int) : ℚ) * (2 : ℚ) ^ (min x.exp y.exp) =
      x.toRat + y.toRat := by
    rw [← binary32_numOver_toRat x y, ← binary32_numOver_toRat y x, min_comm y.exp x.exp]
    push_cast
    ring
  rw [e] at h
  exact h

/-- The product of binary32 is the exact product rounded. -/
theorem binary32_mul_toRat (x y : Binary32) :
    |(x * y).toRat - x.toRat * y.toRat| * 2 ≤
        (2 : ℚ) ^ (bitLength (x.num * y.num).natAbs - 24) * (2 : ℚ) ^ (x.exp + y.exp) ∧
      (bitLength (x.num * y.num).natAbs ≤ 24 → (x * y).toRat = x.toRat * y.toRat) := by
  have h := binary32_nearest_error (x.num * y.num) (x.exp + y.exp)
  have e : ((x.num * y.num : Int) : ℚ) * (2 : ℚ) ^ (x.exp + y.exp) = x.toRat * y.toRat := by
    unfold Binary32.toRat
    rw [zpow_add₀ (by norm_num : (2 : ℚ) ≠ 0)]
    push_cast
    ring
  rw [e] at h
  exact h

/-! ## The texel coordinate of a clipped column -/

theorem toInt32_rat (q : ℚ) : FloatLike.toInt32 q = if 0 ≤ q then ⌊q⌋ else ⌈q⌉ := rfl

theorem fmod_one_rat (q : ℚ) :
    FloatWall.fmod q (FloatLike.ofUInt32 1 : ℚ) = q - ((FloatLike.toInt32 q : Int) : ℚ) := by
  show q - (((if 0 ≤ q / ((1 : Nat) : ℚ) then ⌊q / ((1 : Nat) : ℚ)⌋
    else ⌈q / ((1 : Nat) : ℚ)⌉ : Int) : ℚ)) * ((1 : Nat) : ℚ) = _
  rw [toInt32_rat]
  simp

theorem neg_of_toInt32_neg_rat (q : ℚ) (h : FloatLike.toInt32 q < 0) : q < 0 := by
  rw [toInt32_rat] at h
  by_contra hq
  rw [if_pos (not_lt.1 hq)] at h
  have : 0 ≤ ⌊q⌋ := Int.floor_nonneg.2 (not_lt.1 hq)
  omega

/-- The texel coordinate a blit of the clipped drawer starts with, over exact arithmetic, in
the two branches of the routine. -/
theorem drawClippedWallColumn_srcY_rat (env : WallEnv ℚ) (s : RenderState ℚ)
    (c : ClippedColumnCall ℚ) (b : BlitCall ℚ)
    (hy : -2147483648 ≤ FloatLike.toInt32 c.viewY)
    (h : drawClippedWallColumn env s c = some b) :
    (FloatLike.toInt32 c.viewY < 0 →
      b.srcY = c.texY + (-c.viewY + 1) * c.invColumnScale) ∧
    (0 ≤ FloatLike.toInt32 c.viewY →
      b.srcY = c.texY +
        (1 - (c.viewY - ((FloatLike.toInt32 c.viewY : Int) : ℚ))) * c.invColumnScale) := by
  unfold drawClippedWallColumn at h
  simp only [] at h
  by_cases h2 : FloatLike.toInt32 c.viewY ≥ toI32 s.gScreenHeight
  · rw [if_pos h2] at h; cases h
  · rw [if_neg h2] at h
    by_cases h3 : (if FloatLike.toInt32 c.viewY < 0 then toU32 (-FloatLike.toInt32 c.viewY)
        else toU32 0) ≥ toU32 (toI32 c.columnHeight)
    · rw [if_pos h3] at h; cases h
    · rw [if_neg h3] at h
      injection h with h
      rw [← h]
      constructor
      · intro hneg
        have hq := neg_of_toInt32_neg_rat c.viewY hneg
        have hpix : toU32 (-FloatLike.toInt32 c.viewY) > 0 := by
          unfold toU32; omega
        show c.texY + (if (if FloatLike.toInt32 c.viewY < 0 then
            toU32 (-FloatLike.toInt32 c.viewY) else toU32 0) > 0 then
            (if FloatWall.flt c.viewY (FloatLike.ofUInt32 0) = true then -c.viewY
              else FloatLike.ofUInt32 0) + FloatLike.ofUInt32 1
            else FloatLike.ofUInt32 1 - FloatWall.fmod c.viewY (FloatLike.ofUInt32 1)) *
              c.invColumnScale = _
        rw [if_pos hneg, if_pos hpix]
        have hflt : FloatWall.flt c.viewY (FloatLike.ofUInt32 0 : ℚ) = true := by
          show decide (c.viewY < ((0 : Nat) : ℚ)) = true
          simpa using hq
        rw [if_pos hflt]
        show c.texY + (-c.viewY + ((1 : Nat) : ℚ)) * c.invColumnScale = _
        push_cast
        rfl
      · intro hpos
        show c.texY + (if (if FloatLike.toInt32 c.viewY < 0 then
            toU32 (-FloatLike.toInt32 c.viewY) else toU32 0) > 0 then
            (if FloatWall.flt c.viewY (FloatLike.ofUInt32 0) = true then -c.viewY
              else FloatLike.ofUInt32 0) + FloatLike.ofUInt32 1
            else FloatLike.ofUInt32 1 - FloatWall.fmod c.viewY (FloatLike.ofUInt32 1)) *
              c.invColumnScale = _
        rw [if_neg (not_lt.2 hpos), if_neg (by decide), fmod_one_rat]
        show c.texY + (((1 : Nat) : ℚ) - _) * c.invColumnScale = _
        push_cast
        rfl

/-- A column that passes the two tests of the clipped drawer is blitted. -/
theorem drawClippedWallColumn_some_of {F : Type} [FloatWall F] (env : WallEnv F)
    (s : RenderState F) (c : ClippedColumnCall F)
    (h1 : FloatLike.toInt32 c.viewY < toI32 s.gScreenHeight)
    (h2 : (if FloatLike.toInt32 c.viewY < 0 then toU32 (-FloatLike.toInt32 c.viewY)
      else toU32 0) < toU32 (toI32 c.columnHeight)) :
    ∃ b, drawClippedWallColumn env s c = some b := by
  unfold drawClippedWallColumn
  simp only []
  rw [if_neg (not_le.2 h1), if_neg (not_le.2 h2)]
  exact ⟨_, rfl⟩

/-- C30 as stated fails on the binary32 `float`. The column `binary32Column` starts at the
row `viewY = -(1 + 2^-23)`, so that `trunc(viewY) = -1`, one whole row is clipped (`k = 1`) and
`frac(viewY) = -2^-23`; with the base coordinate 0 and the step 1 the formula of the claim
gives `0 + (1 + 1 + 2^-23) * 1 = 2 + 2^-23`. The routine computes `pixelSkip = -viewY + 1.0f`,
whose exact value `2 + 2^-23` lies halfway between the two neighbouring `float` values 2 and
`2 + 2^-22` and is rounded to 2, and the blitter is handed the texel coordinate 2. -/
theorem clip_shifts_texture_in_binary32 :
    FloatLike.toInt32 binary32Column.viewY = -1 ∧
    binary32Column.viewY.toRat = -(1 + 1 / 8388608) ∧
    (drawClippedWallColumn binary32Env binary32State binary32Column).map (fun b => b.srcY) =
      some { num := 1, exp := 1 } ∧
    ({ num := 1, exp := 1 } : Binary32).toRat = 2 ∧
    binary32Column.texY.toRat +
      (((max (-FloatLike.toInt32 binary32Column.viewY) 0 : Int) : ℚ) + 1 -
        (binary32Column.viewY.toRat -
          ((FloatLike.toInt32 binary32Column.viewY : Int) : ℚ))) *
        binary32Column.invColumnScale.toRat = 2 + 1 / 8388608 ∧
    ¬ (∀ (c : ClippedColumnCall Binary32) (b : BlitCall Binary32),
      drawClippedWallColumn binary32Env binary32State c = some b →
      b.srcY.toRat = c.texY.toRat +
        (((max (-FloatLike.toInt32 c.viewY) 0 : Int) : ℚ) + 1 -
          (c.viewY.toRat - ((FloatLike.toInt32 c.viewY : Int) : ℚ))) *
          c.invColumnScale.toRat) := by
  have h1 : FloatLike.toInt32 binary32Column.viewY = -1 := by decide
  have h2 : binary32Column.viewY.toRat = -(1 + 1 / 8388608) := by
    norm_num [Binary32.toRat, binary32Column]
  have h3 : (drawClippedWallColumn binary32Env binary32State binary32Column).map
      (fun b => b.srcY) = some { num := 1, exp := 1 } := by decide
  have h4 : ({ num := 1, exp := 1 } : Binary32).toRat = 2 := by norm_num [Binary32.toRat]
  have h5 : binary32Column.texY.toRat +
      (((max (-FloatLike.toInt32 binary32Column.viewY) 0 : Int) : ℚ) + 1 -
        (binary32Column.viewY.toRat -
          ((FloatLike.toInt32 binary32Column.viewY : Int) : ℚ))) *
        binary32Column.invColumnScale.toRat = 2 + 1 / 8388608 := by
    rw [h1, h2]
    norm_num [Binary32.toRat, binary32Column]
  refine ⟨h1, h2, h3, h4, h5, fun h => ?_⟩
  cases hb : drawClippedWallColumn binary32Env binary32State binary32Column with
  | none => rw [hb] at h3; cases h3
  | some b =>
    rw [hb] at h3
    have hsrc : b.srcY = { num := 1, exp := 1 } := by
      simpa using h3
    have := h binary32Column b hb
    rw [h5, hsrc, h4] at this
    norm_num at this

/-- C30, amended: over exact arithmetic, whenever `drawClippedWallColumn` blits a column that starts at
`viewY` with the texel step `s` and the base texel coordinate `texY`, the texel coordinate
handed to the blitter is `texY + (k + 1 - frac(viewY)) * s`, where `k = max(-trunc(viewY), 0)`
is the number of whole rows above the screen and `frac(viewY) = viewY - trunc(viewY)`. The
clipped branch (`k > 0`, `pixelSkip = -viewY + 1`) and the unclipped branch (`k = 0`,
`pixelSkip = 1 - fmod(viewY, 1)`) are both this formula, and it is the unclipped start
`texY + (1 - frac(viewY)) * s` advanced by `k` steps: the first visible row samples what it
would have sampled had the column been drawn from its first row. `trunc(viewY)` is one that
fits `int32_t`. -/
theorem clip_does_not_shift_texture (env : WallEnv ℚ) (s : RenderState ℚ)
    (c : ClippedColumnCall ℚ) (b : BlitCall ℚ)
    (hy : -2147483648 ≤ FloatLike.toInt32 c.viewY)
    (h : drawClippedWallColumn env s c = some b) :
    b.srcY = c.texY +
      (((max (-FloatLike.toInt32 c.viewY) 0 : Int) : ℚ) + 1 -
        (c.viewY - ((FloatLike.toInt32 c.viewY : Int) : ℚ))) * c.invColumnScale ∧
    b.stepY = c.invColumnScale ∧
    (FloatLike.toInt32 c.viewY < 0 →
      b.srcY = c.texY + (-c.viewY + 1) * c.invColumnScale) ∧
    (0 ≤ FloatLike.toInt32 c.viewY →
      b.srcY = c.texY +
        (FloatLike.ofUInt32 1 - FloatWall.fmod c.viewY (FloatLike.ofUInt32 1)) *
          c.invColumnScale) ∧
    b.srcY =
      (c.texY + (1 - (c.viewY - ((FloatLike.toInt32 c.viewY : Int) : ℚ))) *
        c.invColumnScale) +
      ((max (-FloatLike.toInt32 c.viewY) 0 : Int) : ℚ) * c.invColumnScale := by
  obtain ⟨a1, a2⟩ := drawClippedWallColumn_srcY_rat env s c b hy h
  have hstep := (drawClippedWallColumn_light env s c b h).2.2.2.1
  have hmain : b.srcY = c.texY +
      (((max (-FloatLike.toInt32 c.viewY) 0 : Int) : ℚ) + 1 -
        (c.viewY - ((FloatLike.toInt32 c.viewY : Int) : ℚ))) * c.invColumnScale := by
    by_cases hneg : FloatLike.toInt32 c.viewY < 0
    · rw [a1 hneg, max_eq_left (by omega)]
      push_cast
      ring
    · rw [a2 (not_lt.1 hneg), max_eq_right (by omega)]
      push_cast
      ring
  refine ⟨hmain, hstep, a1, fun hpos => ?_, ?_⟩
  · rw [a2 hpos, fmod_one_rat]
    show _ = c.texY + (((1 : Nat) : ℚ) - _) * c.invColumnScale
    push_cast
    rfl
  · rw [hmain]
    ring

/-- Witness for C30: a column that starts at the row `-5/2` with the texel step `1/2` and
the base coordinate 3 has two whole rows above the screen and the fraction `-1/2`; it is
blitted from the texel coordinate `3 + (2 + 1 + 1/2) / 2 = 19/4`. -/
theorem clip_does_not_shift_texture_witness :
    -2147483648 ≤ FloatLike.toInt32 ratClippedColumn.viewY ∧
    FloatLike.toInt32 ratClippedColumn.viewY = -2 ∧
    ∃ b, drawClippedWallColumn ratEnv ratState ratClippedColumn = some b ∧
      b.srcY = 19 / 4 := by
  have ht : FloatLike.toInt32 ratClippedColumn.viewY = -2 := by
    rw [toInt32_rat, if_neg (by norm_num [ratClippedColumn]), Int.ceil_eq_iff]
    norm_num [ratClippedColumn]
  have hy : -2147483648 ≤ FloatLike.toInt32 ratClippedColumn.viewY := by rw [ht]; decide
  obtain ⟨b, hb⟩ := drawClippedWallColumn_some_of ratEnv ratState ratClippedColumn
    (by rw [ht]; decide) (by rw [ht]; decide)
  refine ⟨hy, ht, b, hb, ?_⟩
  rw [(clip_does_not_shift_texture ratEnv ratState ratClippedColumn b hy hb).1, ht]
  norm_num [ratClippedColumn]

/-! ## The scan of `findPlane`, again -/

/-- C28 as stated fails on the code: in a pool of three records of which the one right after
`afterPlane` (record 1, light 64) does not match and a later one (record 2, light 128) has
the key and an undefined span at the start column, `findPlane` returns record 2 and
allocates nothing: the pool count stays 3. -/
theorem findPlane_scans_past_next_record :
    ¬ IsCandidate (twoPlaneState.gVisPlanes 1) 0 5 60 128 ∧
    IsCandidate (twoPlaneState.gVisPlanes 2) 0 5 60 128 ∧
    twoPlaneState.gpEndVisPlane = 3 ∧
    ∃ t, findPlane sampleConsts twoPlaneState 0 0 5 60 100 128 = .done t 2 ∧
      t.gpEndVisPlane = 3 := by
  refine ⟨fun h => absurd h.2.2.1 (by decide), ⟨rfl, rfl, rfl, rfl⟩, rfl, _, rfl, rfl⟩

/-- C28, amended: the merge test of `findPlane` is made on every record after `afterPlane`
up to the end of the pool, in table order, and on no record at or before `afterPlane`. If
any record after `afterPlane` has the key and an undefined span at the start column, whether
or not the next record does, the lowest such record is returned and nothing is allocated;
with room in the pool a new record is allocated exactly when none of them matches. -/
theorem findPlane_scans_all_later {F : Type} [FloatLike F] (cfg : RendererConsts F)
    (s : RenderState F) (plane : Nat) (height : F) (picHandle : Nat) (start stop : Int)
    (light : Nat) :
    (∀ i, plane < i → i < s.gpEndVisPlane →
      IsCandidate (s.gVisPlanes i) height picHandle start light →
      ∃ t j, findPlane cfg s plane height picHandle start stop light = .done t j ∧
        plane < j ∧ j ≤ i ∧ IsCandidate (s.gVisPlanes j) height picHandle start light ∧
        (∀ m, plane < m → m < j →
          ¬ IsCandidate (s.gVisPlanes m) height picHandle start light) ∧
        t.gpEndVisPlane = s.gpEndVisPlane) ∧
    (s.gpEndVisPlane < cfg.MAXVISPLANES →
      ((∃ t, findPlane cfg s plane height picHandle start stop light =
            .done t s.gpEndVisPlane ∧ t.gpEndVisPlane = s.gpEndVisPlane + 1) ↔
        ∀ m, plane < m → m < s.gpEndVisPlane →
          ¬ IsCandidate (s.gVisPlanes m) height picHandle start light)) ∧
    (∀ t j, plane < s.gpEndVisPlane →
      findPlane cfg s plane height picHandle start stop light = .done t j → plane < j) := by
  refine ⟨fun i hi1 hi2 hi3 => ?_, fun hroom => ⟨?_, ?_⟩, fun t j hlt h => ?_⟩
  · rcases findPlane_cases cfg s plane height picHandle start stop light with
      ⟨j, h1, h2, h3, h4, h5⟩ | ⟨hno, _⟩
    · refine ⟨_, j, h5, h1, ?_, h3, h4, rfl⟩
      by_contra hlt
      exact h4 i hi1 (by omega) hi3
    · exact absurd hi3 (hno i hi1 hi2)
  · rintro ⟨t, ht, hc⟩
    rcases findPlane_cases cfg s plane height picHandle start stop light with
      ⟨j, h1, h2, h3, h4, h5⟩ | ⟨hno, _⟩
    · rw [h5] at ht
      injection ht with _ hj
      omega
    · exact hno
  · intro hno
    obtain ⟨t, h1, h2, -⟩ := findPlane_alloc_spec cfg s plane height picHandle start stop
      light hno hroom
    exact ⟨t, h1, h2⟩
  · rcases findPlane_cases cfg s plane height picHandle start stop light with
      ⟨i, h1, _, _, _, h5⟩ | ⟨_, h5⟩
    · rw [h5] at h
      injection h with _ hj
      omega
    · by_cases hroom : s.gpEndVisPlane < cfg.MAXVISPLANES
      · rw [if_pos hroom] at h5
        rw [h5] at h
        injection h with _ hj
        omega
      · rw [if_neg hroom] at h5
        rw [h5] at h
        cases h

/-- Witness for C28, amended: in `twoPlaneState` the record 2 matches and the call after
record 0 returns a record in 1..2 that matches, here record 2, with the pool count 3. -/
theorem findPlane_scans_all_later_witness :
    (0 : Nat) < 2 ∧ 2 < twoPlaneState.gpEndVisPlane ∧
    IsCandidate (twoPlaneState.gVisPlanes 2) 0 5 60 128 ∧
    ∃ t j, findPlane sampleConsts twoPlaneState 0 0 5 60 100 128 = .done t j ∧
      0 < j ∧ j ≤ 2 ∧ IsCandidate (twoPlaneState.gVisPlanes j) 0 5 60 128 ∧
      t.gpEndVisPlane = 3 := by
  obtain ⟨t, j, h1, h2, h3, h4, -, h6⟩ :=
    (findPlane_scans_all_later sampleConsts twoPlaneState 0 0 5 60 100 128).1 2 (by decide)
      (by decide) ⟨rfl, rfl, rfl, rfl⟩
  exact ⟨by decide, by decide, ⟨rfl, rfl, rfl, rfl⟩, t, j, h1, h2, h3, h4, h6⟩

/-! ## AddToBox -/

/-- A box with `left <= right` and `bottom <= top` contains the point after `AddToBox`. -/
theorem AddToBox_contains_of_ordered (box : BoxIndex → Int) (x y : Int)
    (hx : box BoxIndex.BOXLEFT ≤ box BoxIndex.BOXRIGHT)
    (hy : box BoxIndex.BOXBOTTOM ≤ box BoxIndex.BOXTOP) :
    AddToBox box x y BoxIndex.BOXLEFT ≤ x ∧ x ≤ AddToBox box x y BoxIndex.BOXRIGHT ∧
    AddToBox box x y BoxIndex.BOXBOTTOM ≤ y ∧ y ≤ AddToBox box x y BoxIndex.BOXTOP := by
  unfold AddToBox
  split_ifs <;> simp only [Function.update_apply, reduceCtorEq, if_true, if_false] at * <;>
    omega

/-- C29, the code on a box that holds no point yet: `AddToBox(box, 5, 5)` moves the left and
the bottom edge to 5 and, because of its `else`, leaves the right and the top edge at the
least `Fixed` value, so the box does not contain the point (5, 5). -/
theorem AddToBox_cleared_box_misses_point :
    AddToBox clearedBox 5 5 BoxIndex.BOXLEFT = 5 ∧
    AddToBox clearedBox 5 5 BoxIndex.BOXRIGHT = -2147483648 ∧
    AddToBox clearedBox 5 5 BoxIndex.BOXBOTTOM = 5 ∧
    AddToBox clearedBox 5 5 BoxIndex.BOXTOP = -2147483648 ∧
    ¬ (5 ≤ AddToBox clearedBox 5 5 BoxIndex.BOXRIGHT) ∧
    ¬ (5 ≤ AddToBox clearedBox 5 5 BoxIndex.BOXTOP) := by
  decide

/-! ## The sky column -/

theorem wrapFixed_of_range (x : Int) (h0 : -2147483648 ≤ x) (h1 : x < 2147483648) :
    wrapFixed x = x :=
  toI32_toU32 x h0 h1

theorem fracBits_eq_mod (x : Int) : fracBits x = toU32 x % 65536 := by
  unfold fracBits
  exact Nat.and_pow_two_sub_one_eq_mod (toU32 x) 16

/-- C25: the texel column of the sky at the screen column `x` is
`(((gXToViewAngle[x] + yaw) mod 2^32) >> ANGLETOSKYSHIFT) & 0xFF`; it lies in 0..255; and it
is the same for two yaws that differ by one full rotation of `2^32` angle units (which are
the same 32 bit angle). -/
theorem skyTexX_wraps {F : Type} (env : WallEnv F) (s : RenderState F) (sky : SkyEnv)
    (viewX : Nat) :
    (drawSkyColumnBlit env sky s viewX).texX = skyTexX sky viewX ∧
    skyTexX sky viewX =
      (((sky.gXToViewAngle viewX + sky.gViewAngleBAM) % 4294967296) >>>
        sky.ANGLETOSKYSHIFT) &&& 0xFF ∧
    skyTexX sky viewX ≤ 255 ∧
    (∀ yaw : Nat,
      skyTexX { sky with gViewAngleBAM := yaw + 4294967296 } viewX =
        skyTexX { sky with gViewAngleBAM := yaw } viewX) ∧
    (∀ yaw : Int, toU32 (yaw + 4294967296) = toU32 yaw ∧
      skyTexX { sky with gViewAngleBAM := toU32 (yaw + 4294967296) } viewX =
        skyTexX { sky with gViewAngleBAM := toU32 yaw } viewX) := by
  have hw : ∀ yaw : Int, toU32 (yaw + 4294967296) = toU32 yaw := by
    intro yaw; unfold toU32; omega
  refine ⟨rfl, rfl, Nat.and_le_right, fun yaw => ?_, fun yaw => ⟨hw yaw, by rw [hw yaw]⟩⟩
  unfold skyTexX
  simp only []
  rw [show sky.gXToViewAngle viewX + (yaw + 4294967296) =
    sky.gXToViewAngle viewX + yaw + 4294967296 by omega, Nat.add_mod_right]

/-- The fixed point value that the sky column height is rounded up from, when nothing
overflows: the texture height times the 16.16 quotient of the screen height by the reference
height. -/
theorem skyScaledColHeight_eq (sky : SkyEnv) (gScreenHeight : Nat)
    (h1 : sky.skyTexH < 32768) (h2 : gScreenHeight < 32768)
    (h3 : 0 < sky.REFERENCE_3D_VIEW_HEIGHT) (h4 : sky.REFERENCE_3D_VIEW_HEIGHT < 32768)
    (h5 : sky.skyTexH * (gScreenHeight * 65536 / sky.REFERENCE_3D_VIEW_HEIGHT) < 2147483648) :
    skyScaledColHeight sky gScreenHeight =
      ((sky.skyTexH * (gScreenHeight * 65536 / sky.REFERENCE_3D_VIEW_HEIGHT) : Nat) : Int) := by
  unfold skyScaledColHeight fixedMul fixedDiv intToFixed
  simp only []
  rw [toI32_natCast _ (by omega), toI32_natCast _ (by omega),
    wrapFixed_of_range ((gScreenHeight : Int) * 65536) (by omega) (by omega),
    wrapFixed_of_range ((sky.REFERENCE_3D_VIEW_HEIGHT : Int) * 65536) (by omega) (by omega),
    wrapFixed_of_range ((sky.skyTexH : Int) * 65536) (by omega) (by omega)]
  have hq : Int.tdiv ((gScreenHeight : Int) * 65536 * 65536)
      ((sky.REFERENCE_3D_VIEW_HEIGHT : Int) * 65536) =
      (((gScreenHeight * 65536 / sky.REFERENCE_3D_VIEW_HEIGHT : Nat)) : Int) := by
    rw [Int.tdiv_eq_ediv (by positivity) (by positivity),
      Int.mul_ediv_mul_of_pos_left _ _ (by norm_num)]
    push_cast
    rfl
  rw [hq]
  have hqle : gScreenHeight * 65536 / sky.REFERENCE_3D_VIEW_HEIGHT ≤ gScreenHeight * 65536 :=
    Nat.div_le_self _ _
  have hq0 : (0 : Int) ≤
      ((gScreenHeight * 65536 / sky.REFERENCE_3D_VIEW_HEIGHT : Nat) : Int) :=
    Int.natCast_nonneg _
  rw [wrapFixed_of_range
    (((gScreenHeight * 65536 / sky.REFERENCE_3D_VIEW_HEIGHT : Nat)) : Int) (by omega)
    (by omega)]
  have hm : (sky.skyTexH : Int) * 65536 *
      ((gScreenHeight * 65536 / sky.REFERENCE_3D_VIEW_HEIGHT : Nat) : Int) / 65536 =
      ((sky.skyTexH * (gScreenHeight * 65536 / sky.REFERENCE_3D_VIEW_HEIGHT) : Nat) : Int) := by
    rw [show (sky.skyTexH : Int) * 65536 *
        ((gScreenHeight * 65536 / sky.REFERENCE_3D_VIEW_HEIGHT : Nat) : Int) =
      65536 * (((sky.skyTexH * (gScreenHeight * 65536 / sky.REFERENCE_3D_VIEW_HEIGHT) : Nat)) :
        Int) by push_cast; ring]
    exact Int.mul_ediv_cancel_left _ (by norm_num)
  rw [hm]
  exact wrapFixed_of_range _ (by omega) (by omega)

/-- C26: with a sky texture height, a screen height and a reference height below `2^15`
(the reference height positive) and a scaled height that fits a `Fixed`, the sky column
height is the 16.16 value
`fixedMul(intToFixed(skyTexH), fixedDiv(intToFixed(screenHeight), intToFixed(REFERENCE_3D_VIEW_HEIGHT)))`,
which is `skyTexH * floor(screenHeight * 65536 / REFERENCE_3D_VIEW_HEIGHT)`, rounded up to
an integer: its integer part, plus one exactly when its 16 fractional bits are not zero. When
the screen height is the reference height it is `skyTexH`. -/
theorem skyColHeight_rounds_up (sky : SkyEnv) (gScreenHeight : Nat)
    (h1 : sky.skyTexH < 32768) (h2 : gScreenHeight < 32768)
    (h3 : 0 < sky.REFERENCE_3D_VIEW_HEIGHT) (h4 : sky.REFERENCE_3D_VIEW_HEIGHT < 32768)
    (h5 : sky.skyTexH * (gScreenHeight * 65536 / sky.REFERENCE_3D_VIEW_HEIGHT) < 2147483648) :
    skyScaledColHeight sky gScreenHeight =
      fixedMul (intToFixed (sky.skyTexH : Int))
        (fixedDiv (intToFixed (gScreenHeight : Int))
          (intToFixed (sky.REFERENCE_3D_VIEW_HEIGHT : Int))) ∧
    skyScaledColHeight sky gScreenHeight =
      ((sky.skyTexH * (gScreenHeight * 65536 / sky.REFERENCE_3D_VIEW_HEIGHT) : Nat) : Int) ∧
    ((skyColHeight sky gScreenHeight : Nat) : Int) =
      fixedToInt (skyScaledColHeight sky gScreenHeight) +
        (if fracBits (skyScaledColHeight sky gScreenHeight) ≠ 0 then 1 else 0) ∧
    fixedToInt (skyScaledColHeight sky gScreenHeight) =
      skyScaledColHeight sky gScreenHeight / 65536 ∧
    ((fracBits (skyScaledColHeight sky gScreenHeight) : Nat) : Int) =
      skyScaledColHeight sky gScreenHeight % 65536 ∧
    65536 * (((skyColHeight sky gScreenHeight : Nat) : Int) - 1) <
      skyScaledColHeight sky gScreenHeight ∧
    skyScaledColHeight sky gScreenHeight ≤
      65536 * ((skyColHeight sky gScreenHeight : Nat) : Int) ∧
    (gScreenHeight = sky.REFERENCE_3D_VIEW_HEIGHT →
      skyColHeight sky gScreenHeight = sky.skyTexH) := by
  have hv := skyScaledColHeight_eq sky gScreenHeight h1 h2 h3 h4 h5
  have hdef : skyScaledColHeight sky gScreenHeight =
      fixedMul (intToFixed (sky.skyTexH : Int))
        (fixedDiv (intToFixed (gScreenHeight : Int))
          (intToFixed (sky.REFERENCE_3D_VIEW_HEIGHT : Int))) := by
    unfold skyScaledColHeight
    simp only []
    rw [toI32_natCast _ (by omega), toI32_natCast _ (by omega)]
  have hcol : ((skyColHeight sky gScreenHeight : Nat) : Int) =
      fixedToInt (skyScaledColHeight sky gScreenHeight) +
        (if fracBits (skyScaledColHeight sky gScreenHeight) ≠ 0 then 1 else 0) := by
    unfold skyColHeight fixedToInt
    simp only []
    rw [fracBits_eq_mod, hv]
    generalize sky.skyTexH * (gScreenHeight * 65536 / sky.REFERENCE_3D_VIEW_HEIGHT) = w at h5
    unfold toU32
    split_ifs <;> omega
  have hfrac : ((fracBits (skyScaledColHeight sky gScreenHeight) : Nat) : Int) =
      skyScaledColHeight sky gScreenHeight % 65536 := by
    rw [fracBits_eq_mod, hv]
    generalize sky.skyTexH * (gScreenHeight * 65536 / sky.REFERENCE_3D_VIEW_HEIGHT) = w at h5
    unfold toU32
    omega
  have hfrac0 : fracBits (skyScaledColHeight sky gScreenHeight) ≠ 0 ↔
      skyScaledColHeight sky gScreenHeight % 65536 ≠ 0 := by
    rw [← hfrac]
    omega
  refine ⟨hdef, hv, hcol, rfl, hfrac, ?_, ?_, ?_⟩
  · rw [hcol]
    unfold fixedToInt
    split_ifs with hf
    · have := hfrac0.1 hf; omega
    · omega
  · rw [hcol]
    unfold fixedToInt
    split_ifs with hf
    · omega
    · have : skyScaledColHeight sky gScreenHeight % 65536 = 0 := by
        by_contra hne; exact hf (hfrac0.2 hne)
      omega
  · intro hH
    have hq : gScreenHeight * 65536 / sky.REFERENCE_3D_VIEW_HEIGHT = 65536 := by
      rw [hH, Nat.mul_comm]
      exact Nat.mul_div_cancel _ h3
    rw [hq] at hv
    have hcol2 := hcol
    rw [hv] at hcol2
    unfold fixedToInt at hcol2
    rw [fracBits_eq_mod] at hcol2
    unfold toU32 at hcol2
    split_ifs at hcol2 <;> omega

/-- Witness for C26: a 128 texel high sky with the reference height 160. On the 96 row
screen the scaled height is `128 * 39321`, that is 76 and a fraction, and the column has 77
pixels; on a 160 row screen it has 128. -/
theorem skyColHeight_rounds_up_witness :
    sampleSky.skyTexH < 32768 ∧ (160 : Nat) < 32768 ∧
    0 < sampleSky.REFERENCE_3D_VIEW_HEIGHT ∧ sampleSky.REFERENCE_3D_VIEW_HEIGHT < 32768 ∧
    sampleSky.skyTexH * (160 * 65536 / sampleSky.REFERENCE_3D_VIEW_HEIGHT) < 2147483648 ∧
    160 = sampleSky.REFERENCE_3D_VIEW_HEIGHT ∧
    skyColHeight sampleSky 160 = 128 ∧
    skyScaledColHeight sampleSky 96 = 128 * 39321 ∧ skyColHeight sampleSky 96 = 77 :=
  ⟨by decide, by decide, by decide, by decide, by decide, rfl,
    (skyColHeight_rounds_up sampleSky 160 (by decide) (by decide) (by decide) (by decide)
      (by decide)).2.2.2.2.2.2.2 rfl,
    by decide, by decide⟩

/-! ## The view angle tables -/

theorem screenWidth_bounds (gScreenSize : Nat) (h : gScreenSize < 6) :
    128 ≤ SCREEN_WIDTHS.getD gScreenSize 0 ∧ SCREEN_WIDTHS.getD gScreenSize 0 ≤ 280 := by
  interval_cases gScreenSize <;> decide

/-- What a round of the first loop stores lies between -1 and the width plus one. -/
theorem viewAngleToXEntry_range (gScreenWidth gCenterX : Nat) (j tangent : Int)
    (hW : gScreenWidth < 2147483647) :
    -1 ≤ viewAngleToXEntry gScreenWidth gCenterX j tangent ∧
      viewAngleToXEntry gScreenWidth gCenterX j tangent ≤ (gScreenWidth : Int) + 1 := by
  have e1 : toI32 ((gScreenWidth + 1) % 4294967296) = (gScreenWidth : Int) + 1 := by
    unfold toI32; split_ifs <;> omega
  have e2 : toI32 gScreenWidth = (gScreenWidth : Int) := toI32_natCast _ (by omega)
  unfold viewAngleToXEntry
  simp only [e1, e2]
  split_ifs <;> omega

/-- The first loop stores a value of a round at each index of the rounds it runs and leaves
the other entries alone. -/
theorem projectionLoop_spec (vc : ViewConsts) (gScreenWidth gCenterX : Nat) (j : Int)
    (n : Nat) :
    ∀ (i : Nat) (tbl : Nat → Int) (k : Nat),
      (i / 2 ≤ k → k < i / 2 + n →
        ∃ tangent, projectionLoop vc gScreenWidth gCenterX j n i tbl k =
          viewAngleToXEntry gScreenWidth gCenterX j tangent) ∧
      ((k < i / 2 ∨ i / 2 + n ≤ k) →
        projectionLoop vc gScreenWidth gCenterX j n i tbl k = tbl k) := by
  induction n with
  | zero => intro i tbl k; exact ⟨fun h1 h2 => by omega, fun _ => rfl⟩
  | succ n ih =>
    intro i tbl k
    obtain ⟨a1, a2⟩ := ih (i + 2)
      (Function.update tbl (i / 2)
        (viewAngleToXEntry gScreenWidth gCenterX j (vc.gFineTangent i))) k
    have hhalf : (i + 2) / 2 = i / 2 + 1 := by omega
    rw [hhalf] at a1 a2
    constructor
    · intro h1 h2
      by_cases hk : k = i / 2
      · refine ⟨vc.gFineTangent i, ?_⟩
        show projectionLoop vc gScreenWidth gCenterX j n (i + 2) _ k = _
        rw [a2 (Or.inl (by omega)), hk, Function.update_same]
      · exact a1 (by omega) (by omega)
    · intro h
      show projectionLoop vc gScreenWidth gCenterX j n (i + 2) _ k = _
      rw [a2 (by omega), Function.update_noteq (by omega)]

/-- The third loop changes the entries `i .. i + n - 1`, each from its own old value: -1
becomes 0, the width plus one becomes the width, any other value stays. -/
theorem renormLoop_spec (gScreenWidth : Nat) (n : Nat) :
    ∀ (i : Nat) (tbl : Nat → Int) (k : Nat),
      (i ≤ k → k < i + n →
        renormLoop gScreenWidth n i tbl k =
          (if tbl k = -1 then 0
           else if toU32 (tbl k) = (gScreenWidth + 1) % 4294967296 then toI32 gScreenWidth
           else tbl k)) ∧
      ((k < i ∨ i + n ≤ k) → renormLoop gScreenWidth n i tbl k = tbl k) := by
  induction n with
  | zero => intro i tbl k; exact ⟨fun h1 h2 => by omega, fun _ => rfl⟩
  | succ n ih =>
    intro i tbl k
    obtain ⟨a1, a2⟩ := ih (i + 1)
      (if tbl i = -1 then Function.update tbl i 0
       else if toU32 (tbl i) = (gScreenWidth + 1) % 4294967296 then
         Function.update tbl i (toI32 gScreenWidth)
       else tbl) k
    have hother : ∀ m, m ≠ i →
        (if tbl i = -1 then Function.update tbl i 0
         else if toU32 (tbl i) = (gScreenWidth + 1) % 4294967296 then
           Function.update tbl i (toI32 gScreenWidth)
         else tbl) m = tbl m := by
      intro m hm
      split_ifs
      · exact Function.update_noteq hm _ _
      · exact Function.update_noteq hm _ _
      · rfl
    constructor
    · intro h1 h2
      show renormLoop gScreenWidth n (i + 1) _ k = _
      by_cases hk : k = i
      · rw [a2 (Or.inl (by omega)), hk]
        split_ifs
        · exact Function.update_same _ _ _
        · exact Function.update_same _ _ _
        · rfl
      · rw [a1 (by omega) (by omega), hother k hk]
    · intro h
      show renormLoop gScreenWidth n (i + 1) _ k = _
      rw [a2 (by omega), hother k (by omega)]

/-- A scan stops within its fuel when some entry from `x` on is not above the target. -/
theorem xToViewAngleScan_some (tbl : Nat → Int) (i : Int) (x0 : Nat) (h0 : tbl x0 ≤ i)
    (fuel : Nat) :
    ∀ x, x ≤ x0 → x0 < x + fuel → ∃ r, xToViewAngleScan tbl i fuel x = some r := by
  induction fuel with
  | zero => intro x h1 h2; omega
  | succ fuel ih =>
    intro x h1 h2
    unfold xToViewAngleScan
    by_cases hgt : tbl x > i
    · rw [if_pos hgt]
      have hne : x ≠ x0 := fun e => by rw [e] at hgt; omega
      exact ih (x + 1) (by omega) (by omega)
    · rw [if_neg hgt]
      exact ⟨x, rfl⟩

/-- The second loop returns when some entry below the fuel is not above 0. -/
theorem xToViewAngleLoop_some (vc : ViewConsts) (tbl : Nat → Int) (fuel : Nat) (x0 : Nat)
    (hx0 : x0 < fuel) (h0 : tbl x0 ≤ 0) (n : Nat) :
    ∀ (i : Nat) (out : Nat → Nat), i + n ≤ 2147483648 →
      ∃ r, xToViewAngleLoop vc tbl fuel n i out = some r := by
  induction n with
  | zero => intro i out _; exact ⟨out, rfl⟩
  | succ n ih =>
    intro i out hle
    have hi : toI32 i = (i : Int) := toI32_natCast _ (by omega)
    obtain ⟨x, hx⟩ := xToViewAngleScan_some tbl (toI32 i) x0 (by rw [hi]; omega) fuel 0
      (Nat.zero_le _) (by omega)
    unfold xToViewAngleLoop
    rw [hx]
    exact ih (i + 1) _ (by omega)

/-- After the first loop every entry below `FINEANGLES / 4` lies between -1 and the width
plus one. -/
theorem viewAngleToXProjected_range (vc : ViewConsts) (gScreenSize : Nat)
    (hsize : gScreenSize < 6) (old : Nat → Int) (i : Nat) (hi : i < vc.FINEANGLES / 4) :
    -1 ≤ viewAngleToXProjected vc gScreenSize old i ∧
      viewAngleToXProjected vc gScreenSize old i ≤
        ((SCREEN_WIDTHS.getD gScreenSize 0 : Nat) : Int) + 1 := by
  obtain ⟨w1, w2⟩ := screenWidth_bounds gScreenSize hsize
  unfold viewAngleToXProjected
  obtain ⟨tangent, ht⟩ := (projectionLoop_spec vc (SCREEN_WIDTHS.getD gScreenSize 0)
    (SCREEN_WIDTHS.getD gScreenSize 0 / 2)
    (fixedDiv (toI32 (toU32 (((SCREEN_WIDTHS.getD gScreenSize 0 / 2 : Nat) : Int) * 65536)))
      (vc.gFineTangent (vc.FINEANGLES / 4 + vc.FIELDOFVIEW / 2)))
    ((vc.FINEANGLES / 2 + 1) / 2) 0 old i).1 (by omega) (by omega)
  rw [ht]
  exact viewAngleToXEntry_range _ _ _ _ (by omega)

/-- The table `gViewAngleToX` that `initMathTables` returns with is the table after the
first loop, passed through the third. -/
theorem initViewTables_viewAngleToX (vc : ViewConsts) (gScreenSize fuel : Nat)
    (old t : ViewTables) (h : initViewTables vc gScreenSize fuel old = some t) :
    t.gViewAngleToX =
      renormLoop (SCREEN_WIDTHS.getD gScreenSize 0) (vc.FINEANGLES / 4) 0
        (viewAngleToXProjected vc gScreenSize old.gViewAngleToX) := by
  unfold initViewTables at h
  simp only [] at h
  cases hx : xToViewAngleLoop vc (viewAngleToXProjected vc gScreenSize old.gViewAngleToX) fuel
      (SCREEN_WIDTHS.getD gScreenSize 0 + 1) 0 old.gXToViewAngle with
  | none => rw [hx] at h; cases h
  | some x2 =>
    rw [hx] at h
    injection h with h
    rw [← h]

/-- C27: for every table of fine tangents and each of the six screen sizes, every entry
`gViewAngleToX[i]` with `i < FINEANGLES / 4` lies in `[-1, width + 1]` after the first loop of
`initMathTables`, and in `[0, width]` when `initMathTables` returns: the entries that were -1
are 0, those that were `width + 1` are `width`, and the other entries are as the first loop
left them. The routine returns whenever the first loop left some entry that is not above 0
within the reach of the scans. -/
theorem viewAngleToX_range (vc : ViewConsts) (gScreenSize : Nat) (hsize : gScreenSize < 6)
    (fuel : Nat) (old : ViewTables) (i : Nat) (hi : i < vc.FINEANGLES / 4) :
    (-1 ≤ viewAngleToXProjected vc gScreenSize old.gViewAngleToX i ∧
      viewAngleToXProjected vc gScreenSize old.gViewAngleToX i ≤
        ((SCREEN_WIDTHS.getD gScreenSize 0 : Nat) : Int) + 1) ∧
    (∀ t, initViewTables vc gScreenSize fuel old = some t →
      0 ≤ t.gViewAngleToX i ∧
      t.gViewAngleToX i ≤ ((SCREEN_WIDTHS.getD gScreenSize 0 : Nat) : Int) ∧
      (viewAngleToXProjected vc gScreenSize old.gViewAngleToX i = -1 →
        t.gViewAngleToX i = 0) ∧
      (viewAngleToXProjected vc gScreenSize old.gViewAngleToX i =
          ((SCREEN_WIDTHS.getD gScreenSize 0 : Nat) : Int) + 1 →
        t.gViewAngleToX i = ((SCREEN_WIDTHS.getD gScreenSize 0 : Nat) : Int)) ∧
      (viewAngleToXProjected vc gScreenSize old.gViewAngleToX i ≠ -1 →
        viewAngleToXProjected vc gScreenSize old.gViewAngleToX i ≠
          ((SCREEN_WIDTHS.getD gScreenSize 0 : Nat) : Int) + 1 →
        t.gViewAngleToX i = viewAngleToXProjected vc gScreenSize old.gViewAngleToX i)) ∧
    ((∃ x0, x0 < fuel ∧ viewAngleToXProjected vc gScreenSize old.gViewAngleToX x0 ≤ 0) →
      ∃ t, initViewTables vc gScreenSize fuel old = some t) := by
  obtain ⟨w1, w2⟩ := screenWidth_bounds gScreenSize hsize
  obtain ⟨r1, r2⟩ := viewAngleToXProjected_range vc gScreenSize hsize old.gViewAngleToX i hi
  refine ⟨⟨r1, r2⟩, fun t ht => ?_, fun hx => ?_⟩
  · have hval := (renormLoop_spec (SCREEN_WIDTHS.getD gScreenSize 0) (vc.FINEANGLES / 4) 0
      (viewAngleToXProjected vc gScreenSize old.gViewAngleToX) i).1 (Nat.zero_le _) (by omega)
    rw [← initViewTables_viewAngleToX vc gScreenSize fuel old t ht] at hval
    have eW : toI32 (SCREEN_WIDTHS.getD gScreenSize 0) =
        ((SCREEN_WIDTHS.getD gScreenSize 0 : Nat) : Int) := toI32_natCast _ (by omega)
    rw [eW] at hval
    generalize viewAngleToXProjected vc gScreenSize old.gViewAngleToX i = v at r1 r2 hval
    generalize SCREEN_WIDTHS.getD gScreenSize 0 = W at w1 w2 r2 hval
    have hcmp : toU32 v = (W + 1) % 4294967296 ↔ v = (W : Int) + 1 := by
      unfold toU32; omega
    rw [hval]
    refine ⟨?_, ?_, ?_, ?_, ?_⟩
    · split_ifs with c1 c2 <;> omega
    · split_ifs with c1 c2
      · omega
      · omega
      · have := mt hcmp.2 c2; omega
    · intro c1; rw [if_pos c1]
    · intro c2
      rw [if_neg (by omega), if_pos (hcmp.2 c2)]
    · intro c1 c2
      rw [if_neg c1, if_neg (mt hcmp.1 c2)]
  · obtain ⟨x0, h1, h2⟩ := hx
    obtain ⟨r, hr⟩ := xToViewAngleLoop_some vc
      (viewAngleToXProjected vc gScreenSize old.gViewAngleToX) fuel x0 h1 h2
      (SCREEN_WIDTHS.getD gScreenSize 0 + 1) 0 old.gXToViewAngle (by omega)
    unfold initViewTables
    simp only []
    rw [hr]
    exact ⟨_, rfl⟩

/-- Witness for C27: the smallest screen size (128 columns) with 16 fine angles whose tangents
fall from 4.0: the first loop leaves -1 in the entry 0, the routine returns, and the entry 0
is 0 then. -/
theorem viewAngleToX_range_witness :
    (5 : Nat) < 6 ∧ (0 : Nat) < sampleViewConsts.FINEANGLES / 4 ∧
    viewAngleToXProjected sampleViewConsts 5 zeroViewTables.gViewAngleToX 0 = -1 ∧
    ∃ t, initViewTables sampleViewConsts 5 8 zeroViewTables = some t ∧
      t.gViewAngleToX 0 = 0 := by
  have h := viewAngleToX_range sampleViewConsts 5 (by decide) 8 zeroViewTables 0 (by decide)
  have hp : viewAngleToXProjected sampleViewConsts 5 zeroViewTables.gViewAngleToX 0 = -1 := by
    decide
  obtain ⟨t, ht⟩ := h.2.2 ⟨0, by decide, by rw [hp]; decide⟩
  exact ⟨by decide, by decide, hp, t, ht, (h.2.1 t ht).2.2.1 hp⟩

/-! ## The stepped screen Y of the two passes: lemmas -/

/-- The floor part of a column that returns steps `floorY` under the add-floor bit and leaves
the other stepped locals alone. -/
theorem segLoopFloorPart_vars {F : Type} [FloatLike F] (cfg : RendererConsts F)
    (seg : viswall_t F) (viewX : Int) (s : RenderState F) (v : SegLoopVars F)
    (s1 : RenderState F) (v1 : SegLoopVars F)
    (h : segLoopFloorPart cfg seg viewX s v = .done s1 v1) :
    v1 = { v with
      pFloorPlane := v1.pFloorPlane
      floorY :=
        if hasBits seg.WallActions AC_ADDFLOOR then v.floorY + v.floorYStep else v.floorY } := by
  unfold segLoopFloorPart at h
  by_cases hbit : hasBits seg.WallActions AC_ADDFLOOR = true
  · rw [if_pos hbit, segLoopAddFloor_eq_registerSpan, Outcome.andThen_eq_done] at h
    obtain ⟨t, p, _, hdone⟩ := h
    injection hdone with _ hv
    rw [← hv, if_pos hbit]
  · rw [if_neg hbit] at h
    injection h with _ hv
    rw [← hv, if_neg hbit]

/-- The ceiling part of a column that returns steps `ceilY` under the add-ceiling bit and
leaves the other stepped locals alone. -/
theorem segLoopCeilingPart_vars {F : Type} [FloatLike F] (cfg : RendererConsts F)
    (seg : viswall_t F) (viewX clipBoundTY clipBoundBY : Int) (s : RenderState F)
    (v : SegLoopVars F) (s1 : RenderState F) (v1 : SegLoopVars F)
    (h : segLoopCeilingPart cfg seg viewX clipBoundTY clipBoundBY s v = .done s1 v1) :
    v1 = { v with
      pCeilPlane := v1.pCeilPlane
      ceilY :=
        if hasBits seg.WallActions AC_ADDCEILING then v.ceilY + v.ceilYStep else v.ceilY } := by
  unfold segLoopCeilingPart at h
  by_cases hbit : hasBits seg.WallActions AC_ADDCEILING = true
  · rw [if_pos hbit, segLoopAddCeiling_eq_registerSpan, Outcome.andThen_eq_done] at h
    obtain ⟨t, p, _, hdone⟩ := h
    injection hdone with _ hv
    rw [← hv, if_pos hbit]
  · rw [if_neg hbit] at h
    injection h with _ hv
    rw [← hv, if_neg hbit]

/-- A column that returns advances the stepped locals by one step, whatever the plane table
holds. -/
theorem segLoopColumn_varsAt {F : Type} [FloatLike F] (cfg : RendererConsts F)
    (seg : viswall_t F) (viewX : Int) (s0 s : RenderState F) (v : SegLoopVars F)
    (s' : RenderState F) (v' : SegLoopVars F) (k : Nat)
    (hvars : SegLoopVarsAt s0 seg k v)
    (h : segLoopColumn cfg seg viewX s v = .done s' v') :
    SegLoopVarsAt s0 seg (k + 1) v' := by
  obtain ⟨s1, v1, s2, v2, h1, h2, _, hv⟩ := segLoopColumn_done cfg seg viewX s v s' v' h
  have e1 := segLoopFloorPart_vars cfg seg viewX s v s1 v1 h1
  have e2 := segLoopCeilingPart_vars cfg seg viewX _ _ s1 v1 s2 v2 h2
  obtain ⟨_, t2⟩ := segLoopColumnTail_spec seg
    (FloatLike.fmin v.columnScale cfg.MAX_RENDER_SCALE) viewX
    (toI32 (s.gClipBoundTop viewX)) (toI32 (s.gClipBoundBottom viewX)) s2 v2
  rw [← hv] at t2
  have hv' : v' =
      { v with
        pFloorPlane := v1.pFloorPlane
        pCeilPlane := v2.pCeilPlane
        floorY :=
          if hasBits seg.WallActions AC_ADDFLOOR then v.floorY + v.floorYStep else v.floorY
        ceilY :=
          if hasBits seg.WallActions AC_ADDCEILING then v.ceilY + v.ceilYStep else v.ceilY
        newFloorY :=
          if hasBits seg.WallActions (AC_BOTTOMSIL ||| AC_NEWFLOOR) then
            v.newFloorY + v.newFloorYStep
          else v.newFloorY
        newCeilY :=
          if hasBits seg.WallActions (AC_TOPSIL ||| AC_NEWCEILING) then
            v.newCeilY + v.newCeilYStep
          else v.newCeilY
        columnScale := v.columnScale + seg.ScaleStep } := by
    rw [t2, e2, e1]
  rw [hv']
  refine ⟨fun hb => ?_, fun hb => ?_, fun hb => ?_, fun hb => ?_, ?_⟩
  · obtain ⟨a, b⟩ := hvars.floorY hb
    simp only [hb, if_true]
    exact ⟨by rw [a, b]; rfl, b⟩
  · obtain ⟨a, b⟩ := hvars.ceilY hb
    simp only [hb, if_true]
    exact ⟨by rw [a, b]; rfl, b⟩
  · obtain ⟨a, b⟩ := hvars.newFloorY hb
    have hb' := (hasBits_lor seg.WallActions AC_BOTTOMSIL AC_NEWFLOOR).2 (Or.inr hb)
    simp only [hb', if_true]
    exact ⟨by rw [a, b]; rfl, b⟩
  · obtain ⟨a, b⟩ := hvars.newCeilY hb
    have hb' := (hasBits_lor seg.WallActions AC_TOPSIL AC_NEWCEILING).2 (Or.inr hb)
    simp only [hb', if_true]
    exact ⟨by rw [a, b]; rfl, b⟩
  · show v.columnScale + seg.ScaleStep = _
    rw [hvars.columnScale]; rfl

/-- After `n` columns that returned the stepped locals were stepped `n` times. -/
theorem segLoopColumns_varsAt {F : Type} [FloatLike F] (cfg : RendererConsts F)
    (seg : viswall_t F) (s0 : RenderState F) (n : Nat) :
    ∀ (viewX : Int) (s : RenderState F) (v : SegLoopVars F) (s' : RenderState F)
      (v' : SegLoopVars F) (k : Nat), SegLoopVarsAt s0 seg k v →
      segLoopColumns cfg seg n viewX s v = .done s' v' →
      SegLoopVarsAt s0 seg (k + n) v' := by
  induction n with
  | zero =>
    intro viewX s v s' v' k hvars h
    injection h with _ hv
    subst hv
    exact hvars
  | succ n ih =>
    intro viewX s v s' v' k hvars h
    unfold segLoopColumns at h
    rw [Outcome.andThen_eq_done] at h
    obtain ⟨s1, v1, h1, h2⟩ := h
    have w1 := segLoopColumn_varsAt cfg seg viewX s0 s v s1 v1 k hvars h1
    have := ih (viewX + 1) s1 v1 s' v' (k + 1) w1 h2
    rw [show k + (n + 1) = k + 1 + n by omega]
    exact this

/-- The setup of `segLoop` leaves each stepped local at its start value. -/
theorem segLoopSetup_varsAt {F : Type} [FloatLike F] (s : RenderState F) (seg : viswall_t F)
    (uninit : SegLoopVars F) : SegLoopVarsAt s seg 0 (segLoopSetup s seg uninit) := by
  unfold segLoopSetup
  refine ⟨fun hb => ?_, fun hb => ?_, fun hb => ?_, fun hb => ?_, rfl⟩
  · by_cases h2 : hasBits seg.WallActions AC_ADDCEILING = true <;>
      by_cases h3 : hasBits seg.WallActions AC_NEWFLOOR = true <;>
      by_cases h4 : hasBits seg.WallActions AC_NEWCEILING = true <;>
      simp [hb, h2, h3, h4, segYAt, steppedY]
  · by_cases h2 : hasBits seg.WallActions AC_ADDFLOOR = true <;>
      by_cases h3 : hasBits seg.WallActions AC_NEWFLOOR = true <;>
      by_cases h4 : hasBits seg.WallActions AC_NEWCEILING = true <;>
      simp [hb, h2, h3, h4, segYAt, steppedY]
  · by_cases h2 : hasBits seg.WallActions AC_ADDFLOOR = true <;>
      by_cases h3 : hasBits seg.WallActions AC_ADDCEILING = true <;>
      by_cases h4 : hasBits seg.WallActions AC_NEWCEILING = true <;>
      simp [hb, h2, h3, h4, segYAt, steppedY]
  · by_cases h2 : hasBits seg.WallActions AC_ADDFLOOR = true <;>
      by_cases h3 : hasBits seg.WallActions AC_ADDCEILING = true <;>
      by_cases h4 : hasBits seg.WallActions AC_NEWFLOOR = true <;>
      simp [hb, h2, h3, h4, segYAt, steppedY]

/-- One pass of the column body of `drawSeg` steps the four screen Ys of a texture under its
bit and leaves the four steps alone. -/
theorem drawSegColumn_vars {F : Type} [FloatWall F] (env : WallEnv F) (seg : viswall_t F)
    (viewX : Int) (v : DrawSegVars F) :
    (hasBits seg.WallActions AC_TOPTEXTURE = true →
      (drawSegColumn env seg viewX v).2.topTexViewTY = v.topTexViewTY + v.topTexViewTYStep ∧
      (drawSegColumn env seg viewX v).2.topTexViewBY = v.topTexViewBY + v.topTexViewBYStep) ∧
    (hasBits seg.WallActions AC_BOTTOMTEXTURE = true →
      (drawSegColumn env seg viewX v).2.bottomTexViewTY =
        v.bottomTexViewTY + v.bottomTexViewTYStep ∧
      (drawSegColumn env seg viewX v).2.bottomTexViewBY =
        v.bottomTexViewBY + v.bottomTexViewBYStep) ∧
    (drawSegColumn env seg viewX v).2.topTexViewTYStep = v.topTexViewTYStep ∧
    (drawSegColumn env seg viewX v).2.topTexViewBYStep = v.topTexViewBYStep ∧
    (drawSegColumn env seg viewX v).2.bottomTexViewTYStep = v.bottomTexViewTYStep ∧
    (drawSegColumn env seg viewX v).2.bottomTexViewBYStep = v.bottomTexViewBYStep := by
  unfold drawSegColumn
  by_cases h1 : hasBits seg.WallActions AC_TOPTEXTURE = true <;>
    by_cases h2 : hasBits seg.WallActions AC_BOTTOMTEXTURE = true <;>
    simp [h1, h2]

/-- After `n` passes of the column body of `drawSeg` the screen Ys of a texture were stepped
`n` times, under its bit. -/
theorem drawSegVarsAt_stepped {F : Type} [FloatWall F] (env : WallEnv F) (seg : viswall_t F)
    (n : Nat) :
    ∀ (viewX : Int) (v : DrawSegVars F),
      (hasBits seg.WallActions AC_TOPTEXTURE = true →
        (drawSegVarsAt env seg n viewX v).topTexViewTY =
          steppedY v.topTexViewTY v.topTexViewTYStep n ∧
        (drawSegVarsAt env seg n viewX v).topTexViewBY =
          steppedY v.topTexViewBY v.topTexViewBYStep n) ∧
      (hasBits seg.WallActions AC_BOTTOMTEXTURE = true →
        (drawSegVarsAt env seg n viewX v).bottomTexViewTY =
          steppedY v.bottomTexViewTY v.bottomTexViewTYStep n ∧
        (drawSegVarsAt env seg n viewX v).bottomTexViewBY =
          steppedY v.bottomTexViewBY v.bottomTexViewBYStep n) := by
  induction n with
  | zero => intro viewX v; exact ⟨fun _ => ⟨rfl, rfl⟩, fun _ => ⟨rfl, rfl⟩⟩
  | succ n ih =>
    intro viewX v
    obtain ⟨a1, a2, s1, s2, s3, s4⟩ := drawSegColumn_vars env seg viewX v
    obtain ⟨b1, b2⟩ := ih (viewX + 1) (drawSegColumn env seg viewX v).2
    unfold drawSegVarsAt
    refine ⟨fun hb => ?_, fun hb => ?_⟩
    · obtain ⟨c1, c2⟩ := b1 hb
      obtain ⟨d1, d2⟩ := a1 hb
      rw [c1, c2, s1, s2, d1, d2, steppedY_front, steppedY_front]
      exact ⟨rfl, rfl⟩
    · obtain ⟨c1, c2⟩ := b2 hb
      obtain ⟨d1, d2⟩ := a2 hb
      rw [c1, c2, s3, s4, d1, d2, steppedY_front, steppedY_front]
      exact ⟨rfl, rfl⟩

/-- The setup of `drawSeg` starts the screen Ys of a texture at
`viewCenterY - height * LeftScale` and sets their steps to `-ScaleStep * height`, under its
bit. -/
theorem drawSegSetup_vars {F : Type} [FloatWall F] (env : WallEnv F) (s : RenderState F)
    (seg : viswall_t F) (uninit : DrawSegVars F) :
    (hasBits seg.WallActions AC_TOPTEXTURE = true →
      (drawSegSetup env s seg uninit).topTexViewTY =
        FloatLike.ofUInt32 s.gCenterY - seg.t_topheight * seg.LeftScale ∧
      (drawSegSetup env s seg uninit).topTexViewTYStep = -seg.ScaleStep * seg.t_topheight ∧
      (drawSegSetup env s seg uninit).topTexViewBY =
        FloatLike.ofUInt32 s.gCenterY - seg.t_bottomheight * seg.LeftScale ∧
      (drawSegSetup env s seg uninit).topTexViewBYStep =
        -seg.ScaleStep * seg.t_bottomheight) ∧
    (hasBits seg.WallActions AC_BOTTOMTEXTURE = true →
      (drawSegSetup env s seg uninit).bottomTexViewTY =
        FloatLike.ofUInt32 s.gCenterY - seg.b_topheight * seg.LeftScale ∧
      (drawSegSetup env s seg uninit).bottomTexViewTYStep = -seg.ScaleStep * seg.b_topheight ∧
      (drawSegSetup env s seg uninit).bottomTexViewBY =
        FloatLike.ofUInt32 s.gCenterY - seg.b_bottomheight * seg.LeftScale ∧
      (drawSegSetup env s seg uninit).bottomTexViewBYStep =
        -seg.ScaleStep * seg.b_bottomheight) := by
  unfold drawSegSetup
  by_cases h1 : hasBits seg.WallActions AC_TOPTEXTURE = true <;>
    by_cases h2 : hasBits seg.WallActions AC_BOTTOMTEXTURE = true <;>
    simp [h1, h2]

/-- The stepped screen Y that `segLoop` holds for a height at the start of its `k`-th column
is `segYAt` of that height. -/
theorem segLoopYFor_eq {F : Type} [FloatLike F] (cfg : RendererConsts F) (s : RenderState F)
    (seg : viswall_t F) (uninit : SegLoopVars F) (k : Nat) (s1 : RenderState F)
    (v1 : SegLoopVars F) (h y : F)
    (hk : segLoopColumns cfg seg k seg.leftX s (segLoopSetup s seg uninit) = .done s1 v1)
    (hy : SegLoopYFor seg v1 h y) : y = segYAt s seg h k := by
  have hv := segLoopColumns_varsAt cfg seg s k seg.leftX s _ s1 v1 0
    (segLoopSetup_varsAt s seg uninit) hk
  rw [Nat.zero_add] at hv
  rcases hy with ⟨hb, rfl, rfl⟩ | ⟨hb, rfl, rfl⟩ | ⟨hb, rfl, rfl⟩ | ⟨hb, rfl, rfl⟩
  · exact (hv.floorY hb).1
  · exact (hv.ceilY hb).1
  · exact (hv.newFloorY hb).1
  · exact (hv.newCeilY hb).1

/-- The stepped screen Y that `drawSeg` holds for a height at the start of its `k`-th column
is `segYAt` of that height, taken with the centre row `drawSeg` reads. -/
theorem drawSegYFor_eq {F : Type} [FloatWall F] (env : WallEnv F) (s : RenderState F)
    (seg : viswall_t F) (uninit : DrawSegVars F) (k : Nat) (h y : F)
    (hy : DrawSegYFor seg
      (drawSegVarsAt env seg k seg.leftX (drawSegSetup env s seg uninit)) h y) :
    y = segYAt s seg h k := by
  obtain ⟨a1, a2⟩ := drawSegVarsAt_stepped env seg k seg.leftX (drawSegSetup env s seg uninit)
  obtain ⟨b1, b2⟩ := drawSegSetup_vars env s seg uninit
  unfold segYAt
  rcases hy with ⟨hb, rfl, rfl⟩ | ⟨hb, rfl, rfl⟩ | ⟨hb, rfl, rfl⟩ | ⟨hb, rfl, rfl⟩
  · rw [(a1 hb).1, (b1 hb).1, (b1 hb).2.1]
  · rw [(a1 hb).2, (b1 hb).2.2.1, (b1 hb).2.2.2]
  · rw [(a2 hb).1, (b2 hb).1, (b2 hb).2.1]
  · rw [(a2 hb).2, (b2 hb).2.2.1, (b2 hb).2.2.2]

theorem segYAt_centerY {F : Type} [FloatLike F] (s t : RenderState F) (seg : viswall_t F)
    (h : F) (k : Nat) (hc : t.gCenterY = s.gCenterY) : segYAt t seg h k = segYAt s seg h k := by
  unfold segYAt
  rw [hc]

/-! ## The claim on the stepping of the two passes -/

/-- C31: `segLoop` and `drawSeg` step screen Y identically. For every float type, segment,
world height `h` and `k`: if `segLoop`, run in the globals `s`, has reached the start of its
`k`-th column (the column `leftX + k`) and holds there the stepped screen Y `y` for the
height `h`, and `drawSeg`, run in globals `sd` with the same centre row, holds at the start
of its `k`-th column the stepped screen Y `yd` for the same height, then `y = yd`, and both
are `viewCenterY - h * LeftScale` advanced `k` times by `-ScaleStep * h`. Over exact
arithmetic that value is `viewCenterY - h * (LeftScale + k * ScaleStep)`. -/
theorem segLoop_drawSeg_step_alike :
    (∀ (F : Type) [FloatWall F] (cfg : RendererConsts F) (env : WallEnv F)
      (s sd : RenderState F) (seg : viswall_t F) (uninitLoop : SegLoopVars F)
      (uninitDraw : DrawSegVars F) (k : Nat) (s1 : RenderState F) (v1 : SegLoopVars F)
      (h y yd : F),
      sd.gCenterY = s.gCenterY →
      segLoopColumns cfg seg k seg.leftX s (segLoopSetup s seg uninitLoop) = .done s1 v1 →
      SegLoopYFor seg v1 h y →
      DrawSegYFor seg
        (drawSegVarsAt env seg k seg.leftX (drawSegSetup env sd seg uninitDraw)) h yd →
      y = yd ∧
        y = steppedY (FloatLike.ofUInt32 s.gCenterY - h * seg.LeftScale) (-seg.ScaleStep * h)
          k) ∧
    (∀ (s : RenderState ℚ) (seg : viswall_t ℚ) (h : ℚ) (k : Nat),
      steppedY (FloatLike.ofUInt32 s.gCenterY - h * seg.LeftScale) (-seg.ScaleStep * h) k =
        (s.gCenterY : ℚ) - h * (seg.LeftScale + (k : ℚ) * seg.ScaleStep)) := by
  refine ⟨?_, fun s seg h k => segYAt_rat s seg h k⟩
  intro F _ cfg env s sd seg uninitLoop uninitDraw k s1 v1 h y yd hc hk hy hyd
  have e1 := segLoopYFor_eq cfg s seg uninitLoop k s1 v1 h y hk hy
  have e2 := drawSegYFor_eq env sd seg uninitDraw k h yd hyd
  rw [segYAt_centerY s sd seg h k hc] at e2
  exact ⟨e1.trans e2.symm, e1⟩

/-- C31 on `steppedSeg` on the fresh frame, whose ceiling height is the top height of its top
texture: at the start of the column 2 both passes hold `48 - 10 * 1` stepped twice by
`-1 * 10`, the row 18. -/
theorem segLoop_drawSeg_step_alike_witness :
    freshState.gCenterY = freshState.gCenterY ∧
    segLoopColumns sampleConsts steppedSeg 2 steppedSeg.leftX freshState
      (segLoopSetup freshState steppedSeg zeroVars) = .done steppedState steppedVars ∧
    SegLoopYFor steppedSeg steppedVars (10 : Int) 18 ∧
    DrawSegYFor steppedSeg
      (drawSegVarsAt scenarioEnv steppedSeg 2 steppedSeg.leftX
        (drawSegSetup scenarioEnv freshState steppedSeg zeroDrawVars)) (10 : Int) 18 ∧
    ((18 : Int) = 18 ∧
      (18 : Int) = steppedY (FloatLike.ofUInt32 freshState.gCenterY - 10 * steppedSeg.LeftScale)
        (-steppedSeg.ScaleStep * 10) 2) :=
  ⟨rfl, rfl, Or.inr (Or.inl ⟨rfl, rfl, rfl⟩), Or.inl ⟨rfl, rfl, rfl⟩,
    segLoop_drawSeg_step_alike.1 Int sampleConsts scenarioEnv freshState freshState steppedSeg
      zeroVars zeroDrawVars 2 steppedState steppedVars 10 18 18 rfl rfl
      (Or.inr (Or.inl ⟨rfl, rfl, rfl⟩)) (Or.inl ⟨rfl, rfl, rfl⟩)⟩

/-! ## The span writes of a frame: lemmas -/

theorem registerSpan_eq_lookup {F : Type} [FloatLike F] (cfg : RendererConsts F)
    (s : RenderState F) (pPlane : Nat) (height : F) (picHandle : Nat) (viewX rightX : Int)
    (light : Nat) (top bottom : Int) :
    registerSpan cfg s pPlane height picHandle viewX rightX light top bottom =
      if top ≤ bottom then
        (lookupPlane cfg s pPlane height picHandle viewX rightX light).andThen fun s1 p =>
          .done (setPlaneCol s1 p viewX { top := toU16 top, bottom := toU16 bottom }) p
      else .done s pPlane :=
  rfl

/-- The list `registerSpanWrites` is what a registration that returns assigns: nothing for an
empty span, and else the one assignment after which the globals are those it returns. -/
theorem registerSpanWrites_done {F : Type} [FloatLike F] (cfg : RendererConsts F)
    (s : RenderState F) (pPlane : Nat) (height : F) (picHandle : Nat) (viewX rightX : Int)
    (light : Nat) (top bottom : Int) (t : RenderState F) (p : Nat)
    (h : registerSpan cfg s pPlane height picHandle viewX rightX light top bottom =
      .done t p) :
    (¬ top ≤ bottom ∧ t = s ∧
      registerSpanWrites cfg s pPlane height picHandle viewX rightX light top bottom = []) ∨
    (top ≤ bottom ∧ ∃ s1,
      registerSpanWrites cfg s pPlane height picHandle viewX rightX light top bottom =
        [{ before := s1, record := p, column := viewX, top := top, bottom := bottom }] ∧
      t = setPlaneCol s1 p viewX { top := toU16 top, bottom := toU16 bottom }) := by
  rw [registerSpan_eq_lookup] at h
  unfold registerSpanWrites
  by_cases hspan : top ≤ bottom
  · rw [if_pos hspan] at h ⊢
    right
    refine ⟨hspan, ?_⟩
    cases hl : lookupPlane cfg s pPlane height picHandle viewX rightX light with
    | fatal msg s1 =>
      rw [hl] at h
      cases h
    | done s1 q =>
      rw [hl] at h
      simp only [Outcome.andThen] at h
      injection h with h1 h2
      subst h2
      exact ⟨s1, rfl, h1.symm⟩
  · rw [if_neg hspan] at h ⊢
    left
    injection h with h1 h2
    exact ⟨hspan, h1.symm, rfl⟩

theorem definedKept_refl {F : Type} (s : RenderState F) : DefinedKept s s :=
  ⟨le_refl _, fun _ _ _ _ => rfl⟩

theorem definedKept_defined {F : Type} {s t : RenderState F} (h : DefinedKept s t) (i : Nat)
    (hi : i < s.gpEndVisPlane) (x : Int)
    (hd : ((s.gVisPlanes i).cols x).isDefined = true) :
    ((t.gVisPlanes i).cols x).isDefined = true := by
  rw [h.2 i hi x hd]
  exact hd

theorem writeOk_defined {F : Type} {s : RenderState F} {w : SpanWrite F} (h : WriteOk s w) :
    ({ top := toU16 w.top, bottom := toU16 w.bottom } : ScreenYPair).isDefined = true := by
  unfold ScreenYPair.isDefined
  rw [span_isUndefined_eq_false w.top w.bottom h.topNonneg h.ordered
    (by have := h.bottomLt; have := h.height16; omega)]
  rfl

theorem definedKept_trans {F : Type} {s t u : RenderState F} (h1 : DefinedKept s t)
    (h2 : DefinedKept t u) : DefinedKept s u :=
  ⟨le_trans h1.1 h2.1, fun i hi x hx =>
    (h2.2 i (lt_of_lt_of_le hi h1.1) x (definedKept_defined h1 i hi x hx)).trans
      (h1.2 i hi x hx)⟩

theorem writeOk_of_later {F : Type} {s t : RenderState F} {w : SpanWrite F}
    (h : DefinedKept s t) (hH : t.gScreenHeight = s.gScreenHeight) (hw : WriteOk t w) :
    WriteOk s w :=
  { topNonneg := hw.topNonneg, ordered := hw.ordered, bottomLt := hw.bottomLt
    height16 := hw.height16, height := hw.height.trans hH, free := hw.free
    inPool := hw.inPool
    later := definedKept_trans h hw.later }

theorem writesOk_nil {F : Type} (s : RenderState F) : WritesOk s s [] :=
  { each := fun w hw => (by cases hw), distinct := List.Pairwise.nil
    kept := definedKept_refl s, height := rfl, stored := fun w hw => (by cases hw) }

/-- A run that writes nothing but moves on to a later state. -/
theorem writesOk_of_kept {F : Type} {s t : RenderState F} (h : DefinedKept s t)
    (hH : t.gScreenHeight = s.gScreenHeight) : WritesOk s t [] :=
  { each := fun w hw => (by cases hw), distinct := List.Pairwise.nil
    kept := h, height := hH, stored := fun w hw => (by cases hw) }

/-- Two runs in a row. -/
theorem writesOk_append {F : Type} {s t u : RenderState F} {ws1 ws2 : List (SpanWrite F)}
    (h1 : WritesOk s t ws1) (h2 : WritesOk t u ws2) : WritesOk s u (ws1 ++ ws2) := by
  refine
    { each := ?_, distinct := ?_, kept := definedKept_trans h1.kept h2.kept
      height := h2.height.trans h1.height, stored := ?_ }
  · intro w hw
    rcases List.mem_append.1 hw with hw | hw
    · exact h1.each w hw
    · exact writeOk_of_later h1.kept h1.height (h2.each w hw)
  · rw [List.pairwise_append]
    refine ⟨h1.distinct, h2.distinct, ?_⟩
    intro a ha b hb hab
    obtain ⟨a1, a2⟩ := h1.stored a ha
    have hb' := h2.each b hb
    have hdef := definedKept_defined hb'.later a.record a1 a.column
      (by rw [a2]; exact writeOk_defined (h1.each a ha))
    rw [hab.1, hab.2] at hdef
    have hfree := hb'.free
    unfold ScreenYPair.isDefined at hdef
    rw [hfree] at hdef
    cases hdef
  · intro w hw
    rcases List.mem_append.1 hw with hw | hw
    · obtain ⟨a1, a2⟩ := h1.stored w hw
      refine ⟨lt_of_lt_of_le a1 h2.kept.1, ?_⟩
      rw [h2.kept.2 w.record a1 w.column
        (by rw [a2]; exact writeOk_defined (h1.each w hw)), a2]
    · exact h2.stored w hw

/-- A state that differs from one with the invariant in the plane table and the pool count
alone has the invariant when its pool and its extents are in order. -/
theorem spanInv_of_sameFrame {F : Type} {s t : RenderState F} (h : SpanInv s)
    (hf : SameFrame s t) (hpool : 1 ≤ t.gpEndVisPlane) (hext : SpansInExtent t)
    (hvalid : SpansValid t) : SpanInv t :=
  { pool := hpool
    width8 := by rw [hf.width]; exact h.width8
    height16 := by rw [hf.height]; exact h.height16
    clip := fun x h0 h1 =>
      clipInRange_congr (h.clip x h0 (by rw [← hf.width]; exact h1)) hf.height
        (by rw [hf.clipTop]) (by rw [hf.clipBottom])
    extent := hext
    valid := hvalid }

/-- The lookup before a span assignment keeps the invariant of the frame and the plane
pointers in order, loses no defined span, and ends on a record of the pool whose extent holds
the column and whose span at the column is undefined. -/
theorem lookupPlane_spans {F : Type} [FloatLike F] (cfg : RendererConsts F)
    (seg : viswall_t F) (s : RenderState F) (pPlane : Nat) (height : F) (picHandle : Nat)
    (viewX : Int) (light : Nat) (hinv : SpanInv s) (hp : PtrOk seg viewX s pPlane)
    (hx0 : 0 ≤ viewX) (hx1 : viewX < (s.gScreenWidth : Int)) :
    SpanInv (lookupPlane cfg s pPlane height picHandle viewX seg.rightX light).finalState ∧
    DefinedKept s
      (lookupPlane cfg s pPlane height picHandle viewX seg.rightX light).finalState ∧
    SameFrame s (lookupPlane cfg s pPlane height picHandle viewX seg.rightX light).finalState ∧
    (∀ q, PtrOk seg viewX s q →
      PtrOk seg viewX
        (lookupPlane cfg s pPlane height picHandle viewX seg.rightX light).finalState q) ∧
    (∀ t p, lookupPlane cfg s pPlane height picHandle viewX seg.rightX light = .done t p →
      PtrOk seg viewX t p ∧ ((t.gVisPlanes p).cols viewX).isUndefined = true) := by
  unfold lookupPlane
  by_cases hdef : ((s.gVisPlanes pPlane).cols viewX).isDefined = true
  swap
  · rw [if_neg hdef]
    refine ⟨hinv, definedKept_refl s, sameFrame_refl s, fun q hq => hq, ?_⟩
    intro t p h
    injection h with hs hp'
    subst hs; subst hp'
    exact ⟨hp, (isDefined_eq_false_iff _).1 (by simpa using hdef)⟩
  rw [if_pos hdef]
  rcases findPlane_cases cfg s pPlane height picHandle viewX seg.rightX light with
    ⟨j, h1, h2, h3, _, h5⟩ | ⟨_, h5⟩
  · -- a record of the pool matches and is widened
    rw [h5]
    obtain ⟨hc, _, _, _⟩ := widenPlane_rest (s.gVisPlanes j) viewX seg.rightX
    have hmin := widenPlane_minX (s.gVisPlanes j) viewX seg.rightX
    have hmax := widenPlane_maxX (s.gVisPlanes j) viewX seg.rightX
    have hrec : ∀ i, (Function.update s.gVisPlanes j
        (widenPlane (s.gVisPlanes j) viewX seg.rightX) i).cols = (s.gVisPlanes i).cols := by
      intro i
      by_cases hi : i = j
      · subst hi; rw [Function.update_same, hc]
      · rw [Function.update_noteq hi]
    have hlo : ∀ i, (Function.update s.gVisPlanes j
        (widenPlane (s.gVisPlanes j) viewX seg.rightX) i).minX ≤ (s.gVisPlanes i).minX := by
      intro i
      by_cases hi : i = j
      · subst hi; rw [Function.update_same, hmin]; exact min_le_left _ _
      · rw [Function.update_noteq hi]
    have hhi : ∀ i, (s.gVisPlanes i).maxX ≤ (Function.update s.gVisPlanes j
        (widenPlane (s.gVisPlanes j) viewX seg.rightX) i).maxX := by
      intro i
      by_cases hi : i = j
      · subst hi; rw [Function.update_same, hmax]; exact le_max_left _ _
      · rw [Function.update_noteq hi]
    refine ⟨?_, ?_, ⟨rfl, rfl, rfl, rfl, rfl, rfl, rfl⟩, ?_, ?_⟩
    · refine spanInv_of_sameFrame hinv ⟨rfl, rfl, rfl, rfl, rfl, rfl, rfl⟩ hinv.pool ?_ ?_
      · intro i hi1 hi2 x hx0' hx1' hd
        have hd' : ((s.gVisPlanes i).cols x).isDefined = true := by
          have := hrec i
          simp only [Outcome.finalState] at hd
          rw [this] at hd
          exact hd
        obtain ⟨a, b⟩ := hinv.extent i hi1 hi2 x hx0' hx1' hd'
        exact ⟨le_trans (hlo i) a, le_trans b (hhi i)⟩
      · intro i hi1 hi2 x hx0' hx1' hd
        simp only [Outcome.finalState] at hd ⊢
        rw [hrec i] at hd ⊢
        exact hinv.valid i hi1 hi2 x hx0' hx1' hd
    · refine ⟨le_refl _, fun i _ x _ => ?_⟩
      simp only [Outcome.finalState]
      rw [hrec i]
    · intro q hq
      refine ⟨hq.inPool, fun hq0 => ?_⟩
      obtain ⟨a, b⟩ := hq.extent hq0
      exact ⟨le_trans (hlo q) a, le_trans b (hhi q)⟩
    · intro t p h
      injection h with hs hp'
      subst hs; subst hp'
      refine ⟨⟨h2, fun _ => ?_⟩, ?_⟩
      · simp only [Function.update_same]
        rw [hmin, hmax]
        exact ⟨min_le_right _ _, le_max_right _ _⟩
      · simp only [Function.update_same]
        rw [hc]
        exact h3.2.2.2
  · by_cases hroom : s.gpEndVisPlane < cfg.MAXVISPLANES
    swap
    · rw [h5, if_neg hroom]
      exact ⟨hinv, definedKept_refl s, sameFrame_refl s, fun q hq => hq,
        fun t p h => by cases h⟩
    -- a new record is made at the pool end
    rw [h5, if_pos hroom]
    have hw : (8 : Int) * ((s.gScreenWidth / 8 : Nat) : Int) = (s.gScreenWidth : Int) := by
      obtain ⟨k, hk⟩ := hinv.width8
      rw [hk, Nat.mul_div_cancel_left k (by norm_num)]
      push_cast
      ring
    have hfill : ∀ x : Int, 0 ≤ x → x < (s.gScreenWidth : Int) →
        (fillCols (s.gVisPlanes s.gpEndVisPlane).cols 0 (s.gScreenWidth / 8) x).isDefined =
          false := by
      intro x h0 h1'
      rw [fillCols_apply, if_pos ⟨h0, by omega⟩]
      rfl
    refine ⟨?_, ?_, ⟨rfl, rfl, rfl, rfl, rfl, rfl, rfl⟩, ?_, ?_⟩
    · refine spanInv_of_sameFrame hinv ⟨rfl, rfl, rfl, rfl, rfl, rfl, rfl⟩
        (Nat.le_succ_of_le hinv.pool) ?_ ?_
      · intro i hi1 hi2 x hx0' hx1' hd
        simp only [Outcome.finalState] at hi2 hd hx1' ⊢
        by_cases hi : i = s.gpEndVisPlane
        · subst hi
          rw [Function.update_same] at hd
          simp only [] at hd
          rw [hfill x hx0' hx1'] at hd
          cases hd
        · rw [Function.update_noteq hi] at hd ⊢
          exact hinv.extent i hi1 (by omega) x hx0' hx1' hd
      · intro i hi1 hi2 x hx0' hx1' hd
        simp only [Outcome.finalState] at hi2 hd hx1' ⊢
        by_cases hi : i = s.gpEndVisPlane
        · subst hi
          rw [Function.update_same] at hd
          simp only [] at hd
          rw [hfill x hx0' hx1'] at hd
          cases hd
        · rw [Function.update_noteq hi] at hd ⊢
          exact hinv.valid i hi1 (by omega) x hx0' hx1' hd
    · refine ⟨Nat.le_succ _, fun i hi x _ => ?_⟩
      simp only [Outcome.finalState]
      rw [Function.update_noteq (by omega)]
    · intro q hq
      have hne : q ≠ s.gpEndVisPlane := by have := hq.inPool; omega
      refine ⟨Nat.lt_succ_of_lt hq.inPool, fun hq0 => ?_⟩
      simp only [Outcome.finalState]
      rw [Function.update_noteq hne]
      exact hq.extent hq0
    · intro t p h
      injection h with hs hp'
      subst hs; subst hp'
      refine ⟨⟨Nat.lt_succ_self _, fun _ => ?_⟩, ?_⟩
      · simp only [Function.update_same]
        exact ⟨le_refl _, le_refl _⟩
      · simp only [Function.update_same]
        exact (isDefined_eq_false_iff _).1 (hfill viewX hx0 hx1)

theorem setPlaneCol_extent {F : Type} (s : RenderState F) (p : Nat) (x : Int)
    (span : ScreenYPair) (q : Nat) :
    ((setPlaneCol s p x span).gVisPlanes q).minX = (s.gVisPlanes q).minX ∧
      ((setPlaneCol s p x span).gVisPlanes q).maxX = (s.gVisPlanes q).maxX := by
  by_cases hq : q = p
  · subst hq
    obtain ⟨_, _, a, b, _⟩ := setPlaneCol_same s q x span
    exact ⟨a, b⟩
  · rw [setPlaneCol_other s p x span q hq]
    exact ⟨rfl, rfl⟩

theorem setPlaneCol_cols {F : Type} (s : RenderState F) (p : Nat) (x : Int)
    (span : ScreenYPair) (q : Nat) (y : Int) (h : ¬ (q = p ∧ y = x)) :
    ((setPlaneCol s p x span).gVisPlanes q).cols y = (s.gVisPlanes q).cols y := by
  by_cases hq : q = p
  · subst hq
    exact (setPlaneCol_same s q x span).2.2.2.2 y (fun hy => h ⟨rfl, hy⟩)
  · rw [setPlaneCol_other s p x span q hq]

theorem ptrOk_setPlaneCol {F : Type} {seg : viswall_t F} {viewX : Int} {s : RenderState F}
    {q : Nat} (h : PtrOk seg viewX s q) (p : Nat) (x : Int) (span : ScreenYPair) :
    PtrOk seg viewX (setPlaneCol s p x span) q := by
  obtain ⟨a, b⟩ := setPlaneCol_extent s p x span q
  refine ⟨h.inPool, fun hq => ?_⟩
  rw [a, b]
  exact h.extent hq

/-- One registration keeps the invariant of the frame and the plane pointers in order, and
the span assignment it makes, if any, is a good one. -/
theorem registerSpan_spans {F : Type} [FloatLike F] (cfg : RendererConsts F)
    (seg : viswall_t F) (s : RenderState F) (pPlane : Nat) (height : F) (picHandle : Nat)
    (viewX : Int) (light : Nat) (top bottom : Int) (hinv : SpanInv s)
    (hp : PtrOk seg viewX s pPlane) (hx0 : 0 ≤ viewX) (hx1 : viewX < (s.gScreenWidth : Int))
    (hxr : viewX ≤ seg.rightX)
    (hvalid : top ≤ bottom → 0 ≤ top ∧ bottom ≤ (s.gScreenHeight : Int) - 1) :
    SpanInv
      (registerSpan cfg s pPlane height picHandle viewX seg.rightX light top
        bottom).finalState ∧
    WritesOk s
      (registerSpan cfg s pPlane height picHandle viewX seg.rightX light top
        bottom).finalState
      (registerSpanWrites cfg s pPlane height picHandle viewX seg.rightX light top bottom) ∧
    SameFrame s
      (registerSpan cfg s pPlane height picHandle viewX seg.rightX light top
        bottom).finalState ∧
    (∀ q, PtrOk seg viewX s q →
      PtrOk seg viewX
        (registerSpan cfg s pPlane height picHandle viewX seg.rightX light top
          bottom).finalState q) ∧
    (∀ t p, registerSpan cfg s pPlane height picHandle viewX seg.rightX light top bottom =
        .done t p → PtrOk seg viewX t p) := by
  rw [registerSpan_eq_lookup]
  unfold registerSpanWrites
  by_cases hspan : top ≤ bottom
  swap
  · rw [if_neg hspan, if_neg hspan]
    refine ⟨hinv, writesOk_nil s, sameFrame_refl s, fun q hq => hq, ?_⟩
    intro t p h
    injection h with hs hp'
    subst hs; subst hp'
    exact hp
  rw [if_pos hspan, if_pos hspan]
  obtain ⟨l1, l2, l3, l4, l5⟩ :=
    lookupPlane_spans cfg seg s pPlane height picHandle viewX light hinv hp hx0 hx1
  cases hl : lookupPlane cfg s pPlane height picHandle viewX seg.rightX light with
  | fatal msg t =>
    rw [hl] at l1 l2 l3 l4
    exact ⟨l1, writesOk_of_kept l2 l3.height, l3, l4, fun t p h => by cases h⟩
  | done t p =>
    rw [hl] at l1 l2 l3 l4
    have l1 : SpanInv t := l1
    have l2 : DefinedKept s t := l2
    have l3 : SameFrame s t := l3
    have l4 : ∀ q, PtrOk seg viewX s q → PtrOk seg viewX t q := l4
    obtain ⟨hpt, hfree⟩ := l5 t p hl
    obtain ⟨v0, v1⟩ := hvalid hspan
    have hH := l1.height16
    have hHeq : t.gScreenHeight = s.gScreenHeight := l3.height
    have hstored : ((setPlaneCol t p viewX
        { top := toU16 top, bottom := toU16 bottom }).gVisPlanes p).cols viewX =
        { top := toU16 top, bottom := toU16 bottom } := (setPlaneCol_same t p viewX _).1
    have hkept : DefinedKept t
        (setPlaneCol t p viewX { top := toU16 top, bottom := toU16 bottom }) := by
      refine ⟨le_refl _, fun i _ x hd => ?_⟩
      by_cases hix : i = p ∧ x = viewX
      · obtain ⟨rfl, rfl⟩ := hix
        unfold ScreenYPair.isDefined at hd
        rw [hfree] at hd
        cases hd
      · exact setPlaneCol_cols t p viewX _ i x hix
    show SpanInv (setPlaneCol t p viewX { top := toU16 top, bottom := toU16 bottom }) ∧
      WritesOk s (setPlaneCol t p viewX { top := toU16 top, bottom := toU16 bottom })
        [{ before := t, record := p, column := viewX, top := top, bottom := bottom }] ∧
      SameFrame s (setPlaneCol t p viewX { top := toU16 top, bottom := toU16 bottom }) ∧
      (∀ q, PtrOk seg viewX s q →
        PtrOk seg viewX (setPlaneCol t p viewX { top := toU16 top, bottom := toU16 bottom })
          q) ∧
      (∀ t' p', Outcome.done
          (setPlaneCol t p viewX { top := toU16 top, bottom := toU16 bottom }) p =
          Outcome.done t' p' → PtrOk seg viewX t' p')
    refine ⟨?_, ?_, sameFrame_trans l3 (setPlaneCol_frame t p viewX _).2,
      fun q hq => ptrOk_setPlaneCol (l4 q hq) p viewX _, ?_⟩
    · refine spanInv_of_sameFrame l1 (setPlaneCol_frame t p viewX _).2 l1.pool ?_ ?_
      · intro i hi1 hi2 x hx0' hx1' hd
        obtain ⟨a, b⟩ := setPlaneCol_extent t p viewX
          { top := toU16 top, bottom := toU16 bottom } i
        rw [a, b]
        by_cases hix : i = p ∧ x = viewX
        · obtain ⟨rfl, rfl⟩ := hix
          obtain ⟨c, d⟩ := hpt.extent (by omega)
          exact ⟨c, le_trans hxr d⟩
        · rw [setPlaneCol_cols t p viewX _ i x hix] at hd
          exact l1.extent i hi1 hi2 x hx0' hx1' hd
      · intro i hi1 hi2 x hx0' hx1' hd
        have hheight : (setPlaneCol t p viewX
            { top := toU16 top, bottom := toU16 bottom }).gScreenHeight = t.gScreenHeight :=
          (setPlaneCol_frame t p viewX _).2.height
        rw [hheight]
        by_cases hix : i = p ∧ x = viewX
        · obtain ⟨rfl, rfl⟩ := hix
          rw [hstored]
          have e1 := toU16_cast_of_range top v0 (by omega)
          have e2 := toU16_cast_of_range bottom (by omega) (by omega)
          show toU16 top ≤ toU16 bottom ∧ toU16 bottom + 1 ≤ t.gScreenHeight
          omega
        · rw [setPlaneCol_cols t p viewX _ i x hix] at hd ⊢
          exact l1.valid i hi1 hi2 x hx0' hx1' hd
    · refine
        { each := ?_, distinct := List.pairwise_singleton _ _
          kept := definedKept_trans l2 hkept
          height := (setPlaneCol_frame t p viewX _).2.height.trans hHeq, stored := ?_ }
      · intro w hw
        rw [List.mem_singleton] at hw
        subst hw
        exact
          { topNonneg := v0, ordered := hspan, bottomLt := by rw [hHeq]; exact v1
            height16 := hH, height := hHeq, free := hfree, inPool := hpt.inPool
            later := l2 }
      · intro w hw
        rw [List.mem_singleton] at hw
        subst hw
        exact ⟨hpt.inPool, hstored⟩
    · intro t' p' h
      injection h with hs hp'
      subst hs; subst hp'
      exact ptrOk_setPlaneCol hpt p viewX _

/-- The floor span of a column whose clip bounds are in range is on the screen. -/
theorem floorSpan_valid {F : Type} [FloatLike F] (s : RenderState F) (viewX : Int) (floorY : F)
    (h : ClipInRange s viewX) :
    0 ≤ floorSpanTop floorY (toI32 (s.gClipBoundTop viewX)) ∧
      floorSpanBottom (toI32 (s.gClipBoundBottom viewX)) ≤ (s.gScreenHeight : Int) - 1 := by
  unfold ClipInRange clipTopAt clipBottomAt at h
  unfold floorSpanTop floorSpanBottom
  omega

/-- The floor block of a column keeps the invariant of the frame and both plane pointers in
order, and its span assignment, if any, is a good one. -/
theorem segLoopFloorPart_spans {F : Type} [FloatLike F] (cfg : RendererConsts F)
    (seg : viswall_t F) (viewX : Int) (s : RenderState F) (v : SegLoopVars F)
    (hinv : SpanInv s) (hf : PtrOk seg viewX s v.pFloorPlane)
    (hc : PtrOk seg viewX s v.pCeilPlane) (hx0 : 0 ≤ viewX)
    (hx1 : viewX < (s.gScreenWidth : Int)) (hxr : viewX ≤ seg.rightX) :
    SpanInv (segLoopFloorPart cfg seg viewX s v).finalState ∧
    WritesOk s (segLoopFloorPart cfg seg viewX s v).finalState
      (segLoopFloorPartWrites cfg seg viewX s v) ∧
    SameFrame s (segLoopFloorPart cfg seg viewX s v).finalState ∧
    (∀ s1 v1, segLoopFloorPart cfg seg viewX s v = .done s1 v1 →
      PtrOk seg viewX s1 v1.pFloorPlane ∧ PtrOk seg viewX s1 v1.pCeilPlane) := by
  unfold segLoopFloorPart segLoopFloorPartWrites
  by_cases hbit : hasBits seg.WallActions AC_ADDFLOOR = true
  swap
  · rw [if_neg hbit, if_neg hbit]
    refine ⟨hinv, writesOk_nil s, sameFrame_refl s, ?_⟩
    intro s1 v1 h
    injection h with hs hv
    subst hs; subst hv
    exact ⟨hf, hc⟩
  rw [if_pos hbit, if_pos hbit, segLoopAddFloor_eq_registerSpan]
  obtain ⟨r1, r2, r3, r4, r5⟩ := registerSpan_spans cfg seg s v.pFloorPlane seg.floorheight
    seg.FloorPic viewX seg.seglightlevel
    (floorSpanTop v.floorY (toI32 (s.gClipBoundTop viewX)))
    (floorSpanBottom (toI32 (s.gClipBoundBottom viewX))) hinv hf hx0 hx1 hxr
    (fun _ => floorSpan_valid s viewX v.floorY (hinv.clip viewX hx0 hx1))
  cases hr : registerSpan cfg s v.pFloorPlane seg.floorheight seg.FloorPic viewX seg.rightX
      seg.seglightlevel (floorSpanTop v.floorY (toI32 (s.gClipBoundTop viewX)))
      (floorSpanBottom (toI32 (s.gClipBoundBottom viewX))) with
  | fatal msg t =>
    rw [hr] at r1 r2 r3
    exact ⟨r1, r2, r3, fun s1 v1 h => by cases h⟩
  | done t p =>
    rw [hr] at r1 r2 r3 r4
    refine ⟨r1, r2, r3, ?_⟩
    intro s1 v1 h
    injection h with hs hv
    subst hs; subst hv
    exact ⟨r5 t p hr, r4 v.pCeilPlane hc⟩

/-- The ceiling block of a column, run with clip bounds that are in range, keeps the
invariant of the frame and both plane pointers in order, and its span assignment, if any, is
a good one. -/
theorem segLoopCeilingPart_spans {F : Type} [FloatLike F] (cfg : RendererConsts F)
    (seg : viswall_t F) (viewX clipBoundTY clipBoundBY : Int) (s : RenderState F)
    (v : SegLoopVars F) (hinv : SpanInv s) (hf : PtrOk seg viewX s v.pFloorPlane)
    (hc : PtrOk seg viewX s v.pCeilPlane) (hx0 : 0 ≤ viewX)
    (hx1 : viewX < (s.gScreenWidth : Int)) (hxr : viewX ≤ seg.rightX)
    (hT : -1 ≤ clipBoundTY) (hB : clipBoundBY ≤ (s.gScreenHeight : Int)) :
    SpanInv (segLoopCeilingPart cfg seg viewX clipBoundTY clipBoundBY s v).finalState ∧
    WritesOk s (segLoopCeilingPart cfg seg viewX clipBoundTY clipBoundBY s v).finalState
      (segLoopCeilingPartWrites cfg seg viewX clipBoundTY clipBoundBY s v) ∧
    SameFrame s (segLoopCeilingPart cfg seg viewX clipBoundTY clipBoundBY s v).finalState ∧
    (∀ s1 v1, segLoopCeilingPart cfg seg viewX clipBoundTY clipBoundBY s v = .done s1 v1 →
      PtrOk seg viewX s1 v1.pFloorPlane ∧ PtrOk seg viewX s1 v1.pCeilPlane) := by
  unfold segLoopCeilingPart segLoopCeilingPartWrites
  by_cases hbit : hasBits seg.WallActions AC_ADDCEILING = true
  swap
  · rw [if_neg hbit, if_neg hbit]
    refine ⟨hinv, writesOk_nil s, sameFrame_refl s, ?_⟩
    intro s1 v1 h
    injection h with hs hv
    subst hs; subst hv
    exact ⟨hf, hc⟩
  rw [if_pos hbit, if_pos hbit, segLoopAddCeiling_eq_registerSpan]
  obtain ⟨r1, r2, r3, r4, r5⟩ := registerSpan_spans cfg seg s v.pCeilPlane seg.ceilingheight
    seg.CeilingPic viewX seg.seglightlevel (ceilSpanTop clipBoundTY)
    (ceilSpanBottom v.ceilY clipBoundBY) hinv hc hx0 hx1 hxr
    (fun _ => by unfold ceilSpanTop ceilSpanBottom; omega)
  cases hr : registerSpan cfg s v.pCeilPlane seg.ceilingheight seg.CeilingPic viewX seg.rightX
      seg.seglightlevel (ceilSpanTop clipBoundTY) (ceilSpanBottom v.ceilY clipBoundBY) with
  | fatal msg t =>
    rw [hr] at r1 r2 r3
    exact ⟨r1, r2, r3, fun s1 v1 h => by cases h⟩
  | done t p =>
    rw [hr] at r1 r2 r3 r4
    refine ⟨r1, r2, r3, ?_⟩
    intro s1 v1 h
    injection h with hs hv
    subst hs; subst hv
    exact ⟨r4 v.pFloorPlane hf, r5 t p hr⟩

/-- The facts on a run of span assignments depend on the end state through its plane table
and pool count alone. -/
theorem writesOk_of_samePlanes {F : Type} {s t u : RenderState F} {ws : List (SpanWrite F)}
    (h : WritesOk s t ws) (hp : SamePlanes t u) : WritesOk s u ws :=
  { each := h.each, distinct := h.distinct
    kept := by
      refine ⟨by rw [hp.count]; exact h.kept.1, fun i hi x hd => ?_⟩
      rw [hp.planes]
      exact h.kept.2 i hi x hd
    height := hp.height.trans h.height
    stored := fun w hw => by
      obtain ⟨a, b⟩ := h.stored w hw
      rw [hp.count, hp.planes]
      exact ⟨a, b⟩ }

theorem ptrOk_next {F : Type} {seg : viswall_t F} {viewX : Int} {s t : RenderState F}
    {p : Nat} (h : PtrOk seg viewX s p) (hp : SamePlanes s t) : PtrOk seg (viewX + 1) t p := by
  refine ⟨by rw [hp.count]; exact h.inPool, fun hp0 => ?_⟩
  rw [hp.planes]
  obtain ⟨a, b⟩ := h.extent hp0
  exact ⟨by omega, b⟩

/-- One column of `segLoop` on a column of the screen keeps the invariant of the frame, its
span assignments are good ones, and when it returns both plane pointers are in order for the
next column. -/
theorem segLoopColumn_spans {F : Type} [FloatLike F] (cfg : RendererConsts F)
    (seg : viswall_t F) (viewX : Int) (s : RenderState F) (v : SegLoopVars F)
    (hinv : SpanInv s) (hf : PtrOk seg viewX s v.pFloorPlane)
    (hc : PtrOk seg viewX s v.pCeilPlane) (hx0 : 0 ≤ viewX)
    (hx1 : viewX < (s.gScreenWidth : Int)) (hxr : viewX ≤ seg.rightX) :
    SpanInv (segLoopColumn cfg seg viewX s v).finalState ∧
    WritesOk s (segLoopColumn cfg seg viewX s v).finalState
      (segLoopColumnWrites cfg seg viewX s v) ∧
    (∀ s1 v1, segLoopColumn cfg seg viewX s v = .done s1 v1 →
      PtrOk seg (viewX + 1) s1 v1.pFloorPlane ∧ PtrOk seg (viewX + 1) s1 v1.pCeilPlane) := by
  have hclip := segLoopColumn_clip cfg seg viewX s v
  obtain ⟨f1, f2, f3, f4⟩ := segLoopFloorPart_spans cfg seg viewX s v hinv hf hc hx0 hx1 hxr
  have hcr := hinv.clip viewX hx0 hx1
  unfold ClipInRange clipTopAt clipBottomAt at hcr
  rw [segLoopColumn_eq] at hclip ⊢
  unfold segLoopColumnWrites
  cases hfl : segLoopFloorPart cfg seg viewX s v with
  | fatal msg t =>
    rw [hfl] at f1 f2
    simp only [List.append_nil]
    exact ⟨f1, f2, fun s1 v1 h => by cases h⟩
  | done s1 v1 =>
    rw [hfl] at f1 f2 f3 hclip
    have f1 : SpanInv s1 := f1
    have f2 : WritesOk s s1 (segLoopFloorPartWrites cfg seg viewX s v) := f2
    have f3 : SameFrame s s1 := f3
    obtain ⟨pf, pc⟩ := f4 s1 v1 hfl
    obtain ⟨c1, c2, c3, c4⟩ := segLoopCeilingPart_spans cfg seg viewX
      (toI32 (s.gClipBoundTop viewX)) (toI32 (s.gClipBoundBottom viewX)) s1 v1 f1 pf pc hx0
      (by rw [f3.width]; exact hx1) hxr hcr.1 (by rw [f3.height]; exact hcr.2.2.2)
    simp only [Outcome.andThen] at hclip ⊢
    cases hce : segLoopCeilingPart cfg seg viewX (toI32 (s.gClipBoundTop viewX))
        (toI32 (s.gClipBoundBottom viewX)) s1 v1 with
    | fatal msg t =>
      rw [hce] at c1 c2
      exact ⟨c1, writesOk_append f2 c2, fun s1 v1 h => by cases h⟩
    | done s2 v2 =>
      rw [hce] at c1 c2 c3 hclip
      simp only [Outcome.finalState] at hclip ⊢
      have c1 : SpanInv s2 := c1
      have c2 : WritesOk s1 s2 (segLoopCeilingPartWrites cfg seg viewX
        (toI32 (s.gClipBoundTop viewX)) (toI32 (s.gClipBoundBottom viewX)) s1 v1) := c2
      obtain ⟨qf, qc⟩ := c4 s2 v2 hce
      obtain ⟨t1, t2⟩ := segLoopColumnTail_spec seg
        (FloatLike.fmin v.columnScale cfg.MAX_RENDER_SCALE) viewX
        (toI32 (s.gClipBoundTop viewX)) (toI32 (s.gClipBoundBottom viewX)) s2 v2
      have hclip : ClipStep seg viewX viewX s
          (segLoopColumnTail seg (FloatLike.fmin v.columnScale cfg.MAX_RENDER_SCALE) viewX
            (toI32 (s.gClipBoundTop viewX)) (toI32 (s.gClipBoundBottom viewX)) s2 v2).1 :=
        hclip
      refine ⟨?_, writesOk_of_samePlanes (writesOk_append f2 c2) t1, ?_⟩
      · exact
          { pool := by rw [t1.count]; exact c1.pool
            width8 := by rw [t1.width]; exact c1.width8
            height16 := by rw [t1.height]; exact c1.height16
            clip := fun x h0 h1 =>
              (hclip.tighten (by have := hinv.height16; omega) x
                (hinv.clip x h0 (by rw [← hclip.width]; exact h1))).1
            extent := by
              intro i hi1 hi2 x h0 h1 hd
              rw [t1.count] at hi2
              rw [t1.width] at h1
              rw [t1.planes] at hd ⊢
              exact c1.extent i hi1 hi2 x h0 h1 hd
            valid := by
              intro i hi1 hi2 x h0 h1 hd
              rw [t1.count] at hi2
              rw [t1.width] at h1
              rw [t1.planes] at hd ⊢
              rw [t1.height]
              exact c1.valid i hi1 hi2 x h0 h1 hd }
      · intro s' v' h
        injection h with hs hv
        subst hs; subst hv
        rw [t2]
        exact ⟨ptrOk_next qf t1, ptrOk_next qc t1⟩

/-- A run of columns of `segLoop` on columns of the screen keeps the invariant of the frame,
and its span assignments are good ones. -/
theorem segLoopColumns_spans {F : Type} [FloatLike F] (cfg : RendererConsts F)
    (seg : viswall_t F) (n : Nat) :
    ∀ (viewX : Int) (s : RenderState F) (v : SegLoopVars F), SpanInv s →
      PtrOk seg viewX s v.pFloorPlane → PtrOk seg viewX s v.pCeilPlane → 0 ≤ viewX →
      viewX + (n : Int) ≤ (s.gScreenWidth : Int) → viewX + (n : Int) ≤ seg.rightX + 1 →
      SpanInv (segLoopColumns cfg seg n viewX s v).finalState ∧
      WritesOk s (segLoopColumns cfg seg n viewX s v).finalState
        (segLoopColumnsWrites cfg seg n viewX s v) := by
  induction n with
  | zero =>
    intro viewX s v hinv _ _ _ _ _
    exact ⟨hinv, writesOk_nil s⟩
  | succ n ih =>
    intro viewX s v hinv hf hc hx0 hw hr
    push_cast at hw hr
    obtain ⟨c1, c2, c3⟩ := segLoopColumn_spans cfg seg viewX s v hinv hf hc hx0 (by omega)
      (by omega)
    have hclip := segLoopColumn_clip cfg seg viewX s v
    rw [segLoopColumns_succ]
    unfold segLoopColumnsWrites
    cases hcol : segLoopColumn cfg seg viewX s v with
    | fatal msg t =>
      rw [hcol] at c1 c2
      simp only [List.append_nil]
      exact ⟨c1, c2⟩
    | done s1 v1 =>
      rw [hcol] at c1 c2 hclip
      have c1 : SpanInv s1 := c1
      have c2 : WritesOk s s1 (segLoopColumnWrites cfg seg viewX s v) := c2
      have hwidth : s1.gScreenWidth = s.gScreenWidth := hclip.width
      obtain ⟨pf, pc⟩ := c3 s1 v1 hcol
      obtain ⟨i1, i2⟩ := ih (viewX + 1) s1 v1 c1 pf pc (by omega) (by rw [hwidth]; omega)
        (by omega)
      exact ⟨i1, writesOk_append c2 i2⟩

/-- One call of `segLoop` on a segment whose columns are columns of the screen keeps the
invariant of the frame, and its span assignments are good ones. -/
theorem segLoop_spans {F : Type} [FloatLike F] (cfg : RendererConsts F) (s : RenderState F)
    (seg : viswall_t F) (uninit : SegLoopVars F) (hinv : SpanInv s) (h0 : 0 ≤ seg.leftX)
    (h1 : seg.rightX < (s.gScreenWidth : Int)) :
    SpanInv (segLoop cfg s seg uninit).finalState ∧
    WritesOk s (segLoop cfg s seg uninit).finalState (segLoopWrites cfg s seg uninit) := by
  have hfin : (segLoop cfg s seg uninit).finalState =
      (segLoopColumns cfg seg (seg.rightX - seg.leftX + 1).toNat seg.leftX s
        (segLoopSetup s seg uninit)).finalState := by
    unfold segLoop
    cases segLoopColumns cfg seg (seg.rightX - seg.leftX + 1).toNat seg.leftX s
      (segLoopSetup s seg uninit) <;> rfl
  rw [hfin]
  unfold segLoopWrites
  by_cases hle : seg.leftX ≤ seg.rightX
  · have hp : PtrOk seg seg.leftX s 0 := ⟨hinv.pool, fun h => absurd rfl h⟩
    exact segLoopColumns_spans cfg seg _ seg.leftX s (segLoopSetup s seg uninit) hinv hp hp h0
      (by omega) (by omega)
  · have e : (seg.rightX - seg.leftX + 1).toNat = 0 := by omega
    rw [e]
    exact ⟨hinv, writesOk_nil s⟩

/-- A sequence of `segLoop` calls on segments whose columns are columns of the screen keeps
the invariant of the frame, and its span assignments are good ones. -/
theorem segLoopPass_spans {F : Type} [FloatLike F] (cfg : RendererConsts F)
    (calls : List (viswall_t F × SegLoopVars F)) :
    ∀ s : RenderState F, SpanInv s →
      (∀ call ∈ calls, 0 ≤ call.1.leftX ∧ call.1.rightX < (s.gScreenWidth : Int)) →
      SpanInv (segLoopPass cfg calls s).finalState ∧
      WritesOk s (segLoopPass cfg calls s).finalState (segLoopPassWrites cfg calls s) := by
  induction calls with
  | nil => intro s hinv _; exact ⟨hinv, writesOk_nil s⟩
  | cons call rest ih =>
    intro s hinv hsegs
    obtain ⟨h0, h1⟩ := hsegs call (List.mem_cons_self _ _)
    obtain ⟨c1, c2⟩ := segLoop_spans cfg s call.1 call.2 hinv h0 h1
    have hclip := segLoop_clip cfg s call.1 call.2
    unfold segLoopPass segLoopPassWrites
    cases hseg : segLoop cfg s call.1 call.2 with
    | fatal msg t =>
      rw [hseg] at c1 c2
      simp only [List.append_nil]
      exact ⟨c1, c2⟩
    | done s1 a =>
      rw [hseg] at c1 c2 hclip
      have c1 : SpanInv s1 := c1
      have c2 : WritesOk s s1 (segLoopWrites cfg s call.1 call.2) := c2
      have hwidth : s1.gScreenWidth = s.gScreenWidth := hclip.width
      obtain ⟨i1, i2⟩ := ih s1 c1 (fun c hc => by
        rw [hwidth]
        exact hsegs c (List.mem_cons_of_mem _ hc))
      exact ⟨i1, writesOk_append c2 i2⟩

/-- The globals after the reset of the frame have the invariant: the pool holds record 0
alone and the clip bounds were reset. -/
theorem spanInv_reset {F : Type} (s : RenderState F) (hpool : s.gpEndVisPlane = 1)
    (hW : 8 ∣ s.gScreenWidth) (hH : s.gScreenHeight ≤ 65535) :
    SpanInv (resetClipBounds s) := by
  obtain ⟨a1, a2, -⟩ := resetClipBounds_spec s (by omega)
  obtain ⟨-, -, -, -, b5, -, -, -, -⟩ := resetClipLoop_spec s.gScreenWidth 0 s
  have hcount : (resetClipBounds s).gpEndVisPlane = 1 := b5.trans hpool
  refine
    { pool := by rw [hcount]
      width8 := by rw [a1]; exact hW
      height16 := by rw [a2]; exact hH
      clip := fun x h0 h1 => resetClipBounds_inRange s (by omega) x h0 (by rw [← a1]; exact h1)
      extent := ?_
      valid := ?_ }
  · intro i hi1 hi2
    rw [hcount] at hi2
    omega
  · intro i hi1 hi2
    rw [hcount] at hi2
    omega

/-- The facts on the span assignments of a frame: from the reset of a frame whose pool holds
record 0 alone, on a screen whose width is a multiple of 8 and whose height fits 16 bits, a
sequence of `segLoop` calls on segments of screen columns keeps the invariant and makes good
span assignments only. -/
theorem frame_spans {F : Type} [FloatLike F] (cfg : RendererConsts F) (s0 : RenderState F)
    (calls : List (viswall_t F × SegLoopVars F)) (hpool : s0.gpEndVisPlane = 1)
    (hW : 8 ∣ s0.gScreenWidth) (hH : s0.gScreenHeight ≤ 65535)
    (hsegs : ∀ call ∈ calls, 0 ≤ call.1.leftX ∧ call.1.rightX < (s0.gScreenWidth : Int)) :
    SpanInv (segLoopPass cfg calls (resetClipBounds s0)).finalState ∧
    WritesOk (resetClipBounds s0) (segLoopPass cfg calls (resetClipBounds s0)).finalState
      (segLoopPassWrites cfg calls (resetClipBounds s0)) := by
  obtain ⟨a1, -, -⟩ := resetClipBounds_spec s0 (by omega)
  exact segLoopPass_spans cfg calls (resetClipBounds s0) (spanInv_reset s0 hpool hW hH)
    (fun call hc => by rw [a1]; exact hsegs call hc)

theorem headD_mem {α : Type} (l : List α) (d : α) (h : 0 < l.length) : l.headD d ∈ l := by
  cases l with
  | nil => cases h
  | cons a l => exact List.mem_cons_self a l

theorem getD_mem {α : Type} (l : List α) (n : Nat) (d : α) (h : n < l.length) :
    l.getD n d ∈ l := by
  rw [List.getD_eq_getElem l d h]
  exact List.getElem_mem h

/-- C32: after the per-frame reset (the pool holds record 0 alone, the clip bounds are reset)
and any sequence of `segLoop` calls on segments with `0 <= leftX` and `rightX < screenWidth`,
whether the sequence returns or ends in the fatal stop, every real plane record `i >= 1` of
the pool and every column `x` of the screen whose span in that record is defined satisfy
`minX <= x <= maxX`. The screen width is a multiple of 8 and the height fits 16 bits, as for
each of the six screen sizes. -/
theorem plane_spans_inside_extent {F : Type} [FloatLike F] (cfg : RendererConsts F)
    (s0 : RenderState F) (calls : List (viswall_t F × SegLoopVars F))
    (hpool : s0.gpEndVisPlane = 1) (hW : 8 ∣ s0.gScreenWidth)
    (hH : s0.gScreenHeight ≤ 65535)
    (hsegs : ∀ call ∈ calls, 0 ≤ call.1.leftX ∧ call.1.rightX < (s0.gScreenWidth : Int))
    (i : Nat) (hi1 : 1 ≤ i)
    (hi2 : i < (segLoopPass cfg calls (resetClipBounds s0)).finalState.gpEndVisPlane)
    (x : Int) (hx0 : 0 ≤ x) (hx1 : x < (s0.gScreenWidth : Int))
    (hdef : (((segLoopPass cfg calls (resetClipBounds s0)).finalState.gVisPlanes i).cols
      x).isDefined = true) :
    ((segLoopPass cfg calls (resetClipBounds s0)).finalState.gVisPlanes i).minX ≤ x ∧
    x ≤ ((segLoopPass cfg calls (resetClipBounds s0)).finalState.gVisPlanes i).maxX := by
  obtain ⟨hinv, -⟩ := frame_spans cfg s0 calls hpool hW hH hsegs
  obtain ⟨a1, -, -⟩ := resetClipBounds_spec s0 (by omega)
  obtain ⟨p1, -, -⟩ := segLoopPass_clip cfg calls (resetClipBounds s0)
  exact hinv.extent i hi1 hi2 x hx0 (by rw [p1, a1]; exact hx1) hdef

set_option maxRecDepth 100000 in
/-- Witness for C32: after `segLoop` on `floorSeg` from the reset of the fresh 160 x 96 frame
the span of record 1 at column 2 is defined, and 2 lies in the extent 0..3 of record 1. -/
theorem plane_spans_inside_extent_witness :
    freshState.gpEndVisPlane = 1 ∧ 8 ∣ freshState.gScreenWidth ∧
    freshState.gScreenHeight ≤ 65535 ∧
    (0 ≤ floorSeg.leftX ∧ floorSeg.rightX < (freshState.gScreenWidth : Int)) ∧
    1 < (segLoopPass sampleConsts [(floorSeg, zeroVars)]
      (resetClipBounds freshState)).finalState.gpEndVisPlane ∧
    (((segLoopPass sampleConsts [(floorSeg, zeroVars)]
      (resetClipBounds freshState)).finalState.gVisPlanes 1).cols 2).isDefined = true ∧
    ((segLoopPass sampleConsts [(floorSeg, zeroVars)]
      (resetClipBounds freshState)).finalState.gVisPlanes 1).minX ≤ 2 ∧
    2 ≤ ((segLoopPass sampleConsts [(floorSeg, zeroVars)]
      (resetClipBounds freshState)).finalState.gVisPlanes 1).maxX :=
  ⟨rfl, by decide, by decide, by decide, by decide, by decide,
    plane_spans_inside_extent sampleConsts freshState [(floorSeg, zeroVars)] rfl (by decide)
      (by decide) (fun call hc => by rw [List.mem_singleton] at hc; subst hc; decide)
      1 (le_refl 1) (by decide) 2 (by decide) (by decide) (by decide)⟩

/-- C33: from the per-frame reset on, every floor or ceiling span `(top, bottom)` that a
sequence of `segLoop` calls on segments of screen columns stores satisfies
`0 <= top <= bottom <= screenHeight - 1`; the conversions of `top` and `bottom` to `uint16_t`
keep their values, and the plane table at the end of the sequence holds, at the record and
column of the assignment, the pair `{ (uint16_t) top, (uint16_t) bottom }`, which is not the
undefined one. Read off the plane table alone: every defined span of a real record of the
pool at a column of the screen has `top <= bottom <= screenHeight - 1`. The screen width is a
multiple of 8 and the height fits 16 bits, as for each of the six screen sizes. -/
theorem stored_spans_valid {F : Type} [FloatLike F] (cfg : RendererConsts F)
    (s0 : RenderState F) (calls : List (viswall_t F × SegLoopVars F))
    (hpool : s0.gpEndVisPlane = 1) (hW : 8 ∣ s0.gScreenWidth)
    (hH : s0.gScreenHeight ≤ 65535)
    (hsegs : ∀ call ∈ calls, 0 ≤ call.1.leftX ∧ call.1.rightX < (s0.gScreenWidth : Int)) :
    (∀ w ∈ segLoopPassWrites cfg calls (resetClipBounds s0),
      0 ≤ w.top ∧ w.top ≤ w.bottom ∧ w.bottom ≤ (s0.gScreenHeight : Int) - 1 ∧
      ((toU16 w.top : Nat) : Int) = w.top ∧ ((toU16 w.bottom : Nat) : Int) = w.bottom ∧
      toU16 w.top ≠ UINT16_MAX ∧
      ((segLoopPass cfg calls (resetClipBounds s0)).finalState.gVisPlanes w.record).cols
          w.column = { top := toU16 w.top, bottom := toU16 w.bottom } ∧
      (((segLoopPass cfg calls (resetClipBounds s0)).finalState.gVisPlanes w.record).cols
          w.column).isUndefined = false) ∧
    (∀ i, 1 ≤ i → i < (segLoopPass cfg calls (resetClipBounds s0)).finalState.gpEndVisPlane →
      ∀ x : Int, 0 ≤ x → x < (s0.gScreenWidth : Int) →
      (((segLoopPass cfg calls (resetClipBounds s0)).finalState.gVisPlanes i).cols
          x).isDefined = true →
      (((segLoopPass cfg calls (resetClipBounds s0)).finalState.gVisPlanes i).cols x).top ≤
        (((segLoopPass cfg calls (resetClipBounds s0)).finalState.gVisPlanes i).cols
          x).bottom ∧
      (((segLoopPass cfg calls (resetClipBounds s0)).finalState.gVisPlanes i).cols
          x).bottom + 1 ≤ s0.gScreenHeight) := by
  obtain ⟨hinv, hws⟩ := frame_spans cfg s0 calls hpool hW hH hsegs
  obtain ⟨a1, a2, -⟩ := resetClipBounds_spec s0 (by omega)
  obtain ⟨p1, p2, -⟩ := segLoopPass_clip cfg calls (resetClipBounds s0)
  refine ⟨fun w hw => ?_, fun i hi1 hi2 x hx0 hx1 hdef => ?_⟩
  · have h := hws.each w hw
    have hb : w.bottom ≤ (s0.gScreenHeight : Int) - 1 := by
      have := h.bottomLt
      rw [h.height, a2] at this
      exact this
    have h0 := h.topNonneg
    have h1 := h.ordered
    have ht := toU16_cast_of_range w.top h0 (by omega)
    have hund := span_isUndefined_eq_false w.top w.bottom h0 h1 (by omega)
    refine ⟨h0, h1, hb, ht, toU16_cast_of_range w.bottom (by omega) (by omega), ?_,
      (hws.stored w hw).2, by rw [(hws.stored w hw).2]; exact hund⟩
    intro hmax
    rw [hmax] at ht
    unfold UINT16_MAX at ht
    omega
  · have h := hinv.valid i hi1 hi2 x hx0 (by rw [p1, a1]; exact hx1) hdef
    rw [p2, a2] at h
    exact h

set_option maxRecDepth 100000 in
/-- Witness for C33: the first span that `segLoop` stores for `floorSeg` on the fresh
160 x 96 frame is (38, 95), in record 1 at column 0, and the plane table holds it there at
the end. -/
theorem stored_spans_valid_witness :
    freshState.gpEndVisPlane = 1 ∧ 8 ∣ freshState.gScreenWidth ∧
    freshState.gScreenHeight ≤ 65535 ∧
    (0 ≤ floorSeg.leftX ∧ floorSeg.rightX < (freshState.gScreenWidth : Int)) ∧
    firstFloorWrite ∈ floorSegWrites ∧
    firstFloorWrite.record = 1 ∧ firstFloorWrite.column = 0 ∧
    firstFloorWrite.top = 38 ∧ firstFloorWrite.bottom = 95 ∧
    (0 ≤ firstFloorWrite.top ∧ firstFloorWrite.top ≤ firstFloorWrite.bottom ∧
      firstFloorWrite.bottom ≤ (freshState.gScreenHeight : Int) - 1 ∧
      ((toU16 firstFloorWrite.top : Nat) : Int) = firstFloorWrite.top ∧
      ((toU16 firstFloorWrite.bottom : Nat) : Int) = firstFloorWrite.bottom ∧
      toU16 firstFloorWrite.top ≠ UINT16_MAX ∧
      ((segLoopPass sampleConsts [(floorSeg, zeroVars)]
          (resetClipBounds freshState)).finalState.gVisPlanes firstFloorWrite.record).cols
          firstFloorWrite.column =
        { top := toU16 firstFloorWrite.top, bottom := toU16 firstFloorWrite.bottom } ∧
      (((segLoopPass sampleConsts [(floorSeg, zeroVars)]
          (resetClipBounds freshState)).finalState.gVisPlanes firstFloorWrite.record).cols
          firstFloorWrite.column).isUndefined = false) ∧
    (((segLoopPass sampleConsts [(floorSeg, zeroVars)]
        (resetClipBounds freshState)).finalState.gVisPlanes 1).cols 0).top ≤
      (((segLoopPass sampleConsts [(floorSeg, zeroVars)]
        (resetClipBounds freshState)).finalState.gVisPlanes 1).cols 0).bottom ∧
    (((segLoopPass sampleConsts [(floorSeg, zeroVars)]
        (resetClipBounds freshState)).finalState.gVisPlanes 1).cols 0).bottom + 1 ≤
      freshState.gScreenHeight :=
  ⟨rfl, by decide, by decide, by decide, headD_mem floorSegWrites _ (by decide), by decide,
    by decide, by decide, by decide,
    (stored_spans_valid sampleConsts freshState [(floorSeg, zeroVars)] rfl (by decide)
      (by decide) (fun call hc => by rw [List.mem_singleton] at hc; subst hc; decide)).1
      firstFloorWrite (headD_mem floorSegWrites _ (by decide)),
    (stored_spans_valid sampleConsts freshState [(floorSeg, zeroVars)] rfl (by decide)
      (by decide) (fun call hc => by rw [List.mem_singleton] at hc; subst hc; decide)).2
      1 (le_refl 1) (by decide) 0 (by decide) (by decide) (by decide)⟩

/-- C34: within one frame (from the per-frame reset, for any sequence of `segLoop` calls on
segments of screen columns, whatever record 0 holds), every span assignment goes to a
record of the pool and to a column whose span in that record is undefined right before the
assignment, and no two assignments of the frame go to the same record and column. The
screen width is a multiple of 8 and the height fits 16 bits, as for each of the six screen
sizes. -/
theorem spans_assigned_once {F : Type} [FloatLike F] (cfg : RendererConsts F)
    (s0 : RenderState F) (calls : List (viswall_t F × SegLoopVars F))
    (hpool : s0.gpEndVisPlane = 1) (hW : 8 ∣ s0.gScreenWidth)
    (hH : s0.gScreenHeight ≤ 65535)
    (hsegs : ∀ call ∈ calls, 0 ≤ call.1.leftX ∧ call.1.rightX < (s0.gScreenWidth : Int)) :
    (∀ w ∈ segLoopPassWrites cfg calls (resetClipBounds s0),
      w.record < w.before.gpEndVisPlane ∧
      ((w.before.gVisPlanes w.record).cols w.column).isUndefined = true) ∧
    (segLoopPassWrites cfg calls (resetClipBounds s0)).Pairwise
      (fun a b => ¬ (a.record = b.record ∧ a.column = b.column)) := by
  obtain ⟨-, hws⟩ := frame_spans cfg s0 calls hpool hW hH hsegs
  exact ⟨fun w hw => ⟨(hws.each w hw).inPool, (hws.each w hw).free⟩, hws.distinct⟩

set_option maxRecDepth 100000 in
/-- Witness for C34: `segLoop` on `ceilSeg` from the reset of the fresh 160 x 96 frame makes
four span assignments; the last goes to record 1 and column 3, whose span is undefined right
before, and no two of the four go to the same record and column. -/
theorem spans_assigned_once_witness :
    freshState.gpEndVisPlane = 1 ∧ 8 ∣ freshState.gScreenWidth ∧
    freshState.gScreenHeight ≤ 65535 ∧
    (0 ≤ ceilSeg.leftX ∧ ceilSeg.rightX < (freshState.gScreenWidth : Int)) ∧
    ceilSegWrites.length = 4 ∧ lastCeilWrite ∈ ceilSegWrites ∧
    lastCeilWrite.record = 1 ∧ lastCeilWrite.column = 3 ∧
    lastCeilWrite.top = 0 ∧ lastCeilWrite.bottom = 37 ∧
    (lastCeilWrite.record < lastCeilWrite.before.gpEndVisPlane ∧
      ((lastCeilWrite.before.gVisPlanes lastCeilWrite.record).cols
        lastCeilWrite.column).isUndefined = true) ∧
    ceilSegWrites.Pairwise (fun a b => ¬ (a.record = b.record ∧ a.column = b.column)) :=
  ⟨rfl, by decide, by decide, by decide, by decide, getD_mem ceilSegWrites 3 _ (by decide),
    by decide, by decide, by decide, by decide,
    (spans_assigned_once sampleConsts freshState [(ceilSeg, zeroVars)] rfl (by decide)
      (by decide) (fun call hc => by rw [List.mem_singleton] at hc; subst hc; decide)).1
      lastCeilWrite (getD_mem ceilSegWrites 3 _ (by decide)),
    (spans_assigned_once sampleConsts freshState [(ceilSeg, zeroVars)] rfl (by decide)
      (by decide) (fun call hc => by rw [List.mem_singleton] at hc; subst hc; decide)).2⟩

/-! ## SDX2 decoding -/

theorem toI8_range (n : Nat) : -128 ≤ toI8 n ∧ toI8 n ≤ 127 := by
  unfold toI8
  split_ifs <;> omega

theorem toI16_of_range (x : Int) (h0 : -32768 ≤ x) (h1 : x ≤ 32767) : toI16 x = x := by
  unfold toI16
  omega

/-- The square of an `int8_t` with its sign, doubled, fits `int16_t`. -/
theorem sdx2_square_range (s : Int) (h0 : -128 ≤ s) (h1 : s ≤ 127) :
    -32768 ≤ 2 * s * |s| ∧ 2 * s * |s| ≤ 32767 := by
  rcases abs_cases s with ⟨ha, _⟩ | ⟨ha, _⟩
  · rw [ha]; constructor <;> nlinarith
  · rw [ha]; constructor <;> nlinarith

/-- The value of `sample8 & int8_t(0x01)`: 1 for an odd sample, 0 for an even one. -/
theorem sdx2_low_bit (s : Int) :
    ((toU32 s &&& toU32 (toI8 1) : Nat) : Int) = if s % 2 = 1 then 1 else 0 := by
  have e1 : toU32 (toI8 1) = 2 ^ 1 - 1 := by decide
  rw [e1, Nat.and_pow_two_sub_one_eq_mod]
  unfold toU32
  split_ifs <;> omega

theorem sdx2MonoSample_eq (prevSample : Int) (byte : Nat) :
    sdx2MonoSample prevSample byte =
      toI16 (2 * toI8 byte * |toI8 byte| +
        (if toI8 byte % 2 = 1 then prevSample else 0)) := by
  obtain ⟨h0, h1⟩ := toI8_range byte
  obtain ⟨r0, r1⟩ := sdx2_square_range (toI8 byte) h0 h1
  have ha : toI16 |toI8 byte| = |toI8 byte| := by
    apply toI16_of_range
    · have := abs_nonneg (toI8 byte); omega
    · rcases abs_cases (toI8 byte) with ⟨ha, _⟩ | ⟨ha, _⟩ <;> omega
  unfold sdx2MonoSample
  simp only []
  rw [ha, sdx2_low_bit,
    show toI8 byte * |toI8 byte| * 2 ^ 1 = 2 * toI8 byte * |toI8 byte| by ring,
    toI16_of_range _ r0 r1]
  split_ifs
  · rw [toI16_of_range 1 (by norm_num) (by norm_num), mul_one]
  · rw [toI16_of_range 0 (by norm_num) (by norm_num), mul_zero]

theorem sdx2StereoSample_eq_mono (prevSample : Int) (byte : Nat) :
    sdx2StereoSample prevSample byte = sdx2MonoSample prevSample byte := by
  unfold sdx2StereoSample sdx2MonoSample
  norm_num

/-- The single-channel loop writes `n` samples: the first is made from the input byte at `i`
and `prevSample`, each later one from its input byte and the sample before it. -/
theorem sdx2MonoLoop_spec (pInput : Nat → Nat) (n : Nat) :
    ∀ (i : Nat) (prevSample : Int),
      (sdx2MonoLoop pInput n i prevSample).length = n ∧
      ∀ k, k < n →
        (sdx2MonoLoop pInput n i prevSample).getD k 0 =
          sdx2MonoSample
            (if k = 0 then prevSample else (sdx2MonoLoop pInput n i prevSample).getD (k - 1) 0)
            (pInput (i + k)) := by
  induction n with
  | zero => intro i prevSample; exact ⟨rfl, fun k hk => absurd hk (Nat.not_lt_zero k)⟩
  | succ n ih =>
    intro i prevSample
    obtain ⟨l, g⟩ := ih (i + 1) (sdx2MonoSample prevSample (pInput i))
    refine ⟨by simp [sdx2MonoLoop, l], ?_⟩
    intro k hk
    cases k with
    | zero => simp [sdx2MonoLoop]
    | succ k =>
      have hg := g k (by omega)
      simp only [sdx2MonoLoop, List.getD_cons_succ, Nat.add_sub_cancel]
      rw [hg, show i + 1 + k = i + (k + 1) by omega]
      cases k with
      | zero => simp
      | succ k => simp

/-! ## The claim on the single-channel decoder -/

/-- C35: SDX2 mono decoding. For every input memory and every number `n` of samples, the
single-channel decoder writes `n` samples, and with `s_i` the `i`-th input byte read as
`int8_t`, the `i`-th output is
`wrap16(2 * s_i * |s_i| + (out_(i-1) if s_i is odd, else 0))`, where `out_(-1) = 0` and `wrap16`
is the conversion to `int16_t`. For an even `s_i` the output is `2 * s_i * |s_i|`, whatever the
earlier samples are. -/
theorem sdx2_mono_decoding (pInput : Nat → Nat) (n : Nat) :
    (sdx2Decode pInput 1 n).length = n ∧
    ∀ i, i < n →
      (sdx2Decode pInput 1 n).getD i 0 =
        toI16 (2 * toI8 (pInput i) * |toI8 (pInput i)| +
          (if toI8 (pInput i) % 2 = 1 then
            (if i = 0 then 0 else (sdx2Decode pInput 1 n).getD (i - 1) 0)
          else 0)) ∧
      (toI8 (pInput i) % 2 = 0 →
        (sdx2Decode pInput 1 n).getD i 0 = 2 * toI8 (pInput i) * |toI8 (pInput i)|) := by
  have hd : sdx2Decode pInput 1 n = sdx2MonoLoop pInput n 0 0 := by
    unfold sdx2Decode
    rw [if_neg (by decide)]
  rw [hd]
  obtain ⟨l, g⟩ := sdx2MonoLoop_spec pInput n 0 0
  refine ⟨l, fun i hi => ?_⟩
  have hg := g i hi
  rw [Nat.zero_add, sdx2MonoSample_eq] at hg
  refine ⟨hg, fun heven => ?_⟩
  obtain ⟨h0, h1⟩ := toI8_range (pInput i)
  obtain ⟨r0, r1⟩ := sdx2_square_range (toI8 (pInput i)) h0 h1
  rw [hg, if_neg (by omega), add_zero, toI16_of_range _ r0 r1]

/-- C35 on the input bytes `3, 0xFE, 5` (the samples 3, -2, 5): the decoder writes 18, then
-8 (an even sample: nothing is carried over), then `50 - 8 = 42`. -/
theorem sdx2_mono_decoding_witness :
    sdx2Decode (fun i => [3, 254, 5].getD i 0) 1 3 = [18, -8, 42] ∧
    (sdx2Decode (fun i => [3, 254, 5].getD i 0) 1 3).length = 3 ∧
    (sdx2Decode (fun i => [3, 254, 5].getD i 0) 1 3).getD 1 0 =
      toI16 (2 * toI8 254 * |toI8 254| +
        (if toI8 254 % 2 = 1 then
          (if 1 = 0 then 0 else (sdx2Decode (fun i => [3, 254, 5].getD i 0) 1 3).getD (1 - 1) 0)
        else 0)) ∧
    (sdx2Decode (fun i => [3, 254, 5].getD i 0) 1 3).getD 1 0 = 2 * toI8 254 * |toI8 254| :=
  ⟨by decide, (sdx2_mono_decoding (fun i => [3, 254, 5].getD i 0) 3).1,
    ((sdx2_mono_decoding (fun i => [3, 254, 5].getD i 0) 3).2 1 (by decide)).1,
    ((sdx2_mono_decoding (fun i => [3, 254, 5].getD i 0) 3).2 1 (by decide)).2 (by decide)⟩


/-- The two-channel loop from the input offset `2 * k` on is the single-channel loop on the
bytes at the even offsets and the one on the bytes at the odd offsets, taken in turns. -/
theorem sdx2StereoLoop_eq (pInput : Nat → Nat) (n : Nat) :
    ∀ (k : Nat) (prevSampleL prevSampleR : Int),
      sdx2StereoLoop pInput n (2 * k) prevSampleL prevSampleR =
        interleave (sdx2MonoLoop (fun i => pInput (2 * i)) n k prevSampleL)
          (sdx2MonoLoop (fun i => pInput (2 * i + 1)) n k prevSampleR) := by
  induction n with
  | zero => intro k pl pr; rfl
  | succ n ih =>
    intro k pl pr
    have h := ih (k + 1) (sdx2MonoSample pl (pInput (2 * k)))
      (sdx2MonoSample pr (pInput (2 * k + 1)))
    rw [show 2 * (k + 1) = 2 * k + 2 by ring] at h
    simp only [sdx2StereoLoop, sdx2MonoLoop, interleave, sdx2StereoSample_eq_mono, h]

/-- The single-channel loop reads the `n` input bytes from the offset `i` on and no other. -/
theorem sdx2MonoLoop_congr (f g : Nat → Nat) (n : Nat) :
    ∀ (i : Nat) (prevSample : Int), (∀ k, k < n → f (i + k) = g (i + k)) →
      sdx2MonoLoop f n i prevSample = sdx2MonoLoop g n i prevSample := by
  induction n with
  | zero => intro i p _; rfl
  | succ n ih =>
    intro i p h
    have h0 : f i = g i := by simpa using h 0 (Nat.succ_pos n)
    have h1 := ih (i + 1) (sdx2MonoSample p (g i)) (fun k hk => by
      have := h (k + 1) (by omega)
      rwa [show i + 1 + k = i + (k + 1) by omega])
    simp only [sdx2MonoLoop, h0, h1]

theorem interleave_getD (a : List Int) :
    ∀ (b : List Int), a.length = b.length → ∀ k,
      (interleave a b).getD (2 * k) 0 = a.getD k 0 ∧
      (interleave a b).getD (2 * k + 1) 0 = b.getD k 0 := by
  induction a with
  | nil =>
    intro b hb k
    cases b with
    | nil => simp [interleave]
    | cons y ys => simp at hb
  | cons x xs ih =>
    intro b hb k
    cases b with
    | nil => simp at hb
    | cons y ys =>
      cases k with
      | zero => simp [interleave]
      | succ k =>
        obtain ⟨e1, e2⟩ := ih ys (by simpa using hb) k
        constructor
        · rw [show 2 * (k + 1) = 2 * k + 1 + 1 by ring]
          simpa [interleave] using e1
        · rw [show 2 * (k + 1) + 1 = 2 * k + 1 + 1 + 1 by ring]
          simpa [interleave] using e2

/-! ## The claim on the two-channel decoder -/

/-- C36: SDX2 stereo decoding equals two independent mono decodes. For every input memory and
every `n`, the two-channel decoder's output for `2 * n` samples is the interleaving of the
single-channel decoder's output on the bytes at the even offsets (left) and on the bytes at the
odd offsets (right). Hence the left samples (the even positions of the output) are the same
for any other input with the same bytes at the even offsets, and the right samples for any
other input with the same bytes at the odd offsets. -/
theorem sdx2_stereo_two_mono (pInput : Nat → Nat) (n : Nat) :
    sdx2Decode pInput 2 (2 * n) =
      interleave (sdx2Decode (fun i => pInput (2 * i)) 1 n)
        (sdx2Decode (fun i => pInput (2 * i + 1)) 1 n) ∧
    (∀ other : Nat → Nat, (∀ i, i < n → other (2 * i) = pInput (2 * i)) →
      ∀ k, k < n →
        (sdx2Decode other 2 (2 * n)).getD (2 * k) 0 =
          (sdx2Decode pInput 2 (2 * n)).getD (2 * k) 0) ∧
    (∀ other : Nat → Nat, (∀ i, i < n → other (2 * i + 1) = pInput (2 * i + 1)) →
      ∀ k, k < n →
        (sdx2Decode other 2 (2 * n)).getD (2 * k + 1) 0 =
          (sdx2Decode pInput 2 (2 * n)).getD (2 * k + 1) 0) := by
  have hstereo : ∀ f : Nat → Nat, sdx2Decode f 2 (2 * n) =
      interleave (sdx2MonoLoop (fun i => f (2 * i)) n 0 0)
        (sdx2MonoLoop (fun i => f (2 * i + 1)) n 0 0) := by
    intro f
    unfold sdx2Decode
    rw [if_pos rfl, show (2 * n + 1) / 2 = n by omega]
    exact sdx2StereoLoop_eq f n 0 0 0
  have hmono : ∀ f : Nat → Nat, sdx2Decode f 1 n = sdx2MonoLoop f n 0 0 := by
    intro f
    unfold sdx2Decode
    rw [if_neg (by decide)]
  have hlen : ∀ f g : Nat → Nat,
      (sdx2MonoLoop f n 0 0).length = (sdx2MonoLoop g n 0 0).length := by
    intro f g
    rw [(sdx2MonoLoop_spec f n 0 0).1, (sdx2MonoLoop_spec g n 0 0).1]
  refine ⟨by rw [hstereo, hmono, hmono], ?_, ?_⟩
  · intro other hsame k _
    rw [hstereo other, hstereo pInput, (interleave_getD _ _ (hlen _ _) k).1,
      (interleave_getD _ _ (hlen _ _) k).1,
      sdx2MonoLoop_congr (fun i => other (2 * i)) (fun i => pInput (2 * i)) n 0 0
        (fun i hi => by simpa using hsame i hi)]
  · intro other hsame k _
    rw [hstereo other, hstereo pInput, (interleave_getD _ _ (hlen _ _) k).2,
      (interleave_getD _ _ (hlen _ _) k).2,
      sdx2MonoLoop_congr (fun i => other (2 * i + 1)) (fun i => pInput (2 * i + 1)) n 0 0
        (fun i hi => by simpa using hsame i hi)]

/-- C36 on the four input bytes `3, 1, 5, 0xFE` (left 3, 5; right 1, -2) and on an input with
another right channel (`3, 9, 5, 7`): the output is `18, 2, 68, -8`, the interleaving of the
left decode `18, 68` and the right decode `2, -8`, and the second left sample is 68 for both
inputs. -/
theorem sdx2_stereo_two_mono_witness :
    sdx2Decode (fun i => [3, 1, 5, 254].getD i 0) 2 (2 * 2) = [18, 2, 68, -8] ∧
    sdx2Decode (fun i => [3, 1, 5, 254].getD i 0) 2 (2 * 2) =
      interleave (sdx2Decode (fun i => [3, 1, 5, 254].getD (2 * i) 0) 1 2)
        (sdx2Decode (fun i => [3, 1, 5, 254].getD (2 * i + 1) 0) 1 2) ∧
    (sdx2Decode (fun i => [3, 9, 5, 7].getD i 0) 2 (2 * 2)).getD (2 * 1) 0 =
      (sdx2Decode (fun i => [3, 1, 5, 254].getD i 0) 2 (2 * 2)).getD (2 * 1) 0 :=
  ⟨by decide, (sdx2_stereo_two_mono (fun i => [3, 1, 5, 254].getD i 0) 2).1,
    (sdx2_stereo_two_mono (fun i => [3, 1, 5, 254].getD i 0) 2).2.1
      (fun i => [3, 9, 5, 7].getD i 0)
      (fun i hi => by
        have : i = 0 ∨ i = 1 := by omega
        rcases this with rfl | rfl <;> rfl)
      1 (by decide)⟩

/-! ## The audio loader -/

theorem consume_spec (s t : ByteInputStream) (n : Nat) (h : s.consume n = some t) :
    t.data = s.data ∧ t.curByteIdx = s.curByteIdx + n := by
  unfold ByteInputStream.consume at h
  split_ifs at h
  injection h with h
  rw [← h]
  exact ⟨rfl, rfl⟩

theorem align_spec (s t : ByteInputStream) (n : Nat) (h : s.align n = some t) :
    t.data = s.data ∧ s.curByteIdx ≤ t.curByteIdx := by
  unfold ByteInputStream.align at h
  split_ifs at h
  · obtain ⟨a, b⟩ := consume_spec s t _ h
    exact ⟨a, by omega⟩
  · injection h with h
    rw [← h]
    exact ⟨rfl, le_refl _⟩

theorem readBytes_spec (s t : ByteInputStream) (n : Nat) (bs : List Nat)
    (h : s.readBytes n = some (bs, t)) :
    t.data = s.data ∧ t.curByteIdx = s.curByteIdx + n := by
  unfold ByteInputStream.readBytes at h
  split_ifs at h
  injection h with h
  injection h with _ h
  rw [← h]
  exact ⟨rfl, rfl⟩

/-- A chunk that was read moved the stream on by at least the eight bytes of its header. -/
theorem readIffChunk_spec (BIG_ENDIAN : Nat) (s t : ByteInputStream) (c : IffChunk)
    (h : readIffChunk BIG_ENDIAN s = some (c, t)) :
    t.data = s.data ∧ s.curByteIdx + 8 ≤ t.curByteIdx := by
  unfold readIffChunk at h
  cases h1 : s.readBytes 8 with
  | none => rw [h1] at h; cases h
  | some r =>
    obtain ⟨header, s1⟩ := r
    rw [h1] at h
    simp only [] at h
    obtain ⟨a1, b1⟩ := readBytes_spec s s1 8 header h1
    cases h2 : s1.consume
        (bigToHost32 BIG_ENDIAN (hostU32 BIG_ENDIAN (List.drop 4 header))) with
    | none => rw [h2] at h; cases h
    | some s2 =>
      rw [h2] at h
      simp only [] at h
      obtain ⟨a2, b2⟩ := consume_spec s1 s2 _ h2
      cases h3 : s2.align 2 with
      | none => rw [h3] at h; cases h
      | some s3 =>
        rw [h3] at h
        simp only [] at h
        obtain ⟨a3, b3⟩ := align_spec s2 s3 2 h3
        injection h with h
        injection h with _ h
        rw [← h]
        exact ⟨by rw [a3, a2, a1], by omega⟩

/-- The chunk loop ends within as many rounds as there are bytes left. -/
theorem readIffChunksLoop_fuel (BIG_ENDIAN : Nat) (fuel : Nat) :
    ∀ (s : ByteInputStream) (chunks : List IffChunk),
      s.data.length - s.curByteIdx ≤ fuel →
      ∃ r, readIffChunksLoop BIG_ENDIAN fuel s chunks = some r := by
  induction fuel with
  | zero =>
    intro s chunks h
    unfold readIffChunksLoop
    have : s.hasBytesLeft = false := by
      unfold ByteInputStream.hasBytesLeft
      simp only [decide_eq_false_iff_not]
      omega
    rw [this]
    exact ⟨_, rfl⟩
  | succ fuel ih =>
    intro s chunks h
    unfold readIffChunksLoop
    by_cases hl : s.hasBytesLeft = true
    · rw [if_pos hl]
      cases h1 : readIffChunk BIG_ENDIAN s with
      | none => exact ⟨_, rfl⟩
      | some r =>
        obtain ⟨c, s1⟩ := r
        obtain ⟨a, b⟩ := readIffChunk_spec BIG_ENDIAN s s1 c h1
        simp only []
        exact ih s1 _ (by rw [a]; omega)
    · rw [if_neg hl]
      exact ⟨_, rfl⟩

theorem findIffChunkWithId_spec (id : Nat) (chunks : List IffChunk) (c : IffChunk)
    (h : findIffChunkWithId id chunks = some c) : c ∈ chunks ∧ c.id = id := by
  induction chunks with
  | nil => cases h
  | cons x xs ih =>
    unfold findIffChunkWithId at h
    split_ifs at h with hx
    · injection h with h
      subst h
      exact ⟨List.mem_cons_self _ _, hx⟩
    · obtain ⟨a, b⟩ := ih h
      exact ⟨List.mem_cons_of_mem _ a, b⟩

theorem findAiffFormChunk_spec (BIG_ENDIAN : Nat) (chunks : List IffChunk) (c : IffChunk)
    (h : findAiffFormChunk BIG_ENDIAN chunks = some c) : c ∈ chunks ∧ c.id = ID_FORM := by
  induction chunks with
  | nil => cases h
  | cons x xs ih =>
    unfold findAiffFormChunk at h
    split_ifs at h with hx
    · injection h with h
      subst h
      exact ⟨List.mem_cons_self _ _, hx.1⟩
    · obtain ⟨a, b⟩ := ih h
      exact ⟨List.mem_cons_of_mem _ a, b⟩

/-- The raw reader never returns `false`, and leaves the four format fields as they are. -/
theorem readRawSoundData_returned (stream : ByteInputStream) (audioData a : AudioData)
    (result : Bool) (h : readRawSoundData stream audioData = AudioRun.returned a result) :
    result = true ∧ a.numSamples = audioData.numSamples ∧
      a.sampleRate = audioData.sampleRate ∧ a.numChannels = audioData.numChannels ∧
      a.bitDepth = audioData.bitDepth := by
  unfold readRawSoundData at h
  simp only [] at h
  split at h
  · cases h
  · injection h with h1 h2
    rw [← h1]
    exact ⟨h2.symm, rfl, rfl, rfl, rfl⟩

/-- The SDX2 reader returns `true` only for the bit depth 16, and leaves the four format
fields as they are. -/
theorem readSdx2CompressedSoundData_true (stream : ByteInputStream) (audioData a : AudioData)
    (h : readSdx2CompressedSoundData stream audioData = AudioRun.returned a true) :
    audioData.bitDepth = 16 ∧ a.numSamples = audioData.numSamples ∧
      a.sampleRate = audioData.sampleRate ∧ a.numChannels = audioData.numChannels ∧
      a.bitDepth = audioData.bitDepth := by
  unfold readSdx2CompressedSoundData at h
  by_cases h1 : audioData.bitDepth ≠ 16
  · rw [if_pos h1] at h
    injection h with _ h
    cases h
  · rw [if_neg h1] at h
    by_cases h2 : audioData.numChannels ≠ 1 ∧ audioData.numChannels ≠ 2
    · rw [if_pos h2] at h
      injection h with _ h
      cases h
    · rw [if_neg h2] at h
      simp only [] at h
      split at h
      · cases h
      · injection h with h3 _
        rw [← h3]
        exact ⟨not_not.1 h1, rfl, rfl, rfl, rfl⟩

/-- The part of `readFormChunk` after the common chunk returns `true` only for fields that
pass every check, and then the audio record holds them. -/
theorem readFormSound_true (info : CommonInfo) (pSoundChunk : IffChunk)
    (audioData a : AudioData)
    (h : readFormSound info pSoundChunk audioData = AudioRun.returned a true) :
    (info.numChannels = 1 ∨ info.numChannels = 2) ∧
      (info.bitDepth = 8 ∨ info.bitDepth = 16) ∧ 0 < info.sampleRate ∧
      (info.compressionType = ID_NONE ∨
        (info.compressionType = ID_SDX2 ∧ info.bitDepth = 16)) ∧
      a.numSamples = info.numSamples ∧ a.sampleRate = info.sampleRate ∧
      a.numChannels = info.numChannels ∧ a.bitDepth = info.bitDepth := by
  unfold readFormSound at h
  by_cases h1 : info.numChannels ≠ 1 ∧ info.numChannels ≠ 2
  · rw [if_pos h1] at h
    injection h with _ h
    cases h
  rw [if_neg h1] at h
  by_cases h2 : info.bitDepth ≠ 8 ∧ info.bitDepth ≠ 16
  · rw [if_pos h2] at h
    injection h with _ h
    cases h
  rw [if_neg h2] at h
  by_cases h3 : info.sampleRate ≤ 0
  · rw [if_pos h3] at h
    injection h with _ h
    cases h
  rw [if_neg h3] at h
  simp only [] at h
  have c1 : info.numChannels = 1 ∨ info.numChannels = 2 := by omega
  have c2 : info.bitDepth = 8 ∨ info.bitDepth = 16 := by omega
  have c3 : 0 < info.sampleRate := by omega
  by_cases h4 : info.compressionType = ID_NONE
  · rw [if_pos h4] at h
    obtain ⟨_, e1, e2, e3, e4⟩ := readRawSoundData_returned _ _ a true h
    exact ⟨c1, c2, c3, Or.inl h4, e1, e2, e3, e4⟩
  · rw [if_neg h4] at h
    by_cases h5 : info.compressionType = ID_SDX2
    · rw [if_pos h5] at h
      obtain ⟨e0, e1, e2, e3, e4⟩ := readSdx2CompressedSoundData_true _ _ a h
      exact ⟨c1, c2, c3, Or.inr ⟨h5, e0⟩, e1, e2, e3, e4⟩
    · rw [if_neg h5] at h
      injection h with _ h
      cases h

/-- The routine `readFormChunk` ends, and it returns `true` only when the chunk is of the type
`AIFF` or `AIFC`, holds a `COMM` and an `SSND` chunk, and the fields of the `COMM` chunk pass
every check. -/
theorem readFormChunk_spec (BIG_ENDIAN : Nat) (toUInt32 : Nat → Nat) (formChunk : IffChunk)
    (audioData : AudioData) :
    ∃ run, readFormChunk BIG_ENDIAN toUInt32 formChunk audioData = some run ∧
      ∀ a, run = AudioRun.returned a true →
        ∃ (formType : Nat) (formStream : ByteInputStream) (subChunks : List IffChunk)
          (rest2 : ByteInputStream) (commonChunk soundChunk : IffChunk) (info : CommonInfo),
          formChunk.toStream.readU32 BIG_ENDIAN = some (formType, formStream) ∧
          (formType = ID_AIFF ∨ formType = ID_AIFC) ∧
          readIffChunksLoop BIG_ENDIAN formStream.data.length formStream [] =
            some (some (subChunks, rest2)) ∧
          commonChunk ∈ subChunks ∧ commonChunk.id = ID_COMM ∧
          soundChunk ∈ subChunks ∧ soundChunk.id = ID_SSND ∧
          readCommonChunk BIG_ENDIAN toUInt32 commonChunk.toStream
              (decide (formType = ID_AIFC)) = some info ∧
          readFormSound info soundChunk audioData = AudioRun.returned a true := by
  unfold readFormChunk
  simp only []
  cases h1 : formChunk.toStream.readU32 BIG_ENDIAN with
  | none => exact ⟨_, rfl, fun a h => by cases h⟩
  | some r =>
    obtain ⟨formType, s1⟩ := r
    simp only []
    by_cases h2 : formType ≠ ID_AIFF ∧ formType ≠ ID_AIFC
    · rw [if_pos h2]
      exact ⟨_, rfl, fun a h => by injection h with _ h; cases h⟩
    rw [if_neg h2]
    have htype : formType = ID_AIFF ∨ formType = ID_AIFC := by
      by_cases h : formType = ID_AIFF
      · exact Or.inl h
      · exact Or.inr (by_contra fun h' => h2 ⟨h, h'⟩)
    obtain ⟨r, hr⟩ := readIffChunksLoop_fuel BIG_ENDIAN s1.data.length s1 [] (by omega)
    rw [hr]
    cases r with
    | none => exact ⟨_, rfl, fun a h => by cases h⟩
    | some r =>
      obtain ⟨chunks, rest2⟩ := r
      simp only []
      cases h3 : findIffChunkWithId ID_COMM chunks with
      | none => exact ⟨_, rfl, fun a h => by injection h with _ h; cases h⟩
      | some commonChunk =>
        cases h4 : findIffChunkWithId ID_SSND chunks with
        | none => exact ⟨_, rfl, fun a h => by injection h with _ h; cases h⟩
        | some soundChunk =>
          simp only []
          obtain ⟨m1, i1⟩ := findIffChunkWithId_spec _ _ _ h3
          obtain ⟨m2, i2⟩ := findIffChunkWithId_spec _ _ _ h4
          cases h5 : readCommonChunk BIG_ENDIAN toUInt32 commonChunk.toStream
              (decide (formType = ID_AIFC)) with
          | none => exact ⟨_, rfl, fun a h => by cases h⟩
          | some info =>
            refine ⟨_, rfl, fun a h => ?_⟩
            exact ⟨formType, s1, chunks, rest2, commonChunk, soundChunk, info, rfl, htype, hr,
              m1, i1, m2, i2, h5, h⟩

/-- The `try` block of `loadFromBuffer` ends, and leaves `bLoadedSuccessfully` true only when
the buffer holds a sound whose format fields pass every check; the audio record then holds
those fields. -/
theorem loadFromBufferTry_spec (BIG_ENDIAN : Nat) (toUInt32 : Nat → Nat) (pBuffer : List Nat)
    (bufferSize : Nat) (audioData : AudioData) :
    ∃ result a,
      loadFromBufferTry BIG_ENDIAN toUInt32
          { data := pBuffer.take bufferSize, curByteIdx := 0 } audioData = some (result, a) ∧
      (result = true →
        ∃ info, HoldsSound BIG_ENDIAN toUInt32 pBuffer bufferSize info ∧
          (info.numChannels = 1 ∨ info.numChannels = 2) ∧
          (info.bitDepth = 8 ∨ info.bitDepth = 16) ∧ 0 < info.sampleRate ∧
          (info.compressionType = ID_NONE ∨
            (info.compressionType = ID_SDX2 ∧ info.bitDepth = 16)) ∧
          a.numSamples = info.numSamples ∧ a.sampleRate = info.sampleRate ∧
          a.numChannels = info.numChannels ∧ a.bitDepth = info.bitDepth) := by
  unfold loadFromBufferTry
  obtain ⟨r, hr⟩ := readIffChunksLoop_fuel BIG_ENDIAN (pBuffer.take bufferSize).length
    { data := pBuffer.take bufferSize, curByteIdx := 0 } [] (by simp)
  simp only []
  rw [hr]
  cases r with
  | none => exact ⟨false, audioData, rfl, fun h => by cases h⟩
  | some r =>
    obtain ⟨rootChunks, rest⟩ := r
    simp only []
    cases h1 : findAiffFormChunk BIG_ENDIAN rootChunks with
    | none => exact ⟨false, audioData, rfl, fun h => by cases h⟩
    | some formChunk =>
      simp only []
      obtain ⟨m, i⟩ := findAiffFormChunk_spec _ _ _ h1
      obtain ⟨run, hrun, hspec⟩ := readFormChunk_spec BIG_ENDIAN toUInt32 formChunk audioData
      rw [hrun]
      cases run with
      | threw a1 => exact ⟨false, a1, rfl, fun h => by cases h⟩
      | returned a1 result =>
        refine ⟨result, a1, rfl, fun h => ?_⟩
        subst h
        obtain ⟨formType, formStream, subChunks, rest2, commonChunk, soundChunk, info, e1, e2,
          e3, e4, e5, e6, e7, e8, e9⟩ := hspec a1 rfl
        obtain ⟨c1, c2, c3, c4, f1, f2, f3, f4⟩ := readFormSound_true _ _ _ _ e9
        exact ⟨info,
          ⟨rootChunks, rest, formChunk, formType, formStream, subChunks, rest2, commonChunk,
            soundChunk, hr, m, i, e1, e2, e3, e4, e5, e6, e7, e8⟩,
          c1, c2, c3, c4, f1, f2, f3, f4⟩

/-! ## The claim on the loader -/

/-- C37: `AudioLoader::loadFromBuffer` is all-or-nothing. For every buffer, every audio record
and every build, the routine ends with a result, and: it returns `true` only if the buffer
holds a `FORM` chunk of the type `AIFF` or `AIFC` with a `COMM` and an `SSND` chunk inside
whose fields are 1 or 2 channels, a bit depth of 8 or 16, a sample rate above 0 and the
compression type `NONE` or `SDX2`, `SDX2` only with the bit depth 16 (the audio record then
holds these fields); in every other case, whether a check failed or a read went past the end
of the data, before or after the format fields were stored, it returns `false` and the audio
record is the cleared one. -/
theorem loadFromBuffer_all_or_nothing (BIG_ENDIAN : Nat) (toUInt32 : Nat → Nat)
    (pBuffer : List Nat) (bufferSize : Nat) (audioData : AudioData) :
    ∃ result a,
      loadFromBuffer BIG_ENDIAN toUInt32 pBuffer bufferSize audioData = some (result, a) ∧
      (result = true →
        ∃ info, HoldsSound BIG_ENDIAN toUInt32 pBuffer bufferSize info ∧
          (info.numChannels = 1 ∨ info.numChannels = 2) ∧
          (info.bitDepth = 8 ∨ info.bitDepth = 16) ∧ 0 < info.sampleRate ∧
          (info.compressionType = ID_NONE ∨
            (info.compressionType = ID_SDX2 ∧ info.bitDepth = 16)) ∧
          a.numSamples = info.numSamples ∧ a.sampleRate = info.sampleRate ∧
          a.numChannels = info.numChannels ∧ a.bitDepth = info.bitDepth) ∧
      (result = false → a = audioData.clear) := by
  obtain ⟨result, a1, h1, h2⟩ :=
    loadFromBufferTry_spec BIG_ENDIAN toUInt32 pBuffer bufferSize audioData
  unfold loadFromBuffer
  simp only []
  rw [h1]
  cases result with
  | false => exact ⟨false, a1.clear, rfl, fun h => (by cases h), fun _ => rfl⟩
  | true => exact ⟨true, a1, rfl, h2, fun h => (by cases h)⟩

set_option maxRecDepth 100000 in
/-- C37 on three buffers. The file `sampleAiff` loads: the result is `true` and the record
holds 1 channel, 2 samples, 8 bits, 44100 Hz and the two sound bytes. The AIFF-C file
`sampleAifcDepth8` passes the format checks, so that its fields are stored (the record after
the `try` block holds them), and is then refused by the SDX2 reader: the result is `false` and
the record is cleared. The file cut off after 47 bytes makes a read go past the end: the
result is `false` and the record is cleared. -/
theorem loadFromBuffer_all_or_nothing_witness :
    loadFromBuffer 0 truncToUInt32 sampleAiff 48 emptyAudio =
      some (true,
        { pBuffer := SoundBuffer.bytes [0x11, 0x22], bufferSize := 2, numSamples := 2
          sampleRate := 44100, numChannels := 1, bitDepth := 8 }) ∧
    loadFromBufferTry 0 truncToUInt32 { data := sampleAifcDepth8.take 52, curByteIdx := 0 }
        emptyAudio =
      some (false,
        { pBuffer := SoundBuffer.null, bufferSize := 0, numSamples := 2, sampleRate := 44100
          numChannels := 1, bitDepth := 8 }) ∧
    loadFromBuffer 0 truncToUInt32 sampleAifcDepth8 52 emptyAudio =
      some (false, emptyAudio.clear) ∧
    loadFromBuffer 0 truncToUInt32 sampleAiffCut 47 sampleAiffLoaded =
      some (false, sampleAiffLoaded.clear) ∧
    ∃ result a,
      loadFromBuffer 0 truncToUInt32 sampleAiff 48 emptyAudio = some (result, a) ∧
      (result = true →
        ∃ info, HoldsSound 0 truncToUInt32 sampleAiff 48 info ∧
          (info.numChannels = 1 ∨ info.numChannels = 2) ∧
          (info.bitDepth = 8 ∨ info.bitDepth = 16) ∧ 0 < info.sampleRate ∧
          (info.compressionType = ID_NONE ∨
            (info.compressionType = ID_SDX2 ∧ info.bitDepth = 16)) ∧
          a.numSamples = info.numSamples ∧ a.sampleRate = info.sampleRate ∧
          a.numChannels = info.numChannels ∧ a.bitDepth = info.bitDepth) ∧
      (result = false → a = emptyAudio.clear) :=
  ⟨by decide, by decide, by decide, by decide,
    loadFromBuffer_all_or_nothing 0 truncToUInt32 sampleAiff 48 emptyAudio⟩

/-! ## The 80-bit float reader -/

set_option maxRecDepth 20000 in
theorem and_0x80_ne_zero : ∀ x, x < 256 → ((x &&& 0x80) != 0) = decide (128 ≤ x) := by
  decide

theorem and_0x7F (x : Nat) : x &&& 0x7F = x % 128 := by
  rw [show (0x7F : Nat) = 2 ^ 7 - 1 by norm_num, Nat.and_pow_two_sub_one_eq_mod]

theorem and_0x7FF (x : Nat) : x &&& 0x7FF = x % 2048 := by
  rw [show (0x7FF : Nat) = 2 ^ 11 - 1 by norm_num, Nat.and_pow_two_sub_one_eq_mod]

/-- A field shifted above the bits of `rest` and or-ed with `rest` is their sum. -/
theorem shl64_or (a k rest : Nat) (ha : a * 2 ^ k < 18446744073709551616)
    (hrest : rest < 2 ^ k) : shl64 a k ||| rest = a * 2 ^ k + rest := by
  unfold shl64
  rw [Nat.shiftLeft_eq, Nat.mod_eq_of_lt ha, Nat.mul_comm, ← Nat.mul_add_lt_is_or hrest]

theorem shl64_eq (a k : Nat) (ha : a * 2 ^ k < 18446744073709551616) :
    shl64 a k = a * 2 ^ k := by
  unfold shl64
  rw [Nat.shiftLeft_eq, Nat.mod_eq_of_lt ha]

/-- The `fraction` of `readBigEndianExtendedFloat` is the 63-bit fraction, doubled. -/
theorem extended_fraction_or (b0 b1 b2 b3 b4 b5 b6 b7 : Nat) (h0 : b0 < 256) (h1 : b1 < 256)
    (h2 : b2 < 256) (h3 : b3 < 256) (h4 : b4 < 256) (h5 : b5 < 256) (h6 : b6 < 256) :
    shl64 (b7 &&& 0x7F) 57 ||| shl64 b6 49 ||| shl64 b5 41 ||| shl64 b4 33 ||| shl64 b3 25 |||
        shl64 b2 17 ||| shl64 b1 9 ||| shl64 b0 1 =
      2 * ((b7 % 128) * 2 ^ 56 + b6 * 2 ^ 48 + b5 * 2 ^ 40 + b4 * 2 ^ 32 + b3 * 2 ^ 24 +
        b2 * 2 ^ 16 + b1 * 2 ^ 8 + b0) := by
  have h7 : b7 % 128 < 128 := Nat.mod_lt _ (by norm_num)
  simp only [Nat.or_assoc, and_0x7F]
  rw [shl64_eq b0 1 (by omega), shl64_or b1 9 _ (by omega) (by omega),
    shl64_or b2 17 _ (by omega) (by omega), shl64_or b3 25 _ (by omega) (by omega),
    shl64_or b4 33 _ (by omega) (by omega), shl64_or b5 41 _ (by omega) (by omega),
    shl64_or b6 49 _ (by omega) (by omega), shl64_or (b7 % 128) 57 _ (by omega) (by omega)]
  ring

/-- The `exponent` of `readBigEndianExtendedFloat` when the integer bit is set: the exponent
field minus 16383. -/
theorem extended_exponent_eq (b8 b9 : Nat) (h8 : b8 < 256) :
    toI16
        (toI16
            (toI32
                (toU32 (toI16 ((((b9 &&& toU32 (toI16 0x7F)) <<< 8 : Nat)) : Int)) |||
                  toU32 (toI16 ((b8 : Nat) : Int))) +
              toI16 0) -
          toI16 0x3FFF) =
      (((b9 % 128) * 256 + b8 : Nat) : Int) - 16383 := by
  have h9 : b9 % 128 < 128 := Nat.mod_lt _ (by norm_num)
  have k1 : toU32 (toI16 0x7F) = 0x7F := by decide
  have k2 : (b9 &&& 0x7F) <<< 8 = 2 ^ 8 * (b9 % 128) := by
    rw [and_0x7F, Nat.shiftLeft_eq, Nat.mul_comm]
  have k3 : toU32 (toI16 (((2 ^ 8 * (b9 % 128) : Nat)) : Int)) = 2 ^ 8 * (b9 % 128) := by
    unfold toU32 toI16
    omega
  have k4 : toU32 (toI16 ((b8 : Nat) : Int)) = b8 := by
    unfold toU32 toI16
    omega
  rw [k1, k2, k3, k4, ← Nat.mul_add_lt_is_or (by norm_num; exact h8)]
  unfold toI32 toI16
  omega

/-- The sign bit, the exponent bits and the mantissa, or-ed, are the double made of them. -/
theorem double_fields_or (b9 e m : Nat) (h9 : b9 < 256) (he : e < 2048)
    (hm : m < 2 ^ 52) :
    (if decide (128 ≤ b9) then 0x8000000000000000 else 0) ||| shl64 e 52 ||| m =
      doubleOfFields (b9 / 128) e m := by
  unfold doubleOfFields
  rw [Nat.or_assoc, shl64_or e 52 m (by omega) hm]
  by_cases hs : 128 ≤ b9
  · have h1 : b9 / 128 = 1 := by omega
    rw [h1]
    simp only [hs, decide_True, if_true]
    have := Nat.mul_add_lt_is_or (show e * 2 ^ 52 + m < 2 ^ 63 by omega) 1
    rw [show (0x8000000000000000 : Nat) = 2 ^ 63 * 1 by norm_num, ← this]
    ring
  · have h0 : b9 / 128 = 0 := by omega
    rw [h0]
    simp only [hs, decide_False, Bool.false_eq_true, if_false]
    rw [Nat.zero_or]
    ring

/-- What `readBigEndianExtendedFloat` makes of the ten bytes `bytes[0 .. 9]` when the integer
bit is set and the exponent is in the range of a normal double. -/
theorem extendedFloatBits_in_range (bytes : Nat → Nat) (hb : ∀ i, i < 10 → bytes i < 256)
    (hint : 128 ≤ bytes 7) (hlo : 15361 ≤ (bytes 9 % 128) * 256 + bytes 8)
    (hhi : (bytes 9 % 128) * 256 + bytes 8 ≤ 17406) :
    extendedFloatBits bytes =
      doubleOfFields (bytes 9 / 128) ((bytes 9 % 128) * 256 + bytes 8 - 15360)
        (((bytes 7 % 128) * 2 ^ 56 + bytes 6 * 2 ^ 48 + bytes 5 * 2 ^ 40 + bytes 4 * 2 ^ 32 +
          bytes 3 * 2 ^ 24 + bytes 2 * 2 ^ 16 + bytes 1 * 2 ^ 8 + bytes 0) / 2 ^ 11) := by
  have h0 := hb 0 (by norm_num)
  have h1 := hb 1 (by norm_num)
  have h2 := hb 2 (by norm_num)
  have h3 := hb 3 (by norm_num)
  have h4 := hb 4 (by norm_num)
  have h5 := hb 5 (by norm_num)
  have h6 := hb 6 (by norm_num)
  have h7 := hb 7 (by norm_num)
  have h8 := hb 8 (by norm_num)
  have h9 := hb 9 (by norm_num)
  have h7m : bytes 7 % 128 < 128 := Nat.mod_lt _ (by norm_num)
  unfold extendedFloatBits
  simp only []
  rw [and_0x80_ne_zero _ h7, and_0x80_ne_zero _ h9, decide_eq_true hint, if_pos rfl,
    extended_exponent_eq _ _ h8, extended_fraction_or _ _ _ _ _ _ _ _ h0 h1 h2 h3 h4 h5 h6,
    if_neg (by omega), if_neg (by omega), and_0x7FF, Nat.shiftRight_eq_div_pow]
  have e1 : toU64 ((((bytes 9 % 128) * 256 + bytes 8 : Nat) : Int) - 16383 + 1023) % 2048 =
      (bytes 9 % 128) * 256 + bytes 8 - 15360 := by
    unfold toU64
    omega
  have e2 : 2 * ((bytes 7 % 128) * 2 ^ 56 + bytes 6 * 2 ^ 48 + bytes 5 * 2 ^ 40 +
      bytes 4 * 2 ^ 32 + bytes 3 * 2 ^ 24 + bytes 2 * 2 ^ 16 + bytes 1 * 2 ^ 8 + bytes 0) /
        2 ^ 12 =
      ((bytes 7 % 128) * 2 ^ 56 + bytes 6 * 2 ^ 48 + bytes 5 * 2 ^ 40 + bytes 4 * 2 ^ 32 +
        bytes 3 * 2 ^ 24 + bytes 2 * 2 ^ 16 + bytes 1 * 2 ^ 8 + bytes 0) / 2 ^ 11 := by
    omega
  rw [e1, e2]
  exact double_fields_or _ _ _ h9 (by omega) (by omega)

theorem readU8_of_left (s : ByteInputStream) (h : s.curByteIdx < s.data.length) :
    s.readU8 =
      some (s.data.getD s.curByteIdx 0, { s with curByteIdx := s.curByteIdx + 1 }) := by
  unfold ByteInputStream.readU8 ByteInputStream.readBytes
  rw [if_pos (by omega)]
  simp only [Option.map_some']
  congr 2
  rw [List.getD_eq_getElem?_getD, List.getD_eq_getElem?_getD, List.getElem?_take,
    if_pos (by norm_num), List.getElem?_drop, Nat.add_zero]

/-- With `BIG_ENDIAN != 1` the loop that fills `bytes` with `n` reads puts the `k`-th byte read
at the index `n - 1 - k`. -/
theorem readExtendedBytesLoop_spec (BIG_ENDIAN : Nat) (hBE : BIG_ENDIAN ≠ 1) (n : Nat) :
    ∀ (s : ByteInputStream) (bytes : Nat → Nat), s.curByteIdx + n ≤ s.data.length →
      ∃ filled, readExtendedBytesLoop BIG_ENDIAN n s bytes =
          some (filled, { s with curByteIdx := s.curByteIdx + n }) ∧
        ∀ i, filled i =
          if i < n then s.data.getD (s.curByteIdx + (n - 1 - i)) 0 else bytes i := by
  induction n with
  | zero =>
    intro s bytes _
    exact ⟨bytes, rfl, fun i => by simp⟩
  | succ n ih =>
    intro s bytes h
    obtain ⟨filled, e, hf⟩ := ih { s with curByteIdx := s.curByteIdx + 1 }
      (Function.update bytes n (s.data.getD s.curByteIdx 0)) (by simp only []; omega)
    refine ⟨filled, ?_, ?_⟩
    · unfold readExtendedBytesLoop
      rw [readU8_of_left s (by omega)]
      simp only [if_neg hBE]
      rw [e]
      simp only [Nat.add_assoc, Nat.add_comm 1 n]
    · intro i
      rw [hf i]
      by_cases h1 : i < n
      · rw [if_pos h1, if_pos (by omega)]
        simp only []
        congr 1
        omega
      · rw [if_neg h1]
        by_cases h2 : i = n
        · subst h2
          rw [Function.update_same, if_pos (by omega)]
          congr 1
          omega
        · rw [Function.update_noteq h2, if_neg (by omega)]

theorem getD_lt_of_forall_mem (b : List Nat) (hbytes : ∀ x ∈ b, x < 256) (j : Nat) :
    b.getD j 0 < 256 := by
  rw [List.getD_eq_getElem?_getD]
  cases h : b[j]? with
  | none => simp
  | some x => exact hbytes x (List.getElem?_mem h)

/-- The number a double made of a sign bit, a biased exponent of a normal double and a
mantissa stands for. -/
theorem doubleValue_doubleOfFields (sign e m : Nat) (he : e < 2048)
    (hm : m < 2 ^ 52) :
    doubleValue (doubleOfFields sign e m) =
      (-1) ^ sign * (1 + (m : ℚ) / 2 ^ 52) * (2 : ℚ) ^ ((e : Int) - 1023) := by
  unfold doubleValue doubleOfFields
  have e1 : (sign * 2 ^ 63 + e * 2 ^ 52 + m) / 2 ^ 63 = sign := by omega
  have e2 : (sign * 2 ^ 63 + e * 2 ^ 52 + m) % 2 ^ 52 = m := by omega
  have e3 : (sign * 2 ^ 63 + e * 2 ^ 52 + m) / 2 ^ 52 % 2048 = e := by omega
  rw [e1, e2, e3]

/-! ## The claim on values in the range of a double -/

/-- On a build with `BIG_ENDIAN != 1`, `readBigEndianExtendedFloat` converts in-range values
exactly. Let the next ten bytes of the stream be the big-endian 80-bit extended value `b`,
with the integer bit set and an exponent `e` (the 15-bit field minus 16383) with
`-1022 <= e <= 1023`. Then the routine returns, having read the ten bytes, the IEEE double with
the sign bit of `b`, the biased exponent `e + 1023` and the mantissa that is the top 52 bits
of the 63-bit fraction; and when the low 11 bits of the fraction are zero, that double stands
for the same number as `b`. -/
theorem readBigEndianExtendedFloat_in_range (BIG_ENDIAN : Nat) (hBE : BIG_ENDIAN ≠ 1)
    (s : ByteInputStream) (b : List Nat) (hleft : s.curByteIdx + 10 ≤ s.data.length)
    (hb : b = (s.data.drop s.curByteIdx).take 10) (hbytes : ∀ x ∈ b, x < 256)
    (hint : extendedIntegerBit b = 1) (hlo : -1022 ≤ extendedExponent b)
    (hhi : extendedExponent b ≤ 1023) :
    readBigEndianExtendedFloat BIG_ENDIAN s =
        some (doubleOfFields (extendedSignBit b) (extendedExponent b + 1023).toNat
            (extendedFraction b / 2 ^ 11),
          { s with curByteIdx := s.curByteIdx + 10 }) ∧
      (extendedFraction b % 2 ^ 11 = 0 →
        doubleValue (doubleOfFields (extendedSignBit b) (extendedExponent b + 1023).toNat
            (extendedFraction b / 2 ^ 11)) =
          extendedValue b) := by
  obtain ⟨filled, e, hf⟩ := readExtendedBytesLoop_spec BIG_ENDIAN hBE 10 s (fun _ => 0) hleft
  have hget : ∀ j, j < 10 → s.data.getD (s.curByteIdx + j) 0 = b.getD j 0 := by
    intro j hj
    rw [hb, List.getD_eq_getElem?_getD, List.getD_eq_getElem?_getD, List.getElem?_take,
      if_pos hj, List.getElem?_drop]
  have hfill : ∀ i, i < 10 → filled i = b.getD (9 - i) 0 := by
    intro i hi
    rw [hf i, if_pos hi, ← hget (9 - i) (by omega)]
  have hlt : ∀ j, b.getD j 0 < 256 := getD_lt_of_forall_mem b hbytes
  unfold extendedIntegerBit at hint
  unfold extendedExponent extendedExponentField at hlo hhi
  have hbits := extendedFloatBits_in_range filled
    (fun i hi => by rw [hfill i hi]; exact hlt _)
    (by rw [hfill 7 (by norm_num)]; have := hlt 2; show 128 ≤ b.getD 2 0; omega)
    (by rw [hfill 9 (by norm_num), hfill 8 (by norm_num)]
        show 15361 ≤ b.getD 0 0 % 128 * 256 + b.getD 1 0
        omega)
    (by rw [hfill 9 (by norm_num), hfill 8 (by norm_num)]
        show b.getD 0 0 % 128 * 256 + b.getD 1 0 ≤ 17406
        omega)
  rw [hfill 9 (by norm_num), hfill 8 (by norm_num), hfill 7 (by norm_num),
    hfill 6 (by norm_num), hfill 5 (by norm_num), hfill 4 (by norm_num),
    hfill 3 (by norm_num), hfill 2 (by norm_num), hfill 1 (by norm_num),
    hfill 0 (by norm_num)] at hbits
  have hexp : (extendedExponent b + 1023).toNat = b.getD 0 0 % 128 * 256 + b.getD 1 0 - 15360 := by
    unfold extendedExponent extendedExponentField
    omega
  have hfields : doubleOfFields (extendedSignBit b) (extendedExponent b + 1023).toNat
      (extendedFraction b / 2 ^ 11) = extendedFloatBits filled := by
    rw [hbits, hexp]
    rfl
  constructor
  · unfold readBigEndianExtendedFloat
    rw [e, hfields]
    rfl
  · intro hzero
    have h0 := hlt 0
    have h2 := hlt 2
    have h2m : b.getD 2 0 % 128 < 128 := Nat.mod_lt _ (by norm_num)
    have h3 := hlt 3
    have h4 := hlt 4
    have h5 := hlt 5
    have h6 := hlt 6
    have h7 := hlt 7
    have h8 := hlt 8
    have h9 := hlt 9
    have hfr : extendedFraction b < 2 ^ 63 := by
      unfold extendedFraction
      omega
    rw [doubleValue_doubleOfFields _ _ _ (by rw [hexp]; omega) (by omega)]
    unfold extendedValue
    have hq : ((extendedFraction b / 2 ^ 11 : Nat) : ℚ) / 2 ^ 52 =
        (extendedFraction b : ℚ) / 2 ^ 63 := by
      obtain ⟨q, hq⟩ : 2 ^ 11 ∣ extendedFraction b := Nat.dvd_of_mod_eq_zero hzero
      rw [hq, Nat.mul_div_cancel_left q (by norm_num)]
      push_cast
      ring
    have he : (((extendedExponent b + 1023).toNat : Nat) : Int) - 1023 = extendedExponent b := by
      omega
    rw [hq, he]

/-- The bytes `40 0E AC 44 00 00 00 00 00 00` on a build with `BIG_ENDIAN != 1`: the routine
returns the double with the bits `0x40E5888000000000`, which stands for 44100, as the ten
bytes do. -/
theorem readBigEndianExtendedFloat_in_range_rate :
    doubleOfFields (extendedSignBit rate44100) (extendedExponent rate44100 + 1023).toNat
        (extendedFraction rate44100 / 2 ^ 11) = 0x40E5888000000000 ∧
      doubleValue 0x40E5888000000000 = 44100 ∧
      readBigEndianExtendedFloat 0 { data := rate44100, curByteIdx := 0 } =
        some (doubleOfFields (extendedSignBit rate44100)
            (extendedExponent rate44100 + 1023).toNat (extendedFraction rate44100 / 2 ^ 11),
          { data := rate44100, curByteIdx := 0 + 10 }) ∧
      doubleValue (doubleOfFields (extendedSignBit rate44100)
          (extendedExponent rate44100 + 1023).toNat (extendedFraction rate44100 / 2 ^ 11)) =
        extendedValue rate44100 :=
  ⟨by decide, by norm_num [doubleValue],
    (readBigEndianExtendedFloat_in_range 0 (by decide)
      { data := rate44100, curByteIdx := 0 } rate44100 (by decide) (by decide) (by decide)
      (by decide) (by decide) (by decide)).1,
    (readBigEndianExtendedFloat_in_range 0 (by decide)
      { data := rate44100, curByteIdx := 0 } rate44100 (by decide) (by decide) (by decide)
      (by decide) (by decide) (by decide)).2 (by decide)⟩

/-- C38 fails on a build with `BIG_ENDIAN == 1`. There the loop stores the first byte of the
stream in `bytes[0]`, while the rest of the routine looks for the sign and the exponent in
`bytes[9]` and `bytes[8]` and for the integer bit in `bytes[7]`. The bytes
`40 0E AC 44 00 00 00 00 00 00` are an in-range value (integer bit set, exponent 15) that
stands for 44100, and the double with its sign, the biased exponent `15 + 1023` and the top
52 bits of its fraction has the bits `0x40E5888000000000`; with `BIG_ENDIAN == 1` the routine
returns the double with the bits 0, that is `0.0` (the exponent it computes from
`bytes[9] = bytes[8] = 0` is below -1022). With `BIG_ENDIAN == 0` it returns
`0x40E5888000000000`. -/
theorem readBigEndianExtendedFloat_big_endian_build :
    extendedIntegerBit rate44100 = 1 ∧ extendedExponent rate44100 = 15 ∧
    doubleOfFields (extendedSignBit rate44100) (extendedExponent rate44100 + 1023).toNat
        (extendedFraction rate44100 / 2 ^ 11) = 0x40E5888000000000 ∧
    readBigEndianExtendedFloat 1 { data := rate44100, curByteIdx := 0 } =
      some (0, { data := rate44100, curByteIdx := 10 }) ∧
    readBigEndianExtendedFloat 0 { data := rate44100, curByteIdx := 0 } =
      some (0x40E5888000000000, { data := rate44100, curByteIdx := 10 }) := by
  decide

/-! ## The claim on values outside the range of a double -/

/-- C39: `readBigEndianExtendedFloat` on values outside the range of a double, on a build with
`BIG_ENDIAN != 1`. The positive value `2^1024` (bytes `43 FF 80 00 ...`, sign bit clear,
exponent 1024) is returned as the negative infinity and the negative value `-2^1024` (bytes
`C3 FF 80 00 ...`) as the positive infinity: the infinity carries the opposite of the sign of
the input. The value `2^(-1023)` (bytes `3C 00 80 00 ...`, exponent -1023) is returned
as 0. -/
theorem readBigEndianExtendedFloat_infinity_sign :
    readBigEndianExtendedFloat 0
        { data := [0x43, 0xFF, 0x80, 0, 0, 0, 0, 0, 0, 0], curByteIdx := 0 } =
      some (DOUBLE_NEG_INFINITY,
        { data := [0x43, 0xFF, 0x80, 0, 0, 0, 0, 0, 0, 0], curByteIdx := 10 }) ∧
    readBigEndianExtendedFloat 0
        { data := [0xC3, 0xFF, 0x80, 0, 0, 0, 0, 0, 0, 0], curByteIdx := 0 } =
      some (DOUBLE_INFINITY,
        { data := [0xC3, 0xFF, 0x80, 0, 0, 0, 0, 0, 0, 0], curByteIdx := 10 }) ∧
    readBigEndianExtendedFloat 0
        { data := [0x3C, 0x00, 0x80, 0, 0, 0, 0, 0, 0, 0], curByteIdx := 0 } =
      some (0, { data := [0x3C, 0x00, 0x80, 0, 0, 0, 0, 0, 0, 0], curByteIdx := 10 }) ∧
    extendedSignBit [0x43, 0xFF, 0x80, 0, 0, 0, 0, 0, 0, 0] = 0 ∧
    extendedExponent [0x43, 0xFF, 0x80, 0, 0, 0, 0, 0, 0, 0] = 1024 ∧
    extendedSignBit [0xC3, 0xFF, 0x80, 0, 0, 0, 0, 0, 0, 0] = 1 ∧
    extendedExponent [0x3C, 0x00, 0x80, 0, 0, 0, 0, 0, 0, 0] = -1023 := by
  decide

/-! ## The joypad mapping -/

theorem and_two_pow_ne_zero_iff (n a : Nat) : n &&& 2 ^ a ≠ 0 ↔ n.testBit a = true := by
  constructor
  · intro h
    by_contra hb
    apply h
    apply Nat.eq_of_testBit_eq
    intro i
    rw [Nat.testBit_and, Nat.testBit_two_pow, Nat.zero_testBit]
    by_cases hi : a = i
    · subst hi; simp [hb]
    · simp [hi]
  · intro hb h
    have := congrArg (fun m => m.testBit a) h
    simp [hb] at this

theorem notU32_testBit (x i : Nat) :
    (notU32 x).testBit i = (decide (i < 32) != x.testBit i) := by
  unfold notU32
  rw [show (4294967295 : Nat) = 2 ^ 32 - 1 by norm_num, Nat.testBit_xor,
    Nat.testBit_two_pow_sub_one]

/-- The bits of the result of a mapping of the shape of `LocalToNet` and `NetToLocal`: the
sources are the bits `x`, `y`, `z`, the targets the bits `u`, `v`, `w`, and the bits `a`, `b`,
`c` are cleared first. -/
theorem padMap_testBit (cmd x y z u v w a b c i : Nat) :
    ((cmd &&& notU32 (2 ^ a ||| 2 ^ b ||| 2 ^ c)) |||
      (if cmd &&& 2 ^ z ≠ 0 then
        (if cmd &&& 2 ^ y ≠ 0 then (if cmd &&& 2 ^ x ≠ 0 then 2 ^ u else 0) ||| 2 ^ v
          else (if cmd &&& 2 ^ x ≠ 0 then 2 ^ u else 0)) ||| 2 ^ w
        else
          (if cmd &&& 2 ^ y ≠ 0 then (if cmd &&& 2 ^ x ≠ 0 then 2 ^ u else 0) ||| 2 ^ v
            else (if cmd &&& 2 ^ x ≠ 0 then 2 ^ u else 0)))).testBit i =
      ((cmd.testBit i && (decide (i < 32) != (decide (a = i) || decide (b = i) || decide (c = i))))
        || (cmd.testBit x && decide (u = i)) || (cmd.testBit y && decide (v = i))
        || (cmd.testBit z && decide (w = i))) := by
  by_cases hx : cmd.testBit x = true <;> by_cases hy : cmd.testBit y = true <;>
    by_cases hz : cmd.testBit z = true <;>
    simp [and_two_pow_ne_zero_iff, notU32_testBit, Nat.testBit_two_pow, hx, hy, hz, Bool.or_assoc]

theorem LocalToNet_testBit (p : PadBits) (a b c x y z : Nat) (hA : p.PadA = 2 ^ a)
    (hB : p.PadB = 2 ^ b) (hC : p.PadC = 2 ^ c) (hX : p.PadSpeed = 2 ^ x)
    (hY : p.PadAttack = 2 ^ y) (hZ : p.PadUse = 2 ^ z) (cmd i : Nat) :
    (LocalToNet p cmd).testBit i =
      ((cmd.testBit i && (decide (i < 32) != (decide (a = i) || decide (b = i) || decide (c = i))))
        || (cmd.testBit x && decide (a = i)) || (cmd.testBit y && decide (b = i))
        || (cmd.testBit z && decide (c = i))) := by
  unfold LocalToNet
  simp only [hA, hB, hC, hX, hY, hZ]
  exact padMap_testBit cmd x y z a b c a b c i

theorem NetToLocal_testBit (p : PadBits) (a b c x y z : Nat) (hA : p.PadA = 2 ^ a)
    (hB : p.PadB = 2 ^ b) (hC : p.PadC = 2 ^ c) (hX : p.PadSpeed = 2 ^ x)
    (hY : p.PadAttack = 2 ^ y) (hZ : p.PadUse = 2 ^ z) (cmd i : Nat) :
    (NetToLocal p cmd).testBit i =
      ((cmd.testBit i && (decide (i < 32) != (decide (a = i) || decide (b = i) || decide (c = i))))
        || (cmd.testBit a && decide (x = i)) || (cmd.testBit b && decide (y = i))
        || (cmd.testBit c && decide (z = i))) := by
  unfold NetToLocal
  simp only [hA, hB, hC, hX, hY, hZ]
  exact padMap_testBit cmd a b c x y z a b c i

theorem testBit_of_lt_u32 (cmd i : Nat) (hcmd : cmd < 4294967296) (hi : ¬ i < 32) :
    cmd.testBit i = false := by
  apply Nat.testBit_lt_two_pow
  calc cmd < 2 ^ 32 := by norm_num; exact hcmd
    _ ≤ 2 ^ i := Nat.pow_le_pow_right (by norm_num) (by omega)

/-- The two mappings undo each other when the three bindings are the three button bits in
some order, the bits being given by their numbers. -/
theorem pad_round_trip_bits (p : PadBits) (a b c x y z : Nat) (hA : p.PadA = 2 ^ a)
    (hB : p.PadB = 2 ^ b) (hC : p.PadC = 2 ^ c) (hX : p.PadSpeed = 2 ^ x)
    (hY : p.PadAttack = 2 ^ y) (hZ : p.PadUse = 2 ^ z) (ha : a < 32) (hb : b < 32)
    (hc : c < 32) (hab : a ≠ b) (hac : a ≠ c) (hbc : b ≠ c)
    (hx : x = a ∨ x = b ∨ x = c) (hy : y = a ∨ y = b ∨ y = c) (hz : z = a ∨ z = b ∨ z = c)
    (hxy : x ≠ y) (hxz : x ≠ z) (hyz : y ≠ z) (cmd : Nat) (hcmd : cmd < 4294967296) :
    NetToLocal p (LocalToNet p cmd) = cmd ∧ LocalToNet p (NetToLocal p cmd) = cmd := by
  constructor
  · apply Nat.eq_of_testBit_eq
    intro i
    rw [NetToLocal_testBit p a b c x y z hA hB hC hX hY hZ]
    simp only [LocalToNet_testBit p a b c x y z hA hB hC hX hY hZ]
    by_cases hi : i < 32
    · rcases hx with rfl | rfl | rfl <;> rcases hy with rfl | rfl | rfl <;>
        rcases hz with rfl | rfl | rfl <;>
        first
        | exact absurd rfl hxy
        | exact absurd rfl hxz
        | exact absurd rfl hyz
        | (by_cases h1 : x = i <;> by_cases h2 : y = i <;> by_cases h3 : z = i <;>
            simp_all <;> omega)
    · have h0 := testBit_of_lt_u32 cmd i hcmd hi
      have e1 : x ≠ i := by rcases hx with rfl | rfl | rfl <;> omega
      have e2 : y ≠ i := by rcases hy with rfl | rfl | rfl <;> omega
      have e3 : z ≠ i := by rcases hz with rfl | rfl | rfl <;> omega
      have e4 : a ≠ i := by omega
      have e5 : b ≠ i := by omega
      have e6 : c ≠ i := by omega
      simp [h0, hi, e1, e2, e3, e4, e5, e6]
  · apply Nat.eq_of_testBit_eq
    intro i
    rw [LocalToNet_testBit p a b c x y z hA hB hC hX hY hZ]
    simp only [NetToLocal_testBit p a b c x y z hA hB hC hX hY hZ]
    by_cases hi : i < 32
    · rcases hx with rfl | rfl | rfl <;> rcases hy with rfl | rfl | rfl <;>
        rcases hz with rfl | rfl | rfl <;>
        first
        | exact absurd rfl hxy
        | exact absurd rfl hxz
        | exact absurd rfl hyz
        | (by_cases h1 : x = i <;> by_cases h2 : y = i <;> by_cases h3 : z = i <;>
            simp_all <;> omega)
    · have h0 := testBit_of_lt_u32 cmd i hcmd hi
      have e1 : x ≠ i := by rcases hx with rfl | rfl | rfl <;> omega
      have e2 : y ≠ i := by rcases hy with rfl | rfl | rfl <;> omega
      have e3 : z ≠ i := by rcases hz with rfl | rfl | rfl <;> omega
      have e4 : a ≠ i := by omega
      have e5 : b ≠ i := by omega
      have e6 : c ≠ i := by omega
      simp [h0, hi, e1, e2, e3, e4, e5, e6]

/-- Both mappings leave the bits outside `PadA | PadB | PadC` as they are. -/
theorem pad_outside_bits (p : PadBits) (a b c x y z : Nat) (hA : p.PadA = 2 ^ a)
    (hB : p.PadB = 2 ^ b) (hC : p.PadC = 2 ^ c) (hX : p.PadSpeed = 2 ^ x)
    (hY : p.PadAttack = 2 ^ y) (hZ : p.PadUse = 2 ^ z) (ha : a < 32) (hb : b < 32)
    (hc : c < 32)
    (hx : x = a ∨ x = b ∨ x = c) (hy : y = a ∨ y = b ∨ y = c) (hz : z = a ∨ z = b ∨ z = c)
    (cmd : Nat) :
    LocalToNet p cmd &&& notU32 (p.PadA ||| p.PadB ||| p.PadC) =
        cmd &&& notU32 (p.PadA ||| p.PadB ||| p.PadC) ∧
      NetToLocal p cmd &&& notU32 (p.PadA ||| p.PadB ||| p.PadC) =
        cmd &&& notU32 (p.PadA ||| p.PadB ||| p.PadC) := by
  constructor
  · apply Nat.eq_of_testBit_eq
    intro i
    rw [Nat.testBit_and, Nat.testBit_and,
      LocalToNet_testBit p a b c x y z hA hB hC hX hY hZ, hA, hB, hC, notU32_testBit]
    simp only [Nat.testBit_or, Nat.testBit_two_pow]
    by_cases h1 : a = i <;> by_cases h2 : b = i <;> by_cases h3 : c = i <;>
      by_cases hi : i < 32 <;> simp [h1, h2, h3, hi] <;> omega
  · apply Nat.eq_of_testBit_eq
    intro i
    rw [Nat.testBit_and, Nat.testBit_and,
      NetToLocal_testBit p a b c x y z hA hB hC hX hY hZ, hA, hB, hC, notU32_testBit]
    simp only [Nat.testBit_or, Nat.testBit_two_pow]
    rcases hx with hx | hx | hx <;> rcases hy with hy | hy | hy <;>
      rcases hz with hz | hz | hz <;>
      by_cases h1 : a = i <;> by_cases h2 : b = i <;> by_cases h3 : c = i <;>
      by_cases hi : i < 32 <;> simp [hx, hy, hz, h1, h2, h3, hi] <;> omega

/-- A binding that is one of the three button bits is the bit of one of their numbers. -/
theorem pad_binding_bit (p : PadBits) (a b c v : Nat) (hA : p.PadA = 2 ^ a)
    (hB : p.PadB = 2 ^ b) (hC : p.PadC = 2 ^ c) (hv : v ∈ [p.PadA, p.PadB, p.PadC]) :
    ∃ x, v = 2 ^ x ∧ (x = a ∨ x = b ∨ x = c) := by
  simp only [List.mem_cons, List.mem_singleton, List.not_mem_nil, or_false] at hv
  rcases hv with h | h | h
  · exact ⟨a, h.trans hA, Or.inl rfl⟩
  · exact ⟨b, h.trans hB, Or.inr (Or.inl rfl)⟩
  · exact ⟨c, h.trans hC, Or.inr (Or.inr rfl)⟩

/-! ## The claim on the joypad mapping -/

/-- C40: the joypad network mapping round-trips. Let `PadA`, `PadB`, `PadC` be three different
bits of a 32-bit word (the bits number `a`, `b`, `c`) and let the local bindings `PadSpeed`,
`PadAttack`, `PadUse` be a permutation of them. Then for every 32-bit command word `cmd`,
`NetToLocal(LocalToNet(cmd)) = cmd` and `LocalToNet(NetToLocal(cmd)) = cmd`, and both
functions leave every bit outside `PadA | PadB | PadC` unchanged. -/
theorem joypad_round_trip (p : PadBits) (a b c : Nat) (ha : a < 32) (hb : b < 32)
    (hc : c < 32) (hab : a ≠ b) (hac : a ≠ c) (hbc : b ≠ c) (hA : p.PadA = 2 ^ a)
    (hB : p.PadB = 2 ^ b) (hC : p.PadC = 2 ^ c)
    (hperm : List.Perm [p.PadSpeed, p.PadAttack, p.PadUse] [p.PadA, p.PadB, p.PadC])
    (cmd : Nat) (hcmd : cmd < 4294967296) :
    NetToLocal p (LocalToNet p cmd) = cmd ∧ LocalToNet p (NetToLocal p cmd) = cmd ∧
      LocalToNet p cmd &&& notU32 (p.PadA ||| p.PadB ||| p.PadC) =
        cmd &&& notU32 (p.PadA ||| p.PadB ||| p.PadC) ∧
      NetToLocal p cmd &&& notU32 (p.PadA ||| p.PadB ||| p.PadC) =
        cmd &&& notU32 (p.PadA ||| p.PadB ||| p.PadC) := by
  obtain ⟨x, hX, hx⟩ := pad_binding_bit p a b c p.PadSpeed hA hB hC
    (hperm.mem_iff.1 (by simp))
  obtain ⟨y, hY, hy⟩ := pad_binding_bit p a b c p.PadAttack hA hB hC
    (hperm.mem_iff.1 (by simp))
  obtain ⟨z, hZ, hz⟩ := pad_binding_bit p a b c p.PadUse hA hB hC
    (hperm.mem_iff.1 (by simp))
  have hinj : ∀ m n : Nat, 2 ^ m = 2 ^ n → m = n :=
    fun m n h => Nat.pow_right_injective (le_refl 2) h
  have hnd : [p.PadA, p.PadB, p.PadC].Nodup := by
    rw [hA, hB, hC]
    simp only [List.nodup_cons, List.mem_cons, List.mem_singleton, List.not_mem_nil,
      or_false, not_or, List.nodup_nil, and_true, not_false_eq_true]
    exact ⟨⟨fun h => hab (hinj _ _ h), fun h => hac (hinj _ _ h)⟩, fun h => hbc (hinj _ _ h)⟩
  have hnd2 := hperm.nodup_iff.2 hnd
  rw [hX, hY, hZ] at hnd2
  simp only [List.nodup_cons, List.mem_cons, List.mem_singleton, List.not_mem_nil,
    or_false, not_or, List.nodup_nil, and_true, not_false_eq_true] at hnd2
  have hxy : x ≠ y := fun h => hnd2.1.1 (by rw [h])
  have hxz : x ≠ z := fun h => hnd2.1.2 (by rw [h])
  have hyz : y ≠ z := fun h => hnd2.2 (by rw [h])
  obtain ⟨r1, r2⟩ := pad_round_trip_bits p a b c x y z hA hB hC hX hY hZ ha hb hc hab hac hbc
    hx hy hz hxy hxz hyz cmd hcmd
  obtain ⟨o1, o2⟩ := pad_outside_bits p a b c x y z hA hB hC hX hY hZ ha hb hc hx hy hz cmd
  exact ⟨r1, r2, o1, o2⟩

/-- C40 on `samplePads` (the bits 4, 5, 6; speed = C, attack = A, use = B) and the command
`0x475`, which holds the bits 4, 5 and 6 among others. -/
theorem joypad_round_trip_witness :
    NetToLocal samplePads (LocalToNet samplePads 1141) = 1141 ∧
      LocalToNet samplePads (NetToLocal samplePads 1141) = 1141 ∧
      LocalToNet samplePads 1141 &&&
          notU32 (samplePads.PadA ||| samplePads.PadB ||| samplePads.PadC) =
        1141 &&& notU32 (samplePads.PadA ||| samplePads.PadB ||| samplePads.PadC) ∧
      NetToLocal samplePads 1141 &&&
          notU32 (samplePads.PadA ||| samplePads.PadB ||| samplePads.PadC) =
        1141 &&& notU32 (samplePads.PadA ||| samplePads.PadB ||| samplePads.PadC) :=
  joypad_round_trip samplePads 4 5 6 (by decide) (by decide) (by decide) (by decide)
    (by decide) (by decide) rfl rfl rfl
    (by
      show List.Perm [64, 16, 32] [16, 32, 64]
      decide)
    1141 (by decide)

end Renderer
